import Mathlib

/-!
# libdrawio: style parser, path builder, perimeter projector, endpoint resolver, router

A shallow embedding of `src/lib/MXCell.cpp`, `DRAWIOStyle.h`, `DRAWIOTypes.h` and
`MXGeometry.h`.

Modelling conventions.

* A C++ `double` is an exact rational (`ℚ`): no rounding, no overflow.  A division whose
  divisor is zero (which yields an infinity or a NaN in C++) is the fault `nonFinite`.
* Angles are carried in degrees, so that the constant `pi` of the source is `180`; every
  angle expression of the source is linear in `pi` and is translated literally.  The libm
  functions are given by their exact values where these are rational (whole quarter turns)
  and are the fault `irrational` elsewhere.
* A function that can throw, read out of bounds or depend on an inexact libm value returns
  `Except Fault _`.
* `std::string` is `String`; `std::map<std::string, std::string>` is an association list
  with one entry per key.
-/

namespace libdrawio

/-- The ways in which a modelled function can fail to produce a value. -/
inductive Fault
  | invalidArgument   -- std::stod: no conversion could be performed
  | outOfBounds       -- operator[] past the end of a vector
  | emptyOptional     -- boost::optional::get on an empty optional
  | nonFinite         -- a division by zero, an infinity or a NaN
  | irrational        -- a libm value that is not a rational number
  | unsupported       -- library behaviour outside the model (hexadecimal floats)
  | external          -- a helper of libdrawio_xml raised
  | outOfFuel         -- the loop did not finish within the given number of iterations
  | outOfRange        -- std::stod: the value is out of the range of double
  deriving DecidableEq

/-! ## DRAWIOTypes.h -/

inductive Direction
  | NORTH | EAST | SOUTH | WEST
  deriving DecidableEq

/-- The cast `(int)dir`: `NORTH = 0, EAST, SOUTH, WEST`. -/
def Direction.toInt : Direction → Int
  | .NORTH => 0
  | .EAST => 1
  | .SOUTH => 2
  | .WEST => 3

/-- The cast `(Direction)n` for `n` in `0..3`. -/
def Direction.ofInt (n : Int) : Direction :=
  if n = 0 then .NORTH else if n = 1 then .EAST else if n = 2 then .SOUTH else .WEST

def opposite (dir : Direction) : Direction :=
  Direction.ofInt ((dir.toInt + 2) % 4)

def horizontal (dir : Direction) : Bool :=
  dir.toInt % 2 == 1

def vertical (dir : Direction) : Bool :=
  !horizontal dir

def perpendicular (dir1 dir2 : Direction) : Bool :=
  |dir1.toInt - dir2.toInt| % 2 == 1

inductive AlignH
  | LEFT | CENTER | RIGHT
  deriving DecidableEq

inductive AlignV
  | TOP | MIDDLE | BOTTOM
  deriving DecidableEq

inductive Shape
  | RECTANGLE | ELLIPSE | TRIANGLE | CALLOUT | PROCESS | RHOMBUS | PARALLELOGRAM
  | HEXAGON | STEP | TRAPEZOID | CARD | INTERNAL_STORAGE | OR | XOR | DOCUMENT
  | TAPE | DATA_STORAGE
  deriving DecidableEq

inductive Perimeter
  | RECTANGLE_P | ELLIPSE_P | TRIANGLE_P | CALLOUT_P | RHOMBUS_P | PARALLELOGRAM_P
  | HEXAGON_P | STEP_P | TRAPEZOID_P
  deriving DecidableEq

inductive EdgeStyle
  | STRAIGHT | ORTHOGONAL
  deriving DecidableEq

inductive MarkerType
  | CLASSIC
  deriving DecidableEq

/-- Four `unsigned char` channels. -/
structure Color where
  r : Nat
  g : Nat
  b : Nat
  a : Nat
  deriving DecidableEq

/-! ## MXGeometry.h -/

structure MXPoint where
  x : ℚ := 0
  y : ℚ := 0
  deriving DecidableEq

structure MXGeometry where
  x : ℚ := 0
  y : ℚ := 0
  width : ℚ := 0
  height : ℚ := 0
  sourcePoint : MXPoint := {}
  targetPoint : MXPoint := {}
  points : List MXPoint := []
  offset : ℚ := 0
  relative : Bool := false
  deriving DecidableEq

/-! ## DRAWIOStyle.h

Members with an initialiser carry it as the field default.  Members without one
(`opacity`, `rotation`, `startFixed`, ...) are taken as value-initialised. -/

structure DRAWIOStyle where
  opacity : ℚ := 0
  orthogonal : Bool := false
  entryX : Option ℚ := none
  entryY : Option ℚ := none
  exitX : Option ℚ := none
  exitY : Option ℚ := none
  entryDx : ℚ := 0
  entryDy : ℚ := 0
  exitDx : ℚ := 0
  exitDy : ℚ := 0
  wrapText : Bool := false
  rotation : ℚ := 0
  fillColor : Option Color := some ⟨255, 255, 255, 1⟩
  margin : ℚ := 0
  gradientColor : Option Color := none
  gradientDirection : Direction := .NORTH
  strokeColor : Option Color := some ⟨0, 0, 0, 1⟩
  strokeWidth : ℚ := 0
  flipH : Bool := false
  flipV : Bool := false
  shadow : Bool := false
  dashed : Bool := false
  rounded : Bool := false
  curved : Bool := false
  portConstraint : Option Direction := none
  sourcePortConstraint : Option Direction := none
  targetPortConstraint : Option Direction := none
  shape : Shape := .RECTANGLE
  perimeter : Perimeter := .RECTANGLE_P
  edgeStyle : EdgeStyle := .STRAIGHT
  direction : Direction := .EAST
  startDir : Option Direction := none
  endDir : Option Direction := none
  startFixed : Bool := false
  endFixed : Bool := false
  calloutLength : ℚ := 30
  calloutWidth : ℚ := 20
  calloutPosition : ℚ := 1 / 2
  calloutTipPosition : ℚ := 1 / 2
  processBarSize : ℚ := 1 / 10
  parallelogramSize : ℚ := 20
  hexagonSize : ℚ := 20
  stepSize : ℚ := 20
  trapezoidSize : ℚ := 20
  cardSize : ℚ := 20
  storageX : ℚ := 20
  storageY : ℚ := 20
  documentSize : ℚ := 3 / 10
  tapeSize : ℚ := 2 / 5
  dataStorageSize : ℚ := 20
  fixedSize : Bool := true
  startArrow : Option MarkerType := none
  startFill : Bool := true
  startSize : ℚ := 6
  endArrow : Option MarkerType := some .CLASSIC
  endFill : Bool := true
  endSize : ℚ := 6
  align : AlignH := .CENTER
  verticalAlign : AlignV := .MIDDLE
  position : AlignH := .CENTER
  verticalPosition : AlignV := .MIDDLE

structure DRAWIOTextStyle where
  fontFamily : String := "Helvetica"
  fontSize : ℚ := 12
  bold : Bool := false
  italic : Bool := false
  underline : Bool := false
  fontColor : Option Color := some ⟨0, 0, 0, 1⟩
  backgroundColor : Option Color := none
  borderColor : Option Color := none

/-! ## MXCell

The header `MXCell.h` is not part of the sources at hand; the members are those that
`MXCell.cpp` reads and writes. -/

structure MXCell where
  id : String := ""
  parent_id : String := ""
  source_id : String := ""
  target_id : String := ""
  vertex : Bool := false
  edge : Bool := false
  style_str : String := ""
  style : DRAWIOStyle := {}
  text_style : DRAWIOTextStyle := {}
  geometry : MXGeometry := {}
  label : String := ""

/-- The cell table `std::map<RVNGString, MXCell>`; `id_map[k]` of an absent key is the
value the function gives there. -/
abbrev IdMap := String → MXCell

/-- The helpers of `libdrawio_xml.h` and the stream extraction of a `bool`, which
`setStyle` calls and whose code is not part of the sources at hand. -/
structure Externals where
  xmlStringToDouble : String → Except Fault ℚ
  xmlStringToBool : String → Except Fault Bool
  xmlStringToColor : String → Except Fault Color
  /-- The effect of `std::istringstream(v) >> b` on `b`: value text, old value, new value. -/
  readBool : String → Bool → Bool

/-! ### Assignments to single members -/

def MXCell.withEntryX (c : MXCell) (v : Option ℚ) : MXCell :=
  { c with style.entryX := v }

def MXCell.withEntryY (c : MXCell) (v : Option ℚ) : MXCell :=
  { c with style.entryY := v }

def MXCell.withExitX (c : MXCell) (v : Option ℚ) : MXCell :=
  { c with style.exitX := v }

def MXCell.withExitY (c : MXCell) (v : Option ℚ) : MXCell :=
  { c with style.exitY := v }

def MXCell.withEntryDx (c : MXCell) (v : ℚ) : MXCell :=
  { c with style.entryDx := v }

def MXCell.withEntryDy (c : MXCell) (v : ℚ) : MXCell :=
  { c with style.entryDy := v }

def MXCell.withExitDx (c : MXCell) (v : ℚ) : MXCell :=
  { c with style.exitDx := v }

def MXCell.withExitDy (c : MXCell) (v : ℚ) : MXCell :=
  { c with style.exitDy := v }

def MXCell.withSourcePortConstraint (c : MXCell) (v : Option Direction) : MXCell :=
  { c with style.sourcePortConstraint := v }

def MXCell.withTargetPortConstraint (c : MXCell) (v : Option Direction) : MXCell :=
  { c with style.targetPortConstraint := v }

def MXCell.withPortConstraint (c : MXCell) (v : Option Direction) : MXCell :=
  { c with style.portConstraint := v }

def MXCell.withShape (c : MXCell) (v : Shape) : MXCell :=
  { c with style.shape := v }

def MXCell.withPerimeter (c : MXCell) (v : Perimeter) : MXCell :=
  { c with style.perimeter := v }

def MXCell.withDirection (c : MXCell) (v : Direction) : MXCell :=
  { c with style.direction := v }

def MXCell.withFixedSize (c : MXCell) (v : Bool) : MXCell :=
  { c with style.fixedSize := v }

def MXCell.withCalloutLength (c : MXCell) (v : ℚ) : MXCell :=
  { c with style.calloutLength := v }

def MXCell.withProcessBarSize (c : MXCell) (v : ℚ) : MXCell :=
  { c with style.processBarSize := v }

def MXCell.withParallelogramSize (c : MXCell) (v : ℚ) : MXCell :=
  { c with style.parallelogramSize := v }

def MXCell.withHexagonSize (c : MXCell) (v : ℚ) : MXCell :=
  { c with style.hexagonSize := v }

def MXCell.withStepSize (c : MXCell) (v : ℚ) : MXCell :=
  { c with style.stepSize := v }

def MXCell.withTrapezoidSize (c : MXCell) (v : ℚ) : MXCell :=
  { c with style.trapezoidSize := v }

def MXCell.withCardSize (c : MXCell) (v : ℚ) : MXCell :=
  { c with style.cardSize := v }

def MXCell.withDocumentSize (c : MXCell) (v : ℚ) : MXCell :=
  { c with style.documentSize := v }

def MXCell.withTapeSize (c : MXCell) (v : ℚ) : MXCell :=
  { c with style.tapeSize := v }

def MXCell.withDataStorageSize (c : MXCell) (v : ℚ) : MXCell :=
  { c with style.dataStorageSize := v }

def MXCell.withCalloutWidth (c : MXCell) (v : ℚ) : MXCell :=
  { c with style.calloutWidth := v }

def MXCell.withCalloutPosition (c : MXCell) (v : ℚ) : MXCell :=
  { c with style.calloutPosition := v }

def MXCell.withCalloutTipPosition (c : MXCell) (v : ℚ) : MXCell :=
  { c with style.calloutTipPosition := v }

def MXCell.withStorageX (c : MXCell) (v : ℚ) : MXCell :=
  { c with style.storageX := v }

def MXCell.withStorageY (c : MXCell) (v : ℚ) : MXCell :=
  { c with style.storageY := v }

def MXCell.withFillColor (c : MXCell) (v : Option Color) : MXCell :=
  { c with style.fillColor := v }

def MXCell.withStrokeColor (c : MXCell) (v : Option Color) : MXCell :=
  { c with style.strokeColor := v }

def MXCell.withStartArrow (c : MXCell) (v : Option MarkerType) : MXCell :=
  { c with style.startArrow := v }

def MXCell.withStartFill (c : MXCell) (v : Bool) : MXCell :=
  { c with style.startFill := v }

def MXCell.withStartSize (c : MXCell) (v : ℚ) : MXCell :=
  { c with style.startSize := v }

def MXCell.withEndArrow (c : MXCell) (v : Option MarkerType) : MXCell :=
  { c with style.endArrow := v }

def MXCell.withEndFill (c : MXCell) (v : Bool) : MXCell :=
  { c with style.endFill := v }

def MXCell.withEndSize (c : MXCell) (v : ℚ) : MXCell :=
  { c with style.endSize := v }

def MXCell.withRotation (c : MXCell) (v : ℚ) : MXCell :=
  { c with style.rotation := v }

def MXCell.withEdgeStyle (c : MXCell) (v : EdgeStyle) : MXCell :=
  { c with style.edgeStyle := v }

def MXCell.withAlign (c : MXCell) (v : AlignH) : MXCell :=
  { c with style.align := v }

def MXCell.withVerticalAlign (c : MXCell) (v : AlignV) : MXCell :=
  { c with style.verticalAlign := v }

def MXCell.withPosition (c : MXCell) (v : AlignH) : MXCell :=
  { c with style.position := v }

def MXCell.withVerticalPosition (c : MXCell) (v : AlignV) : MXCell :=
  { c with style.verticalPosition := v }

def MXCell.withStartDir (c : MXCell) (v : Option Direction) : MXCell :=
  { c with style.startDir := v }

def MXCell.withEndDir (c : MXCell) (v : Option Direction) : MXCell :=
  { c with style.endDir := v }

def MXCell.withFontFamily (c : MXCell) (v : String) : MXCell :=
  { c with text_style.fontFamily := v }

def MXCell.withFontSize (c : MXCell) (v : ℚ) : MXCell :=
  { c with text_style.fontSize := v }

def MXCell.withFontColor (c : MXCell) (v : Option Color) : MXCell :=
  { c with text_style.fontColor := v }

def MXCell.withBackgroundColor (c : MXCell) (v : Option Color) : MXCell :=
  { c with text_style.backgroundColor := v }

def MXCell.withBorderColor (c : MXCell) (v : Option Color) : MXCell :=
  { c with text_style.borderColor := v }

/-- The three assignments `bold = style & 1`, `italic = style & 2`, `underline = style & 4`. -/
def MXCell.withFontStyle (c : MXCell) (style : Int) : MXCell :=
  { c with
    text_style.bold := style.testBit 0
    text_style.italic := style.testBit 1
    text_style.underline := style.testBit 2 }

def MXCell.withSourcePoint (c : MXCell) (p : MXPoint) : MXCell :=
  { c with geometry.sourcePoint := p }

def MXCell.withTargetPoint (c : MXCell) (p : MXPoint) : MXCell :=
  { c with geometry.targetPoint := p }

def MXCell.withPoints (c : MXCell) (ps : List MXPoint) : MXCell :=
  { c with geometry.points := ps }

/-! ## libm

Angles are in degrees (`pi = 180`).  `cos`, `sin`, `tan`, `atan` and `atan2` are exact
where the value is rational and the fault `irrational` elsewhere. -/

def pi : ℚ := 180

/-- The angle reduced to `[0, 360)`. -/
def normDeg (a : ℚ) : ℚ :=
  a - 360 * ((Rat.floor (a / 360) : Int) : ℚ)

def cos (a : ℚ) : Except Fault ℚ :=
  let r := normDeg a
  if r = 0 then .ok 1
  else if r = 90 then .ok 0
  else if r = 180 then .ok (-1)
  else if r = 270 then .ok 0
  else .error .irrational

def sin (a : ℚ) : Except Fault ℚ :=
  let r := normDeg a
  if r = 0 then .ok 0
  else if r = 90 then .ok 1
  else if r = 180 then .ok 0
  else if r = 270 then .ok (-1)
  else .error .irrational

/-- A value of `tan`: a rational, or the pole at an odd number of quarter turns, where
the double computed by the source has magnitude above `1e16`. -/
inductive Slope
  | finite (m : ℚ)
  | pole
  deriving DecidableEq

def tan (a : ℚ) : Except Fault Slope :=
  let r := normDeg a
  if r = 0 ∨ r = 180 then .ok (.finite 0)
  else if r = 45 ∨ r = 225 then .ok (.finite 1)
  else if r = 90 ∨ r = 270 then .ok .pole
  else if r = 135 ∨ r = 315 then .ok (.finite (-1))
  else .error .irrational

/-- The test `std::abs(m) > 1`. -/
def Slope.absGtOne : Slope → Bool
  | .finite m => decide (|m| > 1)
  | .pole => true

/-- The quotient `c / m`; at the pole it is `0`. -/
def Slope.divInto (c : ℚ) : Slope → Except Fault ℚ
  | .finite m => if m = 0 then .error .nonFinite else .ok (c / m)
  | .pole => .ok 0

/-- The product `m * c`; the source forms it only when `std::abs(m) > 1` is false. -/
def Slope.mul (c : ℚ) : Slope → Except Fault ℚ
  | .finite m => .ok (m * c)
  | .pole => .error .nonFinite

def atan (m : ℚ) : Except Fault ℚ :=
  if m = 0 then .ok 0
  else if m = 1 then .ok 45
  else if m = -1 then .ok (-45)
  else .error .irrational

def atan2 (y x : ℚ) : Except Fault ℚ :=
  if y = 0 then (if x < 0 then .ok 180 else .ok 0)
  else if x = 0 then (if y < 0 then .ok (-90) else .ok 90)
  else if x = y then (if x < 0 then .ok (-135) else .ok 45)
  else if x = -y then (if x < 0 then .ok 135 else .ok (-45))
  else .error .irrational

/-- The integer part of a rational, rounded toward zero. -/
def trunc (a : ℚ) : Int :=
  if 0 ≤ a then Rat.floor a else -Rat.floor (-a)

/-- The function `std::fmod(a, b)`: the remainder with the sign of `a`. -/
def fmod (a b : ℚ) : Except Fault ℚ :=
  if b = 0 then .error .nonFinite else .ok (a - b * (trunc (a / b) : ℚ))

/-- A division of doubles: a zero divisor gives an infinity or a NaN. -/
def fdiv (a b : ℚ) : Except Fault ℚ :=
  if b = 0 then .error .nonFinite else .ok (a / b)

/-- The pair `(r * cos(old_angle - angle), r * sin(old_angle - angle))`, where
`(r, old_angle)` is the polar form of `(dx, dy)` that `MXPoint::rotate` and
`MXCell::getPoint` compute with `sqrt` and `atan`:
`r * cos(old_angle - angle) = dx * cos(angle) + dy * sin(angle)` and
`r * sin(old_angle - angle) = dy * cos(angle) - dx * sin(angle)`.
For `dx = dy = 0` the radius is `0` and so are both products. -/
def polarRotate (dx dy angle : ℚ) : Except Fault (ℚ × ℚ) :=
  if dx = 0 ∧ dy = 0 then .ok (0, 0)
  else do
    let c ← cos angle
    let s ← sin angle
    pure (dx * c + dy * s, dy * c - dx * s)

/-- The method `MXPoint::rotate(center, angle)`. -/
def MXPoint.rotate (p center : MXPoint) (angle : ℚ) : Except Fault MXPoint := do
  let rc ← polarRotate (p.x - center.x) (p.y - center.y) angle
  pure ⟨center.x + rc.1, center.y + rc.2⟩

/-- The operator `MXPoint + MXPoint`. -/
def MXPoint.add (p1 p2 : MXPoint) : MXPoint :=
  ⟨p1.x + p2.x, p1.y + p2.y⟩

/-! ## std::stod -/

def isSpace (c : Char) : Bool :=
  c == ' ' || c == '\t' || c == '\n' || c == '\x0b' || c == '\x0c' || c == '\r'

def isDigit (c : Char) : Bool :=
  decide ('0' ≤ c ∧ c ≤ '9')

def isHexDigit (c : Char) : Bool :=
  isDigit c || decide ('a' ≤ c ∧ c ≤ 'f') || decide ('A' ≤ c ∧ c ≤ 'F')

/-- A run of decimal digits: the number read so far, how many digits, and the rest. -/
def readDigits : List Char → Nat → Nat → Nat × Nat × List Char
  | [], acc, n => (acc, n, [])
  | c :: cs, acc, n =>
    if isDigit c then readDigits cs (acc * 10 + (c.toNat - 48)) (n + 1) else (acc, n, c :: cs)

/-- The exponent part `e[+-]digits` of a decimal literal; `0` when there is none. -/
def readExponent : List Char → Int
  | [] => 0
  | c :: cs =>
    if c == 'e' || c == 'E' then
      match cs with
      | '-' :: ds => let r := readDigits ds 0 0; if r.2.1 = 0 then 0 else -(r.1 : Int)
      | '+' :: ds => let r := readDigits ds 0 0; if r.2.1 = 0 then 0 else (r.1 : Int)
      | ds => let r := readDigits ds 0 0; if r.2.1 = 0 then 0 else (r.1 : Int)
    else 0

/-- Whether the text starts, in any letter case, with `inf` or `nan`. -/
def startsInfNan : List Char → Bool
  | a :: b :: c :: _ =>
    let l := [a.toLower, b.toLower, c.toLower]
    l == ['i', 'n', 'f'] || l == ['n', 'a', 'n']
  | _ => false

/-- Whether the text starts a hexadecimal floating literal. -/
def startsHex : List Char → Bool
  | '0' :: x :: h :: _ => (x == 'x' || x == 'X') && (isHexDigit h || h == '.')
  | _ => false

/-- Whether `strtod` reports `ERANGE` on the value written, which `std::stod` turns into
`std::out_of_range`: the value rounds to an infinity (from `2^1024 - 2^970` on, the middle
between the largest `double` and `2^1024`), or it is not zero, lies below the smallest
normal `double` `2^-1022` and is not a multiple of `2^-1074`, so that the result is tiny and
inexact.  The value is the fraction `v.num / v.den` in lowest terms and `1 <<< n` is
`2^n`. -/
def stodRange (v : ℚ) : Bool :=
  decide (((1 <<< 1024) - (1 <<< 970)) * v.den ≤ v.num.natAbs) ||
    (decide (v.num ≠ 0 ∧ v.num.natAbs * (1 <<< 1022) < v.den)
      && decide (v.num.natAbs * (1 <<< 1074) % v.den ≠ 0))

/-- The unsigned part of `std::stod`, after white space and sign. -/
def stodUnsigned (s : List Char) : Except Fault ℚ :=
  if startsInfNan s then .error .nonFinite
  else if startsHex s then .error .unsupported
  else
    let i := readDigits s 0 0
    let f := match i.2.2 with
      | '.' :: ds => readDigits ds 0 0
      | rest => (0, 0, rest)
    if i.2.1 + f.2.1 = 0 then .error .invalidArgument
    else
      let mant : ℚ := (i.1 : ℚ) + (f.1 : ℚ) / (10 : ℚ) ^ f.2.1
      let v : ℚ := mant * (10 : ℚ) ^ readExponent f.2.2
      if stodRange v then .error .outOfRange else .ok v

/-- The function `std::stod`: leading white space, an optional sign, then the longest
decimal floating literal; `std::invalid_argument` when no digit can be read and
`std::out_of_range` when the value written is out of the range of `double`. -/
def stod (v : String) : Except Fault ℚ :=
  match v.toList.dropWhile isSpace with
  | '-' :: s => (stodUnsigned s).map (fun q => -q)
  | '+' :: s => stodUnsigned s
  | s => stodUnsigned s

/-! ## MXCell::setStyle -/

/-- The call `boost::algorithm::split(tokens, style_s, boost::is_any_of(";"))`. -/
def splitTokens : List Char → List (List Char)
  | [] => [[]]
  | c :: cs =>
    if c = ';' then [] :: splitTokens cs
    else
      match splitTokens cs with
      | [] => [[c]]
      | t :: ts => (c :: t) :: ts

/-- The key `t.substr(0, t.find('='))`. -/
def tokenKey (t : List Char) : List Char :=
  t.takeWhile (fun c => c != '=')

/-- The value `t.substr(n + 1)` after the first `=`, or `""` when there is none. -/
def tokenValue : List Char → List Char
  | [] => []
  | c :: cs => if c = '=' then cs else tokenValue cs

abbrev StyleMap := List (String × String)

/-- The assignment `style_m[k] = v`. -/
def StyleMap.assign (m : StyleMap) (k v : String) : StyleMap :=
  (k, v) :: m.filter (fun e => e.1 != k)

/-- The lookup `style_m.find(k)`. -/
def StyleMap.find (m : StyleMap) (k : String) : Option String :=
  m.lookup k

/-- The map `style_m` built from the tokens of the style string. -/
def styleMap (style_s : String) : StyleMap :=
  (splitTokens style_s.toList).foldl
    (fun m t => m.assign (String.mk (tokenKey t)) (String.mk (tokenValue t))) []

/-- One block `it = style_m.find(key); if (it != style_m.end()) ...`. -/
def onKey (m : StyleMap) (key : String) (f : String → MXCell → Except Fault MXCell)
    (cell : MXCell) : Except Fault MXCell :=
  match m.find key with
  | none => .ok cell
  | some v => f v cell

/-- The blocks of `setStyle`, run in order; an exception ends the run. -/
def applyAll : List (MXCell → Except Fault MXCell) → MXCell → Except Fault MXCell
  | [], c => .ok c
  | h :: hs, c =>
    match h c with
    | .ok c1 => applyAll hs c1
    | .error e => .error e

/-- The chain `north / east / south / west` of the direction-valued tokens. -/
def parseDirection (v : String) : Option Direction :=
  if v = "north" then some .NORTH
  else if v = "east" then some .EAST
  else if v = "south" then some .SOUTH
  else if v = "west" then some .WEST
  else none

def parseShape (v : String) : Option Shape :=
  if v = "callout" then some .CALLOUT
  else if v = "process" then some .PROCESS
  else if v = "parallelogram" then some .PARALLELOGRAM
  else if v = "hexagon" then some .HEXAGON
  else if v = "step" then some .STEP
  else if v = "trapezoid" then some .TRAPEZOID
  else if v = "card" then some .CARD
  else if v = "internalStorage" then some .INTERNAL_STORAGE
  else if v = "or" then some .OR
  else if v = "xor" then some .XOR
  else if v = "document" then some .DOCUMENT
  else if v = "tape" then some .TAPE
  else if v = "dataStorage" then some .DATA_STORAGE
  else none

def parsePerimeter (v : String) : Option Perimeter :=
  if v = "rectanglePerimeter" then some .RECTANGLE_P
  else if v = "ellipsePerimeter" then some .ELLIPSE_P
  else if v = "trianglePerimeter" then some .TRIANGLE_P
  else if v = "calloutPerimeter" then some .CALLOUT_P
  else if v = "rhombusPerimeter" then some .RHOMBUS_P
  else if v = "parallelogramPerimeter" then some .PARALLELOGRAM_P
  else if v = "hexagonPerimeter2" then some .HEXAGON_P
  else if v = "stepPerimeter" then some .STEP_P
  else if v = "trapezoidPerimeter" then some .TRAPEZOID_P
  else none

def parseAlignH (v : String) : Option AlignH :=
  if v = "left" then some .LEFT
  else if v = "center" then some .CENTER
  else if v = "right" then some .RIGHT
  else none

def parseAlignV (v : String) : Option AlignV :=
  if v = "top" then some .TOP
  else if v = "middle" then some .MIDDLE
  else if v = "bottom" then some .BOTTOM
  else none

/-- The end of an if-chain over the value of a token: the member is assigned when one of
the tests matched and left alone otherwise. -/
def assignIf {α : Type} (o : Option α) (c : MXCell) (set : MXCell → α → MXCell) : MXCell :=
  match o with
  | some a => set c a
  | none => c

/-- The assignments to `style.startFixed` and `style.endFixed` (lines 474 to 477). -/
def setFixed (c : MXCell) : MXCell :=
  { c with
    style.startFixed :=
      (c.style.exitX.isSome && c.style.exitY.isSome) || decide (c.source_id = "")
    style.endFixed :=
      (c.style.entryX.isSome && c.style.entryY.isSome) || decide (c.target_id = "") }

/-- The block of the `size` token (lines 543 to 561). -/
def setSize (v : String) (c : MXCell) : Except Fault MXCell :=
  if c.style.shape = .CALLOUT then do
    let d ← stod v; pure (c.withCalloutLength d)
  else if c.style.shape = .PROCESS then do
    let d ← stod v; pure (c.withProcessBarSize d)
  else if c.style.shape = .PARALLELOGRAM then do
    let d ← stod v; pure (c.withParallelogramSize d)
  else if c.style.shape = .HEXAGON then do
    let d ← stod v; pure (c.withHexagonSize d)
  else if c.style.shape = .STEP then do
    let d ← stod v
    if !c.style.fixedSize then
      pure (c.withStepSize
        (d * (if c.style.direction = .NORTH ∨ c.style.direction = .SOUTH
              then c.geometry.height else c.geometry.width)))
    else pure (c.withStepSize d)
  else if c.style.shape = .TRAPEZOID then do
    let d ← stod v; pure (c.withTrapezoidSize d)
  else if c.style.shape = .CARD then do
    let d ← stod v; pure (c.withCardSize d)
  else if c.style.shape = .DOCUMENT then do
    let d ← stod v; pure (c.withDocumentSize d)
  else if c.style.shape = .TAPE then do
    let d ← stod v; pure (c.withTapeSize d)
  else if c.style.shape = .DATA_STORAGE then do
    let d ← stod v; pure (c.withDataStorageSize d)
  else pure c

/-- A colour token: `none` unsets, `default` leaves, anything else is parsed. -/
def parseColor (X : Externals) (v : String) (old : Option Color) :
    Except Fault (Option Color) :=
  if v = "none" then .ok none
  else if v = "default" then .ok old
  else do
    let col ← X.xmlStringToColor v
    pure (some col)

/-- An arrow token: `none` unsets, `classic` selects `CLASSIC`. -/
def parseArrow (v : String) (old : Option MarkerType) : Option MarkerType :=
  if v = "none" then none
  else if v = "classic" then some .CLASSIC
  else old

/-- The blocks of the entry and exit tokens (lines 458 to 473). -/
def entryExitHandlers (m : StyleMap) : List (MXCell → Except Fault MXCell) :=
  [ onKey m "entryX" (fun v c => do let d ← stod v; pure (c.withEntryX (some d))),
    onKey m "entryY" (fun v c => do let d ← stod v; pure (c.withEntryY (some d))),
    onKey m "exitX" (fun v c => do let d ← stod v; pure (c.withExitX (some d))),
    onKey m "exitY" (fun v c => do let d ← stod v; pure (c.withExitY (some d))),
    onKey m "entryDx" (fun v c => do let d ← stod v; pure (c.withEntryDx d)),
    onKey m "entryDy" (fun v c => do let d ← stod v; pure (c.withEntryDy d)),
    onKey m "exitDx" (fun v c => do let d ← stod v; pure (c.withExitDx d)),
    onKey m "exitDy" (fun v c => do let d ← stod v; pure (c.withExitDy d)) ]

/-- The blocks of the remaining tokens (lines 478 to 652). -/
def attributeHandlers (X : Externals) (m : StyleMap) : List (MXCell → Except Fault MXCell) :=
  [ onKey m "sourcePortConstraint" (fun v c =>
      pure (assignIf (parseDirection v) c (fun c d => c.withSourcePortConstraint (some d)))),
    onKey m "targetPortConstraint" (fun v c =>
      pure (assignIf (parseDirection v) c (fun c d => c.withTargetPortConstraint (some d)))),
    onKey m "PortConstraint" (fun v c =>
      pure (assignIf (parseDirection v) c (fun c d => c.withPortConstraint (some d)))),
    onKey m "ellipse" (fun _ c =>
      pure ((c.withShape .ELLIPSE).withPerimeter .ELLIPSE_P)),
    onKey m "triangle" (fun _ c =>
      pure ((c.withShape .TRIANGLE).withPerimeter .TRIANGLE_P)),
    onKey m "rhombus" (fun _ c =>
      pure ((c.withShape .RHOMBUS).withPerimeter .RHOMBUS_P)),
    onKey m "shape" (fun v c =>
      pure (assignIf (parseShape v) c MXCell.withShape)),
    onKey m "perimeter" (fun v c =>
      pure (assignIf (parsePerimeter v) c MXCell.withPerimeter)),
    onKey m "direction" (fun v c =>
      pure (assignIf (parseDirection v) c MXCell.withDirection)),
    onKey m "fixedSize" (fun v c =>
      pure (c.withFixedSize (X.readBool v c.style.fixedSize))),
    onKey m "size" setSize,
    onKey m "base" (fun v c =>
      if c.style.shape = .CALLOUT then do
        let d ← stod v; pure (c.withCalloutWidth d)
      else pure c),
    onKey m "position" (fun v c =>
      if c.style.shape = .CALLOUT then do
        let d ← stod v; pure (c.withCalloutPosition d)
      else pure c),
    onKey m "position2" (fun v c =>
      if c.style.shape = .CALLOUT then do
        let d ← stod v; pure (c.withCalloutTipPosition d)
      else pure c),
    onKey m "dx" (fun v c =>
      if c.style.shape = .INTERNAL_STORAGE then do
        let d ← stod v; pure (c.withStorageX d)
      else pure c),
    onKey m "dy" (fun v c =>
      if c.style.shape = .INTERNAL_STORAGE then do
        let d ← stod v; pure (c.withStorageY d)
      else pure c),
    onKey m "fillColor" (fun v c => do
      let col ← parseColor X v c.style.fillColor; pure (c.withFillColor col)),
    onKey m "strokeColor" (fun v c => do
      let col ← parseColor X v c.style.strokeColor; pure (c.withStrokeColor col)),
    onKey m "startArrow" (fun v c =>
      pure (c.withStartArrow (parseArrow v c.style.startArrow))),
    onKey m "startFill" (fun v c => do
      let b ← X.xmlStringToBool v; pure (c.withStartFill b)),
    onKey m "startSize" (fun v c => do
      let d ← X.xmlStringToDouble v; pure (c.withStartSize d)),
    onKey m "endArrow" (fun v c =>
      pure (c.withEndArrow (parseArrow v c.style.endArrow))),
    onKey m "endFill" (fun v c => do
      let b ← X.xmlStringToBool v; pure (c.withEndFill b)),
    onKey m "endSize" (fun v c => do
      let d ← X.xmlStringToDouble v; pure (c.withEndSize d)),
    onKey m "rotation" (fun v c => do
      let d ← X.xmlStringToDouble v; pure (c.withRotation d)),
    onKey m "edgeStyle" (fun v c =>
      if v = "orthogonalEdgeStyle" then pure (c.withEdgeStyle .ORTHOGONAL)
      else pure c),
    onKey m "fontFamily" (fun v c => pure (c.withFontFamily v)),
    onKey m "fontSize" (fun v c => do
      let d ← X.xmlStringToDouble v; pure (c.withFontSize d)),
    onKey m "fontStyle" (fun v c => do
      let d ← X.xmlStringToDouble v
      pure (c.withFontStyle (trunc d))),
    onKey m "fontColor" (fun v c => do
      let col ← parseColor X v c.text_style.fontColor
      pure (c.withFontColor col)),
    onKey m "labelBackgroundColor" (fun v c => do
      let col ← parseColor X v c.text_style.backgroundColor
      pure (c.withBackgroundColor col)),
    onKey m "labelBorderColor" (fun v c => do
      let col ← parseColor X v c.text_style.borderColor
      pure (c.withBorderColor col)),
    onKey m "align" (fun v c =>
      pure (assignIf (parseAlignH v) c MXCell.withAlign)),
    onKey m "verticalAlign" (fun v c =>
      pure (assignIf (parseAlignV v) c MXCell.withVerticalAlign)),
    onKey m "labelPosition" (fun v c =>
      pure (assignIf (parseAlignH v) c MXCell.withPosition)),
    onKey m "verticalLabelPosition" (fun v c =>
      pure (assignIf (parseAlignV v) c MXCell.withVerticalPosition)) ]

/-- The blocks of `setStyle` in source order (lines 458 to 652). -/
def styleHandlers (X : Externals) (m : StyleMap) : List (MXCell → Except Fault MXCell) :=
  entryExitHandlers m ++ (fun c => .ok (setFixed c)) :: attributeHandlers X m

/-- The method `MXCell::setStyle`. -/
def setStyle (X : Externals) (cell : MXCell) : Except Fault MXCell :=
  applyAll (styleHandlers X (styleMap cell.style_str)) cell

instance instDecidableEqExcept {ε α : Type} [DecidableEq ε] [DecidableEq α] :
    DecidableEq (Except ε α)
  | .ok a, .ok b =>
    if h : a = b then isTrue (by rw [h]) else isFalse (by intro h2; cases h2; exact h rfl)
  | .error a, .error b =>
    if h : a = b then isTrue (by rw [h]) else isFalse (by intro h2; cases h2; exact h rfl)
  | .ok _, .error _ => isFalse (by intro h2; cases h2)
  | .error _, .ok _ => isFalse (by intro h2; cases h2)

/-- The keys that `setStyle` looks up. -/
def knownKeys : List String :=
  ["entryX", "entryY", "exitX", "exitY", "entryDx", "entryDy", "exitDx", "exitDy",
   "sourcePortConstraint", "targetPortConstraint", "PortConstraint", "ellipse", "triangle",
   "rhombus", "shape", "perimeter", "direction", "fixedSize", "size", "base", "position",
   "position2", "dx", "dy", "fillColor", "strokeColor", "startArrow", "startFill",
   "startSize", "endArrow", "endFill", "endSize", "rotation", "edgeStyle", "fontFamily",
   "fontSize", "fontStyle", "fontColor", "labelBackgroundColor", "labelBorderColor", "align",
   "verticalAlign", "labelPosition", "verticalLabelPosition"]

/-- The keys whose value goes through `std::stod`. -/
def stodKeys : List String :=
  ["entryX", "entryY", "exitX", "exitY", "entryDx", "entryDy", "exitDx", "exitDy",
   "size", "base", "position", "position2", "dx", "dy"]

/-- The values that the if-chain of an enum-valued key tests for; `none` for the keys
that are not enum-valued. -/
def enumValues (k : String) : Option (List String) :=
  if k = "sourcePortConstraint" ∨ k = "targetPortConstraint" ∨ k = "PortConstraint"
      ∨ k = "direction" then
    some ["north", "east", "south", "west"]
  else if k = "shape" then
    some ["callout", "process", "parallelogram", "hexagon", "step", "trapezoid", "card",
          "internalStorage", "or", "xor", "document", "tape", "dataStorage"]
  else if k = "perimeter" then
    some ["rectanglePerimeter", "ellipsePerimeter", "trianglePerimeter", "calloutPerimeter",
          "rhombusPerimeter", "parallelogramPerimeter", "hexagonPerimeter2", "stepPerimeter",
          "trapezoidPerimeter"]
  else if k = "startArrow" ∨ k = "endArrow" then some ["none", "classic"]
  else if k = "edgeStyle" then some ["orthogonalEdgeStyle"]
  else if k = "align" ∨ k = "labelPosition" then some ["left", "center", "right"]
  else if k = "verticalAlign" ∨ k = "verticalLabelPosition" then
    some ["top", "middle", "bottom"]
  else none

/-- The members that the flags `startFixed` and `endFixed` are computed from, with the
flags themselves. -/
def fixedView (c : MXCell) :
    Option ℚ × Option ℚ × Option ℚ × Option ℚ × Bool × Bool × String × String :=
  (c.style.exitX, c.style.exitY, c.style.entryX, c.style.entryY, c.style.startFixed,
    c.style.endFixed, c.source_id, c.target_id)

/-- The members that the block of the `size` token reads and writes for a STEP shape. -/
def stepView (c : MXCell) : ℚ × Bool × Direction × ℚ × ℚ :=
  (c.style.stepSize, c.style.fixedSize, c.style.direction, c.geometry.height,
    c.geometry.width)

/-! ### A concrete instance of the external helpers -/

def hexVal (c : Char) : Option Nat :=
  if isDigit c then some (c.toNat - 48)
  else if decide ('a' ≤ c ∧ c ≤ 'f') then some (c.toNat - 87)
  else if decide ('A' ≤ c ∧ c ≤ 'F') then some (c.toNat - 55)
  else none

def parseHexColor : List Char → Option Color
  | ['#', r1, r2, g1, g2, b1, b2] => do
    let r1 ← hexVal r1
    let r2 ← hexVal r2
    let g1 ← hexVal g1
    let g2 ← hexVal g2
    let b1 ← hexVal b1
    let b2 ← hexVal b2
    pure ⟨16 * r1 + r2, 16 * g1 + g2, 16 * b1 + b2, 0⟩
  | _ => none

/-- Modelled from the spec: the helpers of `libdrawio_xml`, whose code is not part of the
sources at hand.  Section 4.1 gives `startFill, endFill` as booleans, `startSize, endSize,
rotation, fontSize` as numbers and the colours as `#RRGGBB`; a text that is none of these
makes the helper raise.  The theorems quantify over all helpers; this instance serves to
evaluate `setStyle` on concrete style strings. -/
def specExternals : Externals where
  xmlStringToDouble v :=
    match stod v with
    | .ok d => .ok d
    | .error _ => .error .external
  xmlStringToBool v :=
    if v = "1" ∨ v = "true" then .ok true
    else if v = "0" ∨ v = "false" then .ok false
    else .error .external
  xmlStringToColor v :=
    match parseHexColor v.toList with
    | some c => .ok c
    | none => .error .external
  readBool v old :=
    if v = "1" then true else if v = "0" then false else if v = "" then old else false

/-- The keys whose value goes through `xmlStringToDouble`. -/
def xmlDoubleKeys : List String :=
  ["startSize", "endSize", "rotation", "fontSize", "fontStyle"]

/-- The keys whose value goes through `xmlStringToBool`. -/
def xmlBoolKeys : List String :=
  ["startFill", "endFill"]

/-- The keys whose value, unless `none` or `default`, goes through `xmlStringToColor`. -/
def xmlColorKeys : List String :=
  ["fillColor", "strokeColor", "fontColor", "labelBackgroundColor", "labelBorderColor"]

/-- The cell with `startFixed` and `endFixed` reset: the view of a cell that leaves the two
computed flags out. -/
def forgetFixed (c : MXCell) : MXCell :=
  { c with style.startFixed := false, style.endFixed := false }

/-- The cell with the members that the block of key `k` assigns reset to fixed values:
the view of a cell that leaves out what the token `k` names. -/
def forgetToken (k : String) (c : MXCell) : MXCell :=
  if k = "entryX" then c.withEntryX none
  else if k = "entryY" then c.withEntryY none
  else if k = "exitX" then c.withExitX none
  else if k = "exitY" then c.withExitY none
  else if k = "entryDx" then c.withEntryDx 0
  else if k = "entryDy" then c.withEntryDy 0
  else if k = "exitDx" then c.withExitDx 0
  else if k = "exitDy" then c.withExitDy 0
  else if k = "sourcePortConstraint" then c.withSourcePortConstraint none
  else if k = "targetPortConstraint" then c.withTargetPortConstraint none
  else if k = "PortConstraint" then c.withPortConstraint none
  else if k = "ellipse" ∨ k = "triangle" ∨ k = "rhombus" then
    (c.withShape .RECTANGLE).withPerimeter .RECTANGLE_P
  else if k = "shape" then c.withShape .RECTANGLE
  else if k = "perimeter" then c.withPerimeter .RECTANGLE_P
  else if k = "direction" then c.withDirection .EAST
  else if k = "fixedSize" then c.withFixedSize true
  else if k = "size" then
    ((((((((((c.withCalloutLength 0).withProcessBarSize 0).withParallelogramSize 0).withHexagonSize
      0).withStepSize 0).withTrapezoidSize 0).withCardSize 0).withDocumentSize 0).withTapeSize
      0).withDataStorageSize 0)
  else if k = "base" then c.withCalloutWidth 0
  else if k = "position" then c.withCalloutPosition 0
  else if k = "position2" then c.withCalloutTipPosition 0
  else if k = "dx" then c.withStorageX 0
  else if k = "dy" then c.withStorageY 0
  else if k = "fillColor" then c.withFillColor none
  else if k = "strokeColor" then c.withStrokeColor none
  else if k = "startArrow" then c.withStartArrow none
  else if k = "startFill" then c.withStartFill true
  else if k = "startSize" then c.withStartSize 0
  else if k = "endArrow" then c.withEndArrow none
  else if k = "endFill" then c.withEndFill true
  else if k = "endSize" then c.withEndSize 0
  else if k = "rotation" then c.withRotation 0
  else if k = "edgeStyle" then c.withEdgeStyle .STRAIGHT
  else if k = "fontFamily" then c.withFontFamily ""
  else if k = "fontSize" then c.withFontSize 0
  else if k = "fontStyle" then c.withFontStyle 0
  else if k = "fontColor" then c.withFontColor none
  else if k = "labelBackgroundColor" then c.withBackgroundColor none
  else if k = "labelBorderColor" then c.withBorderColor none
  else if k = "align" then c.withAlign .CENTER
  else if k = "verticalAlign" then c.withVerticalAlign .MIDDLE
  else if k = "labelPosition" then c.withPosition .CENTER
  else if k = "verticalLabelPosition" then c.withVerticalPosition .MIDDLE
  else c

/-- A property of the cell a block returns, when it returns one. -/
def Res (P : MXCell → Prop) (r : Except Fault MXCell) : Prop :=
  ∀ c1, r = .ok c1 → P c1

/-! ## PathContext -/

/-- One element of the path vector: the `librevenge:path-action` and the points stored
as `svg:x, svg:y`, then `svg:x1, svg:y1`, then `svg:x2, svg:y2`. -/
structure PathStep where
  action : String
  points : List MXPoint
  deriving DecidableEq

structure PathContext where
  path : List PathStep := []
  center : MXPoint
  origin : MXPoint
  width : ℚ
  height : ℚ
  angle : ℚ
  direction : Direction
  deriving DecidableEq

/-- The constructor `PathContext(MXCell& cell)`. -/
def PathContext.new (cell : MXCell) : PathContext :=
  let origin : MXPoint := ⟨cell.geometry.x / 100, cell.geometry.y / 100⟩
  let width := cell.geometry.width / 100
  let height := cell.geometry.height / 100
  let center : MXPoint := ⟨width / 2, height / 2⟩
  let direction := cell.style.direction
  let angle := -cell.style.rotation * pi / 180
  let swapped := vertical direction
  let origin : MXPoint :=
    if swapped then ⟨origin.x + (width - height) / 2, origin.y + (height - width) / 2⟩
    else origin
  let width1 := if swapped then height else width
  let height1 := if swapped then width else height
  let center : MXPoint := if swapped then ⟨center.y, center.x⟩ else center
  let angle := if direction = .SOUTH then angle - pi / 2 else angle
  let angle := if direction = .WEST then angle - pi else angle
  let angle := if direction = .NORTH then angle + pi / 2 else angle
  { path := [], center := center, origin := origin, width := width1, height := height1,
    angle := angle, direction := direction }

/-- The assignment `point = origin + point.rotate(center, angle)` of `addStep`. -/
def PathContext.emit (c : PathContext) (point : MXPoint) : Except Fault MXPoint := do
  let r ← point.rotate c.center c.angle
  pure (c.origin.add r)

/-- The loop of `addStep` over its points. -/
def PathContext.emitAll (c : PathContext) : List MXPoint → Except Fault (List MXPoint)
  | [] => .ok []
  | p :: ps => do
    let q ← c.emit p
    let qs ← c.emitAll ps
    pure (q :: qs)

/-- The method `PathContext::addStep`: at most three points are stored in the step. -/
def PathContext.addStep (c : PathContext) (action : String) (points : List MXPoint) :
    Except Fault PathContext := do
  let pts ← c.emitAll points
  pure { c with path := c.path ++ [⟨action, pts.take 3⟩] }

def PathContext.moveTo (c : PathContext) (x y : ℚ) : Except Fault PathContext :=
  c.addStep "M" [⟨x, y⟩]

def PathContext.lineTo (c : PathContext) (x y : ℚ) : Except Fault PathContext :=
  c.addStep "L" [⟨x, y⟩]

def PathContext.quadTo (c : PathContext) (x1 y1 x y : ℚ) : Except Fault PathContext :=
  c.addStep "Q" [⟨x, y⟩, ⟨x1, y1⟩]

def PathContext.curveTo (c : PathContext) (x1 y1 x2 y2 x y : ℚ) : Except Fault PathContext :=
  c.addStep "C" [⟨x, y⟩, ⟨x1, y1⟩, ⟨x2, y2⟩]

def PathContext.close (c : PathContext) : Except Fault PathContext :=
  c.addStep "Z" []

/-- The read `points[i]`; past the end of the vector it is undefined behaviour. -/
def vectorAt (points : List MXPoint) (i : Nat) : Except Fault MXPoint :=
  match points.get? i with
  | some p => .ok p
  | none => .error .outOfBounds

/-- The loop `while (i < bound) { p = points[i]; lineTo(p.x, p.y); i++; }` of `addPoints`;
it returns the context and the final value of `i`. -/
def PathContext.addPointsLoop (points : List MXPoint) (bound : Nat) :
    Nat → PathContext → Nat → Except Fault (PathContext × Nat)
  | 0, _, _ => .error .outOfFuel
  | fuel + 1, c, i =>
    if i < bound then do
      let p ← vectorAt points i
      let c1 ← c.lineTo p.x p.y
      PathContext.addPointsLoop points bound fuel c1 (i + 1)
    else .ok (c, i)

/-- The method `PathContext::addPoints`.  The loop runs at most `points.size()` times. -/
def PathContext.addPoints (c : PathContext) (points : List MXPoint) (close_path : Bool) :
    Except Fault PathContext :=
  if points.isEmpty then .ok c
  else do
    let p ← vectorAt points 0
    let c1 ← c.moveTo p.x p.y
    let r ← PathContext.addPointsLoop points (points.length - (if close_path then 0 else 1))
      (points.length + 1) c1 1
    if close_path then r.1.close
    else do
      let p ← vectorAt points r.2
      r.1.lineTo p.x p.y

/-! ## MXCell::draw, the vertex branch -/

/-- The value of `draw:transform`: `translate(t1x in, t1y in) rotate(angle)
translate(t2x in, t2y in)`, each number printed with `std::to_string`. -/
structure Transform where
  t1x : ℚ
  t1y : ℚ
  angle : ℚ
  t2x : ℚ
  t2y : ℚ
  deriving DecidableEq

/-- The drawing call that `draw` issues for a vertex, with the properties it inserts. -/
inductive DrawCall
  | drawRectangle (x y width height : ℚ) (transform : Transform)
  | drawEllipse (rx ry cx cy rotate : ℚ)
  | drawPath (d : List PathStep)
  deriving DecidableEq

/-- The pair `(sqrt(rx^2 + ry^2) * cos(atan(ry / rx) - angle),
sqrt(rx^2 + ry^2) * sin(atan(ry / rx) - angle))` of the rectangle branch.  For `rx > 0`
the angle `atan(ry / rx)` is the polar angle of `(rx, ry)`, for `rx < 0` that of
`(-rx, -ry)`; for `rx = 0` the quotient is infinite and `atan` gives the quarter turn with
the sign of `ry`, the polar angle of `(0, ry)`, and `0 / 0` is a NaN. -/
def cornerRotate (rx ry angle : ℚ) : Except Fault (ℚ × ℚ) :=
  if 0 < rx then polarRotate rx ry angle
  else if rx < 0 then polarRotate (-rx) (-ry) angle
  else if ry = 0 then .error .nonFinite
  else polarRotate 0 ry angle

/-- The vertex branch of `MXCell::draw` (lines 157 to 347): the parent offset, the local
frame and the drawing call of the shape. -/
def drawVertex (id_map : IdMap) (cell : MXCell) : Except Fault DrawCall := do
  let geometry : MXGeometry :=
    if cell.parent_id ≠ "" then
      { cell.geometry with
        x := cell.geometry.x + (id_map cell.parent_id).geometry.x
        y := cell.geometry.y + (id_map cell.parent_id).geometry.y }
    else cell.geometry
  let style := cell.style
  let rx := geometry.width / 200
  let ry := geometry.height / 200
  let cx := geometry.x / 100 + rx
  let cy := geometry.y / 100 + ry
  let c := PathContext.new { cell with geometry := geometry }
  let w := c.width
  let h := c.height
  let angle := -style.rotation * pi / 180
  if style.shape = .RECTANGLE then do
    let d ← cornerRotate rx ry angle
    let dx := d.1 - rx
    let dy := d.2 - ry
    pure (.drawRectangle (geometry.x / 100) (geometry.y / 100) (geometry.width / 100)
      (geometry.height / 100)
      ⟨-geometry.x / 100, -geometry.y / 100, angle, cx - rx - dx, cy - ry - dy⟩)
  else if style.shape = .ELLIPSE then
    pure (.drawEllipse rx ry cx cy (-style.rotation))
  else if style.shape = .TRIANGLE then do
    let c ← c.addPoints [⟨0, 0⟩, ⟨w, h / 2⟩, ⟨0, h⟩] true
    pure (.drawPath c.path)
  else if style.shape = .CALLOUT then do
    let s := max 0 (style.calloutLength / 100)
    let dx := w * max 0 (min 1 style.calloutPosition)
    let dx2 := w * max 0 (min 1 style.calloutTipPosition)
    let base := max 0 (style.calloutWidth / 100)
    let c ← c.addPoints
      [⟨0, 0⟩, ⟨w, 0⟩, ⟨w, h - s⟩, ⟨dx + base, h - s⟩, ⟨dx2, h⟩, ⟨dx, h - s⟩, ⟨0, h - s⟩] true
    pure (.drawPath c.path)
  else if style.shape = .PROCESS then do
    let inset := w * max 0 (min 1 style.processBarSize)
    let c ← c.moveTo inset 0
    let c ← c.lineTo inset h
    let c ← c.close
    let c ← c.moveTo (w - inset) 0
    let c ← c.lineTo (w - inset) h
    let c ← c.close
    let c ← c.addPoints [⟨0, 0⟩, ⟨w, 0⟩, ⟨w, h⟩, ⟨0, h⟩] true
    pure (.drawPath c.path)
  else if style.shape = .RHOMBUS then do
    let c ← c.addPoints [⟨w / 2, 0⟩, ⟨w, h / 2⟩, ⟨w / 2, h⟩, ⟨0, h / 2⟩] true
    pure (.drawPath c.path)
  else if style.shape = .PARALLELOGRAM then do
    let dx := style.parallelogramSize / 100
    let c ← c.addPoints [⟨0, h⟩, ⟨dx, 0⟩, ⟨w, 0⟩, ⟨w - dx, h⟩] true
    pure (.drawPath c.path)
  else if style.shape = .HEXAGON then do
    let s := style.hexagonSize / 100
    let c ← c.addPoints
      [⟨s, 0⟩, ⟨w - s, 0⟩, ⟨w, h / 2⟩, ⟨w - s, h⟩, ⟨s, h⟩, ⟨0, h / 2⟩] true
    pure (.drawPath c.path)
  else if style.shape = .STEP then do
    let s := style.stepSize / 100
    let c ← c.addPoints
      [⟨0, 0⟩, ⟨w - s, 0⟩, ⟨w, h / 2⟩, ⟨w - s, h⟩, ⟨0, h⟩, ⟨s, h / 2⟩] true
    pure (.drawPath c.path)
  else if style.shape = .TRAPEZOID then do
    let dx := style.trapezoidSize / 100
    let c ← c.addPoints [⟨0, h⟩, ⟨dx, 0⟩, ⟨w - dx, 0⟩, ⟨w, h⟩] true
    pure (.drawPath c.path)
  else if style.shape = .CARD then do
    let s := style.cardSize / 100
    let c ← c.addPoints [⟨s, 0⟩, ⟨w, 0⟩, ⟨w, h⟩, ⟨0, h⟩, ⟨0, s⟩] true
    pure (.drawPath c.path)
  else if style.shape = .INTERNAL_STORAGE then do
    let dx := style.storageX / 100
    let dy := style.storageY / 100
    let c ← c.moveTo 0 dy
    let c ← c.lineTo w dy
    let c ← c.close
    let c ← c.moveTo dx 0
    let c ← c.lineTo dx h
    let c ← c.close
    let c ← c.addPoints [⟨0, 0⟩, ⟨w, 0⟩, ⟨w, h⟩, ⟨0, h⟩] true
    pure (.drawPath c.path)
  else if style.shape = .OR then do
    let c ← c.moveTo 0 0
    let c ← c.quadTo w 0 w (h / 2)
    let c ← c.quadTo w h 0 h
    let c ← c.close
    pure (.drawPath c.path)
  else if style.shape = .XOR then do
    let c ← c.moveTo 0 0
    let c ← c.quadTo w 0 w (h / 2)
    let c ← c.quadTo w h 0 h
    let c ← c.quadTo (w / 2) (h / 2) 0 0
    let c ← c.close
    pure (.drawPath c.path)
  else if style.shape = .DOCUMENT then do
    let dy := h * style.documentSize
    let fy : ℚ := 7 / 5
    let c ← c.moveTo 0 0
    let c ← c.lineTo w 0
    let c ← c.lineTo w (h - dy / 2)
    let c ← c.quadTo (w * 3 / 4) (h - dy * fy) (w / 2) (h - dy / 2)
    let c ← c.quadTo (w / 4) (h - dy * (1 - fy)) 0 (h - dy / 2)
    let c ← c.close
    pure (.drawPath c.path)
  else if style.shape = .TAPE then do
    let dy := h * style.tapeSize
    let fy : ℚ := 7 / 5
    let c ← c.moveTo 0 (dy / 2)
    let c ← c.quadTo (w / 4) (dy * fy) (w / 2) (dy / 2)
    let c ← c.quadTo (w * 3 / 4) (dy * (1 - fy)) w (dy / 2)
    let c ← c.lineTo w (h - dy / 2)
    let c ← c.quadTo (w * 3 / 4) (h - dy * fy) (w / 2) (h - dy / 2)
    let c ← c.quadTo (w / 4) (h - dy * (1 - fy)) 0 (h - dy / 2)
    let c ← c.close
    pure (.drawPath c.path)
  else do
    let s := style.dataStorageSize / 100
    let c ← c.moveTo s 0
    let c ← c.lineTo w 0
    let c ← c.quadTo (w - 2 * s) (h / 2) w h
    let c ← c.lineTo s h
    let c ← c.quadTo (s - 2 * s) (h / 2) s 0
    let c ← c.close
    pure (.drawPath c.path)

/-! ## MXCell::getPath, MXCell::processText, Color::to_string -/

/-- The method `MXCell::getPath`: the two branches for `STRAIGHT` and `ORTHOGONAL`. -/
def getPath (cell : MXCell) : List PathStep :=
  if cell.style.edgeStyle = .STRAIGHT then
    [⟨"M", [⟨cell.geometry.sourcePoint.x / 100, cell.geometry.sourcePoint.y / 100⟩]⟩]
      ++ cell.geometry.points.map (fun p => ⟨"L", [⟨p.x / 100, p.y / 100⟩]⟩)
      ++ [⟨"L", [⟨cell.geometry.targetPoint.x / 100, cell.geometry.targetPoint.y / 100⟩]⟩]
  else if cell.style.edgeStyle = .ORTHOGONAL then
    [⟨"M", [⟨cell.geometry.sourcePoint.x / 100, cell.geometry.sourcePoint.y / 100⟩]⟩]
      ++ cell.geometry.points.map (fun p => ⟨"L", [⟨p.x / 100, p.y / 100⟩]⟩)
      ++ [⟨"L", [⟨cell.geometry.targetPoint.x / 100, cell.geometry.targetPoint.y / 100⟩]⟩]
  else []

/-- The loop of `processText`, with the flag `skipping`. -/
def processTextLoop : List Char → Bool → List Char
  | [], _ => []
  | c :: cs, skipping =>
    let skipping1 := if c = '<' then true else skipping
    let out := if !skipping1 then [c] else []
    let skipping2 := if c = '>' then false else skipping1
    out ++ processTextLoop cs skipping2

/-- The method `MXCell::processText`. -/
def processText (input : String) : String :=
  String.mk (processTextLoop input.toList false)

/-- One lowercase hexadecimal digit. -/
def hexChar (n : Nat) : Char :=
  if n < 10 then Char.ofNat (48 + n) else Char.ofNat (87 + n)

/-- The output of `std::hex << std::setw(2) << (unsigned)ch` with the default fill
character: the hexadecimal digits without leading zero, padded with a space to width 2. -/
def hexSetw2 (ch : Nat) : List Char :=
  let n := ch % 256
  if n < 16 then [' ', hexChar n] else [hexChar (n / 16), hexChar (n % 16)]

/-- The method `Color::to_string`. -/
def Color.to_string (c : Color) : String :=
  String.mk ('#' :: (hexSetw2 c.r ++ hexSetw2 c.g ++ hexSetw2 c.b))

/-- A label as a sequence of text segments and tags `<body>`. -/
inductive Segment
  | text (s : List Char)
  | tag (body : List Char)

/-- The characters of a label built from segments. -/
def renderSegments : List Segment → List Char
  | [] => []
  | .text s :: rest => s ++ renderSegments rest
  | .tag body :: rest => '<' :: (body ++ '>' :: renderSegments rest)

/-- The text segments of a label, concatenated in order. -/
def textOfSegments : List Segment → List Char
  | [] => []
  | .text s :: rest => s ++ textOfSegments rest
  | .tag _ :: rest => textOfSegments rest

/-- A segment whose text or body contains neither `<` nor `>`. -/
def Segment.plain : Segment → Prop
  | .text s => '<' ∉ s ∧ '>' ∉ s
  | .tag body => '<' ∉ body ∧ '>' ∉ body

/-! ## MXCell::adjustEndpoint, MXCell::getPoint, MXCell::setEndpointInShape -/

/-- The read `opt.get()` of a `boost::optional`. -/
def getOpt {α : Type} : Option α → Except Fault α
  | some a => .ok a
  | none => .error .emptyOptional

/-- The axis dimension the size parameters of the perimeters are divided by. -/
def axisDimension (shape : MXCell) : ℚ :=
  if shape.style.direction = .NORTH ∨ shape.style.direction = .SOUTH
  then shape.geometry.height else shape.geometry.width

/-- The value `c = std::min(size / dimension, 0.5)`; for a zero dimension and a positive
size the quotient is `+inf` and the minimum is `0.5`. -/
def clampedRatio (size dim : ℚ) : Except Fault ℚ :=
  if dim = 0 then (if 0 < size then .ok (1 / 2) else .error .nonFinite)
  else .ok (min (size / dim) (1 / 2))

/-- The `TRIANGLE_P` branch of `adjustEndpoint`. -/
def adjustTriangle (x y : ℚ) : Except Fault (ℚ × ℚ) :=
  if y < 1 / 2 ∧ x > 0 then do
    let m ← fdiv (x - 1 / 2) (y - 1 / 2)
    let oy ← fdiv (1 / 2 - m / 2) (2 - m)
    pure (2 * oy, oy)
  else if y > 1 / 2 ∧ x > 0 then do
    let m ← fdiv (x - 1 / 2) (y - 1 / 2)
    let oy ← fdiv (3 / 2 + m / 2) (2 + m)
    pure (2 - 2 * oy, oy)
  else .ok (x, y)

/-- The `ELLIPSE_P` branch of `adjustEndpoint`. -/
def adjustEllipse (x y : ℚ) : Except Fault (ℚ × ℚ) :=
  if x ≠ 1 / 2 then do
    let m ← fdiv (y - 1 / 2) (x - 1 / 2)
    let a ← atan m
    let t := a + (if x < 1 / 2 then pi else 0)
    let ct ← cos t
    let st ← sin t
    pure (1 / 2 + 1 / 2 * ct, 1 / 2 + 1 / 2 * st)
  else .ok (x, y)

/-- The `RHOMBUS_P` branch of `adjustEndpoint`. -/
def adjustRhombus (x y : ℚ) : Except Fault (ℚ × ℚ) :=
  if x < 1 / 2 ∧ y < 1 / 2 then do
    let m ← fdiv (y - 1 / 2) (x - 1 / 2)
    let ox ← fdiv m (2 + 2 * m)
    pure (ox, -ox + 1 / 2)
  else if x < 1 / 2 ∧ y > 1 / 2 then do
    let m ← fdiv (y - 1 / 2) (x - 1 / 2)
    let ox ← fdiv m (2 * m - 2)
    pure (ox, ox + 1 / 2)
  else if x > 1 / 2 ∧ y < 1 / 2 then do
    let m ← fdiv (y - 1 / 2) (x - 1 / 2)
    let ox ← fdiv (m - 2) (2 * m - 2)
    pure (ox, ox - 1 / 2)
  else if x > 1 / 2 ∧ y > 1 / 2 then do
    let m ← fdiv (y - 1 / 2) (x - 1 / 2)
    let ox ← fdiv (m + 2) (2 * m + 2)
    pure (ox, -ox + 3 / 2)
  else .ok (x, y)

/-- The `PARALLELOGRAM_P` branch of `adjustEndpoint` after `c` is computed. -/
def adjustParallelogram (c x y : ℚ) : Except Fault (ℚ × ℚ) :=
  if c ≠ 0 ∧ x ≠ 1 / 2 then do
    let m ← fdiv (y - 1 / 2) (x - 1 / 2)
    if x < c ∧ y < 1 then do
      let ox ← fdiv (m * c + c) (2 * m * c + 2)
      let oy ← fdiv ox c
      pure (ox, 1 - oy)
    else if x > 1 - c ∧ y > 0 then do
      let ox ← fdiv (m * c - c + 2) (2 * m * c + 2)
      let oy ← fdiv (1 - ox) c
      pure (ox, oy)
    else pure (x, y)
  else pure (x, y)

/-- The `HEXAGON_P` branch of `adjustEndpoint` after `c` is computed. -/
def adjustHexagon (c x y : ℚ) : Except Fault (ℚ × ℚ) :=
  if c ≠ 0 ∧ x ≠ 1 / 2 then do
    let m ← fdiv (y - 1 / 2) (x - 1 / 2)
    if x < c ∧ y < 1 / 2 then do
      let ox ← fdiv (c * m) (2 * c * m + 1)
      let q ← fdiv ox (2 * c)
      pure (ox, -q + 1 / 2)
    else if x > 1 - c ∧ y < 1 / 2 then do
      let ox ← fdiv (m * c - 1) (2 * m * c - 1)
      let oy ← fdiv (ox + c - 1) (2 * c)
      pure (ox, oy)
    else if x < c ∧ y > 1 / 2 then do
      let ox ← fdiv (m * c) (2 * m * c - 1)
      let q ← fdiv ox (2 * c)
      pure (ox, q + 1 / 2)
    else if x > 1 - c ∧ y > 1 / 2 then do
      let ox ← fdiv (m * c + 1) (2 * m * c + 1)
      let oy ← fdiv (1 + c - ox) (2 * c)
      pure (ox, oy)
    else pure (x, y)
  else pure (x, y)

/-- The `STEP_P` branch of `adjustEndpoint` after `c` is computed. -/
def adjustStep (c x y : ℚ) : Except Fault (ℚ × ℚ) :=
  if x = 0 ∧ c > 1 / 2 ∧ 0 < y ∧ y < 1 then pure (1 / 2, 1 / 2)
  else if y = 1 / 2 then pure (if x = 0 then c else 1, y)
  else do
    let m ← fdiv (x - 1 / 2) (y - 1 / 2)
    if x = 0 ∧ y < 1 / 2 then do
      let oy ← fdiv (1 - m) (4 * c - 2 * m)
      pure (2 * c * oy, oy)
    else if x = 0 ∧ y > 1 / 2 then do
      let oy ← fdiv (4 * c - 1 + m) (4 * c + 2 * m)
      pure (2 * c - 2 * c * oy, oy)
    else if x > 1 - c ∧ y < 1 / 2 then do
      let oy ← fdiv (1 - 2 * c + m) (2 * m - 4 * c)
      pure (2 * c * oy + 1 - c, oy)
    else if x > 1 - c ∧ y > 1 / 2 then do
      let oy ← fdiv (1 + 2 * c + m) (4 * c + 2 * m)
      pure (1 + c - 2 * c * oy, oy)
    else pure (x, y)

/-- The `TRAPEZOID_P` branch of `adjustEndpoint` after `c` is computed. -/
def adjustTrapezoid (c x y : ℚ) : Except Fault (ℚ × ℚ) :=
  if c ≠ 0 ∧ x ≠ 1 / 2 then do
    let m ← fdiv (y - 1 / 2) (x - 1 / 2)
    if x < c ∧ y < 1 then do
      let ox ← fdiv (c + m * c) (2 * m * c + 2)
      let q ← fdiv ox c
      pure (ox, 1 - q)
    else if x > 1 - c ∧ y < 1 then do
      let ox ← fdiv (c + m * c - 2) (2 * m * c - 2)
      let oy ← fdiv (ox + c - 1) c
      pure (ox, oy)
    else pure (x, y)
  else pure (x, y)

/-- The method `MXCell::adjustEndpoint`; the pair returned is the new `(outX, outY)`.
The body of each perimeter kind is the function of that name above. -/
def adjustEndpoint (outX outY : ℚ) (shape : MXCell) : Except Fault (ℚ × ℚ) :=
  let x := outX
  let y := outY
  if 0 < x ∧ x < 1 ∧ 0 < y ∧ y < 1 then .ok (1 / 2, 1 / 2)
  else if shape.style.perimeter = .TRIANGLE_P then adjustTriangle x y
  else if shape.style.perimeter = .ELLIPSE_P then adjustEllipse x y
  else if shape.style.perimeter = .RHOMBUS_P then adjustRhombus x y
  else if shape.style.perimeter = .PARALLELOGRAM_P then do
    let c ← clampedRatio shape.style.parallelogramSize (axisDimension shape)
    adjustParallelogram c x y
  else if shape.style.perimeter = .HEXAGON_P then do
    let c ← clampedRatio shape.style.hexagonSize (axisDimension shape)
    adjustHexagon c x y
  else if shape.style.perimeter = .STEP_P then do
    let c ← fdiv shape.style.stepSize (axisDimension shape)
    adjustStep c x y
  else if shape.style.perimeter = .TRAPEZOID_P then do
    let c ← clampedRatio shape.style.trapezoidSize (axisDimension shape)
    adjustTrapezoid c x y
  else .ok (outX, outY)

/-- The method `MXCell::getPoint`, the same polar computation as `MXPoint::rotate`. -/
def getPoint (x y cx cy angle : ℚ) : Except Fault MXPoint := do
  let rc ← polarRotate (x - cx) (y - cy) angle
  pure ⟨cx + rc.1, cy + rc.2⟩

/-- The method `MXCell::setEndpointInShape`; the point returned is the new value of the
reference `point`.  The default arguments `dx` and `dy` of the declaration are `0`. -/
def setEndpointInShape (outX outY : ℚ) (shape : MXCell) (dx dy : ℚ) : Except Fault MXPoint := do
  let perimeter : Bool := decide (outX = 0 ∨ outX = 1 ∨ outY = 0 ∨ outY = 1)
  let horiz : Bool :=
    decide (shape.style.direction = .EAST ∨ shape.style.direction = .WEST)
  let ax ← fdiv dx (if horiz then shape.geometry.width else shape.geometry.height)
  let ay ← fdiv dy (if horiz then shape.geometry.height else shape.geometry.width)
  let outX := outX + ax
  let outY := outY + ay
  let out ← if perimeter then adjustEndpoint outX outY shape else pure (outX, outY)
  let outX := out.1
  let outY := out.2
  let xy : ℚ × ℚ :=
    match shape.style.direction with
    | .EAST =>
      (shape.geometry.x + outX * shape.geometry.width,
       shape.geometry.y + outY * shape.geometry.height)
    | .WEST =>
      (shape.geometry.x + (1 - outX) * shape.geometry.width,
       shape.geometry.y + (1 - outY) * shape.geometry.height)
    | .NORTH =>
      (shape.geometry.x + outY * shape.geometry.width,
       shape.geometry.y + (1 - outX) * shape.geometry.height)
    | .SOUTH =>
      (shape.geometry.x + (1 - outY) * shape.geometry.width,
       shape.geometry.y + outX * shape.geometry.height)
  let cx := shape.geometry.x + shape.geometry.width / 2
  let cy := shape.geometry.y + shape.geometry.height / 2
  let angle := -shape.style.rotation * pi / 180
  getPoint xy.1 xy.2 cx cy angle

/-! ## MXCell::setEndPoints -/

/-- The table lookup `id_map[id]` of a table that holds the cells of a list: an absent
key gives a default-constructed cell. -/
def tableOf (cells : List MXCell) : IdMap :=
  fun id => (cells.find? (fun c => c.id == id)).getD {}

/-- The angle `pi * ((int)dir - 1) / 2`. -/
def facingAngle (dir : Direction) : ℚ :=
  pi * ((dir.toInt : ℚ) - 1) / 2

/-- The choice of `(outX, outY)` on the unit box that `setEndPoints` makes four times:
`outY = lowY ? 0 : 1; outX = 0.5 + (lowY ? -0.5 : 0.5) / m` when `std::abs(m) > 1`, and
`outX = lowX ? 0 : 1; outY = 0.5 + m * (lowX ? -0.5 : 0.5)` otherwise. -/
def boxExit (m : Slope) (lowY lowX : Bool) : Except Fault (ℚ × ℚ) :=
  if m.absGtOne then do
    let d ← m.divInto (if lowY then -1 / 2 else 1 / 2)
    pure (1 / 2 + d, if lowY then 0 else 1)
  else do
    let d ← m.mul (if lowX then -1 / 2 else 1 / 2)
    pure (if lowX then 0 else 1, 1 / 2 + d)

/-- The two opening blocks of `setEndPoints`: an endpoint with a fixed exit or entry on a
named shape. -/
def fixedEndpoint (id_map : IdMap) (id : String) (isFixed : Bool) (ox oy : Option ℚ)
    (dx dy : ℚ) (point : MXPoint) : Except Fault MXPoint :=
  if id ≠ "" ∧ isFixed = true then do
    let x ← getOpt ox
    let y ← getOpt oy
    setEndpointInShape x y (id_map id) dx dy
  else pure point

def centreOf (c : MXCell) : MXPoint :=
  ⟨c.geometry.x + c.geometry.width / 2, c.geometry.y + c.geometry.height / 2⟩

/-- The source block of the `STRAIGHT` branch, run when `!style.startFixed`. -/
def straightSource (source : MXCell) (points : List MXPoint) (start endp : MXPoint) :
    Except Fault MXPoint := do
  let inp : MXPoint := match points.head? with
    | none => endp
    | some p => p
  let a ← atan2 (inp.y - start.y) (inp.x - start.x)
  let angle := a - facingAngle source.style.direction - source.style.rotation * pi / 180
  let m ← tan angle
  let out ← boxExit m (decide (inp.y < start.y)) (decide (inp.x < start.x))
  setEndpointInShape out.1 out.2 source 0 0

/-- The target block of the `STRAIGHT` branch, run when `!style.endFixed`. -/
def straightTarget (target : MXCell) (points : List MXPoint) (start endp : MXPoint) :
    Except Fault MXPoint := do
  let inp : MXPoint := match points.getLast? with
    | none => start
    | some p => p
  let a ← atan2 (endp.y - inp.y) (endp.x - inp.x)
  let angle := a + pi - facingAngle target.style.direction - target.style.rotation * pi / 180
  let m ← tan angle
  let out ← boxExit m (!decide (endp.y < inp.y)) (!decide (endp.x < inp.x))
  setEndpointInShape out.1 out.2 target 0 0

/-- The `STRAIGHT` branch of `setEndPoints` after its early return. -/
def straightEndPoints (id_map : IdMap) (cell : MXCell) : Except Fault MXCell := do
  let source := id_map cell.source_id
  let target := id_map cell.target_id
  let start : MXPoint :=
    if cell.style.startFixed then cell.geometry.sourcePoint else centreOf source
  let endp : MXPoint :=
    if cell.style.endFixed then cell.geometry.targetPoint else centreOf target
  let sp ← (if cell.style.startFixed then pure cell.geometry.sourcePoint
    else straightSource source cell.geometry.points start endp)
  let tp ← (if cell.style.endFixed then pure cell.geometry.targetPoint
    else straightTarget target cell.geometry.points start endp)
  pure ((cell.withSourcePoint sp).withTargetPoint tp)

/-- A box `x, y, width, height`. -/
structure Box where
  x : ℚ
  y : ℚ
  width : ℚ
  height : ℚ
  deriving DecidableEq

def boxOfCell (c : MXCell) : Box :=
  ⟨c.geometry.x, c.geometry.y, c.geometry.width, c.geometry.height⟩

def boxOfPoint (p : MXPoint) : Box :=
  ⟨p.x, p.y, 0, 0⟩

/-- The cascade that chooses `style.startDir` from the two boxes. -/
def startCascade (s e : Box) : Direction :=
  if e.x + e.width < s.x then .WEST
  else if e.x > s.x + s.width then .EAST
  else if e.y ≤ s.y then .NORTH
  else .SOUTH

/-- The cascade that chooses `style.endDir` from the two boxes and `style.startDir`. -/
def endCascade (s e : Box) (startDir : Direction) : Direction :=
  if e.y + e.height < s.y then .SOUTH
  else if e.y > s.y + s.height then .NORTH
  else if e.x + e.width < s.x then .EAST
  else if e.x > s.x + s.width then .WEST
  else if e.x > s.x then startDir
  else if startDir = .NORTH then .SOUTH
  else .NORTH

/-- The side of a box a point lies on: `p.x < x ? WEST : p.y < y ? NORTH :
p.x > x + width ? EAST : SOUTH`. -/
def sideOf (p : MXPoint) (b : Box) : Direction :=
  if p.x < b.x then .WEST
  else if p.y < b.y then .NORTH
  else if p.x > b.x + b.width then .EAST
  else .SOUTH

/-- The test `new_start` (and `new_end`): the point is outside the box on both axes. -/
def diagonalTo (p : MXPoint) (b : Box) : Bool :=
  (decide (p.x < b.x) || decide (p.x > b.x + b.width))
    && (decide (p.y < b.y) || decide (p.y > b.y + b.height))

/-- The block of the `ORTHOGONAL` branch that runs when the edge has waypoints: the new
`startDir`, `endDir` and waypoint list. -/
def orthogonalJoin (s e : Box) (startDir endDir : Direction) (points : List MXPoint)
    (p q : MXPoint) : Direction × Direction × List MXPoint :=
  let size : Int := points.length
  let new_start := diagonalTo p s
  let new_end := diagonalTo q e
  let startDir := if !new_start then sideOf p s else startDir
  let endDir := if !new_end then sideOf q e else endDir
  if new_start then
    let r : Direction × List MXPoint :=
      if !new_end ∧ ((if endDir = .WEST ∨ endDir = .EAST then 1 else 0) = size % 2) then
        (if p.x < s.x then Direction.WEST else Direction.EAST,
          (⟨p.x, s.y + s.height / 2⟩ : MXPoint) :: points)
      else
        (if p.y < s.y then Direction.NORTH else Direction.SOUTH,
          (⟨s.x + s.width / 2, p.y⟩ : MXPoint) :: points)
    if new_end then
      if size % 2 = 0 then
        (r.1, if q.y < e.y then Direction.NORTH else Direction.SOUTH,
          r.2 ++ [⟨e.x + e.width / 2, q.y⟩])
      else
        (r.1, if q.x < e.x then Direction.WEST else Direction.EAST,
          r.2 ++ [⟨q.x, e.y + e.height / 2⟩])
    else (r.1, endDir, r.2)
  else if new_end ∨ size = 1 then
    if size % 2 = (if startDir = .EAST ∨ startDir = .WEST then 1 else 0) then
      (startDir, if q.x < e.x then Direction.WEST else Direction.EAST,
        points ++ [⟨q.x, e.y + e.height / 2⟩])
    else
      (startDir, if q.y < e.y then Direction.NORTH else Direction.SOUTH,
        points ++ [⟨e.x + e.width / 2, q.y⟩])
  else (startDir, endDir, points)

/-- The endpoint of the `ORTHOGONAL` branch on a shape the edge leaves in direction
`dir`, for an endpoint that is not fixed; `near` is the waypoint next to it
(`points.front()` for the source, `points.back()` for the target). -/
def orthogonalFree (shape : MXCell) (dir : Direction) (near : Option MXPoint) :
    Except Fault MXPoint := do
  let angle := facingAngle dir - facingAngle shape.style.direction
    - shape.style.rotation * pi / 180
  let m ← tan angle
  let out ← boxExit m (decide (dir = .NORTH)) (decide (dir = .WEST))
  let pt ← setEndpointInShape out.1 out.2 shape 0 0
  match near with
  | some p =>
    if shape.style.rotation = 0 then
      if dir = .NORTH ∨ dir = .SOUTH then pure ⟨p.x, pt.y⟩ else pure ⟨pt.x, p.y⟩
    else pure pt
  | none => pure pt

/-- The direction of the `ORTHOGONAL` branch for a fixed endpoint `p` on a named shape:
the side of the shape's box, turned by the quarter turns of its rotation, that `p` is on;
`dir` when it is on none or the rotation is no multiple of 90. -/
def orthogonalFixed (shape : MXCell) (p : MXPoint) (dir : Direction) :
    Except Fault Direction := do
  let f ← fmod shape.style.rotation 90
  if f = 0 then do
    let rx := shape.geometry.width / 2
    let ry := shape.geometry.height / 2
    let cx := shape.geometry.x + rx
    let cy := shape.geometry.y + ry
    let g ← fmod ((Rat.floor (shape.style.rotation / 90) : Int) : ℚ) 2
    let swap : Bool := decide (g = 1)
    let rx1 := if swap then ry else rx
    let ry1 := if swap then rx else ry
    if p.y = cy + ry1 then pure .SOUTH
    else if p.y = cy - ry1 then pure .NORTH
    else if p.x = cx - rx1 then pure .WEST
    else if p.x = cx + rx1 then pure .EAST
    else pure dir
  else pure dir

/-- The end point and direction of the `ORTHOGONAL` branch at one end of the edge: the
block `if (!style.startFixed) ... else if (!source_id.empty()) ...` and its twin for the
target. -/
def orthogonalEnd (shape : MXCell) (isFixed : Bool) (id : String) (point : MXPoint)
    (dir : Direction) (near : Option MXPoint) : Except Fault (MXPoint × Direction) :=
  if !isFixed then do
    let pt ← orthogonalFree shape dir near
    pure (pt, dir)
  else if id ≠ "" then do
    let d ← orthogonalFixed shape point dir
    pure (point, d)
  else pure (point, dir)

/-- The directions and the waypoint list that the `ORTHOGONAL` branch of `setEndPoints`
settles on before it computes the end points: the two cascades, then the block that runs
when the edge has waypoints. -/
def orthogonalPlan (id_map : IdMap) (cell : MXCell) : Direction × Direction × List MXPoint :=
  let source := id_map cell.source_id
  let target := id_map cell.target_id
  let s0 : Box :=
    if cell.source_id ≠ "" then boxOfCell source else boxOfPoint cell.geometry.sourcePoint
  let e0 : Box :=
    if cell.target_id ≠ "" then boxOfCell target else boxOfPoint cell.geometry.targetPoint
  let startDir0 := startCascade s0 e0
  let endDir0 := endCascade s0 e0 startDir0
  let s : Box := if cell.style.startFixed then boxOfPoint cell.geometry.sourcePoint else s0
  let e : Box := if cell.style.endFixed then boxOfPoint cell.geometry.targetPoint else e0
  match cell.geometry.points.head?, cell.geometry.points.getLast? with
  | some p, some q => orthogonalJoin s e startDir0 endDir0 cell.geometry.points p q
  | _, _ => (startDir0, endDir0, cell.geometry.points)

/-- The `ORTHOGONAL` branch of `setEndPoints`. -/
def orthogonalEndPoints (id_map : IdMap) (cell : MXCell) : Except Fault MXCell := do
  let src ← orthogonalEnd (id_map cell.source_id) cell.style.startFixed cell.source_id
    cell.geometry.sourcePoint (orthogonalPlan id_map cell).1
    (orthogonalPlan id_map cell).2.2.head?
  let tgt ← orthogonalEnd (id_map cell.target_id) cell.style.endFixed cell.target_id
    cell.geometry.targetPoint (orthogonalPlan id_map cell).2.1
    (orthogonalPlan id_map cell).2.2.getLast?
  pure (((((cell.withStartDir (some src.2)).withEndDir (some tgt.2)).withPoints
    (orthogonalPlan id_map cell).2.2).withSourcePoint src.1).withTargetPoint tgt.1)

/-- The closing block of `setEndPoints`: the offsets of the parents of the two shapes. -/
def parentOffsets (id_map : IdMap) (cell : MXCell) : MXCell :=
  let sp : MXPoint :=
    if cell.source_id ≠ "" ∧ (id_map cell.source_id).parent_id ≠ "" then
      let parent := id_map (id_map cell.source_id).parent_id
      ⟨cell.geometry.sourcePoint.x + parent.geometry.x,
        cell.geometry.sourcePoint.y + parent.geometry.y⟩
    else cell.geometry.sourcePoint
  let tp : MXPoint :=
    if cell.target_id ≠ "" ∧ (id_map cell.target_id).parent_id ≠ "" then
      let parent := id_map (id_map cell.target_id).parent_id
      ⟨cell.geometry.targetPoint.x + parent.geometry.x,
        cell.geometry.targetPoint.y + parent.geometry.y⟩
    else cell.geometry.targetPoint
  (cell.withSourcePoint sp).withTargetPoint tp

/-- The method `MXCell::setEndPoints`. -/
def setEndPoints (id_map : IdMap) (cell : MXCell) : Except Fault MXCell :=
  if !cell.edge then .ok cell
  else do
    let sp ← fixedEndpoint id_map cell.source_id cell.style.startFixed cell.style.exitX
      cell.style.exitY cell.style.exitDx cell.style.exitDy cell.geometry.sourcePoint
    let tp ← fixedEndpoint id_map cell.target_id cell.style.endFixed cell.style.entryX
      cell.style.entryY cell.style.entryDx cell.style.entryDy cell.geometry.targetPoint
    let cell := (cell.withSourcePoint sp).withTargetPoint tp
    if cell.style.edgeStyle = .STRAIGHT then
      if cell.style.startFixed && cell.style.endFixed then pure cell
      else do
        let cell ← straightEndPoints id_map cell
        pure (parentOffsets id_map cell)
    else do
      let cell ← orthogonalEndPoints id_map cell
      pure (parentOffsets id_map cell)

/-! ## MXCell::setWaypoints -/

/-- The method `MXCell::pointsTo`. -/
def pointsTo (p q : MXPoint) (dir : Direction) : Bool :=
  match dir with
  | .NORTH => decide (q.y < p.y)
  | .EAST => decide (q.x > p.x)
  | .SOUTH => decide (q.y > p.y)
  | .WEST => decide (q.x < p.x)

/-- The local variables of `setWaypoints` that the loop only reads. -/
structure RouterEnv where
  source : Box
  target : Box
  q : MXPoint
  deriving DecidableEq

/-- The local variables of `setWaypoints` that the loop writes, with `geometry.points`. -/
structure RouterState where
  p : MXPoint
  p_dir : Direction
  q_dir : Direction
  start : Bool
  hugSource : Bool
  points : List MXPoint
  deriving DecidableEq

/-- The assignment through `double& change = (vertical(p_dir) ? p.y : p.x)`. -/
def setChange (p : MXPoint) (p_dir : Direction) (v : ℚ) : MXPoint :=
  if vertical p_dir then { p with y := v } else { p with x := v }

/-- The value `p_dir == NORTH ? y - 20 : p_dir == EAST ? x + width + 20 :
p_dir == SOUTH ? y + height + 20 : x - 20`. -/
def hugValue (p_dir : Direction) (b : Box) : ℚ :=
  if p_dir = .NORTH then b.y - 20
  else if p_dir = .EAST then b.x + b.width + 20
  else if p_dir = .SOUTH then b.y + b.height + 20
  else b.x - 20

/-- The value `p_dir == NORTH ? (sourceY + targetY + targetHeight) / 2 : ...`. -/
def midValue (p_dir : Direction) (s t : Box) : ℚ :=
  if p_dir = .NORTH then (s.y + t.y + t.height) / 2
  else if p_dir = .EAST then (s.x + t.x + s.width) / 2
  else if p_dir = .SOUTH then (s.y + t.y + s.height) / 2
  else (s.x + t.x + t.width) / 2

/-- The turn `vertical(p_dir) ? (a.x < b.x ? WEST : EAST) : (a.y < b.y ? NORTH : SOUTH)`. -/
def turnToward (p_dir : Direction) (a b : MXPoint) : Direction :=
  if vertical p_dir then (if a.x < b.x then .WEST else .EAST)
  else (if a.y < b.y then .NORTH else .SOUTH)

/-- The test `targetX <= p.x && p.x <= targetX + targetHeight && targetY <= p.y
&& p.y <= targetY + targetHeight`. -/
def insideTarget (t : Box) (p : MXPoint) : Bool :=
  decide (t.x ≤ p.x) && decide (p.x ≤ t.x + t.height) && decide (t.y ≤ p.y)
    && decide (p.y ≤ t.y + t.height)

/-- The local `dist` of the loop body. -/
def gapDist (p_dir : Direction) (s t : Box) : ℚ :=
  if vertical p_dir then min |t.y + t.height - s.y| |s.y + s.height - t.y|
  else min |t.x + t.width - s.x| |s.x + s.width - t.x|

/-- The local `overlap` of the loop body. -/
def overlap (p_dir : Direction) (s t : Box) : Bool :=
  if vertical p_dir then
    (decide (t.y < s.y) && decide (s.y < t.y + t.height))
      || (decide (s.y < t.y) && decide (t.y < s.y + s.height))
  else
    (decide (t.x < s.x) && decide (s.x < t.x + t.width))
      || (decide (s.x < t.x) && decide (t.x < s.x + s.width))

/-- The comparison of the centres along `y`: `a < sourceY` gives
`sourceY + sourceHeight/2 < targetY + targetHeight/2`, `a > sourceY + sourceHeight` the
converse, anything else `false`. -/
def besideY (s t : Box) (a : ℚ) (flip : Bool) : Bool :=
  let lt := decide (s.y + s.height / 2 < t.y + t.height / 2)
  let gt := decide (s.y + s.height / 2 > t.y + t.height / 2)
  if a < s.y then (if flip then gt else lt)
  else if a > s.y + s.height then (if flip then lt else gt)
  else false

/-- The comparison of the centres along `x`, as `besideY`. -/
def besideX (s t : Box) (a : ℚ) (flip : Bool) : Bool :=
  let lt := decide (s.x + s.width / 2 < t.x + t.width / 2)
  let gt := decide (s.x + s.width / 2 > t.x + t.width / 2)
  if a < s.x then (if flip then gt else lt)
  else if a > s.x + s.width then (if flip then lt else gt)
  else false

/-- The flag `obstruction_s` of the first case of the loop body. -/
def obstructionS1 (s t : Box) (p q : MXPoint) (p_dir : Direction) : Bool :=
  if horizontal p_dir then
    if s.x - 20 < q.x ∧ q.x < s.x + s.width + 20 then besideY s t p.y false
    else if s.y - 20 < p.y ∧ p.y < s.y + s.height + 20 then besideX s t q.x false
    else false
  else
    if s.x - 20 < p.x ∧ p.x < s.x + s.width + 20 then besideY s t q.y false
    else if s.y - 20 < q.y ∧ q.y < s.y + s.height + 20 then besideX s t p.x false
    else false

/-- The flag `obstruction_t` of the first case of the loop body. -/
def obstructionT1 (t : Box) (p : MXPoint) (p_dir : Direction) : Bool :=
  if insideTarget t p then false
  else if horizontal p_dir then decide (t.y - 20 < p.y) && decide (p.y < t.y + t.height + 20)
  else decide (t.x - 20 < p.x) && decide (p.x < t.x + t.width + 20)

/-- The flag `obstruction_s` of the last case of the loop body. -/
def obstructionS5 (s t : Box) (p q : MXPoint) (p_dir : Direction) : Bool :=
  if vertical p_dir ∧ s.x - 20 < q.x ∧ q.x < s.x + s.width + 20 then besideY s t p.y false
  else if horizontal p_dir ∧ s.y - 20 < q.y ∧ q.y < s.y + s.height + 2
      ∧ s.y - 20 < p.y ∧ p.y < s.y + s.height + 20 then besideX s t p.x false
  else false

/-- The flag `obstruction_t` of the last case of the loop body. -/
def obstructionT5 (s t : Box) (p : MXPoint) (p_dir : Direction) : Bool :=
  if insideTarget t p then false
  else if vertical p_dir ∧ t.x - 20 < p.x ∧ p.x < t.x + t.width + 20 then
    besideY s t p.y true
  else if horizontal p_dir ∧ t.y - 20 < p.y ∧ p.y < t.y + t.height + 20 then
    besideX s t p.x true
  else false

/-- What one pass through the loop body does: `continue` after
`q_dir = opposite(q_dir)`, or new values of `p`, `p_dir` and `hugSource` on the way to
`geometry.points.push_back(p)`. -/
inductive Pass
  | turn
  | move (p : MXPoint) (p_dir : Direction) (hugSource : Bool)
  deriving DecidableEq

/-- The body of the loop of `setWaypoints` up to `geometry.points.push_back(p)`. -/
def routerPass (env : RouterEnv) (st : RouterState) : Pass :=
  let s := env.source
  let t := env.target
  let q := env.q
  let p := st.p
  let pd := st.p_dir
  let qd := st.q_dir
  let hug : Box := if st.hugSource then s else t
  let centres : Direction :=
    turnToward pd ⟨t.x + t.width / 2, t.y + t.height / 2⟩
      ⟨s.x + s.width / 2, s.y + s.height / 2⟩
  let hugMove : Pass :=
    let p1 := setChange p pd (hugValue pd hug)
    .move p1 (turnToward pd q p1) st.hugSource
  let hugStart : Pass :=
    let p1 := setChange p pd (hugValue pd hug)
    .move p1 (if st.start then centres else turnToward pd q p1) st.hugSource
  let midMove : Pass :=
    let p1 := setChange p pd (midValue pd s t)
    .move p1 (turnToward pd q p1) false
  let midSource : Pass :=
    let p1 := setChange p pd (midValue pd s t)
    .move p1 (turnToward pd ⟨s.x, s.y⟩ p1) false
  if perpendicular pd qd && pointsTo p q pd && pointsTo q p qd then
    if obstructionS1 s t p q pd then hugMove
    else if obstructionT1 t p pd then midSource
    else .move (setChange p pd (if horizontal pd then q.x else q.y)) (opposite qd)
      st.hugSource
  else if decide (pd = opposite qd) && pointsTo p q pd then
    if gapDist pd s t ≥ 40 then midMove else hugMove
  else if perpendicular pd qd then
    if insideTarget t p then .turn
    else if pointsTo p q pd ∧ gapDist pd s t ≥ 40 ∧ overlap pd s t = false then midMove
    else hugStart
  else if pd = opposite qd then hugStart
  else if pd = qd then
    if (if vertical pd then p.x else p.y) = (if vertical pd then q.x else q.y) then .turn
    else if insideTarget t p then .turn
    else if !obstructionT5 s t p pd || obstructionS5 s t p q pd then
      let v : ℚ :=
        if pd = .NORTH then min p.y (t.y - 20)
        else if pd = .EAST then max p.x (t.x + t.width + 20)
        else if pd = .SOUTH then max p.y (t.y + t.height + 20)
        else min p.x (t.x - 20)
      let p1 := setChange p pd v
      .move p1 (turnToward pd q p1) st.hugSource
    else midSource
  else .move p pd st.hugSource

/-- One pass of the loop of `setWaypoints`. -/
def routerStep (env : RouterEnv) (st : RouterState) : RouterState :=
  match routerPass env st with
  | .turn => { st with q_dir := opposite st.q_dir }
  | .move p1 d h =>
    { st with p := p1, p_dir := d, hugSource := h, points := st.points ++ [p1], start := false }

/-- The condition of the loop of `setWaypoints`. -/
def routerRunning (q : MXPoint) (st : RouterState) : Bool :=
  decide (st.p_dir ≠ opposite st.q_dir) || !pointsTo st.p q st.p_dir
    || (decide (st.p.x ≠ q.x) && vertical st.p_dir)
    || (decide (st.p.y ≠ q.y) && horizontal st.p_dir)

/-- The loop of `setWaypoints`, at most `fuel` passes. -/
def routerLoop (env : RouterEnv) : Nat → RouterState → Except Fault RouterState
  | 0, st => if routerRunning env.q st then .error .outOfFuel else .ok st
  | fuel + 1, st =>
    if routerRunning env.q st then routerLoop env fuel (routerStep env st) else .ok st

/-- The first stub: `p` moved by 20 in direction `p_dir`. -/
def stub (p : MXPoint) (p_dir : Direction) : MXPoint :=
  match p_dir with
  | .NORTH => { p with y := p.y - 20 }
  | .EAST => { p with x := p.x + 20 }
  | .SOUTH => { p with y := p.y + 20 }
  | .WEST => { p with x := p.x - 20 }

/-- The boxes `sourceX, ..., targetHeight` of `setWaypoints`.  The offset of the parent of
the target is added to `sourceX` and `sourceY`, as the source does. -/
def routerBoxes (id_map : IdMap) (cell : MXCell) : Box × Box :=
  let s : Box :=
    if cell.source_id ≠ "" then
      let source := id_map cell.source_id
      let b := boxOfCell source
      if source.parent_id ≠ "" then
        { b with x := b.x + (id_map source.parent_id).geometry.x,
                 y := b.y + (id_map source.parent_id).geometry.y }
      else b
    else boxOfPoint cell.geometry.sourcePoint
  if cell.target_id ≠ "" then
    let target := id_map cell.target_id
    if target.parent_id ≠ "" then
      ({ s with x := s.x + (id_map target.parent_id).geometry.x,
                y := s.y + (id_map target.parent_id).geometry.y }, boxOfCell target)
    else (s, boxOfCell target)
  else (s, boxOfPoint cell.geometry.targetPoint)

/-- The method `MXCell::setWaypoints`, its loop run for at most `fuel` passes. -/
def setWaypoints (fuel : Nat) (id_map : IdMap) (cell : MXCell) : Except Fault MXCell :=
  if !cell.edge then .ok cell
  else if cell.style.edgeStyle = .ORTHOGONAL ∧ cell.geometry.points = [] then do
    let boxes := routerBoxes id_map cell
    let p := cell.geometry.sourcePoint
    let p_dir ← getOpt cell.style.startDir
    let q := cell.geometry.targetPoint
    let q_dir ← getOpt cell.style.endDir
    if p = q then pure cell
    else do
      let st ← routerLoop ⟨boxes.1, boxes.2, q⟩ fuel
        ⟨stub p p_dir, p_dir, q_dir, true, true, cell.geometry.points⟩
      pure (cell.withPoints st.points)
  else .ok cell

/-- A polyline in which every consecutive pair of points has equal `x` or equal `y`. -/
def manhattan (path : List MXPoint) : Prop :=
  List.Chain' (fun a b => a.x = b.x ∨ a.y = b.y) path

/-- The polyline of an edge: source point, waypoints in order, target point. -/
def polyline (cell : MXCell) : List MXPoint :=
  cell.geometry.sourcePoint :: (cell.geometry.points ++ [cell.geometry.targetPoint])

/-! ## Outlines of the perimeter kinds -/

/-- The point `p` lies on the segment from `a` to `b`. -/
def onSegment (a b p : ℚ × ℚ) : Prop :=
  (b.1 - a.1) * (p.2 - a.2) = (b.2 - a.2) * (p.1 - a.1) ∧
    min a.1 b.1 ≤ p.1 ∧ p.1 ≤ max a.1 b.1 ∧ min a.2 b.2 ≤ p.2 ∧ p.2 ≤ max a.2 b.2

/-- The sides of a polygon whose first corner is `first`, from the corners that remain. -/
def sidesFrom (first : ℚ × ℚ) : List (ℚ × ℚ) → List ((ℚ × ℚ) × (ℚ × ℚ))
  | [] => []
  | [a] => [(a, first)]
  | a :: b :: rest => (a, b) :: sidesFrom first (b :: rest)

/-- The sides of the closed polygon through the corners. -/
def polygonSides : List (ℚ × ℚ) → List ((ℚ × ℚ) × (ℚ × ℚ))
  | [] => []
  | a :: rest => sidesFrom a (a :: rest)

/-- The point `p` lies on a side of the closed polygon through the corners. -/
def onPolygon (corners : List (ℚ × ℚ)) (p : ℚ × ℚ) : Prop :=
  ∃ s ∈ polygonSides corners, onSegment s.1 s.2 p

/-- The corners, in the unit box of an EAST-facing shape, of the polygon that `draw`
emits for the shape of a perimeter kind; `c` is the size parameter over the axis
dimension.  `CALLOUT_P` has the unit box, which is how `adjustEndpoint` treats it, and
`ELLIPSE_P` has no corners. -/
def outlineCorners (k : Perimeter) (c : ℚ) : List (ℚ × ℚ) :=
  match k with
  | .RECTANGLE_P => [(0, 0), (1, 0), (1, 1), (0, 1)]
  | .CALLOUT_P => [(0, 0), (1, 0), (1, 1), (0, 1)]
  | .TRIANGLE_P => [(0, 0), (1, 1 / 2), (0, 1)]
  | .RHOMBUS_P => [(1 / 2, 0), (1, 1 / 2), (1 / 2, 1), (0, 1 / 2)]
  | .PARALLELOGRAM_P => [(0, 1), (c, 0), (1, 0), (1 - c, 1)]
  | .HEXAGON_P => [(c, 0), (1 - c, 0), (1, 1 / 2), (1 - c, 1), (c, 1), (0, 1 / 2)]
  | .STEP_P => [(0, 0), (1 - c, 0), (1, 1 / 2), (1 - c, 1), (0, 1), (c, 1 / 2)]
  | .TRAPEZOID_P => [(0, 1), (c, 0), (1 - c, 0), (1, 1)]
  | .ELLIPSE_P => []

/-- The point `p` lies on the outline of a perimeter kind in the unit box: the ellipse
inscribed in the box for `ELLIPSE_P`, the polygon of `outlineCorners` otherwise. -/
def onOutline (k : Perimeter) (c : ℚ) (p : ℚ × ℚ) : Prop :=
  if k = .ELLIPSE_P then (p.1 - 1 / 2) ^ 2 + (p.2 - 1 / 2) ^ 2 = 1 / 4
  else onPolygon (outlineCorners k c) p

/-- The size parameter of the perimeter kinds that have one. -/
def sizeParameter (shape : MXCell) : ℚ :=
  match shape.style.perimeter with
  | .PARALLELOGRAM_P => shape.style.parallelogramSize
  | .HEXAGON_P => shape.style.hexagonSize
  | .STEP_P => shape.style.stepSize
  | .TRAPEZOID_P => shape.style.trapezoidSize
  | _ => 0

/-- The size parameter over the axis dimension. -/
def sizeRatio (shape : MXCell) : ℚ :=
  sizeParameter shape / axisDimension shape

/-- The perimeter kinds whose outline depends on a size parameter. -/
def Perimeter.sized (k : Perimeter) : Bool :=
  match k with
  | .PARALLELOGRAM_P | .HEXAGON_P | .STEP_P | .TRAPEZOID_P => true
  | _ => false

/-- The pair `(x, y)` lies on the boundary of the unit box. -/
def onUnitBox (x y : ℚ) : Prop :=
  (0 ≤ x ∧ x ≤ 1 ∧ 0 ≤ y ∧ y ≤ 1) ∧ (x = 0 ∨ x = 1 ∨ y = 0 ∨ y = 1)

/-! ## The ellipse perimeter over a library of exact functions -/

/-- The functions of `<cmath>` and the constant `pi` that `adjustEndpoint` calls for
`ELLIPSE_P`, over a field `K` in the place of `double`. -/
structure Libm (K : Type) where
  atan : K → K
  cos : K → K
  sin : K → K
  pi : K

/-- The laws of the exact functions that the ellipse branch relies on. -/
def Libm.exact {K : Type} [LinearOrderedField K] (L : Libm K) : Prop :=
  (∀ t, L.cos t ^ 2 + L.sin t ^ 2 = 1) ∧
    (∀ m, 0 < L.cos (L.atan m) ∧ L.sin (L.atan m) = m * L.cos (L.atan m)) ∧
    (∀ t, L.cos (t + L.pi) = -L.cos t ∧ L.sin (t + L.pi) = -L.sin t)

/-- The `ELLIPSE_P` branch of `adjustEndpoint`, the library taken as a parameter. -/
def adjustEllipseWith {K : Type} [LinearOrderedField K] (L : Libm K) (x y : K) : K × K :=
  if x ≠ 1 / 2 then
    let m := (y - 1 / 2) / (x - 1 / 2)
    let t := L.atan m + (if x < 1 / 2 then L.pi else 0)
    (1 / 2 + 1 / 2 * L.cos t, 1 / 2 + 1 / 2 * L.sin t)
  else (x, y)

/-- The method `MXCell::adjustEndpoint` on a shape whose perimeter is `ELLIPSE_P`, the
library taken as a parameter. -/
def adjustEndpointEllipse {K : Type} [LinearOrderedField K] (L : Libm K) (x y : K) : K × K :=
  if 0 < x ∧ x < 1 ∧ 0 < y ∧ y < 1 then (1 / 2, 1 / 2) else adjustEllipseWith L x y

/-! ## The polar rotation over a library of functions -/

/-- The functions of `<cmath>` and the constant `pi` that `MXCell::getPoint` and
`MXPoint::rotate` call, over a field `K` in the place of `double`. -/
structure Cmath (K : Type) where
  sqrt : K → K
  pow : K → K → K
  atan : K → K
  cos : K → K
  sin : K → K
  pi : K

/-- The method `MXCell::getPoint` (lines 435 to 447 of MXCell.cpp), the library taken as
a parameter; the pair is `(svg:x, svg:y)`. -/
def getPointWith {K : Type} [LinearOrderedField K] (L : Cmath K) (x y cx cy angle : K) :
    K × K :=
  let r := L.sqrt (L.pow (x - cx) 2 + L.pow (y - cy) 2)
  let old_angle :=
    if x ≠ cx then L.atan ((y - cy) / (x - cx)) + (if x > cx then 0 else L.pi)
    else (if y ≤ cy then -1 else 1) * L.pi / 2
  (cx + r * L.cos (old_angle - angle), cy + r * L.sin (old_angle - angle))

/-- The method `MXPoint::rotate` (lines 20 to 28 of MXGeometry.h) on the point `p`, the
library taken as a parameter.  Modelled from the spec: the name `pi` of MXGeometry.h is
declared outside the files at hand and is the constant π, the one that `getPoint` takes
from `boost::math::double_constants`. -/
def rotateWith {K : Type} [LinearOrderedField K] (L : Cmath K) (p center : K × K)
    (angle : K) : K × K :=
  let r := L.sqrt (L.pow (p.1 - center.1) 2 + L.pow (p.2 - center.2) 2)
  let old_angle :=
    if p.1 ≠ center.1 then
      L.atan ((p.2 - center.2) / (p.1 - center.1)) + (if p.1 > center.1 then 0 else L.pi)
    else (if p.2 ≤ center.2 then -1 else 1) * L.pi / 2
  (center.1 + r * L.cos (old_angle - angle), center.2 + r * L.sin (old_angle - angle))

/-! ## The boxes of the router -/

/-- The values of `sourceX, sourceY, sourceWidth, sourceHeight` of `setWaypoints` after the
block of the source (lines 1116 to 1127) and before the block of the target. -/
def routerSourceBox (id_map : IdMap) (cell : MXCell) : Box :=
  if cell.source_id ≠ "" then
    let source := id_map cell.source_id
    if source.parent_id ≠ "" then
      ⟨source.geometry.x + (id_map source.parent_id).geometry.x,
        source.geometry.y + (id_map source.parent_id).geometry.y,
        source.geometry.width, source.geometry.height⟩
    else ⟨source.geometry.x, source.geometry.y, source.geometry.width, source.geometry.height⟩
  else ⟨cell.geometry.sourcePoint.x, cell.geometry.sourcePoint.y, 0, 0⟩

/-! ## Scenarios -/

/-- Scenario S5 of the specification: the default-styled vertices
`A = (0, 0, 10000, 5000)` and `B = (20000, 20000, 10000, 5000)`. -/
def s5Table : IdMap :=
  tableOf [{ id := "A", vertex := true, geometry := { width := 10000, height := 5000 } },
    { id := "B", vertex := true,
      geometry := { x := 20000, y := 20000, width := 10000, height := 5000 } }]

/-- Scenario S5 of the specification: the ORTHOGONAL edge from `A` to `B`, no waypoints. -/
def s5Edge : MXCell :=
  { id := "e", edge := true, source_id := "A", target_id := "B",
    style := { edgeStyle := .ORTHOGONAL } }

/-- Two unrotated EAST-facing rectangles `A = (0, 0, 100, 100)` and
`B = (0, 120, 100, 100)`, one below the other with a gap of 20. -/
def stackedTable : IdMap :=
  tableOf [{ id := "A", vertex := true, geometry := { width := 100, height := 100 } },
    { id := "B", vertex := true, geometry := { y := 120, width := 100, height := 100 } }]

/-- The ORTHOGONAL edge from `A` to `B` of `stackedTable`, no waypoints, default style
otherwise. -/
def stackedEdge : MXCell :=
  { id := "e", edge := true, source_id := "A", target_id := "B",
    style := { edgeStyle := .ORTHOGONAL } }

/-- The environment of the loop of `setWaypoints` on `stackedEdge`. -/
def stackedEnv : RouterEnv :=
  ⟨⟨0, 0, 100, 100⟩, ⟨0, 120, 100, 100⟩, ⟨50, 120⟩⟩

/-- The state of the loop of `setWaypoints` on `stackedEdge` after its first pass, with
`q_dir` as given. -/
def stackedState (q_dir : Direction) : RouterState :=
  ⟨⟨50, 120⟩, .EAST, q_dir, false, true, [⟨50, 120⟩]⟩

/-- The table of scenario S4 without the vertex `A`: only
`B = (20000, 0, 10000, 5000)`. -/
def gapTable : IdMap :=
  tableOf [{ id := "B", vertex := true,
             geometry := { x := 20000, width := 10000, height := 5000 } }]

/-- A vertex with the rhombus perimeter, default style and geometry otherwise. -/
def rhombusCell : MXCell :=
  { id := "r", vertex := true, style := { shape := .RHOMBUS, perimeter := .RHOMBUS_P } }

/-- A hexagon vertex `(0, 0, 100, 60)` with the default `hexagonSize` of 20. -/
def hexagonCell : MXCell :=
  { id := "h", vertex := true, style := { shape := .HEXAGON, perimeter := .HEXAGON_P },
    geometry := { width := 100, height := 60 } }

/-- Scenario S4 of the specification: the STRAIGHT edge from `A` to `B`, no fixed exit or
entry, no waypoints. -/
def s4Edge : MXCell :=
  { id := "e", edge := true, source_id := "A", target_id := "B" }

/-- The vertex `A = (0, 0, 100, 60)` turned by `rotation = -90` and the default-styled
vertex `B = (300, 0, 100, 60)` to its right. -/
def turnedTable : IdMap :=
  tableOf [{ id := "A", vertex := true, style := { rotation := -90 },
             geometry := { width := 100, height := 60 } },
    { id := "B", vertex := true, geometry := { x := 300, width := 100, height := 60 } }]

/-- The ORTHOGONAL edge from `A` to `B` of `turnedTable` with the exit fixed at `(1, 0.5)`,
the middle of a side of `A`. -/
def turnedEdge : MXCell :=
  { id := "e", edge := true, source_id := "A", target_id := "B",
    style := { edgeStyle := .ORTHOGONAL, exitX := some 1, exitY := some (1 / 2),
               startFixed := true } }

/-- Scenario S4 with the source `A` facing WEST. -/
def westTable : IdMap :=
  tableOf [{ id := "A", vertex := true, style := { direction := .WEST },
             geometry := { width := 10000, height := 5000 } },
    { id := "B", vertex := true,
      geometry := { x := 20000, width := 10000, height := 5000 } }]

/-- The members of an edge that `setEndPoints` and `setWaypoints` write. -/
def routeView (c : MXCell) :
    Option Direction × Option Direction × MXPoint × MXPoint × List MXPoint :=
  (c.style.startDir, c.style.endDir, c.geometry.sourcePoint, c.geometry.targetPoint,
    c.geometry.points)

/-- The vertex `A = (0, 0, 100, 60)`, the group `G` at `(500, 400)` and the vertex
`B = (300, 0, 100, 60)` whose parent is `G`. -/
def nestedTable : IdMap :=
  tableOf [{ id := "A", vertex := true, geometry := { width := 100, height := 60 } },
    { id := "G", vertex := true,
      geometry := { x := 500, y := 400, width := 600, height := 300 } },
    { id := "B", vertex := true, parent_id := "G",
      geometry := { x := 300, width := 100, height := 60 } }]

/-- The ORTHOGONAL edge from `A` to `B` of `nestedTable`, no waypoints. -/
def nestedEdge : MXCell :=
  { id := "e", edge := true, source_id := "A", target_id := "B",
    style := { edgeStyle := .ORTHOGONAL } }

/-- A vertex with the triangle perimeter, default style and geometry otherwise. -/
def triangleCell : MXCell :=
  { id := "t", vertex := true, style := { shape := .TRIANGLE, perimeter := .TRIANGLE_P } }

/-- A parallelogram vertex `(0, 0, 100, 60)` with the default `parallelogramSize` of 20. -/
def parallelogramCell : MXCell :=
  { id := "p", vertex := true,
    style := { shape := .PARALLELOGRAM, perimeter := .PARALLELOGRAM_P },
    geometry := { width := 100, height := 60 } }

/-- A step vertex `(0, 0, 100, 60)` with `stepSize = 50`, half its width. -/
def stepHalfCell : MXCell :=
  { id := "s", vertex := true,
    style := { shape := .STEP, perimeter := .STEP_P, stepSize := 50 },
    geometry := { width := 100, height := 60 } }

/-- The run does not end in a read `opt.get()` of an empty `boost::optional`. -/
def NoEmptyRead {α : Type} (r : Except Fault α) : Prop :=
  r ≠ .error .emptyOptional

/-- The ORTHOGONAL edge of scenario S5 with its style string, the exit fixed at the
middle of the right side of the source. -/
def s5Styled : MXCell :=
  { id := "e", edge := true, source_id := "A", target_id := "B",
    style_str := "edgeStyle=orthogonalEdgeStyle;exitX=1;exitY=0.5" }

/-- The cell with another style string `style_str`, every other member as it is. -/
def MXCell.withStyleStr (c : MXCell) (s : String) : MXCell :=
  { c with style_str := s }

/-- The entry `(key, value)` that a token of the style string puts into `style_m`. -/
def tokenPair (t : List Char) : String × String :=
  (String.mk (tokenKey t), String.mk (tokenValue t))

/-- The members of a cell that `setStyle` writes. -/
def styleView (c : MXCell) : DRAWIOStyle × DRAWIOTextStyle :=
  (c.style, c.text_style)

/-! # The code over the arithmetic of double

The definitions above compute in `ℚ` and stop with a fault where a `double` is an
infinity or a NaN and where a function of `<cmath>` has no rational value.  The
definitions of this part are the same code over a type `F` with the operations of
`double` and over a library of the functions of `<cmath>`; they stop only where the code
has undefined behaviour (an empty optional, an index past the end).  The values of the
cell record are read through `Double.lit`. -/

/-- The operations of `double` that the code uses: the conversion of a value of the cell
record or of a literal, the four operations and the negation, the comparisons, and
`std::abs`, `floor` and `fmod`, which do not round. -/
class Double (F : Type) extends Add F, Sub F, Mul F, Div F, Neg F where
  lit : ℚ → F
  lt : F → F → Bool
  le : F → F → Bool
  eq : F → F → Bool
  abs : F → F
  floor : F → F
  fmod : F → F → F

instance instLTDouble {F : Type} [Double F] : LT F :=
  ⟨fun a b => Double.lt a b = true⟩

instance instLEDouble {F : Type} [Double F] : LE F :=
  ⟨fun a b => Double.le a b = true⟩

instance instBEqDouble {F : Type} [Double F] : BEq F :=
  ⟨Double.eq⟩

instance instDecidableLtDouble {F : Type} [Double F] (a b : F) : Decidable (a < b) :=
  inferInstanceAs (Decidable (Double.lt a b = true))

instance instDecidableLeDouble {F : Type} [Double F] (a b : F) : Decidable (a ≤ b) :=
  inferInstanceAs (Decidable (Double.le a b = true))

/-- The functions of `<cmath>` that round, and the constant `pi`. -/
structure StdMath (F : Type) extends Cmath F where
  tan : F → F
  atan2 : F → F → F

/-- The function `std::max(a, b)`: `(a < b) ? b : a`. -/
def Double.max {F : Type} [Double F] (a b : F) : F :=
  if a < b then b else a

/-- The function `std::min(a, b)`: `(b < a) ? b : a`. -/
def Double.min {F : Type} [Double F] (a b : F) : F :=
  if b < a then b else a

/-! ## A double: a number, an infinity or a NaN

The finite values are the elements of an ordered field `K` and finite arithmetic is
exact; the infinities and the NaN follow IEEE 754.  There is one zero, which has the sign
`+`. -/

inductive Ext (K : Type)
  | fin (x : K)
  | posInf
  | negInf
  | nan
  deriving DecidableEq

def Ext.neg {K : Type} [LinearOrderedField K] : Ext K → Ext K
  | .fin a => .fin (-a)
  | .posInf => .negInf
  | .negInf => .posInf
  | .nan => .nan

def Ext.add {K : Type} [LinearOrderedField K] : Ext K → Ext K → Ext K
  | .fin a, .fin b => .fin (a + b)
  | .fin _, .posInf => .posInf
  | .fin _, .negInf => .negInf
  | .posInf, .fin _ => .posInf
  | .posInf, .posInf => .posInf
  | .negInf, .fin _ => .negInf
  | .negInf, .negInf => .negInf
  | _, _ => .nan

/-- The infinity with the sign of `a`, where zero counts as positive. -/
def Ext.infOf {K : Type} [LinearOrderedField K] (a : K) : Ext K :=
  if a < 0 then .negInf else .posInf

def Ext.mul {K : Type} [LinearOrderedField K] : Ext K → Ext K → Ext K
  | .fin a, .fin b => .fin (a * b)
  | .fin a, .posInf => if a = 0 then .nan else Ext.infOf a
  | .fin a, .negInf => if a = 0 then .nan else Ext.infOf (-a)
  | .posInf, .fin b => if b = 0 then .nan else Ext.infOf b
  | .negInf, .fin b => if b = 0 then .nan else Ext.infOf (-b)
  | .posInf, .posInf => .posInf
  | .posInf, .negInf => .negInf
  | .negInf, .posInf => .negInf
  | .negInf, .negInf => .posInf
  | _, _ => .nan

def Ext.div {K : Type} [LinearOrderedField K] : Ext K → Ext K → Ext K
  | .fin a, .fin b =>
    if b = 0 then (if a = 0 then .nan else Ext.infOf a) else .fin (a / b)
  | .fin _, .posInf => .fin 0
  | .fin _, .negInf => .fin 0
  | .posInf, .fin b => Ext.infOf b
  | .negInf, .fin b => Ext.infOf (-b)
  | _, _ => .nan

def Ext.lt {K : Type} [LinearOrderedField K] : Ext K → Ext K → Bool
  | .fin a, .fin b => decide (a < b)
  | .fin _, .posInf => true
  | .negInf, .fin _ => true
  | .negInf, .posInf => true
  | _, _ => false

def Ext.le {K : Type} [LinearOrderedField K] : Ext K → Ext K → Bool
  | .fin a, .fin b => decide (a ≤ b)
  | .fin _, .posInf => true
  | .negInf, .fin _ => true
  | .negInf, .posInf => true
  | .posInf, .posInf => true
  | .negInf, .negInf => true
  | _, _ => false

def Ext.eq {K : Type} [LinearOrderedField K] : Ext K → Ext K → Bool
  | .fin a, .fin b => decide (a = b)
  | .posInf, .posInf => true
  | .negInf, .negInf => true
  | _, _ => false

def Ext.abs {K : Type} [LinearOrderedField K] : Ext K → Ext K
  | .fin a => .fin |a|
  | .posInf => .posInf
  | .negInf => .posInf
  | .nan => .nan

def Ext.floor {K : Type} [LinearOrderedField K] [FloorRing K] : Ext K → Ext K
  | .fin a => .fin ((Int.floor a : Int) : K)
  | x => x

/-- The integer part of a number, rounded toward zero. -/
def truncOf {K : Type} [LinearOrderedField K] [FloorRing K] (a : K) : Int :=
  if 0 ≤ a then Int.floor a else -Int.floor (-a)

/-- The function `fmod(a, b)`: the remainder with the sign of `a`; a NaN for an infinite
`a` and for `b = 0`, and `a` for a finite `a` and an infinite `b`. -/
def Ext.fmod {K : Type} [LinearOrderedField K] [FloorRing K] : Ext K → Ext K → Ext K
  | .fin a, .fin b => if b = 0 then .nan else .fin (a - b * ((truncOf (a / b) : Int) : K))
  | .fin a, .posInf => .fin a
  | .fin a, .negInf => .fin a
  | _, _ => .nan

instance instDoubleExt {K : Type} [LinearOrderedField K] [FloorRing K] : Double (Ext K) where
  add := Ext.add
  sub := fun a b => Ext.add a (Ext.neg b)
  mul := Ext.mul
  div := Ext.div
  neg := Ext.neg
  lit := fun q => .fin (q : K)
  lt := Ext.lt
  le := Ext.le
  eq := Ext.eq
  abs := Ext.abs
  floor := Ext.floor
  fmod := Ext.fmod

/-- Whether a number is an odd integer. -/
def oddInteger {K : Type} [LinearOrderedField K] [FloorRing K] (b : K) : Bool :=
  decide (((Int.floor b : Int) : K) = b ∧ Int.floor b % 2 = 1)

/-- The function `pow(x, y)` at the special values (C11 annex F.10.4.4); on finite
arguments it is the function of the library, an infinity for the zero base with a negative
exponent and a NaN for a negative base with an exponent that is not an integer. -/
def Ext.pow {K : Type} [LinearOrderedField K] [FloorRing K] (pow : K → K → K) :
    Ext K → Ext K → Ext K
  | .fin a, .fin b =>
    if a = 0 ∧ b < 0 then .posInf
    else if a < 0 ∧ ((Int.floor b : Int) : K) ≠ b then .nan
    else .fin (pow a b)
  | .fin a, .posInf =>
    if |a| < 1 then .fin 0 else if |a| = 1 then .fin 1 else .posInf
  | .fin a, .negInf =>
    if |a| < 1 then .posInf else if |a| = 1 then .fin 1 else .fin 0
  | .fin a, .nan => if a = 1 then .fin 1 else .nan
  | .posInf, .fin b => if b = 0 then .fin 1 else if b < 0 then .fin 0 else .posInf
  | .negInf, .fin b =>
    if b = 0 then .fin 1 else if b < 0 then .fin 0
    else if oddInteger b then .negInf else .posInf
  | .posInf, .posInf => .posInf
  | .negInf, .posInf => .posInf
  | .posInf, .negInf => .fin 0
  | .negInf, .negInf => .fin 0
  | .nan, .fin b => if b = 0 then .fin 1 else .nan
  | _, _ => .nan

/-- The function `atan2(y, x)` at the special values (C11 annex F.10.1.4). -/
def Ext.atan2 {K : Type} [LinearOrderedField K] (atan2 : K → K → K) (pi : K) :
    Ext K → Ext K → Ext K
  | .fin y, .fin x => .fin (atan2 y x)
  | .fin _, .posInf => .fin 0
  | .fin y, .negInf => if y < 0 then .fin (-pi) else .fin pi
  | .posInf, .fin _ => .fin (pi / 2)
  | .negInf, .fin _ => .fin (-(pi / 2))
  | .posInf, .posInf => .fin (pi / 4)
  | .negInf, .posInf => .fin (-(pi / 4))
  | .posInf, .negInf => .fin (3 * pi / 4)
  | .negInf, .negInf => .fin (-(3 * pi / 4))
  | _, _ => .nan

/-- A library over the numbers, carried to the doubles: a NaN gives a NaN, and the
infinities follow annex F of C11. -/
def Cmath.lift {K : Type} [LinearOrderedField K] [FloorRing K] (L : Cmath K) :
    Cmath (Ext K) where
  sqrt := fun x => match x with
    | .fin a => if a < 0 then .nan else .fin (L.sqrt a)
    | .posInf => .posInf
    | _ => .nan
  pow := Ext.pow L.pow
  atan := fun x => match x with
    | .fin a => .fin (L.atan a)
    | .posInf => .fin (L.pi / 2)
    | .negInf => .fin (-(L.pi / 2))
    | .nan => .nan
  cos := fun x => match x with
    | .fin a => .fin (L.cos a)
    | _ => .nan
  sin := fun x => match x with
    | .fin a => .fin (L.sin a)
    | _ => .nan
  pi := .fin L.pi

def StdMath.lift {K : Type} [LinearOrderedField K] [FloorRing K] (L : StdMath K) :
    StdMath (Ext K) where
  toCmath := L.toCmath.lift
  tan := fun x => match x with
    | .fin a => .fin (L.tan a)
    | _ => .nan
  atan2 := Ext.atan2 L.atan2 L.pi

/-- The functions `sqrt`, `pow`, `atan`, `cos` and `sin` of the library are exact: they
satisfy the laws of the real functions that the polar rotation relies on. -/
def Cmath.exact {K : Type} [LinearOrderedField K] (L : Cmath K) : Prop :=
  (∀ x, 0 ≤ x → 0 ≤ L.sqrt x ∧ L.sqrt x * L.sqrt x = x) ∧
  (∀ x, L.pow x 2 = x * x) ∧
  (∀ a b, L.cos (a - b) = L.cos a * L.cos b + L.sin a * L.sin b) ∧
  (∀ a b, L.sin (a - b) = L.sin a * L.cos b - L.cos a * L.sin b) ∧
  (∀ m, 0 < L.cos (L.atan m) ∧ L.sin (L.atan m) = m * L.cos (L.atan m)) ∧
  (∀ a, L.cos (a + L.pi) = -L.cos a ∧ L.sin (a + L.pi) = -L.sin a) ∧
  (L.cos (L.pi / 2) = 0 ∧ L.sin (L.pi / 2) = 1) ∧
  (∀ a, L.cos a * L.cos a + L.sin a * L.sin a = 1)

namespace fp

open Double (lit)

/-! ## MXGeometry.h over the arithmetic of double -/

structure MXPoint (F : Type) where
  x : F
  y : F
  deriving DecidableEq

/-- The method `MXPoint::rotate(center, angle)`; `pi` is the constant of the library. -/
def MXPoint.rotate {F : Type} [Double F] (L : Cmath F) (p center : MXPoint F) (angle : F) :
    MXPoint F :=
  let r := L.sqrt (L.pow (p.x - center.x) (lit 2) + L.pow (p.y - center.y) (lit 2))
  let old_angle :=
    if p.x != center.x then
      L.atan ((p.y - center.y) / (p.x - center.x)) + (if p.x > center.x then lit 0 else L.pi)
    else (if p.y ≤ center.y then lit (-1) else lit 1) * L.pi / lit 2
  ⟨center.x + r * L.cos (old_angle - angle), center.y + r * L.sin (old_angle - angle)⟩

/-- The operator `MXPoint + MXPoint`. -/
def MXPoint.add {F : Type} [Double F] (p1 p2 : MXPoint F) : MXPoint F :=
  ⟨p1.x + p2.x, p1.y + p2.y⟩

/-- The members of `MXGeometry` that the code computes with. -/
structure MXGeometry (F : Type) where
  x : F
  y : F
  width : F
  height : F
  sourcePoint : MXPoint F
  targetPoint : MXPoint F
  points : List (MXPoint F)
  deriving DecidableEq

/-- The point of the cell record as a point of doubles. -/
def MXPoint.ofPoint {F : Type} [Double F] (p : libdrawio.MXPoint) : MXPoint F :=
  ⟨lit p.x, lit p.y⟩

/-- The geometry of the cell record as a geometry of doubles. -/
def MXGeometry.ofCell {F : Type} [Double F] (cell : MXCell) : MXGeometry F :=
  { x := lit cell.geometry.x, y := lit cell.geometry.y,
    width := lit cell.geometry.width, height := lit cell.geometry.height,
    sourcePoint := MXPoint.ofPoint cell.geometry.sourcePoint,
    targetPoint := MXPoint.ofPoint cell.geometry.targetPoint,
    points := cell.geometry.points.map MXPoint.ofPoint }

/-! ## PathContext over the arithmetic of double -/

structure PathStep (F : Type) where
  action : String
  points : List (MXPoint F)
  deriving DecidableEq

structure PathContext (F : Type) where
  path : List (PathStep F)
  center : MXPoint F
  origin : MXPoint F
  width : F
  height : F
  angle : F
  direction : Direction
  deriving DecidableEq

/-- The constructor `PathContext(MXCell& cell)`, which reads the geometry and the style of
the cell. -/
def PathContext.new {F : Type} [Double F] (L : Cmath F) (cell : MXCell)
    (geometry : MXGeometry F) : PathContext F :=
  let origin : MXPoint F := ⟨geometry.x / lit 100, geometry.y / lit 100⟩
  let width := geometry.width / lit 100
  let height := geometry.height / lit 100
  let center : MXPoint F := ⟨width / lit 2, height / lit 2⟩
  let direction := cell.style.direction
  let angle := -lit cell.style.rotation * L.pi / lit 180
  let swapped := vertical direction
  let origin : MXPoint F :=
    if swapped then
      ⟨origin.x + (width - height) / lit 2, origin.y + (height - width) / lit 2⟩
    else origin
  let width1 := if swapped then height else width
  let height1 := if swapped then width else height
  let center : MXPoint F := if swapped then ⟨center.y, center.x⟩ else center
  let angle := if direction = .SOUTH then angle - L.pi / lit 2 else angle
  let angle := if direction = .WEST then angle - L.pi else angle
  let angle := if direction = .NORTH then angle + L.pi / lit 2 else angle
  { path := [], center := center, origin := origin, width := width1, height := height1,
    angle := angle, direction := direction }

/-- The assignment `point = origin + point.rotate(center, angle)` of `addStep`. -/
def PathContext.emit {F : Type} [Double F] (L : Cmath F) (c : PathContext F)
    (point : MXPoint F) : MXPoint F :=
  c.origin.add (point.rotate L c.center c.angle)

/-- The method `PathContext::addStep`: at most three points are stored in the step. -/
def PathContext.addStep {F : Type} [Double F] (L : Cmath F) (c : PathContext F)
    (action : String) (points : List (MXPoint F)) : PathContext F :=
  { c with path := c.path ++ [⟨action, (points.map (c.emit L)).take 3⟩] }

def PathContext.moveTo {F : Type} [Double F] (L : Cmath F) (c : PathContext F) (x y : F) :
    PathContext F :=
  c.addStep L "M" [⟨x, y⟩]

def PathContext.lineTo {F : Type} [Double F] (L : Cmath F) (c : PathContext F) (x y : F) :
    PathContext F :=
  c.addStep L "L" [⟨x, y⟩]

def PathContext.quadTo {F : Type} [Double F] (L : Cmath F) (c : PathContext F)
    (x1 y1 x y : F) : PathContext F :=
  c.addStep L "Q" [⟨x, y⟩, ⟨x1, y1⟩]

def PathContext.curveTo {F : Type} [Double F] (L : Cmath F) (c : PathContext F)
    (x1 y1 x2 y2 x y : F) : PathContext F :=
  c.addStep L "C" [⟨x, y⟩, ⟨x1, y1⟩, ⟨x2, y2⟩]

def PathContext.close {F : Type} [Double F] (L : Cmath F) (c : PathContext F) :
    PathContext F :=
  c.addStep L "Z" []

/-- The read `points[i]`; past the end of the vector it is undefined behaviour. -/
def vectorAt {F : Type} (points : List (MXPoint F)) (i : Nat) : Except Fault (MXPoint F) :=
  match points.get? i with
  | some p => .ok p
  | none => .error .outOfBounds

/-- The loop `while (i < bound) { p = points[i]; lineTo(p.x, p.y); i++; }` of `addPoints`;
it returns the context and the final value of `i`. -/
def PathContext.addPointsLoop {F : Type} [Double F] (L : Cmath F) (points : List (MXPoint F))
    (bound : Nat) : Nat → PathContext F → Nat → Except Fault (PathContext F × Nat)
  | 0, _, _ => .error .outOfFuel
  | fuel + 1, c, i =>
    if i < bound then do
      let p ← vectorAt points i
      PathContext.addPointsLoop L points bound fuel (c.lineTo L p.x p.y) (i + 1)
    else .ok (c, i)

/-- The method `PathContext::addPoints`.  The loop runs at most `points.size()` times. -/
def PathContext.addPoints {F : Type} [Double F] (L : Cmath F) (c : PathContext F)
    (points : List (MXPoint F)) (close_path : Bool) : Except Fault (PathContext F) :=
  if points.isEmpty then .ok c
  else do
    let p ← vectorAt points 0
    let r ← PathContext.addPointsLoop L points
      (points.length - (if close_path then 0 else 1)) (points.length + 1)
      (c.moveTo L p.x p.y) 1
    if close_path then pure (r.1.close L)
    else do
      let p ← vectorAt points r.2
      pure (r.1.lineTo L p.x p.y)

/-! ## MXCell::draw, the vertex branch, over the arithmetic of double -/

structure Transform (F : Type) where
  t1x : F
  t1y : F
  angle : F
  t2x : F
  t2y : F
  deriving DecidableEq

inductive DrawCall (F : Type)
  | drawRectangle (x y width height : F) (transform : Transform F)
  | drawEllipse (rx ry cx cy rotate : F)
  | drawPath (d : List (PathStep F))
  deriving DecidableEq

/-- The vertex branch of `MXCell::draw` (lines 157 to 347): the parent offset, the local
frame and the drawing call of the shape. -/
def drawVertex {F : Type} [Double F] (L : Cmath F) (id_map : IdMap) (cell : MXCell) :
    Except Fault (DrawCall F) := do
  let g0 : MXGeometry F := MXGeometry.ofCell cell
  let geometry : MXGeometry F :=
    if cell.parent_id ≠ "" then
      { g0 with
        x := g0.x + lit (id_map cell.parent_id).geometry.x
        y := g0.y + lit (id_map cell.parent_id).geometry.y }
    else g0
  let style := cell.style
  let rx := geometry.width / lit 200
  let ry := geometry.height / lit 200
  let cx := geometry.x / lit 100 + rx
  let cy := geometry.y / lit 100 + ry
  let c := PathContext.new L cell geometry
  let w := c.width
  let h := c.height
  let angle := -lit style.rotation * L.pi / lit 180
  if style.shape = .RECTANGLE then
    let dx := L.sqrt (L.pow rx (lit 2) + L.pow ry (lit 2)) * L.cos (L.atan (ry / rx) - angle) - rx
    let dy := L.sqrt (L.pow rx (lit 2) + L.pow ry (lit 2)) * L.sin (L.atan (ry / rx) - angle) - ry
    pure (.drawRectangle (geometry.x / lit 100) (geometry.y / lit 100)
      (geometry.width / lit 100) (geometry.height / lit 100)
      ⟨-geometry.x / lit 100, -geometry.y / lit 100, angle, cx - rx - dx, cy - ry - dy⟩)
  else if style.shape = .ELLIPSE then
    pure (.drawEllipse rx ry cx cy (-lit style.rotation))
  else if style.shape = .TRIANGLE then do
    let c ← c.addPoints L [⟨lit 0, lit 0⟩, ⟨w, h / lit 2⟩, ⟨lit 0, h⟩] true
    pure (.drawPath c.path)
  else if style.shape = .CALLOUT then do
    let s := Double.max (lit 0) (lit style.calloutLength / lit 100)
    let dx := w * Double.max (lit 0) (Double.min (lit 1) (lit style.calloutPosition))
    let dx2 := w * Double.max (lit 0) (Double.min (lit 1) (lit style.calloutTipPosition))
    let base := Double.max (lit 0) (lit style.calloutWidth / lit 100)
    let c ← c.addPoints L
      [⟨lit 0, lit 0⟩, ⟨w, lit 0⟩, ⟨w, h - s⟩, ⟨dx + base, h - s⟩, ⟨dx2, h⟩, ⟨dx, h - s⟩,
       ⟨lit 0, h - s⟩] true
    pure (.drawPath c.path)
  else if style.shape = .PROCESS then do
    let inset := w * Double.max (lit 0) (Double.min (lit 1) (lit style.processBarSize))
    let c := c.moveTo L inset (lit 0)
    let c := c.lineTo L inset h
    let c := c.close L
    let c := c.moveTo L (w - inset) (lit 0)
    let c := c.lineTo L (w - inset) h
    let c := c.close L
    let c ← c.addPoints L [⟨lit 0, lit 0⟩, ⟨w, lit 0⟩, ⟨w, h⟩, ⟨lit 0, h⟩] true
    pure (.drawPath c.path)
  else if style.shape = .RHOMBUS then do
    let c ← c.addPoints L
      [⟨w / lit 2, lit 0⟩, ⟨w, h / lit 2⟩, ⟨w / lit 2, h⟩, ⟨lit 0, h / lit 2⟩] true
    pure (.drawPath c.path)
  else if style.shape = .PARALLELOGRAM then do
    let dx := lit style.parallelogramSize / lit 100
    let c ← c.addPoints L [⟨lit 0, h⟩, ⟨dx, lit 0⟩, ⟨w, lit 0⟩, ⟨w - dx, h⟩] true
    pure (.drawPath c.path)
  else if style.shape = .HEXAGON then do
    let s := lit style.hexagonSize / lit 100
    let c ← c.addPoints L
      [⟨s, lit 0⟩, ⟨w - s, lit 0⟩, ⟨w, h / lit 2⟩, ⟨w - s, h⟩, ⟨s, h⟩, ⟨lit 0, h / lit 2⟩] true
    pure (.drawPath c.path)
  else if style.shape = .STEP then do
    let s := lit style.stepSize / lit 100
    let c ← c.addPoints L
      [⟨lit 0, lit 0⟩, ⟨w - s, lit 0⟩, ⟨w, h / lit 2⟩, ⟨w - s, h⟩, ⟨lit 0, h⟩, ⟨s, h / lit 2⟩]
      true
    pure (.drawPath c.path)
  else if style.shape = .TRAPEZOID then do
    let dx := lit style.trapezoidSize / lit 100
    let c ← c.addPoints L [⟨lit 0, h⟩, ⟨dx, lit 0⟩, ⟨w - dx, lit 0⟩, ⟨w, h⟩] true
    pure (.drawPath c.path)
  else if style.shape = .CARD then do
    let s := lit style.cardSize / lit 100
    let c ← c.addPoints L [⟨s, lit 0⟩, ⟨w, lit 0⟩, ⟨w, h⟩, ⟨lit 0, h⟩, ⟨lit 0, s⟩] true
    pure (.drawPath c.path)
  else if style.shape = .INTERNAL_STORAGE then do
    let dx := lit style.storageX / lit 100
    let dy := lit style.storageY / lit 100
    let c := c.moveTo L (lit 0) dy
    let c := c.lineTo L w dy
    let c := c.close L
    let c := c.moveTo L dx (lit 0)
    let c := c.lineTo L dx h
    let c := c.close L
    let c ← c.addPoints L [⟨lit 0, lit 0⟩, ⟨w, lit 0⟩, ⟨w, h⟩, ⟨lit 0, h⟩] true
    pure (.drawPath c.path)
  else if style.shape = .OR then
    let c := c.moveTo L (lit 0) (lit 0)
    let c := c.quadTo L w (lit 0) w (h / lit 2)
    let c := c.quadTo L w h (lit 0) h
    let c := c.close L
    pure (.drawPath c.path)
  else if style.shape = .XOR then
    let c := c.moveTo L (lit 0) (lit 0)
    let c := c.quadTo L w (lit 0) w (h / lit 2)
    let c := c.quadTo L w h (lit 0) h
    let c := c.quadTo L (w / lit 2) (h / lit 2) (lit 0) (lit 0)
    let c := c.close L
    pure (.drawPath c.path)
  else if style.shape = .DOCUMENT then
    let dy := h * lit style.documentSize
    let fy : F := lit (7 / 5)
    let c := c.moveTo L (lit 0) (lit 0)
    let c := c.lineTo L w (lit 0)
    let c := c.lineTo L w (h - dy / lit 2)
    let c := c.quadTo L (w * lit 3 / lit 4) (h - dy * fy) (w / lit 2) (h - dy / lit 2)
    let c := c.quadTo L (w / lit 4) (h - dy * (lit 1 - fy)) (lit 0) (h - dy / lit 2)
    let c := c.close L
    pure (.drawPath c.path)
  else if style.shape = .TAPE then
    let dy := h * lit style.tapeSize
    let fy : F := lit (7 / 5)
    let c := c.moveTo L (lit 0) (dy / lit 2)
    let c := c.quadTo L (w / lit 4) (dy * fy) (w / lit 2) (dy / lit 2)
    let c := c.quadTo L (w * lit 3 / lit 4) (dy * (lit 1 - fy)) w (dy / lit 2)
    let c := c.lineTo L w (h - dy / lit 2)
    let c := c.quadTo L (w * lit 3 / lit 4) (h - dy * fy) (w / lit 2) (h - dy / lit 2)
    let c := c.quadTo L (w / lit 4) (h - dy * (lit 1 - fy)) (lit 0) (h - dy / lit 2)
    let c := c.close L
    pure (.drawPath c.path)
  else
    let s := lit style.dataStorageSize / lit 100
    let c := c.moveTo L s (lit 0)
    let c := c.lineTo L w (lit 0)
    let c := c.quadTo L (w - lit 2 * s) (h / lit 2) w h
    let c := c.lineTo L s h
    let c := c.quadTo L (s - lit 2 * s) (h / lit 2) s (lit 0)
    let c := c.close L
    pure (.drawPath c.path)

/-! ## MXCell::adjustEndpoint, MXCell::getPoint, MXCell::setEndpointInShape over the
arithmetic of double -/

/-- The axis dimension the size parameters of the perimeters are divided by. -/
def axisDimension {F : Type} [Double F] (shape : MXCell) : F :=
  if shape.style.direction = .NORTH ∨ shape.style.direction = .SOUTH
  then lit shape.geometry.height else lit shape.geometry.width

/-- The `TRIANGLE_P` branch of `adjustEndpoint`. -/
def adjustTriangle {F : Type} [Double F] (x y : F) : F × F :=
  if y < lit (1 / 2) ∧ x > lit 0 then
    let m := (x - lit (1 / 2)) / (y - lit (1 / 2))
    let oy := (lit (1 / 2) - m / lit 2) / (lit 2 - m)
    (lit 2 * oy, oy)
  else if y > lit (1 / 2) ∧ x > lit 0 then
    let m := (x - lit (1 / 2)) / (y - lit (1 / 2))
    let oy := (lit (3 / 2) + m / lit 2) / (lit 2 + m)
    (lit 2 - lit 2 * oy, oy)
  else (x, y)

/-- The `ELLIPSE_P` branch of `adjustEndpoint`. -/
def adjustEllipse {F : Type} [Double F] (L : Cmath F) (x y : F) : F × F :=
  if x != lit (1 / 2) then
    let m := (y - lit (1 / 2)) / (x - lit (1 / 2))
    let t := L.atan m + (if x < lit (1 / 2) then L.pi else lit 0)
    (lit (1 / 2) + lit (1 / 2) * L.cos t, lit (1 / 2) + lit (1 / 2) * L.sin t)
  else (x, y)

/-- The `RHOMBUS_P` branch of `adjustEndpoint`. -/
def adjustRhombus {F : Type} [Double F] (x y : F) : F × F :=
  if x < lit (1 / 2) ∧ y < lit (1 / 2) then
    let m := (y - lit (1 / 2)) / (x - lit (1 / 2))
    let ox := m / (lit 2 + lit 2 * m)
    (ox, -ox + lit (1 / 2))
  else if x < lit (1 / 2) ∧ y > lit (1 / 2) then
    let m := (y - lit (1 / 2)) / (x - lit (1 / 2))
    let ox := m / (lit 2 * m - lit 2)
    (ox, ox + lit (1 / 2))
  else if x > lit (1 / 2) ∧ y < lit (1 / 2) then
    let m := (y - lit (1 / 2)) / (x - lit (1 / 2))
    let ox := (m - lit 2) / (lit 2 * m - lit 2)
    (ox, ox - lit (1 / 2))
  else if x > lit (1 / 2) ∧ y > lit (1 / 2) then
    let m := (y - lit (1 / 2)) / (x - lit (1 / 2))
    let ox := (m + lit 2) / (lit 2 * m + lit 2)
    (ox, -ox + lit (3 / 2))
  else (x, y)

/-- The `PARALLELOGRAM_P` branch of `adjustEndpoint` after `c` is computed. -/
def adjustParallelogram {F : Type} [Double F] (c x y : F) : F × F :=
  if c != lit 0 ∧ x != lit (1 / 2) then
    let m := (y - lit (1 / 2)) / (x - lit (1 / 2))
    if x < c ∧ y < lit 1 then
      let ox := (m * c + c) / (lit 2 * m * c + lit 2)
      (ox, lit 1 - ox / c)
    else if x > lit 1 - c ∧ y > lit 0 then
      let ox := (m * c - c + lit 2) / (lit 2 * m * c + lit 2)
      (ox, (lit 1 - ox) / c)
    else (x, y)
  else (x, y)

/-- The `HEXAGON_P` branch of `adjustEndpoint` after `c` is computed. -/
def adjustHexagon {F : Type} [Double F] (c x y : F) : F × F :=
  if c != lit 0 ∧ x != lit (1 / 2) then
    let m := (y - lit (1 / 2)) / (x - lit (1 / 2))
    if x < c ∧ y < lit (1 / 2) then
      let ox := c * m / (lit 2 * c * m + lit 1)
      (ox, -ox / (lit 2 * c) + lit (1 / 2))
    else if x > lit 1 - c ∧ y < lit (1 / 2) then
      let ox := (m * c - lit 1) / (lit 2 * m * c - lit 1)
      (ox, (ox + c - lit 1) / (lit 2 * c))
    else if x < c ∧ y > lit (1 / 2) then
      let ox := m * c / (lit 2 * m * c - lit 1)
      (ox, ox / (lit 2 * c) + lit (1 / 2))
    else if x > lit 1 - c ∧ y > lit (1 / 2) then
      let ox := (m * c + lit 1) / (lit 2 * m * c + lit 1)
      (ox, (lit 1 + c - ox) / (lit 2 * c))
    else (x, y)
  else (x, y)

/-- The `STEP_P` branch of `adjustEndpoint` after `c` is computed. -/
def adjustStep {F : Type} [Double F] (c x y : F) : F × F :=
  if x == lit 0 ∧ c > lit (1 / 2) ∧ lit 0 < y ∧ y < lit 1 then (lit (1 / 2), lit (1 / 2))
  else if y == lit (1 / 2) then (if x == lit 0 then c else lit 1, y)
  else
    let m := (x - lit (1 / 2)) / (y - lit (1 / 2))
    if x == lit 0 ∧ y < lit (1 / 2) then
      let oy := (lit 1 - m) / (lit 4 * c - lit 2 * m)
      (lit 2 * c * oy, oy)
    else if x == lit 0 ∧ y > lit (1 / 2) then
      let oy := (lit 4 * c - lit 1 + m) / (lit 4 * c + lit 2 * m)
      (lit 2 * c - lit 2 * c * oy, oy)
    else if x > lit 1 - c ∧ y < lit (1 / 2) then
      let oy := (lit 1 - lit 2 * c + m) / (lit 2 * m - lit 4 * c)
      (lit 2 * c * oy + lit 1 - c, oy)
    else if x > lit 1 - c ∧ y > lit (1 / 2) then
      let oy := (lit 1 + lit 2 * c + m) / (lit 4 * c + lit 2 * m)
      (lit 1 + c - lit 2 * c * oy, oy)
    else (x, y)

/-- The `TRAPEZOID_P` branch of `adjustEndpoint` after `c` is computed. -/
def adjustTrapezoid {F : Type} [Double F] (c x y : F) : F × F :=
  if c != lit 0 ∧ x != lit (1 / 2) then
    let m := (y - lit (1 / 2)) / (x - lit (1 / 2))
    if x < c ∧ y < lit 1 then
      let ox := (c + m * c) / (lit 2 * m * c + lit 2)
      (ox, lit 1 - ox / c)
    else if x > lit 1 - c ∧ y < lit 1 then
      let ox := (c + m * c - lit 2) / (lit 2 * m * c - lit 2)
      (ox, (ox + c - lit 1) / c)
    else (x, y)
  else (x, y)

/-- The method `MXCell::adjustEndpoint`; the pair returned is the new `(outX, outY)`.
The body of each perimeter kind is the function of that name above. -/
def adjustEndpoint {F : Type} [Double F] (L : Cmath F) (outX outY : F) (shape : MXCell) :
    F × F :=
  let x := outX
  let y := outY
  if lit 0 < x ∧ x < lit 1 ∧ lit 0 < y ∧ y < lit 1 then (lit (1 / 2), lit (1 / 2))
  else if shape.style.perimeter = .TRIANGLE_P then adjustTriangle x y
  else if shape.style.perimeter = .ELLIPSE_P then adjustEllipse L x y
  else if shape.style.perimeter = .RHOMBUS_P then adjustRhombus x y
  else if shape.style.perimeter = .PARALLELOGRAM_P then
    adjustParallelogram
      (Double.min (lit shape.style.parallelogramSize / axisDimension shape) (lit (1 / 2))) x y
  else if shape.style.perimeter = .HEXAGON_P then
    adjustHexagon
      (Double.min (lit shape.style.hexagonSize / axisDimension shape) (lit (1 / 2))) x y
  else if shape.style.perimeter = .STEP_P then
    adjustStep (lit shape.style.stepSize / axisDimension shape) x y
  else if shape.style.perimeter = .TRAPEZOID_P then
    adjustTrapezoid
      (Double.min (lit shape.style.trapezoidSize / axisDimension shape) (lit (1 / 2))) x y
  else (outX, outY)

/-- The method `MXCell::getPoint`; the point is `(svg:x, svg:y)`. -/
def getPoint {F : Type} [Double F] (L : Cmath F) (x y cx cy angle : F) : MXPoint F :=
  let r := L.sqrt (L.pow (x - cx) (lit 2) + L.pow (y - cy) (lit 2))
  let old_angle :=
    if x != cx then L.atan ((y - cy) / (x - cx)) + (if x > cx then lit 0 else L.pi)
    else (if y ≤ cy then lit (-1) else lit 1) * L.pi / lit 2
  ⟨cx + r * L.cos (old_angle - angle), cy + r * L.sin (old_angle - angle)⟩

/-- The method `MXCell::setEndpointInShape`; the point returned is the new value of the
reference `point`.  The default arguments `dx` and `dy` of the declaration are `0`. -/
def setEndpointInShape {F : Type} [Double F] (L : Cmath F) (outX outY : F) (shape : MXCell)
    (dx dy : F) : MXPoint F :=
  let perimeter : Bool :=
    outX == lit 0 || outX == lit 1 || outY == lit 0 || outY == lit 1
  let horiz : Bool :=
    decide (shape.style.direction = .EAST ∨ shape.style.direction = .WEST)
  let outX := outX + dx / (if horiz then lit shape.geometry.width else lit shape.geometry.height)
  let outY := outY + dy / (if horiz then lit shape.geometry.height else lit shape.geometry.width)
  let out := if perimeter then adjustEndpoint L outX outY shape else (outX, outY)
  let outX := out.1
  let outY := out.2
  let xy : F × F :=
    match shape.style.direction with
    | .EAST =>
      (lit shape.geometry.x + outX * lit shape.geometry.width,
       lit shape.geometry.y + outY * lit shape.geometry.height)
    | .WEST =>
      (lit shape.geometry.x + (lit 1 - outX) * lit shape.geometry.width,
       lit shape.geometry.y + (lit 1 - outY) * lit shape.geometry.height)
    | .NORTH =>
      (lit shape.geometry.x + outY * lit shape.geometry.width,
       lit shape.geometry.y + (lit 1 - outX) * lit shape.geometry.height)
    | .SOUTH =>
      (lit shape.geometry.x + (lit 1 - outY) * lit shape.geometry.width,
       lit shape.geometry.y + outX * lit shape.geometry.height)
  let cx := lit shape.geometry.x + lit shape.geometry.width / lit 2
  let cy := lit shape.geometry.y + lit shape.geometry.height / lit 2
  let angle := -lit shape.style.rotation * L.pi / lit 180
  getPoint L xy.1 xy.2 cx cy angle

/-! ## MXCell::setEndPoints over the arithmetic of double -/

/-- The members of the edge that `setEndPoints` and `setWaypoints` write. -/
structure Edge (F : Type) where
  sourcePoint : MXPoint F
  targetPoint : MXPoint F
  points : List (MXPoint F)
  startDir : Option Direction
  endDir : Option Direction
  deriving DecidableEq

/-- The members of the cell record as the edge state before `setEndPoints`. -/
def Edge.ofCell {F : Type} [Double F] (cell : MXCell) : Edge F :=
  { sourcePoint := MXPoint.ofPoint cell.geometry.sourcePoint,
    targetPoint := MXPoint.ofPoint cell.geometry.targetPoint,
    points := cell.geometry.points.map MXPoint.ofPoint,
    startDir := cell.style.startDir, endDir := cell.style.endDir }

/-- The angle `pi * ((int)dir - 1) / 2`. -/
def facingAngle {F : Type} [Double F] (L : Cmath F) (dir : Direction) : F :=
  L.pi * lit ((dir.toInt : ℚ) - 1) / lit 2

/-- The choice of `(outX, outY)` on the unit box that `setEndPoints` makes four times:
`outY = lowY ? 0 : 1; outX = 0.5 + (lowY ? -0.5 : 0.5) / m` when `std::abs(m) > 1`, and
`outX = lowX ? 0 : 1; outY = 0.5 + m * (lowX ? -0.5 : 0.5)` otherwise. -/
def boxExit {F : Type} [Double F] (m : F) (lowY lowX : Bool) : F × F :=
  if Double.abs m > lit 1 then
    (lit (1 / 2) + (if lowY then lit (-1 / 2) else lit (1 / 2)) / m,
      if lowY then lit 0 else lit 1)
  else
    (if lowX then lit 0 else lit 1,
      lit (1 / 2) + m * (if lowX then lit (-1 / 2) else lit (1 / 2)))

/-- The two opening blocks of `setEndPoints`: an endpoint with a fixed exit or entry on a
named shape. -/
def fixedEndpoint {F : Type} [Double F] (L : Cmath F) (id_map : IdMap) (id : String)
    (isFixed : Bool) (ox oy : Option ℚ) (dx dy : ℚ) (point : MXPoint F) :
    Except Fault (MXPoint F) :=
  if id ≠ "" ∧ isFixed = true then do
    let x ← getOpt ox
    let y ← getOpt oy
    pure (setEndpointInShape L (lit x) (lit y) (id_map id) (lit dx) (lit dy))
  else pure point

/-- The centre `(x + width / 2, y + height / 2)` of a cell. -/
def centreOf {F : Type} [Double F] (c : MXCell) : MXPoint F :=
  ⟨lit c.geometry.x + lit c.geometry.width / lit 2,
    lit c.geometry.y + lit c.geometry.height / lit 2⟩

/-- The source block of the `STRAIGHT` branch, run when `!style.startFixed`. -/
def straightSource {F : Type} [Double F] (L : StdMath F) (source : MXCell)
    (points : List (MXPoint F)) (start endp : MXPoint F) : MXPoint F :=
  let inp : MXPoint F := match points.head? with
    | none => endp
    | some p => p
  let angle := L.atan2 (inp.y - start.y) (inp.x - start.x)
  let angle := angle - facingAngle L.toCmath source.style.direction
  let angle := angle - lit source.style.rotation * L.pi / lit 180
  let m := L.tan angle
  let out := boxExit m (decide (inp.y < start.y)) (decide (inp.x < start.x))
  setEndpointInShape L.toCmath out.1 out.2 source (lit 0) (lit 0)

/-- The target block of the `STRAIGHT` branch, run when `!style.endFixed`. -/
def straightTarget {F : Type} [Double F] (L : StdMath F) (target : MXCell)
    (points : List (MXPoint F)) (start endp : MXPoint F) : MXPoint F :=
  let inp : MXPoint F := match points.getLast? with
    | none => start
    | some p => p
  let angle := L.atan2 (endp.y - inp.y) (endp.x - inp.x)
  let angle := angle + L.pi
  let angle := angle - facingAngle L.toCmath target.style.direction
  let angle := angle - lit target.style.rotation * L.pi / lit 180
  let m := L.tan angle
  let out := boxExit m (!decide (endp.y < inp.y)) (!decide (endp.x < inp.x))
  setEndpointInShape L.toCmath out.1 out.2 target (lit 0) (lit 0)

/-- The `STRAIGHT` branch of `setEndPoints` after its early return. -/
def straightEndPoints {F : Type} [Double F] (L : StdMath F) (id_map : IdMap) (cell : MXCell)
    (e : Edge F) : Edge F :=
  let source := id_map cell.source_id
  let target := id_map cell.target_id
  let start : MXPoint F := if cell.style.startFixed then e.sourcePoint else centreOf source
  let endp : MXPoint F := if cell.style.endFixed then e.targetPoint else centreOf target
  let sp := if cell.style.startFixed then e.sourcePoint
    else straightSource L source e.points start endp
  let tp := if cell.style.endFixed then e.targetPoint
    else straightTarget L target e.points start endp
  { e with sourcePoint := sp, targetPoint := tp }

/-- A box `x, y, width, height`. -/
structure Box (F : Type) where
  x : F
  y : F
  width : F
  height : F
  deriving DecidableEq

def boxOfCell {F : Type} [Double F] (c : MXCell) : Box F :=
  ⟨lit c.geometry.x, lit c.geometry.y, lit c.geometry.width, lit c.geometry.height⟩

def boxOfPoint {F : Type} [Double F] (p : MXPoint F) : Box F :=
  ⟨p.x, p.y, lit 0, lit 0⟩

/-- The cascade that chooses `style.startDir` from the two boxes. -/
def startCascade {F : Type} [Double F] (s e : Box F) : Direction :=
  if e.x + e.width < s.x then .WEST
  else if e.x > s.x + s.width then .EAST
  else if e.y ≤ s.y then .NORTH
  else .SOUTH

/-- The cascade that chooses `style.endDir` from the two boxes and `style.startDir`. -/
def endCascade {F : Type} [Double F] (s e : Box F) (startDir : Direction) : Direction :=
  if e.y + e.height < s.y then .SOUTH
  else if e.y > s.y + s.height then .NORTH
  else if e.x + e.width < s.x then .EAST
  else if e.x > s.x + s.width then .WEST
  else if e.x > s.x then startDir
  else if startDir = .NORTH then .SOUTH
  else .NORTH

/-- The side of a box a point lies on: `p.x < x ? WEST : p.y < y ? NORTH :
p.x > x + width ? EAST : SOUTH`. -/
def sideOf {F : Type} [Double F] (p : MXPoint F) (b : Box F) : Direction :=
  if p.x < b.x then .WEST
  else if p.y < b.y then .NORTH
  else if p.x > b.x + b.width then .EAST
  else .SOUTH

/-- The test `new_start` (and `new_end`): the point is outside the box on both axes. -/
def diagonalTo {F : Type} [Double F] (p : MXPoint F) (b : Box F) : Bool :=
  (decide (p.x < b.x) || decide (p.x > b.x + b.width))
    && (decide (p.y < b.y) || decide (p.y > b.y + b.height))

/-- The block of the `ORTHOGONAL` branch that runs when the edge has waypoints: the new
`startDir`, `endDir` and waypoint list. -/
def orthogonalJoin {F : Type} [Double F] (s e : Box F) (startDir endDir : Direction)
    (points : List (MXPoint F)) (p q : MXPoint F) :
    Direction × Direction × List (MXPoint F) :=
  let size : Int := points.length
  let new_start := diagonalTo p s
  let new_end := diagonalTo q e
  let startDir := if !new_start then sideOf p s else startDir
  let endDir := if !new_end then sideOf q e else endDir
  if new_start then
    let r : Direction × List (MXPoint F) :=
      if !new_end ∧ ((if endDir = .WEST ∨ endDir = .EAST then 1 else 0) = size % 2) then
        (if p.x < s.x then Direction.WEST else Direction.EAST,
          (⟨p.x, s.y + s.height / lit 2⟩ : MXPoint F) :: points)
      else
        (if p.y < s.y then Direction.NORTH else Direction.SOUTH,
          (⟨s.x + s.width / lit 2, p.y⟩ : MXPoint F) :: points)
    if new_end then
      if size % 2 = 0 then
        (r.1, if q.y < e.y then Direction.NORTH else Direction.SOUTH,
          r.2 ++ [⟨e.x + e.width / lit 2, q.y⟩])
      else
        (r.1, if q.x < e.x then Direction.WEST else Direction.EAST,
          r.2 ++ [⟨q.x, e.y + e.height / lit 2⟩])
    else (r.1, endDir, r.2)
  else if new_end ∨ size = 1 then
    if size % 2 = (if startDir = .EAST ∨ startDir = .WEST then 1 else 0) then
      (startDir, if q.x < e.x then Direction.WEST else Direction.EAST,
        points ++ [⟨q.x, e.y + e.height / lit 2⟩])
    else
      (startDir, if q.y < e.y then Direction.NORTH else Direction.SOUTH,
        points ++ [⟨e.x + e.width / lit 2, q.y⟩])
  else (startDir, endDir, points)

/-- The endpoint of the `ORTHOGONAL` branch on a shape the edge leaves in direction
`dir`, for an endpoint that is not fixed; `near` is the waypoint next to it
(`points.front()` for the source, `points.back()` for the target). -/
def orthogonalFree {F : Type} [Double F] (L : StdMath F) (shape : MXCell) (dir : Direction)
    (near : Option (MXPoint F)) : MXPoint F :=
  let angle := facingAngle L.toCmath dir
  let angle := angle - facingAngle L.toCmath shape.style.direction
  let angle := angle - lit shape.style.rotation * L.pi / lit 180
  let m := L.tan angle
  let out := boxExit m (decide (dir = .NORTH)) (decide (dir = .WEST))
  let pt := setEndpointInShape L.toCmath out.1 out.2 shape (lit 0) (lit 0)
  match near with
  | some p =>
    if (lit shape.style.rotation : F) == lit 0 then
      if dir = .NORTH ∨ dir = .SOUTH then ⟨p.x, pt.y⟩ else ⟨pt.x, p.y⟩
    else pt
  | none => pt

/-- The direction of the `ORTHOGONAL` branch for a fixed endpoint `p` on a named shape:
the side of the shape's box, turned by the quarter turns of its rotation, that `p` is on;
`dir` when it is on none or the rotation is no multiple of 90. -/
def orthogonalFixed {F : Type} [Double F] (shape : MXCell) (p : MXPoint F) (dir : Direction) :
    Direction :=
  if Double.fmod (lit shape.style.rotation) (lit 90) == (lit 0 : F) then
    let rx : F := lit shape.geometry.width / lit 2
    let ry : F := lit shape.geometry.height / lit 2
    let cx := lit shape.geometry.x + rx
    let cy := lit shape.geometry.y + ry
    let swap : Bool :=
      Double.fmod (Double.floor (lit shape.style.rotation / lit 90)) (lit 2) == (lit 1 : F)
    let rx1 := if swap then ry else rx
    let ry1 := if swap then rx else ry
    if p.y == cy + ry1 then .SOUTH
    else if p.y == cy - ry1 then .NORTH
    else if p.x == cx - rx1 then .WEST
    else if p.x == cx + rx1 then .EAST
    else dir
  else dir

/-- The end point and direction of the `ORTHOGONAL` branch at one end of the edge: the
block `if (!style.startFixed) ... else if (!source_id.empty()) ...` and its twin for the
target. -/
def orthogonalEnd {F : Type} [Double F] (L : StdMath F) (shape : MXCell) (isFixed : Bool)
    (id : String) (point : MXPoint F) (dir : Direction) (near : Option (MXPoint F)) :
    MXPoint F × Direction :=
  if !isFixed then (orthogonalFree L shape dir near, dir)
  else if id ≠ "" then (point, orthogonalFixed shape point dir)
  else (point, dir)

/-- The directions and the waypoint list that the `ORTHOGONAL` branch of `setEndPoints`
settles on before it computes the end points: the two cascades, then the block that runs
when the edge has waypoints. -/
def orthogonalPlan {F : Type} [Double F] (id_map : IdMap) (cell : MXCell) (e : Edge F) :
    Direction × Direction × List (MXPoint F) :=
  let source := id_map cell.source_id
  let target := id_map cell.target_id
  let s0 : Box F := if cell.source_id ≠ "" then boxOfCell source else boxOfPoint e.sourcePoint
  let e0 : Box F := if cell.target_id ≠ "" then boxOfCell target else boxOfPoint e.targetPoint
  let startDir0 := startCascade s0 e0
  let endDir0 := endCascade s0 e0 startDir0
  let s : Box F := if cell.style.startFixed then boxOfPoint e.sourcePoint else s0
  let t : Box F := if cell.style.endFixed then boxOfPoint e.targetPoint else e0
  match e.points.head?, e.points.getLast? with
  | some p, some q => orthogonalJoin s t startDir0 endDir0 e.points p q
  | _, _ => (startDir0, endDir0, e.points)

/-- The `ORTHOGONAL` branch of `setEndPoints`. -/
def orthogonalEndPoints {F : Type} [Double F] (L : StdMath F) (id_map : IdMap)
    (cell : MXCell) (e : Edge F) : Edge F :=
  let plan := orthogonalPlan id_map cell e
  let src := orthogonalEnd L (id_map cell.source_id) cell.style.startFixed cell.source_id
    e.sourcePoint plan.1 plan.2.2.head?
  let tgt := orthogonalEnd L (id_map cell.target_id) cell.style.endFixed cell.target_id
    e.targetPoint plan.2.1 plan.2.2.getLast?
  { sourcePoint := src.1, targetPoint := tgt.1, points := plan.2.2,
    startDir := some src.2, endDir := some tgt.2 }

/-- The closing block of `setEndPoints`: the offsets of the parents of the two shapes. -/
def parentOffsets {F : Type} [Double F] (id_map : IdMap) (cell : MXCell) (e : Edge F) :
    Edge F :=
  let sp : MXPoint F :=
    if cell.source_id ≠ "" ∧ (id_map cell.source_id).parent_id ≠ "" then
      let parent := id_map (id_map cell.source_id).parent_id
      ⟨e.sourcePoint.x + lit parent.geometry.x, e.sourcePoint.y + lit parent.geometry.y⟩
    else e.sourcePoint
  let tp : MXPoint F :=
    if cell.target_id ≠ "" ∧ (id_map cell.target_id).parent_id ≠ "" then
      let parent := id_map (id_map cell.target_id).parent_id
      ⟨e.targetPoint.x + lit parent.geometry.x, e.targetPoint.y + lit parent.geometry.y⟩
    else e.targetPoint
  { e with sourcePoint := sp, targetPoint := tp }

/-- The method `MXCell::setEndPoints` on the edge `cell`, whose members it writes are in
`e`.  It stops only on the read of an empty optional. -/
def setEndPoints {F : Type} [Double F] (L : StdMath F) (id_map : IdMap) (cell : MXCell)
    (e : Edge F) : Except Fault (Edge F) :=
  if !cell.edge then .ok e
  else do
    let sp ← fixedEndpoint L.toCmath id_map cell.source_id cell.style.startFixed
      cell.style.exitX cell.style.exitY cell.style.exitDx cell.style.exitDy e.sourcePoint
    let tp ← fixedEndpoint L.toCmath id_map cell.target_id cell.style.endFixed
      cell.style.entryX cell.style.entryY cell.style.entryDx cell.style.entryDy e.targetPoint
    let e : Edge F := { e with sourcePoint := sp, targetPoint := tp }
    if cell.style.edgeStyle = .STRAIGHT then
      if cell.style.startFixed && cell.style.endFixed then pure e
      else pure (parentOffsets id_map cell (straightEndPoints L id_map cell e))
    else pure (parentOffsets id_map cell (orthogonalEndPoints L id_map cell e))

/-! ## MXCell::setWaypoints over the arithmetic of double -/

/-- The method `MXCell::pointsTo`. -/
def pointsTo {F : Type} [Double F] (p q : MXPoint F) (dir : Direction) : Bool :=
  match dir with
  | .NORTH => decide (q.y < p.y)
  | .EAST => decide (q.x > p.x)
  | .SOUTH => decide (q.y > p.y)
  | .WEST => decide (q.x < p.x)

/-- The local variables of `setWaypoints` that the loop only reads. -/
structure RouterEnv (F : Type) where
  source : Box F
  target : Box F
  q : MXPoint F
  deriving DecidableEq

/-- The local variables of `setWaypoints` that the loop writes, with `geometry.points`. -/
structure RouterState (F : Type) where
  p : MXPoint F
  p_dir : Direction
  q_dir : Direction
  start : Bool
  hugSource : Bool
  points : List (MXPoint F)
  deriving DecidableEq

/-- The assignment through `double& change = (vertical(p_dir) ? p.y : p.x)`. -/
def setChange {F : Type} (p : MXPoint F) (p_dir : Direction) (v : F) : MXPoint F :=
  if vertical p_dir then { p with y := v } else { p with x := v }

/-- The value `p_dir == NORTH ? y - 20 : p_dir == EAST ? x + width + 20 :
p_dir == SOUTH ? y + height + 20 : x - 20`. -/
def hugValue {F : Type} [Double F] (p_dir : Direction) (b : Box F) : F :=
  if p_dir = .NORTH then b.y - lit 20
  else if p_dir = .EAST then b.x + b.width + lit 20
  else if p_dir = .SOUTH then b.y + b.height + lit 20
  else b.x - lit 20

/-- The value `p_dir == NORTH ? (sourceY + targetY + targetHeight) / 2 : ...`. -/
def midValue {F : Type} [Double F] (p_dir : Direction) (s t : Box F) : F :=
  if p_dir = .NORTH then (s.y + t.y + t.height) / lit 2
  else if p_dir = .EAST then (s.x + t.x + s.width) / lit 2
  else if p_dir = .SOUTH then (s.y + t.y + s.height) / lit 2
  else (s.x + t.x + t.width) / lit 2

/-- The turn `vertical(p_dir) ? (a.x < b.x ? WEST : EAST) : (a.y < b.y ? NORTH : SOUTH)`. -/
def turnToward {F : Type} [Double F] (p_dir : Direction) (a b : MXPoint F) : Direction :=
  if vertical p_dir then (if a.x < b.x then .WEST else .EAST)
  else (if a.y < b.y then .NORTH else .SOUTH)

/-- The test `targetX <= p.x && p.x <= targetX + targetHeight && targetY <= p.y
&& p.y <= targetY + targetHeight`. -/
def insideTarget {F : Type} [Double F] (t : Box F) (p : MXPoint F) : Bool :=
  decide (t.x ≤ p.x) && decide (p.x ≤ t.x + t.height) && decide (t.y ≤ p.y)
    && decide (p.y ≤ t.y + t.height)

/-- The local `dist` of the loop body. -/
def gapDist {F : Type} [Double F] (p_dir : Direction) (s t : Box F) : F :=
  if vertical p_dir then
    Double.min (Double.abs (t.y + t.height - s.y)) (Double.abs (s.y + s.height - t.y))
  else Double.min (Double.abs (t.x + t.width - s.x)) (Double.abs (s.x + s.width - t.x))

/-- The local `overlap` of the loop body. -/
def overlap {F : Type} [Double F] (p_dir : Direction) (s t : Box F) : Bool :=
  if vertical p_dir then
    (decide (t.y < s.y) && decide (s.y < t.y + t.height))
      || (decide (s.y < t.y) && decide (t.y < s.y + s.height))
  else
    (decide (t.x < s.x) && decide (s.x < t.x + t.width))
      || (decide (s.x < t.x) && decide (t.x < s.x + s.width))

/-- The comparison of the centres along `y`: `a < sourceY` gives
`sourceY + sourceHeight/2 < targetY + targetHeight/2`, `a > sourceY + sourceHeight` the
converse, anything else `false`. -/
def besideY {F : Type} [Double F] (s t : Box F) (a : F) (flip : Bool) : Bool :=
  let lt := decide (s.y + s.height / lit 2 < t.y + t.height / lit 2)
  let gt := decide (s.y + s.height / lit 2 > t.y + t.height / lit 2)
  if a < s.y then (if flip then gt else lt)
  else if a > s.y + s.height then (if flip then lt else gt)
  else false

/-- The comparison of the centres along `x`, as `besideY`. -/
def besideX {F : Type} [Double F] (s t : Box F) (a : F) (flip : Bool) : Bool :=
  let lt := decide (s.x + s.width / lit 2 < t.x + t.width / lit 2)
  let gt := decide (s.x + s.width / lit 2 > t.x + t.width / lit 2)
  if a < s.x then (if flip then gt else lt)
  else if a > s.x + s.width then (if flip then lt else gt)
  else false

/-- The flag `obstruction_s` of the first case of the loop body. -/
def obstructionS1 {F : Type} [Double F] (s t : Box F) (p q : MXPoint F) (p_dir : Direction) :
    Bool :=
  if horizontal p_dir then
    if s.x - lit 20 < q.x ∧ q.x < s.x + s.width + lit 20 then besideY s t p.y false
    else if s.y - lit 20 < p.y ∧ p.y < s.y + s.height + lit 20 then besideX s t q.x false
    else false
  else
    if s.x - lit 20 < p.x ∧ p.x < s.x + s.width + lit 20 then besideY s t q.y false
    else if s.y - lit 20 < q.y ∧ q.y < s.y + s.height + lit 20 then besideX s t p.x false
    else false

/-- The flag `obstruction_t` of the first case of the loop body. -/
def obstructionT1 {F : Type} [Double F] (t : Box F) (p : MXPoint F) (p_dir : Direction) :
    Bool :=
  if insideTarget t p then false
  else if horizontal p_dir then
    decide (t.y - lit 20 < p.y) && decide (p.y < t.y + t.height + lit 20)
  else decide (t.x - lit 20 < p.x) && decide (p.x < t.x + t.width + lit 20)

/-- The flag `obstruction_s` of the last case of the loop body. -/
def obstructionS5 {F : Type} [Double F] (s t : Box F) (p q : MXPoint F) (p_dir : Direction) :
    Bool :=
  if vertical p_dir ∧ s.x - lit 20 < q.x ∧ q.x < s.x + s.width + lit 20 then
    besideY s t p.y false
  else if horizontal p_dir ∧ s.y - lit 20 < q.y ∧ q.y < s.y + s.height + lit 2
      ∧ s.y - lit 20 < p.y ∧ p.y < s.y + s.height + lit 20 then besideX s t p.x false
  else false

/-- The flag `obstruction_t` of the last case of the loop body. -/
def obstructionT5 {F : Type} [Double F] (s t : Box F) (p : MXPoint F) (p_dir : Direction) :
    Bool :=
  if insideTarget t p then false
  else if vertical p_dir ∧ t.x - lit 20 < p.x ∧ p.x < t.x + t.width + lit 20 then
    besideY s t p.y true
  else if horizontal p_dir ∧ t.y - lit 20 < p.y ∧ p.y < t.y + t.height + lit 20 then
    besideX s t p.x true
  else false

/-- What one pass through the loop body does: `continue` after
`q_dir = opposite(q_dir)`, or new values of `p`, `p_dir` and `hugSource` on the way to
`geometry.points.push_back(p)`. -/
inductive Pass (F : Type)
  | turn
  | move (p : MXPoint F) (p_dir : Direction) (hugSource : Bool)
  deriving DecidableEq

/-- The body of the loop of `setWaypoints` up to `geometry.points.push_back(p)`. -/
def routerPass {F : Type} [Double F] (env : RouterEnv F) (st : RouterState F) : Pass F :=
  let s := env.source
  let t := env.target
  let q := env.q
  let p := st.p
  let pd := st.p_dir
  let qd := st.q_dir
  let hug : Box F := if st.hugSource then s else t
  let centres : Direction :=
    turnToward pd ⟨t.x + t.width / lit 2, t.y + t.height / lit 2⟩
      ⟨s.x + s.width / lit 2, s.y + s.height / lit 2⟩
  let hugMove : Pass F :=
    let p1 := setChange p pd (hugValue pd hug)
    .move p1 (turnToward pd q p1) st.hugSource
  let hugStart : Pass F :=
    let p1 := setChange p pd (hugValue pd hug)
    .move p1 (if st.start then centres else turnToward pd q p1) st.hugSource
  let midMove : Pass F :=
    let p1 := setChange p pd (midValue pd s t)
    .move p1 (turnToward pd q p1) false
  let midSource : Pass F :=
    let p1 := setChange p pd (midValue pd s t)
    .move p1 (turnToward pd ⟨s.x, s.y⟩ p1) false
  if perpendicular pd qd && pointsTo p q pd && pointsTo q p qd then
    if obstructionS1 s t p q pd then hugMove
    else if obstructionT1 t p pd then midSource
    else .move (setChange p pd (if horizontal pd then q.x else q.y)) (opposite qd)
      st.hugSource
  else if decide (pd = opposite qd) && pointsTo p q pd then
    if gapDist pd s t ≥ lit 40 then midMove else hugMove
  else if perpendicular pd qd then
    if insideTarget t p then .turn
    else if pointsTo p q pd ∧ gapDist pd s t ≥ lit 40 ∧ overlap pd s t = false then midMove
    else hugStart
  else if pd = opposite qd then hugStart
  else if pd = qd then
    if (if vertical pd then p.x else p.y) == (if vertical pd then q.x else q.y) then .turn
    else if insideTarget t p then .turn
    else if !obstructionT5 s t p pd || obstructionS5 s t p q pd then
      let v : F :=
        if pd = .NORTH then Double.min p.y (t.y - lit 20)
        else if pd = .EAST then Double.max p.x (t.x + t.width + lit 20)
        else if pd = .SOUTH then Double.max p.y (t.y + t.height + lit 20)
        else Double.min p.x (t.x - lit 20)
      let p1 := setChange p pd v
      .move p1 (turnToward pd q p1) st.hugSource
    else midSource
  else .move p pd st.hugSource

/-- One pass of the loop of `setWaypoints`. -/
def routerStep {F : Type} [Double F] (env : RouterEnv F) (st : RouterState F) :
    RouterState F :=
  match routerPass env st with
  | .turn => { st with q_dir := opposite st.q_dir }
  | .move p1 d h =>
    { st with p := p1, p_dir := d, hugSource := h, points := st.points ++ [p1], start := false }

/-- The condition of the loop of `setWaypoints`. -/
def routerRunning {F : Type} [Double F] (q : MXPoint F) (st : RouterState F) : Bool :=
  decide (st.p_dir ≠ opposite st.q_dir) || !pointsTo st.p q st.p_dir
    || (st.p.x != q.x && vertical st.p_dir)
    || (st.p.y != q.y && horizontal st.p_dir)

/-- The loop of `setWaypoints`, at most `fuel` passes. -/
def routerLoop {F : Type} [Double F] (env : RouterEnv F) :
    Nat → RouterState F → Except Fault (RouterState F)
  | 0, st => if routerRunning env.q st then .error .outOfFuel else .ok st
  | fuel + 1, st =>
    if routerRunning env.q st then routerLoop env fuel (routerStep env st) else .ok st

/-- The first stub: `p` moved by 20 in direction `p_dir`. -/
def stub {F : Type} [Double F] (p : MXPoint F) (p_dir : Direction) : MXPoint F :=
  match p_dir with
  | .NORTH => { p with y := p.y - lit 20 }
  | .EAST => { p with x := p.x + lit 20 }
  | .SOUTH => { p with y := p.y + lit 20 }
  | .WEST => { p with x := p.x - lit 20 }

/-- The boxes `sourceX, ..., targetHeight` of `setWaypoints`.  The offset of the parent of
the target is added to `sourceX` and `sourceY`, as the source does. -/
def routerBoxes {F : Type} [Double F] (id_map : IdMap) (cell : MXCell) (e : Edge F) :
    Box F × Box F :=
  let s : Box F :=
    if cell.source_id ≠ "" then
      let source := id_map cell.source_id
      let b : Box F := boxOfCell source
      if source.parent_id ≠ "" then
        { b with x := b.x + lit (id_map source.parent_id).geometry.x,
                 y := b.y + lit (id_map source.parent_id).geometry.y }
      else b
    else boxOfPoint e.sourcePoint
  if cell.target_id ≠ "" then
    let target := id_map cell.target_id
    if target.parent_id ≠ "" then
      ({ s with x := s.x + lit (id_map target.parent_id).geometry.x,
                y := s.y + lit (id_map target.parent_id).geometry.y }, boxOfCell target)
    else (s, boxOfCell target)
  else (s, boxOfPoint e.targetPoint)

/-- The method `MXCell::setWaypoints` on the edge `cell`, whose members it reads and writes
are in `e`, its loop run for at most `fuel` passes. -/
def setWaypoints {F : Type} [Double F] (fuel : Nat) (id_map : IdMap) (cell : MXCell)
    (e : Edge F) : Except Fault (Edge F) :=
  if !cell.edge then .ok e
  else if cell.style.edgeStyle = .ORTHOGONAL ∧ e.points.isEmpty then do
    let boxes := routerBoxes id_map cell e
    let p := e.sourcePoint
    let p_dir ← getOpt e.startDir
    let q := e.targetPoint
    let q_dir ← getOpt e.endDir
    if p.x == q.x && p.y == q.y then pure e
    else do
      let st ← routerLoop ⟨boxes.1, boxes.2, q⟩ fuel
        ⟨stub p p_dir, p_dir, q_dir, true, true, e.points⟩
      pure { e with points := st.points }
  else .ok e

/-- The polyline of an edge: source point, waypoints in order, target point. -/
def polyline {F : Type} (e : Edge F) : List (MXPoint F) :=
  e.sourcePoint :: (e.points ++ [e.targetPoint])

/-- A polyline in which every consecutive pair of points has equal `x` or equal `y`, in
the comparison `==` of `double`. -/
def manhattan {F : Type} [Double F] (path : List (MXPoint F)) : Prop :=
  List.Chain' (fun a b => (a.x == b.x) = true ∨ (a.y == b.y) = true) path

end fp

/-- The library is exact: the functions of `Cmath.exact`, `tan` away from its poles, and
`atan2` on the positive `x` axis. -/
def StdMath.exact {K : Type} [LinearOrderedField K] (L : StdMath K) : Prop :=
  L.toCmath.exact ∧
  (∀ a, L.cos a ≠ 0 → L.tan a * L.cos a = L.sin a) ∧
  (∀ x, 0 < x → L.atan2 0 x = 0)

namespace fp

/-- A polyline in which every consecutive pair of points shares the value of `x` or the
value of `y`. -/
def linked {F : Type} (path : List (MXPoint F)) : Prop :=
  List.Chain' (fun a b => a.x = b.x ∨ a.y = b.y) path

/-- A pass of the loop body leaves the coordinate of `p` across `p_dir` as it is. -/
def Pass.keeps {F : Type} (st : RouterState F) : Pass F → Prop
  | .turn => True
  | .move p1 _ _ => if vertical st.p_dir = true then p1.x = st.p.x else p1.y = st.p.y

/-- The last point of the polyline so far: the last waypoint, or the source point. -/
def lastPoint {F : Type} (src : MXPoint F) (points : List (MXPoint F)) : MXPoint F :=
  points.getLast?.getD src

/-- The invariant of the loop of `setWaypoints`: consecutive points of the polyline so far
share a coordinate and its last point agrees with `p` on the coordinate across `p_dir`. -/
def routerInv {F : Type} (src : MXPoint F) (st : RouterState F) : Prop :=
  linked (src :: st.points) ∧
    (if vertical st.p_dir = true then (lastPoint src st.points).x = st.p.x
      else (lastPoint src st.points).y = st.p.y)

/-- No coordinate of the point is a NaN: each compares equal to itself. -/
def MXPoint.ordered {F : Type} [Double F] (p : MXPoint F) : Prop :=
  (p.x == p.x) = true ∧ (p.y == p.y) = true

end fp

/-- An ORTHOGONAL edge from the cell `A`, absent from the table `gapTable`, to the stored
target point `(350, 200)`; it names no target, and `endFixed` is as `setStyle` leaves it
for an empty `target_id`. -/
def danglingEdge : MXCell :=
  { id := "e", edge := true, source_id := "A", target_id := "",
    style := { edgeStyle := .ORTHOGONAL, endFixed := true },
    geometry := { targetPoint := ⟨350, 200⟩ } }

/-! ## The outline of a shape in the drawing -/

namespace fp

/-- The point `p` lies on the segment from `a` to `b`. -/
def onSegment {K : Type} [LinearOrderedField K] (a b p : K × K) : Prop :=
  (b.1 - a.1) * (p.2 - a.2) = (b.2 - a.2) * (p.1 - a.1) ∧
    min a.1 b.1 ≤ p.1 ∧ p.1 ≤ max a.1 b.1 ∧ min a.2 b.2 ≤ p.2 ∧ p.2 ≤ max a.2 b.2

/-- The sides of a polygon whose first corner is `first`, from the corners that remain. -/
def sidesFrom {K : Type} (first : K × K) : List (K × K) → List ((K × K) × (K × K))
  | [] => []
  | [a] => [(a, first)]
  | a :: b :: rest => (a, b) :: sidesFrom first (b :: rest)

/-- The sides of the closed polygon through the corners. -/
def polygonSides {K : Type} : List (K × K) → List ((K × K) × (K × K))
  | [] => []
  | a :: rest => sidesFrom a (a :: rest)

/-- The point `p` lies on a side of the closed polygon through the corners. -/
def onPolygon {K : Type} [LinearOrderedField K] (corners : List (K × K)) (p : K × K) : Prop :=
  ∃ s ∈ polygonSides corners, onSegment s.1 s.2 p

/-- The corners, in the unit box of the shape, of the polygon that `draw` emits for the
shape of a perimeter kind (lines 199 to 269 of MXCell.cpp, divided by `w` and `h`); `c` is
the size parameter over the axis dimension.  `RECTANGLE_P` and `CALLOUT_P` have the unit
box, and `ELLIPSE_P` has no corners. -/
def outlineCorners {K : Type} [LinearOrderedField K] (k : Perimeter) (c : K) : List (K × K) :=
  match k with
  | .RECTANGLE_P => [(0, 0), (1, 0), (1, 1), (0, 1)]
  | .CALLOUT_P => [(0, 0), (1, 0), (1, 1), (0, 1)]
  | .TRIANGLE_P => [(0, 0), (1, 1 / 2), (0, 1)]
  | .RHOMBUS_P => [(1 / 2, 0), (1, 1 / 2), (1 / 2, 1), (0, 1 / 2)]
  | .PARALLELOGRAM_P => [(0, 1), (c, 0), (1, 0), (1 - c, 1)]
  | .HEXAGON_P => [(c, 0), (1 - c, 0), (1, 1 / 2), (1 - c, 1), (c, 1), (0, 1 / 2)]
  | .STEP_P => [(0, 0), (1 - c, 0), (1, 1 / 2), (1 - c, 1), (0, 1), (c, 1 / 2)]
  | .TRAPEZOID_P => [(0, 1), (c, 0), (1 - c, 0), (1, 1)]
  | .ELLIPSE_P => []

/-- The point `p` lies on the outline of a perimeter kind in the unit box: the ellipse
inscribed in the box for `ELLIPSE_P`, the polygon of `outlineCorners` otherwise. -/
def onOutline {K : Type} [LinearOrderedField K] (k : Perimeter) (c : K) (p : K × K) : Prop :=
  if k = .ELLIPSE_P then (p.1 - 1 / 2) ^ 2 + (p.2 - 1 / 2) ^ 2 = 1 / 4
  else onPolygon (outlineCorners k c) p

/-- The pair `(x, y)` lies on the boundary of the unit box. -/
def onUnitBox {K : Type} [LinearOrderedField K] (x y : K) : Prop :=
  (0 ≤ x ∧ x ≤ 1 ∧ 0 ≤ y ∧ y ≤ 1) ∧ (x = 0 ∨ x = 1 ∨ y = 0 ∨ y = 1)

/-- The place in the drawing of the point `(u, v)` of the unit box of a shape, as
`PathContext` draws it (theorem `fp_emit_placeInShape`): the vector from the centre of the
box, `(u - 1/2)` times the axis dimension along the shape and `(v - 1/2)` times the other
dimension across it, is turned about the centre by the quarter turns of the direction of
the shape (none for EAST, one for SOUTH, two for WEST, three for NORTH) and then by
`style.rotation` degrees. -/
def placeInShape {K : Type} [LinearOrderedField K] (L : Cmath K) (shape : MXCell)
    (u v : K) : K × K :=
  let w : K := shape.geometry.width
  let h : K := shape.geometry.height
  let cx : K := shape.geometry.x + w / 2
  let cy : K := shape.geometry.y + h / 2
  let d : K × K :=
    match shape.style.direction with
    | .EAST => ((u - 1 / 2) * w, (v - 1 / 2) * h)
    | .SOUTH => (-((v - 1 / 2) * w), (u - 1 / 2) * h)
    | .WEST => (-((u - 1 / 2) * w), -((v - 1 / 2) * h))
    | .NORTH => ((v - 1 / 2) * w, -((u - 1 / 2) * h))
  let t : K := shape.style.rotation * L.pi / 180
  (cx + (d.1 * L.cos t - d.2 * L.sin t), cy + (d.1 * L.sin t + d.2 * L.cos t))

/-- The point `p` of the drawing lies on the perimeter outline of a shape: it is the place
of a point of the outline of the perimeter kind of the shape in the unit box, the size
parameter taken over the axis dimension. -/
def onShapeOutline {K : Type} [LinearOrderedField K] (L : Cmath K) (shape : MXCell)
    (p : MXPoint (Ext K)) : Prop :=
  ∃ u v : K, onOutline shape.style.perimeter ((sizeRatio shape : ℚ) : K) (u, v) ∧
    p = ⟨.fin (placeInShape L shape u v).1, .fin (placeInShape L shape u v).2⟩

end fp

/-- A shape that an edge attaches to: the width and the height are positive, and for a
perimeter kind with a size parameter the size over the axis dimension is at least `0` and
at most `1/2`, below `1/2` for `STEP_P`. -/
def attachable (shape : MXCell) : Prop :=
  0 < shape.geometry.width ∧ 0 < shape.geometry.height ∧
    (shape.style.perimeter.sized = true →
      0 ≤ sizeRatio shape ∧ sizeRatio shape ≤ 1 / 2 ∧
        (shape.style.perimeter = .STEP_P → sizeRatio shape < 1 / 2))

/-- A fixed exit or entry that `setEndPoints` takes to the outline: both ratios are set,
the point they name lies on the boundary of the unit box, and the offsets are zero. -/
def onBoxEdge (ox oy : Option ℚ) (dx dy : ℚ) : Prop :=
  ∃ x y : ℚ, ox = some x ∧ oy = some y ∧
    ((0 ≤ x ∧ x ≤ 1 ∧ 0 ≤ y ∧ y ≤ 1) ∧ (x = 0 ∨ x = 1 ∨ y = 0 ∨ y = 1)) ∧ dx = 0 ∧ dy = 0

/-- The perimeter kinds whose outline is the box of the shape. -/
def Perimeter.boxed (k : Perimeter) : Bool :=
  match k with
  | .RECTANGLE_P | .CALLOUT_P => true
  | _ => false

/-- A table of shapes without parents: the rectangles `A = (0, 0, 100, 60)` and
`B = (300, 0, 100, 60)`, the ellipse `E = (0, 0, 100, 60)` turned by 30 degrees, the
hexagon `H = (300, 200, 80, 120)` that faces NORTH, the rhombus `R = (0, 0, 100, 100)`,
the rectangle `Z` of width and height zero, the hexagon `N = (0, 0, 30, 40)` narrower than
twice its size, the step `S = (0, 0, 40, 40)` as wide as twice its size, and the
parallelogram `P = (0, 0, 100, 60)` of size `-20`.  The sizes not given are the default
`20`. -/
def outlineTable : IdMap :=
  tableOf [{ id := "A", vertex := true, geometry := { width := 100, height := 60 } },
    { id := "B", vertex := true, geometry := { x := 300, width := 100, height := 60 } },
    { id := "E", vertex := true,
      style := { shape := .ELLIPSE, perimeter := .ELLIPSE_P, rotation := 30 },
      geometry := { width := 100, height := 60 } },
    { id := "H", vertex := true,
      style := { shape := .HEXAGON, perimeter := .HEXAGON_P, direction := .NORTH },
      geometry := { x := 300, y := 200, width := 80, height := 120 } },
    { id := "R", vertex := true, style := { shape := .RHOMBUS, perimeter := .RHOMBUS_P },
      geometry := { width := 100, height := 100 } },
    { id := "Z", vertex := true },
    { id := "N", vertex := true, style := { shape := .HEXAGON, perimeter := .HEXAGON_P },
      geometry := { width := 30, height := 40 } },
    { id := "S", vertex := true, style := { shape := .STEP, perimeter := .STEP_P },
      geometry := { width := 40, height := 40 } },
    { id := "P", vertex := true,
      style :=
        { shape := .PARALLELOGRAM, perimeter := .PARALLELOGRAM_P, parallelogramSize := -20 },
      geometry := { width := 100, height := 60 } }]

/-- The `STRAIGHT` edge from `src` to `tgt` with free ends and no waypoints. -/
def freeEdge (src tgt : String) : MXCell :=
  { id := "e", edge := true, source_id := src, target_id := tgt }

/-- The `ORTHOGONAL` edge from `src` to `B` with free ends and the waypoint `(150, 20)`. -/
def elbowEdge (src : String) : MXCell :=
  { id := "e", edge := true, source_id := src, target_id := "B",
    style := { edgeStyle := .ORTHOGONAL }, geometry := { points := [⟨150, 20⟩] } }

/-- The `STRAIGHT` edge from `src` to `B` with the fixed exit `(x, y)` and the offset `dx`
along the width. -/
def exitEdge (src : String) (x y dx : ℚ) : MXCell :=
  { id := "e", edge := true, source_id := src, target_id := "B",
    style := { exitX := some x, exitY := some y, exitDx := dx, startFixed := true } }


/-! # Theorems -/

/-! ## The style parser -/

theorem applyAll_append (hs1 hs2 : List (MXCell → Except Fault MXCell)) (c : MXCell) :
    applyAll (hs1 ++ hs2) c =
      match applyAll hs1 c with
      | .ok c1 => applyAll hs2 c1
      | .error e => .error e := by
  induction hs1 generalizing c with
  | nil => rfl
  | cons h hs ih =>
    simp only [List.cons_append, applyAll]
    cases h c with
    | ok c1 => simpa using ih c1
    | error e => rfl

theorem applyAll_cons (h : MXCell → Except Fault MXCell)
    (hs : List (MXCell → Except Fault MXCell)) (c : MXCell) :
    applyAll (h :: hs) c =
      match h c with
      | .ok c1 => applyAll hs c1
      | .error e => .error e := rfl

theorem applyAll_nil (c : MXCell) : applyAll [] c = .ok c := rfl

theorem applyAll_cons_ok (h : MXCell → Except Fault MXCell)
    (hs : List (MXCell → Except Fault MXCell)) (c c1 : MXCell) (hc : h c = .ok c1) :
    applyAll (h :: hs) c = applyAll hs c1 := by
  show (match h c with
    | .ok c1 => applyAll hs c1
    | .error e => .error e) = _
  rw [hc]

theorem applyAll_id (hs : List (MXCell → Except Fault MXCell)) (c : MXCell)
    (h : ∀ f ∈ hs, f c = .ok c) : applyAll hs c = .ok c := by
  induction hs with
  | nil => rfl
  | cons f fs ih =>
    simp only [applyAll]
    rw [h f (List.mem_cons_self _ _)]
    exact ih (fun g hg => h g (List.mem_cons_of_mem _ hg))

theorem onKey_id (m : StyleMap) (k : String) (f : String → MXCell → Except Fault MXCell)
    (c : MXCell) (h : ∀ v, m.find k = some v → f v c = .ok c) : onKey m k f c = .ok c := by
  unfold onKey
  split
  · rfl
  · next v hv => exact h v hv

/-- C7: a style string whose tokens are all either outside the vocabulary of `setStyle` or
enum-valued with a value its if-chain does not test for leaves the cell as it was, apart
from `startFixed` and `endFixed`, which are computed. -/
theorem setStyle_ignores_unrecognised (X : Externals) (cell : MXCell)
    (H : ∀ k v, (styleMap cell.style_str).find k = some v →
      k ∉ knownKeys ∨ ∃ vals, enumValues k = some vals ∧ v ∉ vals) :
    setStyle X cell = .ok (setFixed cell) := by
  unfold setStyle styleHandlers
  rw [applyAll_append]
  have h1 : applyAll (entryExitHandlers (styleMap cell.style_str)) cell = .ok cell := by
    apply applyAll_id
    simp only [entryExitHandlers, List.forall_mem_cons]
    refine ⟨?_, ?_, ?_, ?_, ?_, ?_, ?_, ?_, ?_⟩
    any_goals
      apply onKey_id
      intro v hv
      rcases H _ v hv with hk | ⟨vals, he, hv2⟩
      · exact absurd (by decide) hk
      · simp [enumValues] at he
    intro x hx
    cases hx
  rw [h1]
  show applyAll (_ :: attributeHandlers X _) cell = _
  rw [applyAll_cons_ok _ _ cell (setFixed cell) rfl]
  apply applyAll_id
  simp only [attributeHandlers, List.forall_mem_cons]
  refine ⟨?_, ?_, ?_, ?_, ?_, ?_, ?_, ?_, ?_, ?_, ?_, ?_, ?_, ?_, ?_, ?_, ?_, ?_, ?_, ?_,
    ?_, ?_, ?_, ?_, ?_, ?_, ?_, ?_, ?_, ?_, ?_, ?_, ?_, ?_, ?_, ?_, ?_⟩
  any_goals
    apply onKey_id
    intro v hv
    rcases H _ v hv with hk | ⟨vals, he, hv2⟩
    · exact absurd (by decide) hk
    · simp [enumValues] at he
      try (subst he; simp at hv2; simp [parseDirection, parseShape, parsePerimeter, parseAlignH, parseAlignV, parseArrow,
        assignIf, hv2]; try rfl)
  intro x hx
  cases hx

theorem applyAll_preserves {α : Type} (K : MXCell → α)
    (hs : List (MXCell → Except Fault MXCell))
    (h : ∀ f ∈ hs, ∀ c c1, f c = .ok c1 → K c1 = K c) (c c1 : MXCell)
    (hc : applyAll hs c = .ok c1) : K c1 = K c := by
  induction hs generalizing c with
  | nil => cases hc; rfl
  | cons f fs ih =>
    simp only [applyAll] at hc
    split at hc
    · next c2 h2 =>
      rw [ih (fun g hg => h g (List.mem_cons_of_mem _ hg)) c2 hc]
      exact h f (List.mem_cons_self _ _) c c2 h2
    · cases hc

theorem onKey_preserves {α : Type} (K : MXCell → α) (m : StyleMap) (k : String)
    (f : String → MXCell → Except Fault MXCell)
    (h : ∀ v c c1, f v c = .ok c1 → K c1 = K c) (c c1 : MXCell)
    (hc : onKey m k f c = .ok c1) : K c1 = K c := by
  unfold onKey at hc
  split at hc
  · cases hc; rfl
  · next v _ => exact h v c c1 hc

theorem res_pure {P : MXCell → Prop} {c : MXCell} (h : P c) :
    Res P (Pure.pure c : Except Fault MXCell) := by
  intro c1 hc
  cases hc
  exact h

theorem res_ok {P : MXCell → Prop} {c : MXCell} (h : P c) : Res P (.ok c) := by
  intro c1 hc
  cases hc
  exact h

theorem res_bind {P : MXCell → Prop} {β : Type} {x : Except Fault β}
    {g : β → Except Fault MXCell} (h : ∀ d, Res P (g d)) : Res P (x >>= g) := by
  intro c1 hc
  cases x with
  | error e => cases hc
  | ok d => exact h d c1 hc

theorem res_ite {P : MXCell → Prop} {p : Prop} [Decidable p] {a b : Except Fault MXCell}
    (ha : Res P a) (hb : Res P b) : Res P (if p then a else b) := by
  split <;> assumption

theorem res_applyAll_nil {P : MXCell → Prop} {c : MXCell} (h : P c) :
    Res P (applyAll [] c) :=
  res_ok h

theorem res_applyAll_cons {P : MXCell → Prop} {f : MXCell → Except Fault MXCell}
    {fs : List (MXCell → Except Fault MXCell)} {c : MXCell}
    (h : Res (fun c2 => Res P (applyAll fs c2)) (f c)) : Res P (applyAll (f :: fs) c) := by
  intro c1 hc
  rw [applyAll_cons] at hc
  cases hf : f c with
  | error e => rw [hf] at hc; cases hc
  | ok c2 => rw [hf] at hc; exact h c2 hf c1 hc

theorem attributeHandlers_fixedView (X : Externals) (m : StyleMap) :
    ∀ f ∈ attributeHandlers X m, ∀ c c1, f c = .ok c1 → fixedView c1 = fixedView c := by
  simp only [attributeHandlers, List.forall_mem_cons]
  refine ⟨?_, ?_, ?_, ?_, ?_, ?_, ?_, ?_, ?_, ?_, ?_, ?_, ?_, ?_, ?_, ?_, ?_, ?_, ?_, ?_,
    ?_, ?_, ?_, ?_, ?_, ?_, ?_, ?_, ?_, ?_, ?_, ?_, ?_, ?_, ?_, ?_, ?_⟩
  any_goals
    apply onKey_preserves
    intro v c
    change Res (fun c1 => fixedView c1 = fixedView c) _
    try unfold setSize
    repeat' first
      | rfl
      | apply res_ite
      | (apply res_bind; intro d)
      | apply res_pure
      | (unfold assignIf; split <;> rfl)
  intro x hx
  cases hx

/-- C8: after `setStyle`, `startFixed` holds exactly when `exitX` and `exitY` are both
present or `source_id` is empty, and `endFixed` exactly when `entryX` and `entryY` are both
present or `target_id` is empty. -/
theorem setStyle_fixed_flags (X : Externals) (cell c1 : MXCell) (h : setStyle X cell = .ok c1) :
    (c1.style.startFixed = true ↔
      (c1.style.exitX.isSome = true ∧ c1.style.exitY.isSome = true) ∨ c1.source_id = "") ∧
    (c1.style.endFixed = true ↔
      (c1.style.entryX.isSome = true ∧ c1.style.entryY.isSome = true) ∨ c1.target_id = "") := by
  unfold setStyle styleHandlers at h
  rw [applyAll_append] at h
  split at h
  · next c2 h2 =>
    change applyAll (attributeHandlers X _) (setFixed c2) = _ at h
    have hv := applyAll_preserves fixedView _ (attributeHandlers_fixedView X _) _ _ h
    simp only [fixedView, Prod.mk.injEq] at hv
    obtain ⟨h1, h2, h3, h4, h5, h6, h7, h8⟩ := hv
    rw [h1, h2, h3, h4, h5, h6, h7, h8]
    simp [setFixed]
  · cases h

theorem applyAll_total (hs : List (MXCell → Except Fault MXCell))
    (h : ∀ f ∈ hs, ∀ c, ∃ c1, f c = .ok c1) (c : MXCell) : ∃ c1, applyAll hs c = .ok c1 := by
  induction hs generalizing c with
  | nil => exact ⟨c, rfl⟩
  | cons f fs ih =>
    obtain ⟨c2, h2⟩ := h f (List.mem_cons_self _ _) c
    rw [applyAll_cons_ok f fs c c2 h2]
    exact ih (fun g hg => h g (List.mem_cons_of_mem _ hg)) c2

theorem onKey_total (m : StyleMap) (k : String) (f : String → MXCell → Except Fault MXCell)
    (h : ∀ v, m.find k = some v → ∀ c, ∃ c1, f v c = .ok c1) (c : MXCell) :
    ∃ c1, onKey m k f c = .ok c1 := by
  unfold onKey
  split
  · exact ⟨c, rfl⟩
  · next v hv => exact h v hv c

theorem ite_total {p : Prop} [Decidable p] {a b : Except Fault MXCell}
    (ha : ∃ c1, a = .ok c1) (hb : ∃ c1, b = .ok c1) :
    ∃ c1, (if p then a else b) = .ok c1 := by
  split <;> assumption

theorem setSize_total (v : String) (d : ℚ) (h : stod v = .ok d) (c : MXCell) :
    ∃ c1, setSize v c = .ok c1 := by
  unfold setSize
  simp only [h, bind, Except.bind, pure, Except.pure]
  repeat (first | exact ⟨_, rfl⟩ | apply ite_total)

theorem parseColor_total (X : Externals) (v : String) (old : Option Color)
    (h : v = "none" ∨ v = "default" ∨ ∃ col, X.xmlStringToColor v = .ok col) :
    ∃ r, parseColor X v old = .ok r := by
  unfold parseColor
  by_cases h1 : v = "none"
  · rw [if_pos h1]; exact ⟨_, rfl⟩
  · rw [if_neg h1]
    by_cases h2 : v = "default"
    · rw [if_pos h2]; exact ⟨_, rfl⟩
    · rw [if_neg h2]
      rcases h with h | h | ⟨col, h⟩
      · exact absurd h h1
      · exact absurd h h2
      · simp only [h, bind, Except.bind, pure, Except.pure]
        exact ⟨_, rfl⟩

theorem colorBlock_total (X : Externals) (v : String) (old : Option Color)
    (g : Option Color → MXCell)
    (h : v = "none" ∨ v = "default" ∨ ∃ col, X.xmlStringToColor v = .ok col) :
    ∃ c1, (do let col ← parseColor X v old; pure (g col) : Except Fault MXCell) = .ok c1 := by
  obtain ⟨r, hr⟩ := parseColor_total X v old h
  simp only [hr, bind, Except.bind, pure, Except.pure]
  exact ⟨_, rfl⟩

/-- C6 (amended): `setStyle` completes whenever every token that goes through `std::stod`
has a value `std::stod` converts and the helpers of `libdrawio_xml` return on the values
handed to them. -/
theorem setStyle_completes (X : Externals) (cell : MXCell)
    (hs : ∀ k ∈ stodKeys, ∀ v, (styleMap cell.style_str).find k = some v →
      ∃ d, stod v = .ok d)
    (hd : ∀ k ∈ xmlDoubleKeys, ∀ v, (styleMap cell.style_str).find k = some v →
      ∃ d, X.xmlStringToDouble v = .ok d)
    (hb : ∀ k ∈ xmlBoolKeys, ∀ v, (styleMap cell.style_str).find k = some v →
      ∃ b, X.xmlStringToBool v = .ok b)
    (hc : ∀ k ∈ xmlColorKeys, ∀ v, (styleMap cell.style_str).find k = some v →
      v = "none" ∨ v = "default" ∨ ∃ col, X.xmlStringToColor v = .ok col) :
    ∃ c1, setStyle X cell = .ok c1 := by
  unfold setStyle styleHandlers
  apply applyAll_total
  intro f hf
  rw [List.mem_append, List.mem_cons] at hf
  rcases hf with hf | hf | hf
  · revert f
    simp only [entryExitHandlers, List.forall_mem_cons]
    refine ⟨?_, ?_, ?_, ?_, ?_, ?_, ?_, ?_, ?_⟩
    any_goals
      apply onKey_total
      intro v hv c
      have hex := (fun hk => hs _ hk v hv) (of_decide_eq_true rfl)
      obtain ⟨d, hd⟩ := hex
      simp only [hd, bind, Except.bind, pure, Except.pure]
      exact ⟨_, rfl⟩
    intro x hx
    cases hx
  · subst hf
    intro c
    exact ⟨_, rfl⟩
  · revert f
    simp only [attributeHandlers, List.forall_mem_cons]
    refine ⟨?_, ?_, ?_, ?_, ?_, ?_, ?_, ?_, ?_, ?_, ?_, ?_, ?_, ?_, ?_, ?_, ?_, ?_, ?_, ?_,
      ?_, ?_, ?_, ?_, ?_, ?_, ?_, ?_, ?_, ?_, ?_, ?_, ?_, ?_, ?_, ?_, ?_⟩
    any_goals
      apply onKey_total
      intro v hv c
      first
        | exact ⟨_, rfl⟩
        | (split <;> exact ⟨_, rfl⟩)
        | (have hex := (fun hk => hs _ hk v hv) (of_decide_eq_true rfl)
           obtain ⟨d, hd⟩ := hex
           first
             | exact setSize_total v d hd c
             | (simp only [hd, bind, Except.bind, pure, Except.pure]
                repeat (first | exact ⟨_, rfl⟩ | apply ite_total)))
        | (have hex := (fun hk => hd _ hk v hv) (of_decide_eq_true rfl)
           obtain ⟨d, hd⟩ := hex
           simp only [hd, bind, Except.bind, pure, Except.pure]
           exact ⟨_, rfl⟩)
        | (have hex := (fun hk => hb _ hk v hv) (of_decide_eq_true rfl)
           obtain ⟨d, hd⟩ := hex
           simp only [hd, bind, Except.bind, pure, Except.pure]
           exact ⟨_, rfl⟩)
        | (have hex := (fun hk => hc _ hk v hv) (of_decide_eq_true rfl)
           exact colorBlock_total X v _ _ hex)
    intro x hx
    cases hx

theorem find_single (k v key : String) :
    StyleMap.find [(k, v)] key = if key = k then some v else none := by
  unfold StyleMap.find
  simp only [List.lookup]
  by_cases h : key = k
  · subst h; simp
  · have : (key == k) = false := by simpa using h
    simp [this, h]

theorem onKey_single_ne (k v key : String) (f : String → MXCell → Except Fault MXCell)
    (h : key ≠ k) : onKey [(k, v)] key f = fun c => .ok c := by
  funext c
  unfold onKey
  rw [find_single, if_neg h]

theorem onKey_single_eq (k v : String) (f : String → MXCell → Except Fault MXCell) :
    onKey [(k, v)] k f = f v := by
  funext c
  unfold onKey
  rw [find_single, if_pos rfl]

theorem applyAll_skip (hs : List (MXCell → Except Fault MXCell)) (c : MXCell) :
    applyAll ((fun c => .ok c) :: hs) c = applyAll hs c := rfl

theorem forgetToken_unknown (k : String) (c : MXCell) (hk : k ∉ knownKeys) :
    forgetToken k c = c := by
  simp only [knownKeys, List.mem_cons, List.mem_singleton, List.not_mem_nil, or_false,
    not_or] at hk
  unfold forgetToken
  simp only [hk, if_false, or_self]

theorem res_cons_iff (P : MXCell → Prop) (f : MXCell → Except Fault MXCell)
    (fs : List (MXCell → Except Fault MXCell)) (c : MXCell) :
    Res P (applyAll (f :: fs) c) ↔ Res (fun c2 => Res P (applyAll fs c2)) (f c) := by
  constructor
  · intro h c2 h2 c1 h1
    exact h c1 (by rw [applyAll_cons_ok f fs c c2 h2]; exact h1)
  · exact res_applyAll_cons

theorem res_nil_iff (P : MXCell → Prop) (c : MXCell) : Res P (applyAll [] c) ↔ P c :=
  ⟨fun h => h c rfl, res_ok⟩

theorem res_ok_iff (P : MXCell → Prop) (c : MXCell) : Res P (.ok c) ↔ P c :=
  ⟨fun h => h c rfl, res_ok⟩

theorem res_pure_iff (P : MXCell → Prop) (c : MXCell) :
    Res P (Pure.pure c : Except Fault MXCell) ↔ P c :=
  ⟨fun h => h c rfl, res_pure⟩

theorem res_bind_iff (P : MXCell → Prop) {β : Type} (x : Except Fault β)
    (g : β → Except Fault MXCell) : Res P (x >>= g) ↔ ∀ d, x = .ok d → Res P (g d) := by
  constructor
  · intro h d hd
    subst hd
    exact h
  · intro h c1 hc
    cases x with
    | error e => cases hc
    | ok d => exact h d rfl c1 hc

theorem res_ite_iff (P : MXCell → Prop) (p : Prop) [Decidable p] (a b : Except Fault MXCell) :
    Res P (if p then a else b) ↔ (p → Res P a) ∧ (¬p → Res P b) := by
  by_cases hp : p <;> simp [hp]

set_option maxHeartbeats 1000000 in
/-- C9 (amended): when the style string holds a single token `k=v` and `setStyle`
completes, every member other than those the block of `k` assigns and other than the
computed `startFixed` and `endFixed` keeps its value. -/
theorem setStyle_single_token_frame (X : Externals) (cell c1 : MXCell) (k v : String)
    (hm : styleMap cell.style_str = [(k, v)]) (h : setStyle X cell = .ok c1) :
    forgetToken k (forgetFixed c1) = forgetToken k (forgetFixed cell) := by
  unfold setStyle styleHandlers at h
  rw [hm] at h
  by_cases hk : k ∈ knownKeys
  · simp only [knownKeys, List.mem_cons, List.mem_singleton, List.not_mem_nil, or_false] at hk
    rcases hk with rfl | rfl | rfl | rfl | rfl | rfl | rfl | rfl | rfl | rfl | rfl | rfl | rfl | rfl | rfl | rfl | rfl | rfl | rfl | rfl | rfl | rfl | rfl | rfl | rfl | rfl | rfl | rfl | rfl | rfl | rfl | rfl | rfl | rfl | rfl | rfl | rfl | rfl | rfl | rfl | rfl | rfl | rfl | rfl
    all_goals
      simp (disch := decide) only [entryExitHandlers, attributeHandlers, List.cons_append,
        List.nil_append, applyAll_skip, onKey_single_ne, onKey_single_eq] at h
      revert c1
      change Res (fun c1 => forgetToken _ (forgetFixed c1) = forgetToken _ (forgetFixed cell)) _
      simp only [setSize, res_cons_iff, res_nil_iff, res_ok_iff, res_pure_iff, res_bind_iff,
        res_ite_iff, forgetToken, String.reduceEq, if_true, if_false, false_or, or_false,
        or_true, true_or]
      repeat' first
        | intro _
        | apply And.intro
    all_goals first
      | (unfold assignIf
         split <;> simp only [
        MXCell.withEntryX, MXCell.withEntryY, MXCell.withExitX, MXCell.withExitY,
        MXCell.withEntryDx, MXCell.withEntryDy, MXCell.withExitDx, MXCell.withExitDy,
        MXCell.withSourcePortConstraint, MXCell.withTargetPortConstraint,
        MXCell.withPortConstraint, MXCell.withShape, MXCell.withPerimeter,
        MXCell.withDirection, MXCell.withFixedSize, MXCell.withCalloutLength,
        MXCell.withProcessBarSize, MXCell.withParallelogramSize, MXCell.withHexagonSize,
        MXCell.withStepSize, MXCell.withTrapezoidSize, MXCell.withCardSize,
        MXCell.withDocumentSize, MXCell.withTapeSize, MXCell.withDataStorageSize,
        MXCell.withCalloutWidth, MXCell.withCalloutPosition, MXCell.withCalloutTipPosition,
        MXCell.withStorageX, MXCell.withStorageY, MXCell.withFillColor, MXCell.withStrokeColor,
        MXCell.withStartArrow, MXCell.withStartFill, MXCell.withStartSize, MXCell.withEndArrow,
        MXCell.withEndFill, MXCell.withEndSize, MXCell.withRotation, MXCell.withEdgeStyle,
        MXCell.withAlign, MXCell.withVerticalAlign, MXCell.withPosition,
        MXCell.withVerticalPosition, MXCell.withFontFamily, MXCell.withFontSize,
        MXCell.withFontColor, MXCell.withBackgroundColor, MXCell.withBorderColor,
        MXCell.withFontStyle, forgetFixed, setFixed])
      | simp only [
        MXCell.withEntryX, MXCell.withEntryY, MXCell.withExitX, MXCell.withExitY,
        MXCell.withEntryDx, MXCell.withEntryDy, MXCell.withExitDx, MXCell.withExitDy,
        MXCell.withSourcePortConstraint, MXCell.withTargetPortConstraint,
        MXCell.withPortConstraint, MXCell.withShape, MXCell.withPerimeter,
        MXCell.withDirection, MXCell.withFixedSize, MXCell.withCalloutLength,
        MXCell.withProcessBarSize, MXCell.withParallelogramSize, MXCell.withHexagonSize,
        MXCell.withStepSize, MXCell.withTrapezoidSize, MXCell.withCardSize,
        MXCell.withDocumentSize, MXCell.withTapeSize, MXCell.withDataStorageSize,
        MXCell.withCalloutWidth, MXCell.withCalloutPosition, MXCell.withCalloutTipPosition,
        MXCell.withStorageX, MXCell.withStorageY, MXCell.withFillColor, MXCell.withStrokeColor,
        MXCell.withStartArrow, MXCell.withStartFill, MXCell.withStartSize, MXCell.withEndArrow,
        MXCell.withEndFill, MXCell.withEndSize, MXCell.withRotation, MXCell.withEdgeStyle,
        MXCell.withAlign, MXCell.withVerticalAlign, MXCell.withPosition,
        MXCell.withVerticalPosition, MXCell.withFontFamily, MXCell.withFontSize,
        MXCell.withFontColor, MXCell.withBackgroundColor, MXCell.withBorderColor,
        MXCell.withFontStyle, forgetFixed, setFixed]
  · have hne : ∀ key ∈ knownKeys, key ≠ k := fun key hkey heq => hk (heq ▸ hkey)
    simp (disch := exact hne _ (by decide)) only [entryExitHandlers, attributeHandlers,
      List.cons_append, List.nil_append, applyAll_skip, onKey_single_ne] at h
    cases h
    rw [forgetToken_unknown k _ hk, forgetToken_unknown k _ hk]
    rfl

theorem find_mem (m : StyleMap) (k v : String) (h : m.find k = some v) : (k, v) ∈ m := by
  unfold StyleMap.find at h
  induction m with
  | nil => simp [List.lookup] at h
  | cons e es ih =>
    obtain ⟨k1, v1⟩ := e
    simp only [List.lookup] at h
    split at h
    · next heq =>
      have hk : k = k1 := by simpa using heq
      cases h
      subst hk
      exact List.mem_cons_self _ _
    · exact List.mem_cons_of_mem _ (ih h)

theorem forall_find_of_all (m : StyleMap) (p : String → String → Bool)
    (h : m.all (fun e => p e.1 e.2) = true) (k v : String) (hf : m.find k = some v) :
    p k v = true := by
  rw [List.all_eq_true] at h
  exact h (k, v) (find_mem m k v hf)

theorem exists_of_isOk {α : Type} (r : Except Fault α) (h : r.toBool = true) :
    ∃ d, r = .ok d := by
  cases r with
  | ok d => exact ⟨d, rfl⟩
  | error e => cases h

theorem setStyle_ignores_unrecognised_witness :
    setStyle specExternals
        { style_str := "direction=up;shape=cloud;perimeter=hexagonPerimeter;edgeStyle=foo;rounded=1" } =
      .ok (setFixed
        { style_str := "direction=up;shape=cloud;perimeter=hexagonPerimeter;edgeStyle=foo;rounded=1" }) :=
  setStyle_ignores_unrecognised specExternals _ (by
    intro k v hf
    have h := forall_find_of_all _
      (fun k v => decide (k ∉ knownKeys) ||
        (match enumValues k with
         | some vals => decide (v ∉ vals)
         | none => false)) (by decide) k v hf
    simp only [Bool.or_eq_true, decide_eq_true_eq] at h
    rcases h with h | h
    · exact Or.inl h
    · right
      cases he : enumValues k with
      | none => rw [he] at h; cases h
      | some vals => rw [he] at h; exact ⟨vals, rfl, by simpa using h⟩)

theorem setStyle_fixed_flags_witness :
    setStyle specExternals { style_str := "exitX=1;exitY=0.5", source_id := "A", target_id := "B" } =
      .ok { style_str := "exitX=1;exitY=0.5", source_id := "A", target_id := "B",
            style := { exitX := some 1, exitY := some (1 / 2), startFixed := true,
                       endFixed := false } } ∧
    ((true = true ↔ ((some (1 : ℚ)).isSome = true ∧ (some (1 / 2 : ℚ)).isSome = true) ∨ "A" = "") ∧
     (false = true ↔ ((none : Option ℚ).isSome = true ∧ (none : Option ℚ).isSome = true) ∨ "B" = "")) :=
  ⟨by with_unfolding_all rfl,
   setStyle_fixed_flags specExternals
     { style_str := "exitX=1;exitY=0.5", source_id := "A", target_id := "B" }
     { style_str := "exitX=1;exitY=0.5", source_id := "A", target_id := "B",
       style := { exitX := some 1, exitY := some (1 / 2), startFixed := true,
                  endFixed := false } }
     (by with_unfolding_all rfl)⟩

/-- C6 (counterexample): on `entryX=abc`, on the bare flag `exitX` and on
`shape=hexagon;size=` the call of `std::stod` raises and `setStyle` does not complete. -/
theorem setStyle_raises_on_unparseable :
    setStyle specExternals { style_str := "entryX=abc" } = .error .invalidArgument ∧
    setStyle specExternals { style_str := "exitX" } = .error .invalidArgument ∧
    setStyle specExternals { style_str := "shape=hexagon;size=" } = .error .invalidArgument :=
  ⟨by rfl, by rfl, by rfl⟩

theorem setStyle_completes_witness :
    ∃ c1, setStyle specExternals
      { style_str := "entryX=0.25;shape=hexagon;size=30;fillColor=none;rotation=90;startFill=0" } =
        .ok c1 :=
  setStyle_completes specExternals _
    (fun k hk v hf => exists_of_isOk _ (by
      have h := forall_find_of_all _ (fun k v => !stodKeys.contains k || (stod v).toBool)
        (by decide!) k v hf
      simpa [hk] using h))
    (fun k hk v hf => exists_of_isOk _ (by
      have h := forall_find_of_all _
        (fun k v => !xmlDoubleKeys.contains k || (specExternals.xmlStringToDouble v).toBool)
        (by decide!) k v hf
      simpa [hk] using h))
    (fun k hk v hf => exists_of_isOk _ (by
      have h := forall_find_of_all _
        (fun k v => !xmlBoolKeys.contains k || (specExternals.xmlStringToBool v).toBool)
        (by decide!) k v hf
      simpa [hk] using h))
    (fun k hk v hf => by
      have h := forall_find_of_all _
        (fun k v => !xmlColorKeys.contains k || decide (v = "none"))
        (by decide!) k v hf
      left
      simpa [hk] using h)

/-- C9 (counterexample): on a default cell the one-token style string `ellipse` changes
`shape`, `perimeter`, `startFixed` and `endFixed`. -/
theorem setStyle_ellipse_changes_four_members :
    setStyle specExternals { style_str := "ellipse" } =
      .ok { style_str := "ellipse",
            style := { shape := .ELLIPSE, perimeter := .ELLIPSE_P, startFixed := true,
                       endFixed := true } } ∧
    ({} : DRAWIOStyle).shape = .RECTANGLE ∧ ({} : DRAWIOStyle).perimeter = .RECTANGLE_P ∧
    ({} : DRAWIOStyle).startFixed = false ∧ ({} : DRAWIOStyle).endFixed = false :=
  ⟨by rfl, rfl, rfl, rfl, rfl⟩

theorem setStyle_single_token_frame_witness :
    styleMap "perimeter=hexagonPerimeter2" = [("perimeter", "hexagonPerimeter2")] ∧
    setStyle specExternals { style_str := "perimeter=hexagonPerimeter2" } =
      .ok { style_str := "perimeter=hexagonPerimeter2",
            style := { perimeter := .HEXAGON_P, startFixed := true, endFixed := true } } ∧
    forgetToken "perimeter" (forgetFixed
        { style_str := "perimeter=hexagonPerimeter2",
          style := { perimeter := .HEXAGON_P, startFixed := true, endFixed := true } }) =
      forgetToken "perimeter" (forgetFixed { style_str := "perimeter=hexagonPerimeter2" }) :=
  ⟨by decide, by rfl,
   setStyle_single_token_frame specExternals _ _ "perimeter" "hexagonPerimeter2" (by decide)
     (by rfl)⟩

/-! ## The path builder -/

theorem cos_zero : cos 0 = .ok 1 := by decide!
theorem sin_zero : sin 0 = .ok 0 := by decide!
theorem polarRotate_zero (dx dy : ℚ) : polarRotate dx dy 0 = .ok (dx, dy) := by
  unfold polarRotate
  split
  · next h => rw [h.1, h.2]
  · simp [cos_zero, sin_zero, bind, Except.bind, pure, Except.pure]

/-! ## Text, colours and edge paths -/

theorem processTextLoop_text (s rest : List Char) (h : '<' ∉ s) :
    processTextLoop (s ++ rest) false = s ++ processTextLoop rest false := by
  induction s with
  | nil => rfl
  | cons c cs ih =>
    have hc : c ≠ '<' := fun e => h (e ▸ List.mem_cons_self _ _)
    have hcs : '<' ∉ cs := fun m => h (List.mem_cons_of_mem _ m)
    simp only [List.cons_append, processTextLoop, hc, if_false]
    simp [ih hcs]

theorem processTextLoop_skip (body rest : List Char) (h : '>' ∉ body) :
    processTextLoop (body ++ '>' :: rest) true = processTextLoop rest false := by
  induction body with
  | nil => simp [processTextLoop]
  | cons c cs ih =>
    have hc : c ≠ '>' := fun e => h (e ▸ List.mem_cons_self _ _)
    have hcs : '>' ∉ cs := fun m => h (List.mem_cons_of_mem _ m)
    simp only [List.cons_append, processTextLoop, hc, if_false]
    simp [ih hcs]

theorem processTextLoop_segments (segs : List Segment) (h : ∀ s ∈ segs, s.plain) :
    processTextLoop (renderSegments segs) false = textOfSegments segs := by
  induction segs with
  | nil => rfl
  | cons seg rest ih =>
    have hrest := ih (fun s hs => h s (List.mem_cons_of_mem _ hs))
    have hseg := h seg (List.mem_cons_self _ _)
    cases seg with
    | text s =>
      simp only [renderSegments, textOfSegments]
      rw [processTextLoop_text s _ hseg.1, hrest]
    | tag body =>
      simp only [renderSegments, textOfSegments]
      have h1 : processTextLoop ('<' :: (body ++ '>' :: renderSegments rest)) false =
          processTextLoop (body ++ '>' :: renderSegments rest) true := by
        simp [processTextLoop]
      rw [h1, processTextLoop_skip body _ hseg.2, hrest]

/-- C12: for a label built from text segments and tags `<body>`, none of which contains
`<` or `>` inside, `processText` returns the text segments concatenated in order. -/
theorem processText_strips_tags (segs : List Segment) (h : ∀ s ∈ segs, s.plain) :
    processText (String.mk (renderSegments segs)) = String.mk (textOfSegments segs) := by
  unfold processText
  rw [show (String.mk (renderSegments segs)).toList = renderSegments segs from rfl,
    processTextLoop_segments segs h]

theorem processText_strips_tags_witness :
    processText "hello <b>world</b>!" = "hello world!" :=
  processText_strips_tags
    [.text "hello ".toList, .tag "b".toList, .text "world".toList, .tag "/b".toList,
     .text "!".toList]
    (by
      intro s hs
      simp only [List.mem_cons, List.mem_singleton, List.not_mem_nil, or_false] at hs
      rcases hs with rfl | rfl | rfl | rfl | rfl <;> exact ⟨by decide, by decide⟩)

/-- C13 (failing input): `Color(0, 0, 0, 1)`, the default stroke colour, is printed as
`# 0 0 0`: `std::setw(2)` pads with the fill character, which is a space; a channel of at
least 16 is printed with its two digits. -/
theorem to_string_pads_with_space :
    (Color.mk 0 0 0 1).to_string = "# 0 0 0" ∧
    (Color.mk 255 255 255 1).to_string = "#ffffff" ∧
    (Color.mk 18 5 171 1).to_string = "#12 5ab" := by
  decide

/-- C20: for an edge with `n` waypoints `getPath` returns `M` at `sourcePoint / 100`, one
`L` per waypoint in order at `waypoint / 100` and `L` at `targetPoint / 100`, that is
`n + 2` steps, and the result is the same for `STRAIGHT` and `ORTHOGONAL`. -/
theorem getPath_steps (cell : MXCell) :
    getPath cell =
      [⟨"M", [⟨cell.geometry.sourcePoint.x / 100, cell.geometry.sourcePoint.y / 100⟩]⟩]
        ++ cell.geometry.points.map (fun p => ⟨"L", [⟨p.x / 100, p.y / 100⟩]⟩)
        ++ [⟨"L", [⟨cell.geometry.targetPoint.x / 100, cell.geometry.targetPoint.y / 100⟩]⟩] ∧
    (getPath cell).length = cell.geometry.points.length + 2 ∧
    getPath (cell.withEdgeStyle .STRAIGHT) = getPath (cell.withEdgeStyle .ORTHOGONAL) := by
  have h1 : getPath cell =
      [⟨"M", [⟨cell.geometry.sourcePoint.x / 100, cell.geometry.sourcePoint.y / 100⟩]⟩]
        ++ cell.geometry.points.map (fun p => ⟨"L", [⟨p.x / 100, p.y / 100⟩]⟩)
        ++ [⟨"L", [⟨cell.geometry.targetPoint.x / 100, cell.geometry.targetPoint.y / 100⟩]⟩] := by
    unfold getPath
    cases cell.style.edgeStyle <;> simp
  refine ⟨h1, ?_, ?_⟩
  · rw [h1]; simp
  · unfold getPath
    simp [MXCell.withEdgeStyle]

/-! ## Shapes -/

theorem cornerRotate_zero (rx ry : ℚ) (h : 0 < rx) : cornerRotate rx ry 0 = .ok (rx, ry) := by
  unfold cornerRotate
  rw [if_pos h, polarRotate_zero]

/-- C17: for a RECTANGLE vertex with rotation 0, positive width and no parent, `draw`
calls `drawRectangle` with `svg:x`, `svg:y`, `svg:width`, `svg:height` equal to the geometry
divided by 100; the corner offsets `dx` and `dy` are 0, so that the transform is
`translate(-x, -y) rotate(0) translate(x, y)`. -/
theorem draw_rectangle (id_map : IdMap) (cell : MXCell) (hs : cell.style.shape = .RECTANGLE)
    (hr : cell.style.rotation = 0) (hw : 0 < cell.geometry.width)
    (hp : cell.parent_id = "") :
    drawVertex id_map cell =
      .ok (.drawRectangle (cell.geometry.x / 100) (cell.geometry.y / 100)
        (cell.geometry.width / 100) (cell.geometry.height / 100)
        ⟨-cell.geometry.x / 100, -cell.geometry.y / 100, 0, cell.geometry.x / 100,
          cell.geometry.y / 100⟩) ∧
    cornerRotate (cell.geometry.width / 200) (cell.geometry.height / 200) 0 =
      .ok (cell.geometry.width / 200 + 0, cell.geometry.height / 200 + 0) := by
  have hrx : 0 < cell.geometry.width / 200 := by positivity
  have hcr := cornerRotate_zero (cell.geometry.width / 200) (cell.geometry.height / 200) hrx
  refine ⟨?_, by simpa using hcr⟩
  unfold drawVertex
  have hg : (if cell.parent_id ≠ "" then
      { cell.geometry with
        x := cell.geometry.x + (id_map cell.parent_id).geometry.x
        y := cell.geometry.y + (id_map cell.parent_id).geometry.y }
    else cell.geometry) = cell.geometry := by simp [hp]
  simp only [hg, hs, hr, if_true, bind, Except.bind, pure, Except.pure]
  have ha : (-(0 : ℚ) * pi / 180) = 0 := by simp
  rw [ha, hcr]
  simp

theorem draw_rectangle_witness :
    drawVertex (fun _ => {})
        { vertex := true, geometry := { x := 0, y := 0, width := 10000, height := 5000 } } =
      .ok (.drawRectangle 0 0 100 50 ⟨0, 0, 0, 0, 0⟩) :=
  (draw_rectangle (fun _ => {})
    { vertex := true, geometry := { x := 0, y := 0, width := 10000, height := 5000 } }
    rfl rfl (by decide!) rfl).1.trans (by decide!)

/-! ## The perimeter projector -/

/-- C4: for every perimeter kind and every shape, `adjustEndpoint` maps an input `(x, y)`
with `0 < x < 1` and `0 < y < 1` to exactly `(0.5, 0.5)`. -/
theorem adjustEndpoint_centre_clamp (x y : ℚ) (shape : MXCell)
    (hx0 : 0 < x) (hx1 : x < 1) (hy0 : 0 < y) (hy1 : y < 1) :
    adjustEndpoint x y shape = .ok (1 / 2, 1 / 2) := by
  unfold adjustEndpoint
  exact if_pos ⟨hx0, hx1, hy0, hy1⟩

theorem adjustEndpoint_centre_clamp_witness :
    adjustEndpoint (1 / 4) (3 / 4) { style := { perimeter := .HEXAGON_P } }
      = .ok (1 / 2, 1 / 2) :=
  adjustEndpoint_centre_clamp (1 / 4) (3 / 4) { style := { perimeter := .HEXAGON_P } }
    (by norm_num) (by norm_num) (by norm_num) (by norm_num)

/-! ## The orthogonal router -/

/-- C19: when `sourcePoint` equals `targetPoint` for an ORTHOGONAL edge with no waypoints
whose `startDir` and `endDir` hold a value, `setWaypoints` returns, whatever the bound on
the passes of its loop, and the waypoint list of the result is empty. -/
theorem setWaypoints_same_point (fuel : Nat) (id_map : IdMap) (cell : MXCell)
    (sd ed : Direction) (he : cell.edge = true)
    (hs : cell.style.edgeStyle = .ORTHOGONAL) (hp : cell.geometry.points = [])
    (hsd : cell.style.startDir = some sd) (hed : cell.style.endDir = some ed)
    (hpq : cell.geometry.sourcePoint = cell.geometry.targetPoint) :
    (setWaypoints fuel id_map cell).map (fun c => c.geometry.points) = .ok [] := by
  unfold setWaypoints
  rw [he, if_neg (by simp), if_pos ⟨hs, hp⟩, hsd, hed]
  simp only [getOpt]
  simp only [bind, Except.bind]
  rw [if_pos hpq]
  show Except.ok cell.geometry.points = _
  rw [hp]

theorem setWaypoints_same_point_witness :
    (setWaypoints 0 (tableOf [])
      { edge := true,
        style := { edgeStyle := .ORTHOGONAL, startDir := some .EAST, endDir := some .WEST },
        geometry := { sourcePoint := ⟨3, 4⟩, targetPoint := ⟨3, 4⟩ } }).map
      (fun c => c.geometry.points) = .ok [] :=
  setWaypoints_same_point 0 (tableOf [])
    { edge := true,
      style := { edgeStyle := .ORTHOGONAL, startDir := some .EAST, endDir := some .WEST },
      geometry := { sourcePoint := ⟨3, 4⟩, targetPoint := ⟨3, 4⟩ } }
    .EAST .WEST rfl rfl rfl rfl rfl rfl

/-! ## The endpoint resolver -/

theorem boxExit_pole (lowY lowX : Bool) :
    boxExit .pole lowY lowX = .ok (1 / 2, if lowY then 0 else 1) := by
  cases lowY <;> cases lowX <;> decide!

theorem map_eq_ok {α β : Type} (r : Except Fault α) (f : α → β) (v : β)
    (h : r.map f = .ok v) : ∃ a, r = .ok a ∧ f a = v := by
  cases r with
  | error e => cases h
  | ok a => exact ⟨a, rfl, by injection h⟩

theorem routerLoop_done (env : RouterEnv) (n : Nat) (st : RouterState)
    (h : routerRunning env.q st = false) : routerLoop env n st = .ok st := by
  cases n <;> simp [routerLoop, h]

theorem routerLoop_succ (env : RouterEnv) (n : Nat) (st : RouterState)
    (h : routerRunning env.q st = true) :
    routerLoop env (n + 1) st = routerLoop env n (routerStep env st) := by
  simp [routerLoop, h]

/-- A loop that finishes within `n` passes finishes within any larger bound, with the
same state. -/
theorem routerLoop_add (env : RouterEnv) (k : Nat) :
    ∀ (n : Nat) (st r : RouterState), routerLoop env n st = .ok r →
      routerLoop env (n + k) st = .ok r := by
  intro n
  induction n with
  | zero =>
    intro st r h
    cases hr : routerRunning env.q st with
    | true => simp [routerLoop, hr] at h
    | false =>
      rw [routerLoop_done env 0 st hr] at h
      rw [routerLoop_done env _ st hr]
      exact h
  | succ n ih =>
    intro st r h
    cases hr : routerRunning env.q st with
    | true =>
      rw [routerLoop_succ env n st hr] at h
      rw [Nat.succ_add, routerLoop_succ env _ st hr]
      exact ih _ _ h
    | false =>
      rw [routerLoop_done env _ st hr] at h
      rw [routerLoop_done env _ st hr]
      exact h

theorem bind_eq_ok {α β : Type} (x : Except Fault α) (f : α → Except Fault β) (b : β)
    (h : x >>= f = .ok b) : ∃ a, x = .ok a ∧ f a = .ok b := by
  cases x with
  | error e => cases h
  | ok a => exact ⟨a, rfl, h⟩

/-- A run of `setWaypoints` that returns within `n` passes of the loop returns the same
cell within any larger bound. -/
theorem setWaypoints_add (n k : Nat) (id_map : IdMap) (cell r : MXCell)
    (h : setWaypoints n id_map cell = .ok r) : setWaypoints (n + k) id_map cell = .ok r := by
  unfold setWaypoints at h ⊢
  by_cases he : (!cell.edge) = true
  · rw [if_pos he] at h ⊢
    exact h
  · rw [if_neg he] at h ⊢
    by_cases ho : cell.style.edgeStyle = .ORTHOGONAL ∧ cell.geometry.points = []
    · rw [if_pos ho] at h ⊢
      obtain ⟨pd, hpd, h⟩ := bind_eq_ok _ _ _ h
      obtain ⟨qd, hqd, h⟩ := bind_eq_ok _ _ _ h
      rw [hpd, hqd]
      show (if cell.geometry.sourcePoint = cell.geometry.targetPoint then pure cell
        else _) = _
      by_cases hpq : cell.geometry.sourcePoint = cell.geometry.targetPoint
      · rw [if_pos hpq] at h ⊢
        exact h
      · rw [if_neg hpq] at h ⊢
        obtain ⟨st, hst, h⟩ := bind_eq_ok _ _ _ h
        rw [routerLoop_add _ k n _ _ hst]
        exact h
    · rw [if_neg ho] at h ⊢
      exact h

theorem s5_pipeline_one :
    (setEndPoints s5Table s5Edge >>= setWaypoints 1 s5Table).map routeView
      = .ok (some .EAST, some .NORTH, ⟨10000, 2500⟩, ⟨25000, 20000⟩, [⟨25000, 2500⟩]) := by
  decide!

theorem bind_setWaypoints_add (n k : Nat) (id_map : IdMap) (r : Except Fault MXCell)
    (c : MXCell) (h : r >>= setWaypoints n id_map = .ok c) :
    r >>= setWaypoints (n + k) id_map = .ok c := by
  obtain ⟨a, ha, h⟩ := bind_eq_ok _ _ _ h
  rw [ha]
  exact setWaypoints_add n k id_map a c h

/-- C15, as the code has it: on scenario S5 `setEndPoints` chooses `startDir = EAST` and
`endDir = NORTH` with the source point `(10000, 2500)` and the target point
`(25000, 20000)`, and `setWaypoints` then returns, for every bound of at least one pass,
with the single waypoint `(25000, 2500)`, the corner in line with both end points; the
path from the source point through the waypoint to the target point is Manhattan. -/
theorem s5_route (fuel : Nat) :
    ∃ c, setEndPoints s5Table s5Edge >>= setWaypoints (fuel + 1) s5Table = .ok c ∧
      c.style.startDir = some .EAST ∧ c.style.endDir = some .NORTH ∧
      c.geometry.sourcePoint = ⟨10000, 2500⟩ ∧ c.geometry.targetPoint = ⟨25000, 20000⟩ ∧
      c.geometry.points = [⟨25000, 2500⟩] ∧ manhattan (polyline c) := by
  obtain ⟨c, hc, hv⟩ := map_eq_ok _ _ _ s5_pipeline_one
  refine ⟨c, ?_, ?_⟩
  · rw [Nat.add_comm]
    exact bind_setWaypoints_add 1 fuel s5Table _ c hc
  · simp only [routeView, Prod.mk.injEq] at hv
    obtain ⟨h1, h2, h3, h4, h5⟩ := hv
    refine ⟨h1, h2, h3, h4, h5, ?_⟩
    unfold polyline
    rw [h3, h4, h5]
    simp [manhattan]

/-- C15, the claim as written fails: on scenario S5 `startDir` is `EAST` and the run of
`setEndPoints` and `setWaypoints` returns a cell none of whose waypoints has
`x = 15000`. -/
theorem s5_no_waypoint_at_midpoint :
    ∃ c, setEndPoints s5Table s5Edge >>= setWaypoints 6 s5Table = .ok c ∧
      c.style.startDir = some .EAST ∧ ¬ ∃ w ∈ c.geometry.points, w.x = 15000 := by
  obtain ⟨c, hc, hv⟩ := map_eq_ok _ _ _ s5_pipeline_one
  refine ⟨c, bind_setWaypoints_add 1 5 s5Table _ c hc, ?_⟩
  simp only [routeView, Prod.mk.injEq] at hv
  obtain ⟨h1, _, _, _, h5⟩ := hv
  refine ⟨h1, ?_⟩
  rw [h5]
  simp

/-- The run of `setWaypoints` on an ORTHOGONAL edge without waypoints whose end points
differ is the run of its loop from the stub. -/
theorem setWaypoints_eq_loop (fuel : Nat) (id_map : IdMap) (cell : MXCell)
    (sd ed : Direction) (he : cell.edge = true)
    (hs : cell.style.edgeStyle = .ORTHOGONAL) (hp : cell.geometry.points = [])
    (hsd : cell.style.startDir = some sd) (hed : cell.style.endDir = some ed)
    (hpq : cell.geometry.sourcePoint ≠ cell.geometry.targetPoint) :
    setWaypoints fuel id_map cell
      = (routerLoop ⟨(routerBoxes id_map cell).1, (routerBoxes id_map cell).2,
            cell.geometry.targetPoint⟩ fuel
          ⟨stub cell.geometry.sourcePoint sd, sd, ed, true, true, []⟩).map
          (fun st => cell.withPoints st.points) := by
  unfold setWaypoints
  rw [he, if_neg (by simp), if_pos ⟨hs, hp⟩, hsd, hed]
  simp only [getOpt, bind, Except.bind]
  rw [if_neg hpq, hp]
  cases routerLoop _ fuel _ <;> rfl

theorem map_ok {α β : Type} (r : Except Fault α) (f : α → β) (a : α) (v : β)
    (hr : r = .ok a) (h : r.map f = .ok v) : f a = v := by
  rw [hr] at h
  injection h

theorem stacked_endpoints :
    (setEndPoints stackedTable stackedEdge).map routeView
      = .ok (some .SOUTH, some .NORTH, ⟨50, 100⟩, ⟨50, 120⟩, []) := by
  decide!

theorem stacked_boxes :
    (setEndPoints stackedTable stackedEdge).map (routerBoxes stackedTable)
      = .ok (⟨0, 0, 100, 100⟩, ⟨0, 120, 100, 100⟩) := by
  decide!

theorem stacked_kind :
    (setEndPoints stackedTable stackedEdge).map (fun c => (c.edge, c.style.edgeStyle))
      = .ok (true, .ORTHOGONAL) := by
  decide!

theorem stacked_first_pass :
    routerRunning stackedEnv.q ⟨⟨50, 120⟩, .SOUTH, .NORTH, true, true, []⟩ = true ∧
      routerStep stackedEnv ⟨⟨50, 120⟩, .SOUTH, .NORTH, true, true, []⟩
        = stackedState .NORTH := by
  decide!

theorem stacked_turns :
    (routerRunning stackedEnv.q (stackedState .NORTH) = true ∧
      routerStep stackedEnv (stackedState .NORTH) = stackedState .SOUTH) ∧
    (routerRunning stackedEnv.q (stackedState .SOUTH) = true ∧
      routerStep stackedEnv (stackedState .SOUTH) = stackedState .NORTH) := by
  decide!

theorem routerLoop_zero_running (env : RouterEnv) (st : RouterState)
    (h : routerRunning env.q st = true) : routerLoop env 0 st = .error .outOfFuel := by
  simp [routerLoop, h]

theorem stacked_loop_spins (n : Nat) :
    routerLoop stackedEnv n (stackedState .NORTH) = .error .outOfFuel ∧
      routerLoop stackedEnv n (stackedState .SOUTH) = .error .outOfFuel := by
  induction n with
  | zero =>
    exact ⟨routerLoop_zero_running _ _ stacked_turns.1.1,
      routerLoop_zero_running _ _ stacked_turns.2.1⟩
  | succ n ih =>
    constructor
    · rw [routerLoop_succ _ _ _ stacked_turns.1.1, stacked_turns.1.2]
      exact ih.2
    · rw [routerLoop_succ _ _ _ stacked_turns.2.1, stacked_turns.2.2]
      exact ih.1

/-- C1 fails on the code: for the ORTHOGONAL edge without waypoints between the
unrotated EAST-facing rectangles `A = (0, 0, 100, 100)` and `B = (0, 120, 100, 100)`,
which do not overlap, `setEndPoints` returns and the loop of `setWaypoints` run after it
is still running after every number of passes: the method does not terminate. -/
theorem setWaypoints_stacked_never_returns (fuel : Nat) :
    setEndPoints stackedTable stackedEdge >>= setWaypoints fuel stackedTable
      = .error .outOfFuel := by
  obtain ⟨c, hc, hv⟩ := map_eq_ok _ _ _ stacked_endpoints
  have hb := map_ok _ _ c _ hc stacked_boxes
  have hk := map_ok _ _ c _ hc stacked_kind
  simp only [routeView, Prod.mk.injEq] at hv hk
  obtain ⟨hsd, hed, hsp, htp, hp⟩ := hv
  rw [hc]
  show setWaypoints fuel stackedTable c = _
  rw [setWaypoints_eq_loop fuel stackedTable c .SOUTH .NORTH hk.1 hk.2 hp hsd hed
    (by rw [hsp, htp]; decide!), hb, hsp, htp]
  have hloop : routerLoop stackedEnv fuel ⟨⟨50, 120⟩, .SOUTH, .NORTH, true, true, []⟩
      = .error .outOfFuel := by
    cases fuel with
    | zero => exact routerLoop_zero_running _ _ stacked_first_pass.1
    | succ n =>
      rw [routerLoop_succ _ _ _ stacked_first_pass.1, stacked_first_pass.2]
      exact (stacked_loop_spins n).1
  have hstub : stub ⟨50, 100⟩ .SOUTH = ⟨50, 120⟩ := by decide!
  rw [hstub]
  show (routerLoop stackedEnv fuel _).map _ = _
  rw [hloop]
  rfl

theorem fdiv_ok (a b : ℚ) (h : b ≠ 0) : fdiv a b = .ok (a / b) := by
  unfold fdiv
  rw [if_neg h]

theorem adjustHexagon_between (c x y : ℚ) (key : (c ≤ x ∧ x ≤ 1 - c) ∨ y = 1 / 2) :
    adjustHexagon c x y = .ok (x, y) := by
  have k1 : ¬(x < c ∧ y < 1 / 2) := by
    rintro ⟨a1, a2⟩
    rcases key with ⟨k, k'⟩ | k <;> linarith
  have k2 : ¬(x > 1 - c ∧ y < 1 / 2) := by
    rintro ⟨a1, a2⟩
    rcases key with ⟨k, k'⟩ | k <;> linarith
  have k3 : ¬(x < c ∧ y > 1 / 2) := by
    rintro ⟨a1, a2⟩
    rcases key with ⟨k, k'⟩ | k <;> linarith
  have k4 : ¬(x > 1 - c ∧ y > 1 / 2) := by
    rintro ⟨a1, a2⟩
    rcases key with ⟨k, k'⟩ | k <;> linarith
  unfold adjustHexagon
  split
  · rename_i hcx
    rw [fdiv_ok _ _ (sub_ne_zero.mpr hcx.2)]
    simp only [bind, Except.bind, if_neg k1, if_neg k2, if_neg k3, if_neg k4]
    rfl
  · rfl

theorem clampedRatio_ok (size dim : ℚ) (hd : dim ≠ 0) (h : size / dim ≤ 1 / 2) :
    clampedRatio size dim = .ok (size / dim) := by
  unfold clampedRatio
  rw [if_neg hd, min_eq_left h]

/-- C23: for every direction `d`, `opposite(d)` is `d XOR 2` on the encoding
`NORTH = 0, EAST = 1, SOUTH = 2, WEST = 3`, and `opposite(opposite(d)) = d`. -/
theorem opposite_xor_two (d : Direction) :
    (opposite d).toInt = ((d.toInt.toNat ^^^ 2 : Nat) : Int) ∧ opposite (opposite d) = d := by
  cases d <;> decide

/-- C24: for every direction `d`, `horizontal(d)` holds exactly when `d` is EAST or WEST,
`vertical(d)` exactly when `d` is NORTH or SOUTH, and exactly one of the two is true. -/
theorem horizontal_vertical (d : Direction) :
    (horizontal d = true ↔ d = .EAST ∨ d = .WEST) ∧
      (vertical d = true ↔ d = .NORTH ∨ d = .SOUTH) ∧
      (horizontal d != vertical d) = true := by
  cases d <;> decide

/-- C25: for all directions `a` and `b`, `perpendicular(a, b)` is true exactly when
`a XOR b` is odd, which is when exactly one of `a`, `b` is horizontal; and
`perpendicular(d, opposite(d))` and `perpendicular(d, d)` are false for every `d`. -/
theorem perpendicular_parity (a b : Direction) :
    (perpendicular a b = true ↔ (a.toInt.toNat ^^^ b.toInt.toNat) % 2 = 1) ∧
      (perpendicular a b = true ↔ (horizontal a != horizontal b) = true) ∧
      perpendicular a (opposite a) = false ∧ perpendicular a a = false := by
  cases a <;> cases b <;> decide

/-- The midpoint of the gap between the two boxes along `p_dir`: between the far edge of
the target and the near edge of the source for NORTH and WEST, between the far edge of
the source and the near edge of the target for EAST and SOUTH. -/
theorem midValue_gap (p_dir : Direction) (s t : Box) :
    midValue p_dir s t =
      match p_dir with
      | .NORTH => ((t.y + t.height) + s.y) / 2
      | .EAST => ((s.x + s.width) + t.x) / 2
      | .SOUTH => ((s.y + s.height) + t.y) / 2
      | .WEST => ((t.x + t.width) + s.x) / 2 := by
  cases p_dir <;> simp only [midValue, reduceCtorEq, if_true, if_false] <;> ring

/-- C28: in one pass of the loop of `setWaypoints`, when `p_dir = opposite(q_dir)` and `p`
points to `q` along `p_dir`: if the gap between the source and target boxes along that
axis is at least 40, the waypoint pushed is `p` with its coordinate along `p_dir` set to
the midpoint of the gap (for EAST `(sourceX + sourceWidth + targetX) / 2`), `p_dir` turns
perpendicular toward `q` and `hugSource` becomes false; if the gap is below 40, the
coordinate is set 20 past the edge of the hugged box, `p_dir` turns toward `q` and
`hugSource` stays. -/
theorem routerStep_opposite_facing (env : RouterEnv) (st : RouterState)
    (ho : st.p_dir = opposite st.q_dir) (hp : pointsTo st.p env.q st.p_dir = true) :
    (40 ≤ gapDist st.p_dir env.source env.target →
      routerStep env st =
        { st with
          p := setChange st.p st.p_dir (midValue st.p_dir env.source env.target)
          p_dir := turnToward st.p_dir env.q
            (setChange st.p st.p_dir (midValue st.p_dir env.source env.target))
          hugSource := false
          points := st.points ++
            [setChange st.p st.p_dir (midValue st.p_dir env.source env.target)]
          start := false }) ∧
    (gapDist st.p_dir env.source env.target < 40 →
      routerStep env st =
        { st with
          p := setChange st.p st.p_dir
            (hugValue st.p_dir (if st.hugSource then env.source else env.target))
          p_dir := turnToward st.p_dir env.q (setChange st.p st.p_dir
            (hugValue st.p_dir (if st.hugSource then env.source else env.target)))
          points := st.points ++ [setChange st.p st.p_dir
            (hugValue st.p_dir (if st.hugSource then env.source else env.target))]
          start := false }) ∧
    midValue st.p_dir env.source env.target =
      (match st.p_dir with
      | .NORTH => ((env.target.y + env.target.height) + env.source.y) / 2
      | .EAST => ((env.source.x + env.source.width) + env.target.x) / 2
      | .SOUTH => ((env.source.y + env.source.height) + env.target.y) / 2
      | .WEST => ((env.target.x + env.target.width) + env.source.x) / 2) := by
  have hperp : perpendicular st.p_dir st.q_dir = false := by
    rw [ho]
    cases st.q_dir <;> decide
  have hpass : routerPass env st =
      if gapDist st.p_dir env.source env.target ≥ 40 then
        .move (setChange st.p st.p_dir (midValue st.p_dir env.source env.target))
          (turnToward st.p_dir env.q
            (setChange st.p st.p_dir (midValue st.p_dir env.source env.target))) false
      else
        .move (setChange st.p st.p_dir
            (hugValue st.p_dir (if st.hugSource then env.source else env.target)))
          (turnToward st.p_dir env.q (setChange st.p st.p_dir
            (hugValue st.p_dir (if st.hugSource then env.source else env.target))))
          st.hugSource := by
    unfold routerPass
    simp only [hperp, Bool.false_and, Bool.false_eq_true, if_false, hp, Bool.and_true,
      decide_eq_true ho, if_true]
  refine ⟨?_, ?_, midValue_gap _ _ _⟩
  · intro hg
    unfold routerStep
    rw [hpass, if_pos hg]
  · intro hg
    unfold routerStep
    rw [hpass, if_neg (not_le.mpr hg)]

theorem routerStep_opposite_facing_witness :
    routerStep ⟨⟨0, 0, 100, 60⟩, ⟨300, 0, 100, 60⟩, ⟨300, 50⟩⟩
        ⟨⟨120, 30⟩, .EAST, .WEST, true, true, []⟩
      = ⟨⟨200, 30⟩, .SOUTH, .WEST, false, false, [⟨200, 30⟩]⟩ :=
  ((routerStep_opposite_facing ⟨⟨0, 0, 100, 60⟩, ⟨300, 0, 100, 60⟩, ⟨300, 50⟩⟩
    ⟨⟨120, 30⟩, .EAST, .WEST, true, true, []⟩ (by decide) (by decide!)).1
    (by decide!)).trans (by decide!)

theorem rhombus_q1 (u v : ℚ) (hu : u < 0) (hv : v < 0) :
    2 + 2 * (v / u) ≠ 0 ∧
      (v / u) / (2 + 2 * (v / u)) = 1 / 2 + u / (2 * (-u + -v)) ∧
      -((v / u) / (2 + 2 * (v / u))) + 1 / 2 = 1 / 2 + v / (2 * (-u + -v)) := by
  have h1 : u ≠ 0 := hu.ne
  have h7 : u + v ≠ 0 := by intro h; linarith
  have h4 : 2 + 2 * (v / u) ≠ 0 := by
    have : 0 < v / u := div_pos_of_neg_of_neg hv hu
    intro h; linarith
  have e : 2 + 2 * (v / u) = 2 * (u + v) / u := by
    field_simp
    ring
  have e2 : 2 * (-u + -v) = -(2 * (u + v)) := by ring
  refine ⟨h4, ?_, ?_⟩ <;> rw [e, e2] <;> field_simp <;> ring

theorem rhombus_q2 (u v : ℚ) (hu : u < 0) (hv : 0 < v) :
    2 * (v / u) - 2 ≠ 0 ∧
      (v / u) / (2 * (v / u) - 2) = 1 / 2 + u / (2 * (-u + v)) ∧
      (v / u) / (2 * (v / u) - 2) + 1 / 2 = 1 / 2 + v / (2 * (-u + v)) := by
  have h1 : u ≠ 0 := hu.ne
  have h7 : v - u ≠ 0 := by intro h; linarith
  have h4 : 2 * (v / u) - 2 ≠ 0 := by
    have : v / u < 0 := div_neg_of_pos_of_neg hv hu
    intro h; linarith
  have e : 2 * (v / u) - 2 = 2 * (v - u) / u := by
    field_simp
    ring
  have e2 : 2 * (-u + v) = 2 * (v - u) := by ring
  refine ⟨h4, ?_, ?_⟩ <;> rw [e, e2] <;> field_simp <;> ring

theorem rhombus_q3 (u v : ℚ) (hu : 0 < u) (hv : v < 0) :
    2 * (v / u) - 2 ≠ 0 ∧
      (v / u - 2) / (2 * (v / u) - 2) = 1 / 2 + u / (2 * (u + -v)) ∧
      (v / u - 2) / (2 * (v / u) - 2) - 1 / 2 = 1 / 2 + v / (2 * (u + -v)) := by
  have h1 : u ≠ 0 := hu.ne'
  have h7 : v - u ≠ 0 := by intro h; linarith
  have h4 : 2 * (v / u) - 2 ≠ 0 := by
    have : v / u < 0 := div_neg_of_neg_of_pos hv hu
    intro h; linarith
  have e : 2 * (v / u) - 2 = 2 * (v - u) / u := by
    field_simp
    ring
  have e2 : 2 * (u + -v) = -(2 * (v - u)) := by ring
  refine ⟨h4, ?_, ?_⟩ <;> rw [e, e2] <;> field_simp <;> ring

theorem rhombus_q4 (u v : ℚ) (hu : 0 < u) (hv : 0 < v) :
    2 * (v / u) + 2 ≠ 0 ∧
      (v / u + 2) / (2 * (v / u) + 2) = 1 / 2 + u / (2 * (u + v)) ∧
      -((v / u + 2) / (2 * (v / u) + 2)) + 3 / 2 = 1 / 2 + v / (2 * (u + v)) := by
  have h1 : u ≠ 0 := hu.ne'
  have h7 : u + v ≠ 0 := by intro h; linarith
  have h4 : 2 * (v / u) + 2 ≠ 0 := by
    have : 0 < v / u := div_pos hv hu
    intro h; linarith
  have e : 2 * (v / u) + 2 = 2 * (u + v) / u := by
    field_simp
    ring
  refine ⟨h4, ?_, ?_⟩ <;> rw [e] <;> field_simp <;> ring

/-- In the four open quadrants around the centre `adjustRhombus` divides by no zero and
scales the vector from the centre to `(x, y)` by `1 / (2 (|x - 1/2| + |y - 1/2|))`. -/
theorem adjustRhombus_quadrant (x y : ℚ) (hx : x ≠ 1 / 2) (hy : y ≠ 1 / 2) :
    adjustRhombus x y
      = .ok (1 / 2 + (x - 1 / 2) / (2 * (|x - 1 / 2| + |y - 1 / 2|)),
          1 / 2 + (y - 1 / 2) / (2 * (|x - 1 / 2| + |y - 1 / 2|))) := by
  have hu : x - 1 / 2 ≠ 0 := sub_ne_zero.mpr hx
  unfold adjustRhombus
  rw [fdiv_ok _ _ hu]
  simp only [bind, Except.bind]
  rcases lt_or_gt_of_ne hx with hx1 | hx1 <;> rcases lt_or_gt_of_ne hy with hy1 | hy1
  · obtain ⟨k1, k2, k3⟩ := rhombus_q1 (x - 1 / 2) (y - 1 / 2) (by linarith) (by linarith)
    rw [if_pos ⟨hx1, hy1⟩, fdiv_ok _ _ k1, abs_of_neg (show x - 1 / 2 < 0 by linarith),
      abs_of_neg (show y - 1 / 2 < 0 by linarith), ← k2, ← k3]
    rfl
  · obtain ⟨k1, k2, k3⟩ := rhombus_q2 (x - 1 / 2) (y - 1 / 2) (by linarith) (by linarith)
    rw [if_neg (by rintro ⟨_, h⟩; linarith), if_pos ⟨hx1, hy1⟩, fdiv_ok _ _ k1,
      abs_of_neg (show x - 1 / 2 < 0 by linarith),
      abs_of_pos (show 0 < y - 1 / 2 by linarith), ← k2, ← k3]
    rfl
  · obtain ⟨k1, k2, k3⟩ := rhombus_q3 (x - 1 / 2) (y - 1 / 2) (by linarith) (by linarith)
    rw [if_neg (by rintro ⟨h, _⟩; linarith), if_neg (by rintro ⟨h, _⟩; linarith),
      if_pos ⟨hx1, hy1⟩, fdiv_ok _ _ k1, abs_of_pos (show 0 < x - 1 / 2 by linarith),
      abs_of_neg (show y - 1 / 2 < 0 by linarith), ← k2, ← k3]
    rfl
  · obtain ⟨k1, k2, k3⟩ := rhombus_q4 (x - 1 / 2) (y - 1 / 2) (by linarith) (by linarith)
    rw [if_neg (by rintro ⟨h, _⟩; linarith), if_neg (by rintro ⟨h, _⟩; linarith),
      if_neg (by rintro ⟨_, h⟩; linarith), if_pos ⟨hx1, hy1⟩,
      fdiv_ok _ _ (by rw [mul_comm] at k1 ⊢; exact k1),
      abs_of_pos (show 0 < x - 1 / 2 by linarith),
      abs_of_pos (show 0 < y - 1 / 2 by linarith), ← k2, ← k3]
    rfl
theorem adjustRhombus_axis (x y : ℚ) (h : x = 1 / 2 ∨ y = 1 / 2) :
    adjustRhombus x y = .ok (x, y) := by
  unfold adjustRhombus
  rcases h with k | k
  · rw [if_neg (by rintro ⟨h1, _⟩; linarith), if_neg (by rintro ⟨h1, _⟩; linarith),
      if_neg (by rintro ⟨h1, _⟩; linarith), if_neg (by rintro ⟨h1, _⟩; linarith)]
  · rw [if_neg (by rintro ⟨_, h1⟩; linarith), if_neg (by rintro ⟨_, h1⟩; linarith),
      if_neg (by rintro ⟨_, h1⟩; linarith), if_neg (by rintro ⟨_, h1⟩; linarith)]

/-- C30: for RHOMBUS_P and every input `(x, y)` on the edge of the unit box,
`adjustEndpoint` returns (no division by zero) and its output satisfies
`|outX - 0.5| + |outY - 0.5| = 0.5` and lies on the ray from `(0.5, 0.5)` through
`(x, y)`. -/
theorem adjustEndpoint_rhombus_projects (shape : MXCell) (x y : ℚ)
    (hp : shape.style.perimeter = .RHOMBUS_P) (hb : onUnitBox x y) :
    ∃ out, adjustEndpoint x y shape = .ok out ∧
      |out.1 - 1 / 2| + |out.2 - 1 / 2| = 1 / 2 ∧
      ∃ k, 0 < k ∧ out.1 - 1 / 2 = k * (x - 1 / 2) ∧ out.2 - 1 / 2 = k * (y - 1 / 2) := by
  obtain ⟨⟨x0, x1, y0, y1⟩, hside⟩ := hb
  have hn : ¬(0 < x ∧ x < 1 ∧ 0 < y ∧ y < 1) := by
    rintro ⟨a1, a2, a3, a4⟩
    rcases hside with h | h | h | h <;> linarith
  have hd : adjustEndpoint x y shape = adjustRhombus x y := by
    unfold adjustEndpoint
    simp only [hp, reduceCtorEq, if_false, if_true]
    rw [if_neg hn]
  rw [hd]
  by_cases hx : x = 1 / 2
  · refine ⟨(x, y), adjustRhombus_axis x y (Or.inl hx), ?_, 1, one_pos, by ring, by ring⟩
    have hy : y = 0 ∨ y = 1 := by
      rcases hside with h | h | h | h
      · linarith
      · linarith
      · exact Or.inl h
      · exact Or.inr h
    rcases hy with hy | hy <;> rw [hx, hy] <;> norm_num [abs_of_neg, abs_of_pos]
  · by_cases hy : y = 1 / 2
    · refine ⟨(x, y), adjustRhombus_axis x y (Or.inr hy), ?_, 1, one_pos, by ring, by ring⟩
      have hx' : x = 0 ∨ x = 1 := by
        rcases hside with h | h | h | h
        · exact Or.inl h
        · exact Or.inr h
        · linarith
        · linarith
      rcases hx' with hx' | hx' <;> rw [hx', hy] <;> norm_num [abs_of_neg, abs_of_pos]
    · have hD : 0 < |x - 1 / 2| + |y - 1 / 2| := by
        have := abs_pos.mpr (sub_ne_zero.mpr hx)
        have := abs_nonneg (y - 1 / 2)
        linarith
      refine ⟨_, adjustRhombus_quadrant x y hx hy, ?_,
        1 / (2 * (|x - 1 / 2| + |y - 1 / 2|)), by positivity, ?_, ?_⟩
      · simp only [add_sub_cancel_left]
        rw [abs_div, abs_div,
          abs_of_pos (show 0 < 2 * (|x - 1 / 2| + |y - 1 / 2|) by positivity), ← add_div,
          div_eq_iff (ne_of_gt (by positivity))]
        ring
      · simp only [add_sub_cancel_left]
        ring
      · simp only [add_sub_cancel_left]
        ring

theorem adjustEndpoint_rhombus_projects_witness :
    ∃ out, adjustEndpoint 0 (1 / 4) rhombusCell = .ok out ∧
      |out.1 - 1 / 2| + |out.2 - 1 / 2| = 1 / 2 ∧
      ∃ k, 0 < k ∧ out.1 - 1 / 2 = k * (0 - 1 / 2) ∧ out.2 - 1 / 2 = k * (1 / 4 - 1 / 2) :=
  adjustEndpoint_rhombus_projects rhombusCell 0 (1 / 4) rfl
    ⟨⟨by norm_num, by norm_num, by norm_num, by norm_num⟩, Or.inl rfl⟩

/-- C26 fails on the code for a negative odd multiple of 90: the source `A` of
`turnedEdge` has `rotation = -90`, centre `(50, 30)` and the rotated bounding box
`[20, 80] x [-20, 80]`; the exit fixed at the middle `(1, 0.5)` of a side gives the source
point `(50, -20)`, on the NORTH side of that box, and `setEndPoints` leaves `startDir` at
EAST, the value of the cascade. -/
theorem setEndPoints_negative_quarter_turn :
    (setEndPoints turnedTable turnedEdge).map routeView
        = .ok (some .EAST, some .WEST, ⟨50, -20⟩, ⟨300, 30⟩, []) ∧
      (turnedTable "A").style.rotation = -90 ∧
      centreOf (turnedTable "A") = ⟨50, 30⟩ ∧
      (-20 : ℚ) = (centreOf (turnedTable "A")).y - (turnedTable "A").geometry.width / 2 ∧
      (50 : ℚ) ≠ (centreOf (turnedTable "A")).x + (turnedTable "A").geometry.height / 2 := by
  decide!

/-- C27 fails on the code for a WEST-facing source: on scenario S4 with `A` facing WEST
the STRAIGHT edge without fixed ends and waypoints gets the source point `(0, 2500)`, on
the side of `A` away from the target, not on `x = A.x + A.width = 10000`. -/
theorem setEndPoints_straight_west_source :
    (setEndPoints westTable s4Edge).map routeView
        = .ok (none, none, ⟨0, 2500⟩, ⟨20000, 2500⟩, []) ∧
      (westTable "A").geometry.x + (westTable "A").geometry.width = 10000 ∧
      (centreOf (westTable "A")).y = (centreOf (westTable "B")).y ∧
      (centreOf (westTable "A")).x < (centreOf (westTable "B")).x := by
  decide!

/-! ## The style parser, single members -/

theorem applyAll_append_ok (hs1 hs2 : List (MXCell → Except Fault MXCell)) (c c1 : MXCell)
    (h : applyAll (hs1 ++ hs2) c = .ok c1) :
    ∃ c2, applyAll hs1 c = .ok c2 ∧ applyAll hs2 c2 = .ok c1 := by
  rw [applyAll_append] at h
  cases h1 : applyAll hs1 c with
  | error e => rw [h1] at h; cases h
  | ok c2 => rw [h1] at h; exact ⟨c2, rfl, h⟩

theorem applyAll_cons_inv (f : MXCell → Except Fault MXCell)
    (hs : List (MXCell → Except Fault MXCell)) (c c1 : MXCell)
    (h : applyAll (f :: hs) c = .ok c1) :
    ∃ c2, f c = .ok c2 ∧ applyAll hs c2 = .ok c1 := by
  rw [applyAll_cons] at h
  cases h1 : f c with
  | error e => rw [h1] at h; cases h
  | ok c2 => rw [h1] at h; exact ⟨c2, rfl, h⟩

/-- The blocks after the one of the `rotation` token leave `style.rotation` as it is. -/
theorem afterRotation_keeps (X : Externals) (m : StyleMap) :
    ∀ f ∈ (attributeHandlers X m).drop 25, ∀ c c1, f c = .ok c1 →
      c1.style.rotation = c.style.rotation := by
  simp only [attributeHandlers, List.drop_succ_cons, List.drop_zero, List.forall_mem_cons]
  refine ⟨?_, ?_, ?_, ?_, ?_, ?_, ?_, ?_, ?_, ?_, ?_, ?_⟩
  any_goals
    apply onKey_preserves
    intro v c
    change Res (fun c1 => c1.style.rotation = c.style.rotation) _
    repeat' first
      | rfl
      | apply res_ite
      | (apply res_bind; intro d)
      | apply res_pure
      | (unfold assignIf; split <;> rfl)
  intro x hx
  cases hx

/-- C21, as the code has it: after `setStyle` returns, `style.rotation` is the number
that `xmlStringToDouble` gives for the value of the `rotation` token, as it is: no
reduction to `[0, 360)` takes place. -/
theorem setStyle_rotation_as_parsed (X : Externals) (cell c1 : MXCell) (v : String) (d : ℚ)
    (hf : (styleMap cell.style_str).find "rotation" = some v)
    (hd : X.xmlStringToDouble v = .ok d) (h : setStyle X cell = .ok c1) :
    c1.style.rotation = d := by
  unfold setStyle styleHandlers at h
  rw [← List.take_append_drop 24 (attributeHandlers X (styleMap cell.style_str)),
    ← List.cons_append, ← List.append_assoc] at h
  obtain ⟨c2, _, h⟩ := applyAll_append_ok _ _ _ _ h
  have hdrop : (attributeHandlers X (styleMap cell.style_str)).drop 24
      = onKey (styleMap cell.style_str) "rotation" (fun v c => do
          let d ← X.xmlStringToDouble v; pure (c.withRotation d))
        :: (attributeHandlers X (styleMap cell.style_str)).drop 25 := rfl
  rw [hdrop] at h
  obtain ⟨c3, h3, h⟩ := applyAll_cons_inv _ _ _ _ h
  rw [applyAll_preserves (fun c => c.style.rotation) _ (afterRotation_keeps X _) c3 c1 h]
  unfold onKey at h3
  rw [hf] at h3
  simp only [hd, bind, Except.bind, pure, Except.pure, Except.ok.injEq] at h3
  rw [← h3]
  rfl

theorem setStyle_rotation_as_parsed_witness :
    ∃ c, setStyle specExternals { style_str := "rotation=450" } = .ok c ∧
      c.style.rotation = 450 := by
  obtain ⟨c, hc, _⟩ := map_eq_ok (setStyle specExternals { style_str := "rotation=450" })
    (fun c => c.style.rotation) 450 (by decide!)
  exact ⟨c, hc, setStyle_rotation_as_parsed specExternals { style_str := "rotation=450" } c
    "450" 450 (by decide!) (by decide!) hc⟩

/-- C21, the claim as written fails: with `xmlStringToDouble` reading decimal numbers, the
token `rotation=-90` is stored as `-90`, which is not in `[0, 360)`, not as `270`. -/
theorem setStyle_rotation_not_reduced :
    (setStyle specExternals { style_str := "rotation=-90" }).map (fun c => c.style.rotation)
        = .ok (-90) ∧ ¬((0 : ℚ) ≤ -90 ∧ (-90 : ℚ) < 360) := by
  decide!

/-- The blocks after the one of the `size` token leave the members of `stepView`. -/
theorem afterSize_keeps (X : Externals) (m : StyleMap) :
    ∀ f ∈ (attributeHandlers X m).drop 11, ∀ c c1, f c = .ok c1 →
      stepView c1 = stepView c := by
  simp only [attributeHandlers, List.drop_succ_cons, List.drop_zero, List.forall_mem_cons]
  refine ⟨?_, ?_, ?_, ?_, ?_, ?_, ?_, ?_, ?_, ?_, ?_, ?_, ?_, ?_, ?_, ?_, ?_, ?_, ?_, ?_,
    ?_, ?_, ?_, ?_, ?_, ?_⟩
  any_goals
    apply onKey_preserves
    intro v c
    change Res (fun c1 => stepView c1 = stepView c) _
    repeat' first
      | rfl
      | apply res_ite
      | (apply res_bind; intro d)
      | apply res_pure
      | (unfold assignIf; split <;> rfl)
  intro x hx
  cases hx

/-- The blocks of the `perimeter`, `direction` and `fixedSize` tokens leave
`style.shape`. -/
theorem beforeSize_keeps (X : Externals) (m : StyleMap) :
    ∀ f ∈ ((attributeHandlers X m).drop 7).take 3, ∀ c c1, f c = .ok c1 →
      c1.style.shape = c.style.shape := by
  simp only [attributeHandlers, List.drop_succ_cons, List.drop_zero, List.take_succ_cons,
    List.take_zero, List.forall_mem_cons]
  refine ⟨?_, ?_, ?_, ?_⟩
  any_goals
    apply onKey_preserves
    intro v c
    change Res (fun c1 => c1.style.shape = c.style.shape) _
    repeat' first
      | rfl
      | apply res_pure
      | (unfold assignIf; split <;> rfl)
  intro x hx
  cases hx

/-- C22: with `shape=step` and a `size=v` token, whatever the order of the tokens in the
string, `setStyle` stores `stepSize = v` when `fixedSize` is true, and when it is false
`v * geometry.height` for direction NORTH or SOUTH and `v * geometry.width` for EAST or
WEST. -/
theorem setStyle_step_size (X : Externals) (cell c1 : MXCell) (v : String) (d : ℚ)
    (hshape : (styleMap cell.style_str).find "shape" = some "step")
    (hsize : (styleMap cell.style_str).find "size" = some v)
    (hd : stod v = .ok d) (h : setStyle X cell = .ok c1) :
    c1.style.stepSize =
      if c1.style.fixedSize then d
      else d * (if c1.style.direction = .NORTH ∨ c1.style.direction = .SOUTH
        then c1.geometry.height else c1.geometry.width) := by
  unfold setStyle styleHandlers at h
  rw [← List.take_append_drop 6 (attributeHandlers X (styleMap cell.style_str)),
    ← List.cons_append, ← List.append_assoc] at h
  obtain ⟨c2, _, h⟩ := applyAll_append_ok _ _ _ _ h
  have hdrop : (attributeHandlers X (styleMap cell.style_str)).drop 6
      = onKey (styleMap cell.style_str) "shape" (fun v c =>
          pure (assignIf (parseShape v) c MXCell.withShape))
        :: (((attributeHandlers X (styleMap cell.style_str)).drop 7).take 3
          ++ onKey (styleMap cell.style_str) "size" setSize
            :: (attributeHandlers X (styleMap cell.style_str)).drop 11) := rfl
  rw [hdrop] at h
  obtain ⟨c3, h3, h⟩ := applyAll_cons_inv _ _ _ _ h
  obtain ⟨c4, h4, h⟩ := applyAll_append_ok _ _ _ _ h
  obtain ⟨c5, h5, h⟩ := applyAll_cons_inv _ _ _ _ h
  have hv := applyAll_preserves stepView _ (afterSize_keeps X _) c5 c1 h
  have hs4 := applyAll_preserves (fun c => c.style.shape) _ (beforeSize_keeps X _) c3 c4 h4
  have hs3 : c3.style.shape = .STEP := by
    unfold onKey at h3
    rw [hshape] at h3
    injection h3 with h3
    rw [← h3]
    rfl
  have hs : c4.style.shape = .STEP := hs4.trans hs3
  unfold onKey at h5
  rw [hsize] at h5
  unfold setSize at h5
  simp only [hs, reduceCtorEq, if_false, if_true, hd, bind, Except.bind] at h5
  simp only [stepView, Prod.mk.injEq] at hv
  obtain ⟨v1, v2, v3, v4, v5⟩ := hv
  rw [v1, v2, v3, v4, v5]
  cases hfx : c4.style.fixedSize with
  | true =>
    rw [hfx] at h5
    simp only [Bool.not_true, Bool.false_eq_true, if_false, pure, Except.pure,
      Except.ok.injEq] at h5
    rw [← h5]
    simp only [MXCell.withStepSize, hfx, if_true]
  | false =>
    rw [hfx] at h5
    simp only [Bool.not_false, if_true, pure, Except.pure, Except.ok.injEq] at h5
    rw [← h5]
    simp only [MXCell.withStepSize, hfx, Bool.false_eq_true, if_false]

theorem setStyle_step_size_witness :
    ∃ c, setStyle specExternals
        { style_str := "size=0.2;fixedSize=0;direction=north;shape=step",
          geometry := { width := 100, height := 60 } } = .ok c ∧
      c.style.stepSize =
        if c.style.fixedSize then (1 / 5 : ℚ)
        else 1 / 5 * (if c.style.direction = .NORTH ∨ c.style.direction = .SOUTH
          then c.geometry.height else c.geometry.width) := by
  obtain ⟨c, hc, _⟩ := map_eq_ok (setStyle specExternals
      { style_str := "size=0.2;fixedSize=0;direction=north;shape=step",
        geometry := { width := 100, height := 60 } })
    (fun c => c.style.stepSize) 12 (by decide!)
  exact ⟨c, hc, setStyle_step_size specExternals _ c "0.2" (1 / 5) (by decide!) (by decide!)
    (by decide!) hc⟩

/-! ## The ellipse perimeter -/

theorem ellipse_ray {K : Type} [LinearOrderedField K] (u v c : K) (hu : u ≠ 0) :
    1 / 2 + 1 / 2 * c - 1 / 2 = c / (2 * u) * u ∧
      1 / 2 + 1 / 2 * (v / u * c) - 1 / 2 = c / (2 * u) * v := by
  constructor
  · field_simp
    ring
  · field_simp
    ring

/-- C29: for ELLIPSE_P and every input `(x, y)` on the edge of the unit box, with exact
library functions, the output of `adjustEndpoint` lies on the inscribed ellipse
`(outX - 0.5)^2 + (outY - 0.5)^2 = 0.25` and on the ray from `(0.5, 0.5)` through
`(x, y)`. -/
theorem adjustEndpoint_ellipse_projects {K : Type} [LinearOrderedField K] (L : Libm K)
    (hL : L.exact) (x y : K) (hside : x = 0 ∨ x = 1 ∨ y = 0 ∨ y = 1) :
    ((adjustEndpointEllipse L x y).1 - 1 / 2) ^ 2
        + ((adjustEndpointEllipse L x y).2 - 1 / 2) ^ 2 = 1 / 4 ∧
      ∃ k, 0 < k ∧ (adjustEndpointEllipse L x y).1 - 1 / 2 = k * (x - 1 / 2) ∧
        (adjustEndpointEllipse L x y).2 - 1 / 2 = k * (y - 1 / 2) := by
  obtain ⟨h1, h2, h3⟩ := hL
  have hn : ¬(0 < x ∧ x < 1 ∧ 0 < y ∧ y < 1) := by
    rintro ⟨a1, a2, a3, a4⟩
    rcases hside with h | h | h | h
    · exact absurd h a1.ne'
    · exact absurd h a2.ne
    · exact absurd h a3.ne'
    · exact absurd h a4.ne
  unfold adjustEndpointEllipse
  rw [if_neg hn]
  unfold adjustEllipseWith
  by_cases hx : x = 1 / 2
  · rw [if_neg (not_not.mpr hx)]
    have hy : y = 0 ∨ y = 1 := by
      rcases hside with h | h | h | h
      · rw [hx] at h; norm_num at h
      · rw [hx] at h; norm_num at h
      · exact Or.inl h
      · exact Or.inr h
    refine ⟨?_, 1, one_pos, by ring, by ring⟩
    rcases hy with hy | hy <;> rw [hx, hy] <;> norm_num
  · rw [if_pos hx]
    simp only []
    have hu : x - 1 / 2 ≠ 0 := sub_ne_zero.mpr hx
    obtain ⟨hc, hs⟩ := h2 ((y - 1 / 2) / (x - 1 / 2))
    have hsq := h1 (L.atan ((y - 1 / 2) / (x - 1 / 2)))
    rcases lt_or_gt_of_ne hx with hlt | hgt
    · rw [if_pos hlt]
      obtain ⟨p1, p2⟩ := h3 (L.atan ((y - 1 / 2) / (x - 1 / 2)))
      obtain ⟨e1, e2⟩ := ellipse_ray (x - 1 / 2) (y - 1 / 2)
        (-L.cos (L.atan ((y - 1 / 2) / (x - 1 / 2)))) hu
      rw [p1, p2, hs, ← mul_neg]
      refine ⟨?_, -L.cos (L.atan ((y - 1 / 2) / (x - 1 / 2))) / (2 * (x - 1 / 2)), ?_, e1, e2⟩
      · rw [hs] at hsq
        linear_combination (1 / 4) * hsq
      · apply div_pos_of_neg_of_neg
        · linarith
        · linarith
    · obtain ⟨e1, e2⟩ := ellipse_ray (x - 1 / 2) (y - 1 / 2)
        (L.cos (L.atan ((y - 1 / 2) / (x - 1 / 2)))) hu
      rw [if_neg (not_lt.mpr hgt.le), add_zero, hs]
      refine ⟨?_, L.cos (L.atan ((y - 1 / 2) / (x - 1 / 2))) / (2 * (x - 1 / 2)), ?_, e1, e2⟩
      · rw [hs] at hsq
        linear_combination (1 / 4) * hsq
      · apply div_pos hc
        linarith

theorem adjustEndpoint_ellipse_projects_witness :
    (⟨Real.arctan, Real.cos, Real.sin, Real.pi⟩ : Libm ℝ).exact ∧
      ((adjustEndpointEllipse ⟨Real.arctan, Real.cos, Real.sin, Real.pi⟩ 1 (1 / 4)).1
          - 1 / 2) ^ 2
        + ((adjustEndpointEllipse ⟨Real.arctan, Real.cos, Real.sin, Real.pi⟩ 1 (1 / 4)).2
          - 1 / 2) ^ 2 = 1 / 4 := by
  have hL : (⟨Real.arctan, Real.cos, Real.sin, Real.pi⟩ : Libm ℝ).exact := by
    refine ⟨fun t => Real.cos_sq_add_sin_sq t, fun m => ⟨Real.cos_arctan_pos m, ?_⟩,
      fun t => ⟨Real.cos_add_pi t, Real.sin_add_pi t⟩⟩
    show Real.sin (Real.arctan m) = m * Real.cos (Real.arctan m)
    have h := Real.tan_arctan m
    rw [Real.tan_eq_sin_div_cos] at h
    exact (div_eq_iff (Real.cos_arctan_pos m).ne').mp h
  exact ⟨hL, (adjustEndpoint_ellipse_projects _ hL 1 (1 / 4) (Or.inr (Or.inl rfl))).1⟩

/-! ## The local frame of the path builder -/

/-- C37: for every cell and every direction, `origin + center` of the `PathContext` built
from the cell is `((x + width/2)/100, (y + height/2)/100)`, the centre of the bounding box
in display units: the swap of width and height for NORTH and SOUTH does not move it. -/
theorem pathContext_origin_plus_center (cell : MXCell) :
    (PathContext.new cell).origin.add (PathContext.new cell).center
      = ⟨(cell.geometry.x + cell.geometry.width / 2) / 100,
          (cell.geometry.y + cell.geometry.height / 2) / 100⟩ := by
  unfold PathContext.new MXPoint.add
  cases cell.style.direction <;>
    simp only [vertical, horizontal, Direction.toInt, MXPoint.mk.injEq] <;>
    norm_num <;> constructor <;> ring

/-! ## The label text -/

theorem processTextLoop_no_open (cs : List Char) (skipping : Bool) :
    '<' ∉ processTextLoop cs skipping := by
  induction cs generalizing skipping with
  | nil => simp [processTextLoop]
  | cons c cs ih =>
    unfold processTextLoop
    simp only [List.mem_append, not_or]
    refine ⟨?_, ih _⟩
    by_cases hc : c = '<'
    · simp [hc]
    · cases skipping <;> simp [hc, Ne.symm hc]

theorem processTextLoop_sublist (cs : List Char) (skipping : Bool) :
    (processTextLoop cs skipping).Sublist cs := by
  induction cs generalizing skipping with
  | nil => simp [processTextLoop]
  | cons c cs ih =>
    unfold processTextLoop
    simp only []
    by_cases h : (!(if c = '<' then true else skipping)) = true
    · rw [if_pos h]
      exact (ih _).cons₂ c
    · rw [if_neg h]
      exact (ih _).cons c

/-- C39: for every string `s`, `processText s` contains no `<`, its characters are a
subsequence of those of `s`, and `processText (processText s) = processText s`. -/
theorem processText_idempotent (s : String) :
    '<' ∉ (processText s).toList ∧ (processText s).toList.Sublist s.toList ∧
      processText (processText s) = processText s := by
  have h1 : '<' ∉ (processText s).toList := processTextLoop_no_open s.toList false
  refine ⟨h1, processTextLoop_sublist s.toList false, ?_⟩
  have h2 := processTextLoop_text (processText s).toList [] h1
  rw [List.append_nil] at h2
  show String.mk (processTextLoop (processText s).toList false) = processText s
  rw [h2]
  simp [processTextLoop]

/-! ## getPoint and rotate -/

/-- C40: for all `x, y, cx, cy` and `angle`, `MXCell::getPoint(x, y, cx, cy, angle)` returns
the coordinates of `MXPoint(x, y).rotate(MXPoint(cx, cy), angle)`, whatever the functions
of the library are; for `x = cx` both take the old angle `-pi/2` if `y <= cy` and `+pi/2`
otherwise.  The two functions of the rational embedding agree as well. -/
theorem getPoint_eq_rotate {K : Type} [LinearOrderedField K] (L : Cmath K)
    (x y cx cy angle : K) :
    getPointWith L x y cx cy angle = rotateWith L (x, y) (cx, cy) angle ∧
      getPointWith L cx y cx cy angle
        = (cx + L.sqrt (L.pow (cx - cx) 2 + L.pow (y - cy) 2)
              * L.cos ((if y ≤ cy then -1 else 1) * L.pi / 2 - angle),
            cy + L.sqrt (L.pow (cx - cx) 2 + L.pow (y - cy) 2)
              * L.sin ((if y ≤ cy then -1 else 1) * L.pi / 2 - angle)) ∧
      ∀ a b ca cb t : ℚ, getPoint a b ca cb t = MXPoint.rotate ⟨a, b⟩ ⟨ca, cb⟩ t := by
  refine ⟨rfl, ?_, fun a b ca cb t => rfl⟩
  unfold getPointWith
  simp only [ne_eq, not_true_eq_false, if_false]

/-! ## The boxes of the router -/

/-- C34: in `setWaypoints`, when the target shape has a parent, the position of that
parent is added to the origin `(sourceX, sourceY)` of the source box, and the target box
is the geometry of the target itself, its origin `(targetX, targetY)` without offset. -/
theorem setWaypoints_target_parent_offset (id_map : IdMap) (cell : MXCell)
    (ht : cell.target_id ≠ "") (hp : (id_map cell.target_id).parent_id ≠ "") :
    routerBoxes id_map cell
      = (⟨(routerSourceBox id_map cell).x
            + (id_map (id_map cell.target_id).parent_id).geometry.x,
          (routerSourceBox id_map cell).y
            + (id_map (id_map cell.target_id).parent_id).geometry.y,
          (routerSourceBox id_map cell).width, (routerSourceBox id_map cell).height⟩,
        ⟨(id_map cell.target_id).geometry.x, (id_map cell.target_id).geometry.y,
          (id_map cell.target_id).geometry.width,
          (id_map cell.target_id).geometry.height⟩) := by
  unfold routerBoxes routerSourceBox boxOfCell boxOfPoint
  simp only [ht, hp, ne_eq, not_false_eq_true, if_true]

theorem setWaypoints_target_parent_offset_witness :
    routerBoxes nestedTable nestedEdge = (⟨500, 400, 100, 60⟩, ⟨300, 0, 100, 60⟩) :=
  (setWaypoints_target_parent_offset nestedTable nestedEdge (by decide) (by decide)).trans
    (by decide!)

/-! ## Projection onto the outline along the ray from the centre -/

/-- The point `(1/2 + e u / (2 D), 1/2 + e v / (2 D))`, with `e` and `D` positive, lies on
the ray from the centre `(1/2, 1/2)` in the direction `(u, v)`. -/
theorem ray_of_form (out : ℚ × ℚ) (u v D e : ℚ) (hD : 0 < D) (he : 0 < e)
    (h1 : out.1 = 1 / 2 + e * u / (2 * D)) (h2 : out.2 = 1 / 2 + e * v / (2 * D)) :
    ∃ k, 0 < k ∧ out.1 - 1 / 2 = k * u ∧ out.2 - 1 / 2 = k * v := by
  refine ⟨e / (2 * D), by positivity, ?_, ?_⟩
  · rw [h1]
    ring
  · rw [h2]
    ring

/-- The point `(1/2 + e u / (2 D), 1/2 + e v / (2 D))` lies on the segment from `a` to `b`
when the conditions, cleared of the denominator `2 D`, hold. -/
theorem onSegment_of_form (a b out : ℚ × ℚ) (u v D e lx hx ly hy : ℚ) (hD : 0 < D)
    (h1 : out.1 = 1 / 2 + e * u / (2 * D)) (h2 : out.2 = 1 / 2 + e * v / (2 * D))
    (m1 : min a.1 b.1 = lx) (M1 : max a.1 b.1 = hx)
    (m2 : min a.2 b.2 = ly) (M2 : max a.2 b.2 = hy)
    (col : (b.1 - a.1) * (D + e * v - 2 * D * a.2) = (b.2 - a.2) * (D + e * u - 2 * D * a.1))
    (b1 : 2 * D * lx ≤ D + e * u) (b2 : D + e * u ≤ 2 * D * hx)
    (b3 : 2 * D * ly ≤ D + e * v) (b4 : D + e * v ≤ 2 * D * hy) :
    onSegment a b out := by
  have hD2 : (0 : ℚ) < 2 * D := by positivity
  have ex : out.1 = (D + e * u) / (2 * D) := by
    rw [h1, eq_div_iff hD2.ne', add_mul, div_mul_cancel₀ _ hD2.ne']
    ring
  have ey : out.2 = (D + e * v) / (2 * D) := by
    rw [h2, eq_div_iff hD2.ne', add_mul, div_mul_cancel₀ _ hD2.ne']
    ring
  unfold onSegment
  rw [m1, M1, m2, M2, ex, ey]
  refine ⟨?_, ?_, ?_, ?_, ?_⟩
  · have t1 : (D + e * v) / (2 * D) - a.2 = (D + e * v - 2 * D * a.2) / (2 * D) := by
      rw [sub_div, mul_div_cancel_left₀ _ hD2.ne']
    have t2 : (D + e * u) / (2 * D) - a.1 = (D + e * u - 2 * D * a.1) / (2 * D) := by
      rw [sub_div, mul_div_cancel_left₀ _ hD2.ne']
    rw [t1, t2, ← mul_div_assoc, ← mul_div_assoc, col]
  · rw [le_div_iff₀ hD2]
    linarith
  · rw [div_le_iff₀ hD2]
    linarith
  · rw [le_div_iff₀ hD2]
    linarith
  · rw [div_le_iff₀ hD2]
    linarith

theorem triangle_upper (u v : ℚ) (hv : v ≠ 0) (hD : u - 2 * v ≠ 0) :
    2 - u / v ≠ 0 ∧
      2 * ((1 / 2 - u / v / 2) / (2 - u / v)) = 1 / 2 + 1 * u / (2 * (u - 2 * v)) ∧
      (1 / 2 - u / v / 2) / (2 - u / v) = 1 / 2 + 1 * v / (2 * (u - 2 * v)) := by
  have e : 2 - u / v = -(u - 2 * v) / v := by
    field_simp
  have h4 : 2 - u / v ≠ 0 := by
    rw [e]
    exact div_ne_zero (neg_ne_zero.mpr hD) hv
  refine ⟨h4, ?_, ?_⟩
  · rw [← mul_div_assoc, div_eq_iff h4]
    field_simp
    ring
  · rw [div_eq_iff h4]
    field_simp
    ring

theorem triangle_lower (u v : ℚ) (hv : v ≠ 0) (hD : u + 2 * v ≠ 0) :
    2 + u / v ≠ 0 ∧
      2 - 2 * ((3 / 2 + u / v / 2) / (2 + u / v)) = 1 / 2 + 1 * u / (2 * (u + 2 * v)) ∧
      (3 / 2 + u / v / 2) / (2 + u / v) = 1 / 2 + 1 * v / (2 * (u + 2 * v)) := by
  have e : 2 + u / v = (u + 2 * v) / v := by
    field_simp
    ring
  have h4 : 2 + u / v ≠ 0 := by
    rw [e]
    exact div_ne_zero hD hv
  have k3 : (3 / 2 + u / v / 2) / (2 + u / v) = 1 / 2 + 1 * v / (2 * (u + 2 * v)) := by
    rw [div_eq_iff h4]
    field_simp
    ring
  refine ⟨h4, ?_, k3⟩
  rw [k3]
  field_simp
  ring

/-- The upper branch of `adjustTriangle` in closed form. -/
theorem adjustTriangle_upper (x y : ℚ) (hy : y < 1 / 2) (hx : 0 < x)
    (hD : 0 < (x - 1 / 2) - 2 * (y - 1 / 2)) :
    adjustTriangle x y
      = .ok (1 / 2 + 1 * (x - 1 / 2) / (2 * ((x - 1 / 2) - 2 * (y - 1 / 2))),
          1 / 2 + 1 * (y - 1 / 2) / (2 * ((x - 1 / 2) - 2 * (y - 1 / 2)))) := by
  obtain ⟨k1, k2, k3⟩ := triangle_upper (x - 1 / 2) (y - 1 / 2) (by intro h; linarith) hD.ne'
  unfold adjustTriangle
  rw [if_pos ⟨hy, hx⟩, fdiv_ok _ _ (by intro h; linarith)]
  simp only [bind, Except.bind]
  rw [fdiv_ok _ _ k1, ← k2, ← k3]
  rfl

/-- The lower branch of `adjustTriangle` in closed form. -/
theorem adjustTriangle_lower (x y : ℚ) (hy : 1 / 2 < y) (hx : 0 < x)
    (hD : 0 < (x - 1 / 2) + 2 * (y - 1 / 2)) :
    adjustTriangle x y
      = .ok (1 / 2 + 1 * (x - 1 / 2) / (2 * ((x - 1 / 2) + 2 * (y - 1 / 2))),
          1 / 2 + 1 * (y - 1 / 2) / (2 * ((x - 1 / 2) + 2 * (y - 1 / 2)))) := by
  obtain ⟨k1, k2, k3⟩ := triangle_lower (x - 1 / 2) (y - 1 / 2) (by intro h; linarith) hD.ne'
  unfold adjustTriangle
  rw [if_neg (by rintro ⟨h, _⟩; linarith), if_pos ⟨hy, hx⟩, fdiv_ok _ _ (by intro h; linarith)]
  simp only [bind, Except.bind]
  rw [fdiv_ok _ _ k1, ← k2, ← k3]
  rfl

theorem adjustTriangle_left (x y : ℚ) (h : x = 0 ∨ y = 1 / 2) :
    adjustTriangle x y = .ok (x, y) := by
  unfold adjustTriangle
  rcases h with k | k
  · rw [if_neg (by rintro ⟨_, h2⟩; linarith), if_neg (by rintro ⟨_, h2⟩; linarith)]
  · rw [if_neg (by rintro ⟨h1, _⟩; linarith), if_neg (by rintro ⟨h1, _⟩; linarith)]

theorem mem_sides_triangle (s : (ℚ × ℚ) × (ℚ × ℚ))
    (h : s = ((0, 0), (1, 1 / 2)) ∨ s = ((1, 1 / 2), (0, 1)) ∨ s = ((0, 1), (0, 0))) :
    s ∈ polygonSides [(0, 0), (1, 1 / 2), (0, 1)] := by
  simpa [polygonSides, sidesFrom] using h

/-- C31: for TRIANGLE_P and every input `(x, y)` on the edge of the unit box,
`adjustEndpoint` returns (no division by zero), and its output lies on the boundary of the
triangle with the corners `(0, 0)`, `(1, 0.5)`, `(0, 1)` and on the ray from `(0.5, 0.5)`
through `(x, y)`. -/
theorem adjustEndpoint_triangle_projects (shape : MXCell) (x y : ℚ)
    (hp : shape.style.perimeter = .TRIANGLE_P) (hb : onUnitBox x y) :
    ∃ out, adjustEndpoint x y shape = .ok out ∧
      onPolygon [(0, 0), (1, 1 / 2), (0, 1)] out ∧
      ∃ k, 0 < k ∧ out.1 - 1 / 2 = k * (x - 1 / 2) ∧ out.2 - 1 / 2 = k * (y - 1 / 2) := by
  obtain ⟨⟨x0, x1, y0, y1⟩, hside⟩ := hb
  have hn : ¬(0 < x ∧ x < 1 ∧ 0 < y ∧ y < 1) := by
    rintro ⟨a1, a2, a3, a4⟩
    rcases hside with h | h | h | h <;> linarith
  have hd : adjustEndpoint x y shape = adjustTriangle x y := by
    unfold adjustEndpoint
    simp only [hp, reduceCtorEq, if_false, if_true]
    rw [if_neg hn]
  rw [hd]
  by_cases hx : x = 0
  · refine ⟨(x, y), adjustTriangle_left x y (Or.inl hx),
      ⟨((0, 1), (0, 0)), mem_sides_triangle _ (Or.inr (Or.inr rfl)), ?_⟩,
      1, one_pos, by ring, by ring⟩
    unfold onSegment
    subst hx
    norm_num
    exact ⟨y0, y1⟩
  · have hx0 : 0 < x := lt_of_le_of_ne x0 (Ne.symm hx)
    rcases lt_trichotomy y (1 / 2) with hy | hy | hy
    · have hD : 0 < (x - 1 / 2) - 2 * (y - 1 / 2) := by
        rcases hside with h | h | h | h <;> linarith
      refine ⟨_, adjustTriangle_upper x y hy hx0 hD,
        ⟨((0, 0), (1, 1 / 2)), mem_sides_triangle _ (Or.inl rfl), ?_⟩,
        ray_of_form _ _ _ _ 1 hD one_pos rfl rfl⟩
      refine onSegment_of_form _ _ _ (x - 1 / 2) (y - 1 / 2) _ 1 0 1 0 (1 / 2) hD rfl rfl
        (by norm_num) (by norm_num) (by norm_num) (by norm_num) ?_ ?_ ?_ ?_ ?_
      · simp only []
        ring
      · rcases hside with h | h | h | h <;> linarith
      · rcases hside with h | h | h | h <;> linarith
      · rcases hside with h | h | h | h <;> linarith
      · rcases hside with h | h | h | h <;> linarith
    · have hx1 : x = 1 := by
        rcases hside with h | h | h | h
        · exact absurd h hx
        · exact h
        · exfalso; linarith
        · exfalso; linarith
      refine ⟨(x, y), adjustTriangle_left x y (Or.inr hy),
        ⟨((0, 0), (1, 1 / 2)), mem_sides_triangle _ (Or.inl rfl), ?_⟩,
        1, one_pos, by ring, by ring⟩
      unfold onSegment
      subst hx1
      subst hy
      norm_num
    · have hD : 0 < (x - 1 / 2) + 2 * (y - 1 / 2) := by
        rcases hside with h | h | h | h <;> linarith
      refine ⟨_, adjustTriangle_lower x y hy hx0 hD,
        ⟨((1, 1 / 2), (0, 1)), mem_sides_triangle _ (Or.inr (Or.inl rfl)), ?_⟩,
        ray_of_form _ _ _ _ 1 hD one_pos rfl rfl⟩
      refine onSegment_of_form _ _ _ (x - 1 / 2) (y - 1 / 2) _ 1 0 1 (1 / 2) 1 hD rfl rfl
        (by norm_num) (by norm_num) (by norm_num) (by norm_num) ?_ ?_ ?_ ?_ ?_
      · simp only []
        ring
      · rcases hside with h | h | h | h <;> linarith
      · rcases hside with h | h | h | h <;> linarith
      · rcases hside with h | h | h | h <;> linarith
      · rcases hside with h | h | h | h <;> linarith

theorem adjustEndpoint_triangle_projects_witness :
    ∃ out, adjustEndpoint 1 (1 / 4) triangleCell = .ok out ∧
      onPolygon [(0, 0), (1, 1 / 2), (0, 1)] out ∧
      ∃ k, 0 < k ∧ out.1 - 1 / 2 = k * (1 - 1 / 2) ∧ out.2 - 1 / 2 = k * (1 / 4 - 1 / 2) :=
  adjustEndpoint_triangle_projects triangleCell 1 (1 / 4) rfl
    ⟨⟨by norm_num, by norm_num, by norm_num, by norm_num⟩, Or.inr (Or.inl rfl)⟩

/-! ## The parallelogram perimeter -/

theorem parallelogram_left (c u v : ℚ) (hc : c ≠ 0) (hu : u ≠ 0) (hD : u + c * v ≠ 0) :
    2 * (v / u) * c + 2 ≠ 0 ∧
      (v / u * c + c) / (2 * (v / u) * c + 2) = 1 / 2 + (1 - c) * u / (2 * -(u + c * v)) ∧
      1 - (v / u * c + c) / (2 * (v / u) * c + 2) / c
        = 1 / 2 + (1 - c) * v / (2 * -(u + c * v)) := by
  have e : 2 * (v / u) * c + 2 = 2 * (u + c * v) / u := by
    field_simp
    ring
  have h4 : 2 * (v / u) * c + 2 ≠ 0 := by
    rw [e]
    exact div_ne_zero (mul_ne_zero two_ne_zero hD) hu
  have e2 : 2 * -(u + c * v) = -(2 * (u + c * v)) := by ring
  refine ⟨h4, ?_, ?_⟩ <;> rw [e, e2] <;> field_simp <;> ring

theorem parallelogram_right (c u v : ℚ) (hc : c ≠ 0) (hu : u ≠ 0) (hD : u + c * v ≠ 0) :
    2 * (v / u) * c + 2 ≠ 0 ∧
      (v / u * c - c + 2) / (2 * (v / u) * c + 2) = 1 / 2 + (1 - c) * u / (2 * (u + c * v)) ∧
      (1 - (v / u * c - c + 2) / (2 * (v / u) * c + 2)) / c
        = 1 / 2 + (1 - c) * v / (2 * (u + c * v)) := by
  have e : 2 * (v / u) * c + 2 = 2 * (u + c * v) / u := by
    field_simp
    ring
  have h4 : 2 * (v / u) * c + 2 ≠ 0 := by
    rw [e]
    exact div_ne_zero (mul_ne_zero two_ne_zero hD) hu
  refine ⟨h4, ?_, ?_⟩ <;> rw [e] <;> field_simp <;> ring

/-- The left branch of `adjustParallelogram` in closed form. -/
theorem adjustParallelogram_left (c x y : ℚ) (hc : c ≠ 0) (hx : x < c ∧ y < 1)
    (hu : x ≠ 1 / 2) (hD : 0 < -((x - 1 / 2) + c * (y - 1 / 2))) :
    adjustParallelogram c x y
      = .ok (1 / 2 + (1 - c) * (x - 1 / 2) / (2 * -((x - 1 / 2) + c * (y - 1 / 2))),
          1 / 2 + (1 - c) * (y - 1 / 2) / (2 * -((x - 1 / 2) + c * (y - 1 / 2)))) := by
  obtain ⟨k1, k2, k3⟩ := parallelogram_left c (x - 1 / 2) (y - 1 / 2) hc
    (sub_ne_zero.mpr hu) (by intro h; rw [h] at hD; simp at hD)
  unfold adjustParallelogram
  rw [if_pos ⟨hc, hu⟩, fdiv_ok _ _ (sub_ne_zero.mpr hu)]
  simp only [bind, Except.bind]
  rw [if_pos hx, fdiv_ok _ _ k1]
  simp only [bind, Except.bind]
  rw [fdiv_ok _ _ hc, ← k2, ← k3]
  rfl

/-- The right branch of `adjustParallelogram` in closed form. -/
theorem adjustParallelogram_right (c x y : ℚ) (hc : c ≠ 0) (hx1 : ¬(x < c ∧ y < 1))
    (hx : x > 1 - c ∧ y > 0) (hu : x ≠ 1 / 2) (hD : 0 < (x - 1 / 2) + c * (y - 1 / 2)) :
    adjustParallelogram c x y
      = .ok (1 / 2 + (1 - c) * (x - 1 / 2) / (2 * ((x - 1 / 2) + c * (y - 1 / 2))),
          1 / 2 + (1 - c) * (y - 1 / 2) / (2 * ((x - 1 / 2) + c * (y - 1 / 2)))) := by
  obtain ⟨k1, k2, k3⟩ := parallelogram_right c (x - 1 / 2) (y - 1 / 2) hc
    (sub_ne_zero.mpr hu) hD.ne'
  unfold adjustParallelogram
  rw [if_pos ⟨hc, hu⟩, fdiv_ok _ _ (sub_ne_zero.mpr hu)]
  simp only [bind, Except.bind]
  rw [if_neg hx1, if_pos hx, fdiv_ok _ _ k1]
  simp only [bind, Except.bind]
  rw [fdiv_ok _ _ hc, ← k2, ← k3]
  rfl

/-- Outside its two branches `adjustParallelogram` returns the input. -/
theorem adjustParallelogram_between (c x y : ℚ) (k1 : ¬(x < c ∧ y < 1))
    (k2 : ¬(x > 1 - c ∧ y > 0)) :
    adjustParallelogram c x y = .ok (x, y) := by
  unfold adjustParallelogram
  split
  · rename_i hcx
    rw [fdiv_ok _ _ (sub_ne_zero.mpr hcx.2)]
    simp only [bind, Except.bind, if_neg k1, if_neg k2]
    rfl
  · rfl

theorem mem_sides_parallelogram (c : ℚ) (s : (ℚ × ℚ) × (ℚ × ℚ))
    (h : s = ((0, 1), (c, 0)) ∨ s = ((c, 0), (1, 0)) ∨ s = ((1, 0), (1 - c, 1))
      ∨ s = ((1 - c, 1), (0, 1))) :
    s ∈ polygonSides [(0, 1), (c, 0), (1, 0), (1 - c, 1)] := by
  simpa [polygonSides, sidesFrom] using h

theorem parallelogram_left_on (c x y : ℚ) (hc0 : 0 < c) (hc1 : c ≤ 1 / 2)
    (hb : onUnitBox x y) (hx : x < c ∧ y < 1) :
    ∃ out, adjustParallelogram c x y = .ok out ∧ onSegment (0, 1) (c, 0) out ∧
      ∃ k, 0 < k ∧ out.1 - 1 / 2 = k * (x - 1 / 2) ∧ out.2 - 1 / 2 = k * (y - 1 / 2) := by
  obtain ⟨⟨x0, x1, y0, y1⟩, hside⟩ := hb
  have hs : x = 0 ∨ y = 0 := by
    rcases hside with h | h | h | h
    · exact Or.inl h
    · exfalso; linarith [hx.1]
    · exact Or.inr h
    · exfalso; linarith [hx.2]
  have F1 : (x - 1 / 2) + (y - 1 / 2) ≤ 0 := by
    rcases hs with h | h <;> linarith
  have F2 : 0 ≤ (y - 1 / 2) * (1 - 2 * c) - (x - 1 / 2) := by
    rcases hs with h | h
    · subst h
      nlinarith [mul_nonneg y0 (show (0 : ℚ) ≤ 1 - 2 * c by linarith)]
    · subst h
      linarith [hx.1]
  have hD : 0 < -((x - 1 / 2) + c * (y - 1 / 2)) := by
    rcases hs with h | h
    · subst h
      nlinarith [mul_pos hc0 (show (0 : ℚ) < 1 - y by linarith [hx.2])]
    · subst h
      linarith [hx.1]
  have p1 := mul_nonneg hc0.le F2
  have p2 := mul_nonneg hc0.le (show (0 : ℚ) ≤ -((x - 1 / 2) + (y - 1 / 2)) by linarith)
  refine ⟨_, adjustParallelogram_left c x y hc0.ne' hx (by intro h; linarith [hx.1]) hD, ?_,
    ray_of_form _ _ _ _ (1 - c) hD (by linarith) rfl rfl⟩
  refine onSegment_of_form _ _ _ (x - 1 / 2) (y - 1 / 2) _ (1 - c) 0 c 0 1 hD rfl rfl
    (min_eq_left hc0.le) (max_eq_right hc0.le) (by norm_num) (by norm_num) ?_ ?_ ?_ ?_ ?_
  · simp only []
    ring
  · linarith
  · linarith
  · linarith
  · linarith

theorem parallelogram_right_on (c x y : ℚ) (hc0 : 0 < c) (hc1 : c ≤ 1 / 2)
    (hb : onUnitBox x y) (hx : x > 1 - c ∧ y > 0) :
    ∃ out, adjustParallelogram c x y = .ok out ∧ onSegment (1, 0) (1 - c, 1) out ∧
      ∃ k, 0 < k ∧ out.1 - 1 / 2 = k * (x - 1 / 2) ∧ out.2 - 1 / 2 = k * (y - 1 / 2) := by
  obtain ⟨⟨x0, x1, y0, y1⟩, hside⟩ := hb
  have hs : x = 1 ∨ y = 1 := by
    rcases hside with h | h | h | h
    · exfalso; linarith [hx.1]
    · exact Or.inl h
    · exfalso; linarith [hx.2]
    · exact Or.inr h
  have F1 : 0 ≤ (x - 1 / 2) + (y - 1 / 2) := by
    rcases hs with h | h <;> linarith
  have F2 : 0 ≤ (x - 1 / 2) - (y - 1 / 2) * (1 - 2 * c) := by
    rcases hs with h | h
    · subst h
      nlinarith [mul_nonneg (show (0 : ℚ) ≤ 1 - y by linarith)
        (show (0 : ℚ) ≤ 1 - 2 * c by linarith)]
    · subst h
      linarith [hx.1]
  have hD : 0 < (x - 1 / 2) + c * (y - 1 / 2) := by
    rcases hs with h | h
    · subst h
      nlinarith [mul_pos hc0 hx.2]
    · subst h
      linarith [hx.1]
  have p1 := mul_nonneg hc0.le F2
  have p2 := mul_nonneg hc0.le F1
  refine ⟨_, adjustParallelogram_right c x y hc0.ne' (by rintro ⟨h, _⟩; linarith [hx.1]) hx
    (by intro h; linarith [hx.1]) hD, ?_,
    ray_of_form _ _ _ _ (1 - c) hD (by linarith) rfl rfl⟩
  refine onSegment_of_form _ _ _ (x - 1 / 2) (y - 1 / 2) _ (1 - c) (1 - c) 1 0 1 hD rfl rfl
    (min_eq_right (show (1 - c : ℚ) ≤ 1 by linarith))
    (max_eq_left (show (1 - c : ℚ) ≤ 1 by linarith)) (by norm_num) (by norm_num)
    ?_ ?_ ?_ ?_ ?_
  · simp only []
    ring
  · linarith
  · linarith
  · linarith
  · linarith

/-- The projection of `adjustParallelogram` for a ratio `c` with `0 < c <= 1/2`. -/
theorem adjustParallelogram_projects (c x y : ℚ) (hc0 : 0 < c) (hc1 : c ≤ 1 / 2)
    (hb : onUnitBox x y) :
    ∃ out, adjustParallelogram c x y = .ok out ∧
      onPolygon [(0, 1), (c, 0), (1, 0), (1 - c, 1)] out ∧
      ∃ k, 0 < k ∧ out.1 - 1 / 2 = k * (x - 1 / 2) ∧ out.2 - 1 / 2 = k * (y - 1 / 2) := by
  by_cases h1 : x < c ∧ y < 1
  · obtain ⟨out, e, s, r⟩ := parallelogram_left_on c x y hc0 hc1 hb h1
    exact ⟨out, e, ⟨_, mem_sides_parallelogram c _ (Or.inl rfl), s⟩, r⟩
  · by_cases h2 : x > 1 - c ∧ y > 0
    · obtain ⟨out, e, s, r⟩ := parallelogram_right_on c x y hc0 hc1 hb h2
      exact ⟨out, e, ⟨_, mem_sides_parallelogram c _ (Or.inr (Or.inr (Or.inl rfl))), s⟩, r⟩
    · obtain ⟨⟨x0, x1, y0, y1⟩, hside⟩ := hb
      refine ⟨(x, y), adjustParallelogram_between c x y h1 h2, ?_, 1, one_pos, by ring, by ring⟩
      have hy : y = 0 ∨ y = 1 := by
        rcases hside with h | h | h | h
        · subst h
          rcases eq_or_lt_of_le y1 with e | e
          · exact Or.inr e
          · exact absurd ⟨hc0, e⟩ h1
        · subst h
          rcases eq_or_lt_of_le y0 with e | e
          · exact Or.inl e.symm
          · exact absurd ⟨by linarith, e⟩ h2
        · exact Or.inl h
        · exact Or.inr h
      rcases hy with hy | hy
      · subst hy
        have hxc : c ≤ x := by
          by_contra hlt
          exact h1 ⟨lt_of_not_le hlt, by norm_num⟩
        refine ⟨_, mem_sides_parallelogram c _ (Or.inr (Or.inl rfl)), ?_⟩
        unfold onSegment
        simp only [min_eq_left (show c ≤ 1 by linarith), max_eq_right (show c ≤ 1 by linarith),
          min_self, max_self]
        exact ⟨by ring, hxc, x1, le_refl _, le_refl _⟩
      · subst hy
        have hxc : x ≤ 1 - c := by
          by_contra hlt
          exact h2 ⟨lt_of_not_le hlt, by norm_num⟩
        refine ⟨_, mem_sides_parallelogram c _ (Or.inr (Or.inr (Or.inr rfl))), ?_⟩
        unfold onSegment
        simp only [min_eq_right (show (0 : ℚ) ≤ 1 - c by linarith),
          max_eq_left (show (0 : ℚ) ≤ 1 - c by linarith), min_self, max_self]
        exact ⟨by ring, x0, hxc, le_refl _, le_refl _⟩

/-- C33: for PARALLELOGRAM_P with `0 < c = parallelogramSize / (axis dimension) <= 0.5` and
every input `(x, y)` on the edge of the unit box, `adjustEndpoint` returns a point of the
boundary of the parallelogram with the corners `(0, 1)`, `(c, 0)`, `(1, 0)`, `(1 - c, 1)`
that lies on the ray from `(0.5, 0.5)` through `(x, y)`. -/
theorem adjustEndpoint_parallelogram_projects (shape : MXCell) (x y : ℚ)
    (hp : shape.style.perimeter = .PARALLELOGRAM_P)
    (hc0 : 0 < shape.style.parallelogramSize / axisDimension shape)
    (hc1 : shape.style.parallelogramSize / axisDimension shape ≤ 1 / 2)
    (hb : onUnitBox x y) :
    ∃ out, adjustEndpoint x y shape = .ok out ∧
      onPolygon [(0, 1), (shape.style.parallelogramSize / axisDimension shape, 0), (1, 0),
        (1 - shape.style.parallelogramSize / axisDimension shape, 1)] out ∧
      ∃ k, 0 < k ∧ out.1 - 1 / 2 = k * (x - 1 / 2) ∧ out.2 - 1 / 2 = k * (y - 1 / 2) := by
  have hn : ¬(0 < x ∧ x < 1 ∧ 0 < y ∧ y < 1) := by
    rintro ⟨a1, a2, a3, a4⟩
    rcases hb.2 with h | h | h | h <;> linarith
  have hdim : axisDimension shape ≠ 0 := by
    intro h
    rw [h, div_zero] at hc0
    exact lt_irrefl _ hc0
  have hd : adjustEndpoint x y shape
      = adjustParallelogram (shape.style.parallelogramSize / axisDimension shape) x y := by
    unfold adjustEndpoint
    simp only [hp, reduceCtorEq, if_false, if_true]
    rw [if_neg hn, clampedRatio_ok _ _ hdim hc1]
    rfl
  rw [hd]
  exact adjustParallelogram_projects _ x y hc0 hc1 hb

theorem adjustEndpoint_parallelogram_projects_witness :
    ∃ out, adjustEndpoint 0 (1 / 4) parallelogramCell = .ok out ∧
      onPolygon [(0, 1),
        (parallelogramCell.style.parallelogramSize / axisDimension parallelogramCell, 0),
        (1, 0),
        (1 - parallelogramCell.style.parallelogramSize / axisDimension parallelogramCell, 1)]
        out ∧
      ∃ k, 0 < k ∧ out.1 - 1 / 2 = k * (0 - 1 / 2) ∧ out.2 - 1 / 2 = k * (1 / 4 - 1 / 2) :=
  adjustEndpoint_parallelogram_projects parallelogramCell 0 (1 / 4) rfl (by decide!)
    (by decide!) ⟨⟨by norm_num, by norm_num, by norm_num, by norm_num⟩, Or.inl rfl⟩

/-! ## The hexagon perimeter -/

theorem hexagon_nw (c u v : ℚ) (hc : c ≠ 0) (hu : u ≠ 0) (hD : u + 2 * c * v ≠ 0) :
    2 * c * (v / u) + 1 ≠ 0 ∧
      c * (v / u) / (2 * c * (v / u) + 1) = 1 / 2 + 1 * u / (2 * -(u + 2 * c * v)) ∧
      -(c * (v / u) / (2 * c * (v / u) + 1) / (2 * c)) + 1 / 2
        = 1 / 2 + 1 * v / (2 * -(u + 2 * c * v)) := by
  have e : 2 * c * (v / u) + 1 = (u + 2 * c * v) / u := by
    field_simp
    ring
  have h4 : 2 * c * (v / u) + 1 ≠ 0 := by
    rw [e]
    exact div_ne_zero hD hu
  have e2 : 2 * -(u + 2 * c * v) = -(2 * (u + 2 * c * v)) := by ring
  have k2 : c * (v / u) / (2 * c * (v / u) + 1) = 1 / 2 + 1 * u / (2 * -(u + 2 * c * v)) := by
    rw [div_eq_iff h4, e2]
    field_simp
    ring
  refine ⟨h4, k2, ?_⟩
  rw [k2, e2]
  field_simp
  ring

theorem hexagon_ne (c u v : ℚ) (hc : c ≠ 0) (hu : u ≠ 0) (hD : u - 2 * c * v ≠ 0) :
    2 * (v / u) * c - 1 ≠ 0 ∧
      (v / u * c - 1) / (2 * (v / u) * c - 1) = 1 / 2 + 1 * u / (2 * (u - 2 * c * v)) ∧
      ((v / u * c - 1) / (2 * (v / u) * c - 1) + c - 1) / (2 * c)
        = 1 / 2 + 1 * v / (2 * (u - 2 * c * v)) := by
  have e : 2 * (v / u) * c - 1 = -(u - 2 * c * v) / u := by
    field_simp
    ring
  have h4 : 2 * (v / u) * c - 1 ≠ 0 := by
    rw [e]
    exact div_ne_zero (neg_ne_zero.mpr hD) hu
  have k2 : (v / u * c - 1) / (2 * (v / u) * c - 1)
      = 1 / 2 + 1 * u / (2 * (u - 2 * c * v)) := by
    rw [div_eq_iff h4]
    field_simp
    ring
  refine ⟨h4, k2, ?_⟩
  rw [k2]
  field_simp
  ring

theorem hexagon_sw (c u v : ℚ) (hc : c ≠ 0) (hu : u ≠ 0) (hD : -u + 2 * c * v ≠ 0) :
    2 * (v / u) * c - 1 ≠ 0 ∧
      v / u * c / (2 * (v / u) * c - 1) = 1 / 2 + 1 * u / (2 * (-u + 2 * c * v)) ∧
      v / u * c / (2 * (v / u) * c - 1) / (2 * c) + 1 / 2
        = 1 / 2 + 1 * v / (2 * (-u + 2 * c * v)) := by
  have e : 2 * (v / u) * c - 1 = (-u + 2 * c * v) / u := by
    field_simp
    ring
  have h4 : 2 * (v / u) * c - 1 ≠ 0 := by
    rw [e]
    exact div_ne_zero hD hu
  have k2 : v / u * c / (2 * (v / u) * c - 1) = 1 / 2 + 1 * u / (2 * (-u + 2 * c * v)) := by
    rw [div_eq_iff h4]
    field_simp
    ring
  refine ⟨h4, k2, ?_⟩
  rw [k2]
  field_simp
  ring

theorem hexagon_se (c u v : ℚ) (hc : c ≠ 0) (hu : u ≠ 0) (hD : u + 2 * c * v ≠ 0) :
    2 * (v / u) * c + 1 ≠ 0 ∧
      (v / u * c + 1) / (2 * (v / u) * c + 1) = 1 / 2 + 1 * u / (2 * (u + 2 * c * v)) ∧
      (1 + c - (v / u * c + 1) / (2 * (v / u) * c + 1)) / (2 * c)
        = 1 / 2 + 1 * v / (2 * (u + 2 * c * v)) := by
  have e : 2 * (v / u) * c + 1 = (u + 2 * c * v) / u := by
    field_simp
    ring
  have h4 : 2 * (v / u) * c + 1 ≠ 0 := by
    rw [e]
    exact div_ne_zero hD hu
  have k2 : (v / u * c + 1) / (2 * (v / u) * c + 1)
      = 1 / 2 + 1 * u / (2 * (u + 2 * c * v)) := by
    rw [div_eq_iff h4]
    field_simp
    ring
  refine ⟨h4, k2, ?_⟩
  rw [k2]
  field_simp
  ring

/-- The branch `x < c && y < 0.5` of `adjustHexagon` in closed form. -/
theorem adjustHexagon_nw (c x y : ℚ) (hc : c ≠ 0) (hx : x < c ∧ y < 1 / 2)
    (hu : x ≠ 1 / 2) (hD : 0 < -((x - 1 / 2) + 2 * c * (y - 1 / 2))) :
    adjustHexagon c x y
      = .ok (1 / 2 + 1 * (x - 1 / 2) / (2 * -((x - 1 / 2) + 2 * c * (y - 1 / 2))),
          1 / 2 + 1 * (y - 1 / 2) / (2 * -((x - 1 / 2) + 2 * c * (y - 1 / 2)))) := by
  obtain ⟨k1, k2, k3⟩ := hexagon_nw c (x - 1 / 2) (y - 1 / 2) hc
    (sub_ne_zero.mpr hu) (by intro h; rw [h] at hD; simp at hD)
  unfold adjustHexagon
  rw [if_pos ⟨hc, hu⟩, fdiv_ok _ _ (sub_ne_zero.mpr hu)]
  simp only [bind, Except.bind]
  rw [if_pos hx, fdiv_ok _ _ k1]
  simp only [bind, Except.bind]
  rw [fdiv_ok _ _ (mul_ne_zero two_ne_zero hc), ← k2, ← k3]
  rfl

/-- The branch `x > 1 - c && y < 0.5` of `adjustHexagon` in closed form. -/
theorem adjustHexagon_ne (c x y : ℚ) (hc : c ≠ 0) (hx1 : ¬(x < c ∧ y < 1 / 2))
    (hx : x > 1 - c ∧ y < 1 / 2)
    (hu : x ≠ 1 / 2) (hD : 0 < (x - 1 / 2) - 2 * c * (y - 1 / 2)) :
    adjustHexagon c x y
      = .ok (1 / 2 + 1 * (x - 1 / 2) / (2 * ((x - 1 / 2) - 2 * c * (y - 1 / 2))),
          1 / 2 + 1 * (y - 1 / 2) / (2 * ((x - 1 / 2) - 2 * c * (y - 1 / 2)))) := by
  obtain ⟨k1, k2, k3⟩ := hexagon_ne c (x - 1 / 2) (y - 1 / 2) hc
    (sub_ne_zero.mpr hu) hD.ne'
  unfold adjustHexagon
  rw [if_pos ⟨hc, hu⟩, fdiv_ok _ _ (sub_ne_zero.mpr hu)]
  simp only [bind, Except.bind]
  rw [if_neg hx1, if_pos hx, fdiv_ok _ _ k1]
  simp only [bind, Except.bind]
  rw [fdiv_ok _ _ (mul_ne_zero two_ne_zero hc), ← k2, ← k3]
  rfl

/-- The branch `x < c && y > 0.5` of `adjustHexagon` in closed form. -/
theorem adjustHexagon_sw (c x y : ℚ) (hc : c ≠ 0) (hx1 : ¬(x < c ∧ y < 1 / 2))
    (hx2 : ¬(x > 1 - c ∧ y < 1 / 2)) (hx : x < c ∧ y > 1 / 2)
    (hu : x ≠ 1 / 2) (hD : 0 < -(x - 1 / 2) + 2 * c * (y - 1 / 2)) :
    adjustHexagon c x y
      = .ok (1 / 2 + 1 * (x - 1 / 2) / (2 * (-(x - 1 / 2) + 2 * c * (y - 1 / 2))),
          1 / 2 + 1 * (y - 1 / 2) / (2 * (-(x - 1 / 2) + 2 * c * (y - 1 / 2)))) := by
  obtain ⟨k1, k2, k3⟩ := hexagon_sw c (x - 1 / 2) (y - 1 / 2) hc
    (sub_ne_zero.mpr hu) hD.ne'
  unfold adjustHexagon
  rw [if_pos ⟨hc, hu⟩, fdiv_ok _ _ (sub_ne_zero.mpr hu)]
  simp only [bind, Except.bind]
  rw [if_neg hx1, if_neg hx2, if_pos hx, fdiv_ok _ _ k1]
  simp only [bind, Except.bind]
  rw [fdiv_ok _ _ (mul_ne_zero two_ne_zero hc), ← k2, ← k3]
  rfl

/-- The branch `x > 1 - c && y > 0.5` of `adjustHexagon` in closed form. -/
theorem adjustHexagon_se (c x y : ℚ) (hc : c ≠ 0) (hx1 : ¬(x < c ∧ y < 1 / 2))
    (hx2 : ¬(x > 1 - c ∧ y < 1 / 2)) (hx3 : ¬(x < c ∧ y > 1 / 2))
    (hx : x > 1 - c ∧ y > 1 / 2)
    (hu : x ≠ 1 / 2) (hD : 0 < (x - 1 / 2) + 2 * c * (y - 1 / 2)) :
    adjustHexagon c x y
      = .ok (1 / 2 + 1 * (x - 1 / 2) / (2 * ((x - 1 / 2) + 2 * c * (y - 1 / 2))),
          1 / 2 + 1 * (y - 1 / 2) / (2 * ((x - 1 / 2) + 2 * c * (y - 1 / 2)))) := by
  obtain ⟨k1, k2, k3⟩ := hexagon_se c (x - 1 / 2) (y - 1 / 2) hc
    (sub_ne_zero.mpr hu) hD.ne'
  unfold adjustHexagon
  rw [if_pos ⟨hc, hu⟩, fdiv_ok _ _ (sub_ne_zero.mpr hu)]
  simp only [bind, Except.bind]
  rw [if_neg hx1, if_neg hx2, if_neg hx3, if_pos hx, fdiv_ok _ _ k1]
  simp only [bind, Except.bind]
  rw [fdiv_ok _ _ (mul_ne_zero two_ne_zero hc), ← k2, ← k3]
  rfl

theorem mem_sides_hexagon (c : ℚ) (s : (ℚ × ℚ) × (ℚ × ℚ))
    (h : s = ((c, 0), (1 - c, 0)) ∨ s = ((1 - c, 0), (1, 1 / 2))
      ∨ s = ((1, 1 / 2), (1 - c, 1)) ∨ s = ((1 - c, 1), (c, 1))
      ∨ s = ((c, 1), (0, 1 / 2)) ∨ s = ((0, 1 / 2), (c, 0))) :
    s ∈ polygonSides [(c, 0), (1 - c, 0), (1, 1 / 2), (1 - c, 1), (c, 1), (0, 1 / 2)] := by
  simpa [polygonSides, sidesFrom] using h

theorem hexagon_nw_on (c x y : ℚ) (hc0 : 0 < c) (hc1 : c ≤ 1 / 2)
    (hb : onUnitBox x y) (hx : x < c ∧ y < 1 / 2) :
    ∃ out, adjustHexagon c x y = .ok out ∧ onSegment (0, 1 / 2) (c, 0) out ∧
      ∃ k, 0 < k ∧ out.1 - 1 / 2 = k * (x - 1 / 2) ∧ out.2 - 1 / 2 = k * (y - 1 / 2) := by
  obtain ⟨⟨x0, x1, y0, y1⟩, hside⟩ := hb
  have hs : x = 0 ∨ y = 0 := by
    rcases hside with h | h | h | h
    · exact Or.inl h
    · exfalso; linarith [hx.1]
    · exact Or.inr h
    · exfalso; linarith [hx.2]
  have F2 : 0 ≤ (y - 1 / 2) * (1 - 2 * c) - (x - 1 / 2) := by
    rcases hs with h | h
    · subst h
      nlinarith [mul_nonneg y0 (show (0 : ℚ) ≤ 1 - 2 * c by linarith)]
    · subst h
      linarith [hx.1]
  have p0 := mul_pos hc0 (show (0 : ℚ) < -(y - 1 / 2) by linarith [hx.2])
  have hD : 0 < -((x - 1 / 2) + 2 * c * (y - 1 / 2)) := by linarith [hx.1]
  have p1 := mul_nonneg hc0.le F2
  refine ⟨_, adjustHexagon_nw c x y hc0.ne' hx (by intro h; linarith [hx.1]) hD, ?_,
    ray_of_form _ _ _ _ 1 hD one_pos rfl rfl⟩
  refine onSegment_of_form _ _ _ (x - 1 / 2) (y - 1 / 2) _ 1 0 c 0 (1 / 2) hD rfl rfl
    (min_eq_left hc0.le) (max_eq_right hc0.le) (by norm_num) (by norm_num) ?_ ?_ ?_ ?_ ?_
  · simp only []
    ring
  · linarith
  · linarith
  · linarith
  · linarith [hx.2]

theorem hexagon_ne_on (c x y : ℚ) (hc0 : 0 < c) (hc1 : c ≤ 1 / 2)
    (hb : onUnitBox x y) (hx : x > 1 - c ∧ y < 1 / 2) :
    ∃ out, adjustHexagon c x y = .ok out ∧ onSegment (1 - c, 0) (1, 1 / 2) out ∧
      ∃ k, 0 < k ∧ out.1 - 1 / 2 = k * (x - 1 / 2) ∧ out.2 - 1 / 2 = k * (y - 1 / 2) := by
  obtain ⟨⟨x0, x1, y0, y1⟩, hside⟩ := hb
  have hs : x = 1 ∨ y = 0 := by
    rcases hside with h | h | h | h
    · exfalso; linarith [hx.1]
    · exact Or.inl h
    · exact Or.inr h
    · exfalso; linarith [hx.2]
  have F2 : 0 ≤ (x - 1 / 2) + (y - 1 / 2) * (1 - 2 * c) := by
    rcases hs with h | h
    · subst h
      nlinarith [mul_nonneg y0 (show (0 : ℚ) ≤ 1 - 2 * c by linarith)]
    · subst h
      linarith [hx.1]
  have p0 := mul_pos hc0 (show (0 : ℚ) < -(y - 1 / 2) by linarith [hx.2])
  have hD : 0 < (x - 1 / 2) - 2 * c * (y - 1 / 2) := by linarith [hx.1]
  have p1 := mul_nonneg hc0.le F2
  refine ⟨_, adjustHexagon_ne c x y hc0.ne' (by rintro ⟨h, _⟩; linarith [hx.1]) hx
    (by intro h; linarith [hx.1]) hD, ?_, ray_of_form _ _ _ _ 1 hD one_pos rfl rfl⟩
  refine onSegment_of_form _ _ _ (x - 1 / 2) (y - 1 / 2) _ 1 (1 - c) 1 0 (1 / 2) hD rfl rfl
    (min_eq_left (show (1 - c : ℚ) ≤ 1 by linarith))
    (max_eq_right (show (1 - c : ℚ) ≤ 1 by linarith)) (by norm_num) (by norm_num)
    ?_ ?_ ?_ ?_ ?_
  · simp only []
    ring
  · linarith
  · linarith
  · linarith
  · linarith [hx.2]

theorem hexagon_sw_on (c x y : ℚ) (hc0 : 0 < c) (hc1 : c ≤ 1 / 2)
    (hb : onUnitBox x y) (hx : x < c ∧ y > 1 / 2) :
    ∃ out, adjustHexagon c x y = .ok out ∧ onSegment (c, 1) (0, 1 / 2) out ∧
      ∃ k, 0 < k ∧ out.1 - 1 / 2 = k * (x - 1 / 2) ∧ out.2 - 1 / 2 = k * (y - 1 / 2) := by
  obtain ⟨⟨x0, x1, y0, y1⟩, hside⟩ := hb
  have hs : x = 0 ∨ y = 1 := by
    rcases hside with h | h | h | h
    · exact Or.inl h
    · exfalso; linarith [hx.1]
    · exfalso; linarith [hx.2]
    · exact Or.inr h
  have F2 : 0 ≤ -(x - 1 / 2) - (y - 1 / 2) * (1 - 2 * c) := by
    rcases hs with h | h
    · subst h
      nlinarith [mul_nonneg (show (0 : ℚ) ≤ 1 - y by linarith)
        (show (0 : ℚ) ≤ 1 - 2 * c by linarith)]
    · subst h
      linarith [hx.1]
  have p0 := mul_pos hc0 (show (0 : ℚ) < y - 1 / 2 by linarith [hx.2])
  have hD : 0 < -(x - 1 / 2) + 2 * c * (y - 1 / 2) := by linarith [hx.1]
  have p1 := mul_nonneg hc0.le F2
  refine ⟨_, adjustHexagon_sw c x y hc0.ne' (by rintro ⟨_, h⟩; linarith [hx.2])
    (by rintro ⟨_, h⟩; linarith [hx.2]) hx (by intro h; linarith [hx.1]) hD, ?_,
    ray_of_form _ _ _ _ 1 hD one_pos rfl rfl⟩
  refine onSegment_of_form _ _ _ (x - 1 / 2) (y - 1 / 2) _ 1 0 c (1 / 2) 1 hD rfl rfl
    (min_eq_right hc0.le) (max_eq_left hc0.le) (by norm_num) (by norm_num) ?_ ?_ ?_ ?_ ?_
  · simp only []
    ring
  · linarith
  · linarith
  · linarith [hx.2]
  · linarith

theorem hexagon_se_on (c x y : ℚ) (hc0 : 0 < c) (hc1 : c ≤ 1 / 2)
    (hb : onUnitBox x y) (hx : x > 1 - c ∧ y > 1 / 2) :
    ∃ out, adjustHexagon c x y = .ok out ∧ onSegment (1, 1 / 2) (1 - c, 1) out ∧
      ∃ k, 0 < k ∧ out.1 - 1 / 2 = k * (x - 1 / 2) ∧ out.2 - 1 / 2 = k * (y - 1 / 2) := by
  obtain ⟨⟨x0, x1, y0, y1⟩, hside⟩ := hb
  have hs : x = 1 ∨ y = 1 := by
    rcases hside with h | h | h | h
    · exfalso; linarith [hx.1]
    · exact Or.inl h
    · exfalso; linarith [hx.2]
    · exact Or.inr h
  have F2 : 0 ≤ (x - 1 / 2) - (y - 1 / 2) * (1 - 2 * c) := by
    rcases hs with h | h
    · subst h
      nlinarith [mul_nonneg (show (0 : ℚ) ≤ 1 - y by linarith)
        (show (0 : ℚ) ≤ 1 - 2 * c by linarith)]
    · subst h
      linarith [hx.1]
  have p0 := mul_pos hc0 (show (0 : ℚ) < y - 1 / 2 by linarith [hx.2])
  have hD : 0 < (x - 1 / 2) + 2 * c * (y - 1 / 2) := by linarith [hx.1]
  have p1 := mul_nonneg hc0.le F2
  refine ⟨_, adjustHexagon_se c x y hc0.ne' (by rintro ⟨_, h⟩; linarith [hx.2])
    (by rintro ⟨_, h⟩; linarith [hx.2]) (by rintro ⟨h, _⟩; linarith [hx.1]) hx
    (by intro h; linarith [hx.1]) hD, ?_, ray_of_form _ _ _ _ 1 hD one_pos rfl rfl⟩
  refine onSegment_of_form _ _ _ (x - 1 / 2) (y - 1 / 2) _ 1 (1 - c) 1 (1 / 2) 1 hD rfl rfl
    (min_eq_right (show (1 - c : ℚ) ≤ 1 by linarith))
    (max_eq_left (show (1 - c : ℚ) ≤ 1 by linarith)) (by norm_num) (by norm_num)
    ?_ ?_ ?_ ?_ ?_
  · simp only []
    ring
  · linarith
  · linarith
  · linarith [hx.2]
  · linarith

/-- The projection of `adjustHexagon` for a ratio `c` with `0 < c <= 1/2`. -/
theorem adjustHexagon_projects (c x y : ℚ) (hc0 : 0 < c) (hc1 : c ≤ 1 / 2)
    (hb : onUnitBox x y) :
    ∃ out, adjustHexagon c x y = .ok out ∧
      onPolygon [(c, 0), (1 - c, 0), (1, 1 / 2), (1 - c, 1), (c, 1), (0, 1 / 2)] out ∧
      ∃ k, 0 < k ∧ out.1 - 1 / 2 = k * (x - 1 / 2) ∧ out.2 - 1 / 2 = k * (y - 1 / 2) := by
  by_cases hm : (c ≤ x ∧ x ≤ 1 - c) ∨ y = 1 / 2
  · obtain ⟨⟨x0, x1, y0, y1⟩, hside⟩ := hb
    refine ⟨(x, y), adjustHexagon_between c x y hm, ?_, 1, one_pos, by ring, by ring⟩
    rcases hm with ⟨h1, h2⟩ | h
    · have hy : y = 0 ∨ y = 1 := by
        rcases hside with h | h | h | h
        · exfalso; linarith
        · exfalso; linarith
        · exact Or.inl h
        · exact Or.inr h
      rcases hy with hy | hy
      · subst hy
        refine ⟨_, mem_sides_hexagon c _ (Or.inl rfl), ?_⟩
        unfold onSegment
        simp only [min_eq_left (show c ≤ 1 - c by linarith),
          max_eq_right (show c ≤ 1 - c by linarith), min_self, max_self]
        exact ⟨by ring, h1, h2, le_refl _, le_refl _⟩
      · subst hy
        refine ⟨_, mem_sides_hexagon c _ (Or.inr (Or.inr (Or.inr (Or.inl rfl)))), ?_⟩
        unfold onSegment
        simp only [min_eq_right (show c ≤ 1 - c by linarith),
          max_eq_left (show c ≤ 1 - c by linarith), min_self, max_self]
        exact ⟨by ring, h1, h2, le_refl _, le_refl _⟩
    · subst h
      have hx : x = 0 ∨ x = 1 := by
        rcases hside with h | h | h | h
        · exact Or.inl h
        · exact Or.inr h
        · norm_num at h
        · norm_num at h
      rcases hx with hx | hx
      · subst hx
        refine ⟨_, mem_sides_hexagon c _ (Or.inr (Or.inr (Or.inr (Or.inr (Or.inr rfl))))), ?_⟩
        unfold onSegment
        simp only [min_eq_left hc0.le, max_eq_right hc0.le]
        norm_num
        exact hc0.le
      · subst hx
        refine ⟨_, mem_sides_hexagon c _ (Or.inr (Or.inr (Or.inl rfl))), ?_⟩
        unfold onSegment
        simp only [min_eq_right (show (1 - c : ℚ) ≤ 1 by linarith),
          max_eq_left (show (1 - c : ℚ) ≤ 1 by linarith)]
        norm_num
        linarith
  · have hy : y ≠ 1 / 2 := fun h => hm (Or.inr h)
    have hxs : x < c ∨ x > 1 - c := by
      by_contra hn
      exact hm (Or.inl ⟨le_of_not_lt (fun h => hn (Or.inl h)),
        le_of_not_lt (fun h => hn (Or.inr h))⟩)
    rcases hxs with hxs | hxs <;> rcases lt_or_gt_of_ne hy with hys | hys
    · obtain ⟨out, e, s, r⟩ := hexagon_nw_on c x y hc0 hc1 hb ⟨hxs, hys⟩
      exact ⟨out, e,
        ⟨_, mem_sides_hexagon c _ (Or.inr (Or.inr (Or.inr (Or.inr (Or.inr rfl))))), s⟩, r⟩
    · obtain ⟨out, e, s, r⟩ := hexagon_sw_on c x y hc0 hc1 hb ⟨hxs, hys⟩
      exact ⟨out, e,
        ⟨_, mem_sides_hexagon c _ (Or.inr (Or.inr (Or.inr (Or.inr (Or.inl rfl))))), s⟩, r⟩
    · obtain ⟨out, e, s, r⟩ := hexagon_ne_on c x y hc0 hc1 hb ⟨hxs, hys⟩
      exact ⟨out, e, ⟨_, mem_sides_hexagon c _ (Or.inr (Or.inl rfl)), s⟩, r⟩
    · obtain ⟨out, e, s, r⟩ := hexagon_se_on c x y hc0 hc1 hb ⟨hxs, hys⟩
      exact ⟨out, e, ⟨_, mem_sides_hexagon c _ (Or.inr (Or.inr (Or.inl rfl))), s⟩, r⟩

/-- C32: for HEXAGON_P with `0 < c = hexagonSize / (axis dimension) <= 0.5` and every input
`(x, y)` on the edge of the unit box, `adjustEndpoint` returns a point of the boundary of
the hexagon with the corners `(c, 0)`, `(1 - c, 0)`, `(1, 0.5)`, `(1 - c, 1)`, `(c, 1)`,
`(0, 0.5)` that lies on the ray from `(0.5, 0.5)` through `(x, y)`. -/
theorem adjustEndpoint_hexagon_projects (shape : MXCell) (x y : ℚ)
    (hp : shape.style.perimeter = .HEXAGON_P)
    (hc0 : 0 < shape.style.hexagonSize / axisDimension shape)
    (hc1 : shape.style.hexagonSize / axisDimension shape ≤ 1 / 2)
    (hb : onUnitBox x y) :
    ∃ out, adjustEndpoint x y shape = .ok out ∧
      onPolygon [(shape.style.hexagonSize / axisDimension shape, 0),
        (1 - shape.style.hexagonSize / axisDimension shape, 0), (1, 1 / 2),
        (1 - shape.style.hexagonSize / axisDimension shape, 1),
        (shape.style.hexagonSize / axisDimension shape, 1), (0, 1 / 2)] out ∧
      ∃ k, 0 < k ∧ out.1 - 1 / 2 = k * (x - 1 / 2) ∧ out.2 - 1 / 2 = k * (y - 1 / 2) := by
  have hn : ¬(0 < x ∧ x < 1 ∧ 0 < y ∧ y < 1) := by
    rintro ⟨a1, a2, a3, a4⟩
    rcases hb.2 with h | h | h | h <;> linarith
  have hdim : axisDimension shape ≠ 0 := by
    intro h
    rw [h, div_zero] at hc0
    exact lt_irrefl _ hc0
  have hd : adjustEndpoint x y shape
      = adjustHexagon (shape.style.hexagonSize / axisDimension shape) x y := by
    unfold adjustEndpoint
    simp only [hp, reduceCtorEq, if_false, if_true]
    rw [if_neg hn, clampedRatio_ok _ _ hdim hc1]
    rfl
  rw [hd]
  exact adjustHexagon_projects _ x y hc0 hc1 hb

theorem adjustEndpoint_hexagon_projects_witness :
    ∃ out, adjustEndpoint 0 (1 / 4) hexagonCell = .ok out ∧
      onPolygon [(hexagonCell.style.hexagonSize / axisDimension hexagonCell, 0),
        (1 - hexagonCell.style.hexagonSize / axisDimension hexagonCell, 0), (1, 1 / 2),
        (1 - hexagonCell.style.hexagonSize / axisDimension hexagonCell, 1),
        (hexagonCell.style.hexagonSize / axisDimension hexagonCell, 1), (0, 1 / 2)] out ∧
      ∃ k, 0 < k ∧ out.1 - 1 / 2 = k * (0 - 1 / 2) ∧ out.2 - 1 / 2 = k * (1 / 4 - 1 / 2) :=
  adjustEndpoint_hexagon_projects hexagonCell 0 (1 / 4) rfl (by decide!)
    (by decide!) ⟨⟨by norm_num, by norm_num, by norm_num, by norm_num⟩, Or.inl rfl⟩

/-! ## The step perimeter -/

/-- For a ratio `c` with `0 < c <= 1/2` and an input on the edge of the unit box,
`adjustStep` divides by zero only for `c = 1/2` at the corners `(0, 0)` and `(0, 1)`. -/
theorem adjustStep_returns (c x y : ℚ) (hc0 : 0 < c) (hc1 : c ≤ 1 / 2) (hb : onUnitBox x y)
    (hne : ¬(c = 1 / 2 ∧ x = 0 ∧ (y = 0 ∨ y = 1))) :
    ∃ out, adjustStep c x y = .ok out := by
  obtain ⟨⟨x0, x1, y0, y1⟩, hside⟩ := hb
  unfold adjustStep
  rw [if_neg (by rintro ⟨_, h, _⟩; linarith)]
  by_cases hy : y = 1 / 2
  · rw [if_pos hy]
    exact ⟨_, rfl⟩
  · have hv : y - 1 / 2 ≠ 0 := sub_ne_zero.mpr hy
    rw [if_neg hy, fdiv_ok _ _ hv]
    simp only [bind, Except.bind]
    by_cases h1 : x = 0 ∧ y < 1 / 2
    · have hd : 4 * c - 2 * ((x - 1 / 2) / (y - 1 / 2)) ≠ 0 := by
        intro h
        have e : (4 * c - 2 * ((x - 1 / 2) / (y - 1 / 2))) * (y - 1 / 2)
            = 4 * c * (y - 1 / 2) - 2 * (x - 1 / 2) := by
          rw [sub_mul, mul_assoc 2 _ (y - 1 / 2), div_mul_cancel₀ _ hv]
        rw [h, zero_mul, h1.1] at e
        have hy0 : y = 0 := by
          by_contra hy0
          have hp := mul_pos hc0 (lt_of_le_of_ne y0 (Ne.symm hy0))
          linarith
        rw [hy0] at e
        exact hne ⟨by linarith, h1.1, Or.inl hy0⟩
      rw [if_pos h1, fdiv_ok _ _ hd]
      exact ⟨_, rfl⟩
    · rw [if_neg h1]
      by_cases h2 : x = 0 ∧ y > 1 / 2
      · have hd : 4 * c + 2 * ((x - 1 / 2) / (y - 1 / 2)) ≠ 0 := by
          intro h
          have e : (4 * c + 2 * ((x - 1 / 2) / (y - 1 / 2))) * (y - 1 / 2)
              = 4 * c * (y - 1 / 2) + 2 * (x - 1 / 2) := by
            rw [add_mul, mul_assoc 2 _ (y - 1 / 2), div_mul_cancel₀ _ hv]
          rw [h, zero_mul, h2.1] at e
          have hy0 : y = 1 := by
            by_contra hy0
            have hp := mul_pos hc0 (show 0 < 1 - y from
              sub_pos.mpr (lt_of_le_of_ne y1 hy0))
            linarith
          rw [hy0] at e
          exact hne ⟨by linarith, h2.1, Or.inr hy0⟩
        rw [if_pos h2, fdiv_ok _ _ hd]
        exact ⟨_, rfl⟩
      · rw [if_neg h2]
        by_cases h3 : x > 1 - c ∧ y < 1 / 2
        · have hm : (x - 1 / 2) / (y - 1 / 2) < 0 :=
            div_neg_of_pos_of_neg (by linarith [h3.1]) (by linarith [h3.2])
          rw [if_pos h3, fdiv_ok _ _ (by intro h; linarith)]
          exact ⟨_, rfl⟩
        · rw [if_neg h3]
          by_cases h4 : x > 1 - c ∧ y > 1 / 2
          · have hm : 0 < (x - 1 / 2) / (y - 1 / 2) :=
              div_pos (by linarith [h4.1]) (by linarith [h4.2])
            rw [if_pos h4, fdiv_ok _ _ (by intro h; linarith)]
            exact ⟨_, rfl⟩
          · rw [if_neg h4]
            exact ⟨_, rfl⟩

/-- C35 fails on the code at the two corners it names: for the step `stepHalfCell`, whose
`stepSize` is half its width (`c = 0.5`), the inputs `(0, 0)` and `(0, 1)` are on the edge
of the unit box and `adjustEndpoint` divides by zero for both: the slope is `m = 1`
(`m = -1`) and the denominator `4c - 2m` (`4c + 2m`) is `0`, under the numerator `0`. -/
theorem adjustEndpoint_step_corner_divides_by_zero :
    stepHalfCell.style.perimeter = .STEP_P ∧
      stepHalfCell.style.stepSize / axisDimension stepHalfCell = 1 / 2 ∧
      onUnitBox 0 0 ∧ onUnitBox 0 1 ∧
      adjustEndpoint 0 0 stepHalfCell = .error .nonFinite ∧
      adjustEndpoint 0 1 stepHalfCell = .error .nonFinite := by
  refine ⟨rfl, by decide!, ?_, ?_, by decide!, by decide!⟩
  · unfold onUnitBox
    norm_num
  · unfold onUnitBox
    norm_num

/-! ## Reads of optionals -/

theorem ner_ok {α : Type} (a : α) : NoEmptyRead (Except.ok a : Except Fault α) := by
  intro h
  cases h

theorem ner_pure {α : Type} (a : α) : NoEmptyRead (pure a : Except Fault α) := by
  intro h
  cases h

theorem ner_error {α : Type} (e : Fault) (h : e ≠ .emptyOptional) :
    NoEmptyRead (Except.error e : Except Fault α) := by
  intro h2
  injection h2 with h3
  exact h h3

/-- The flags `startFixed` and `endFixed` as `setStyle` leaves them. -/
theorem setStyle_fixed_of (X : Externals) (cell c1 : MXCell) (h : setStyle X cell = .ok c1) :
    (c1.style.startFixed = true ↔
      (c1.style.exitX.isSome = true ∧ c1.style.exitY.isSome = true) ∨ c1.source_id = "") ∧
    (c1.style.endFixed = true ↔
      (c1.style.entryX.isSome = true ∧ c1.style.entryY.isSome = true) ∨ c1.target_id = "") := by
  unfold setStyle styleHandlers at h
  rw [applyAll_append] at h
  split at h
  · next c2 h2 =>
    change applyAll (attributeHandlers X _) (setFixed c2) = _ at h
    have hv := applyAll_preserves fixedView _ (attributeHandlers_fixedView X _) _ _ h
    simp only [fixedView, Prod.mk.injEq] at hv
    obtain ⟨h1, h2, h3, h4, h5, h6, h7, h8⟩ := hv
    rw [h1, h2, h3, h4, h5, h6, h7, h8]
    simp [setFixed]
  · cases h

/-! ## The order of the tokens -/

theorem assign_fresh (m : StyleMap) (k v : String) (h : k ∉ m.map Prod.fst) :
    m.assign k v = (k, v) :: m := by
  unfold StyleMap.assign
  congr 1
  apply List.filter_eq_self.mpr
  intro e he
  simp only [bne_iff_ne, ne_eq]
  intro hk
  exact h (hk ▸ List.mem_map_of_mem Prod.fst he)

theorem foldl_assign (ps : List (String × String)) (m : StyleMap)
    (hn : (ps.map Prod.fst).Nodup) (hd : ∀ k ∈ ps.map Prod.fst, k ∉ m.map Prod.fst) :
    ps.foldl (fun m p => m.assign p.1 p.2) m = ps.reverse ++ m := by
  induction ps generalizing m with
  | nil => rfl
  | cons p ps ih =>
    simp only [List.map_cons, List.nodup_cons] at hn
    simp only [List.foldl_cons, List.reverse_cons, List.append_assoc, List.singleton_append]
    rw [assign_fresh m p.1 p.2 (hd _ (by simp))]
    apply ih _ hn.2
    intro k hk
    simp only [List.map_cons, List.mem_cons, not_or]
    exact ⟨fun e => hn.1 (e ▸ hk), hd k (by simp [hk])⟩

/-- With pairwise distinct keys the map `style_m` holds the entries of the tokens. -/
theorem styleMap_eq (s : String) (hn : ((splitTokens s.toList).map tokenKey).Nodup) :
    styleMap s = ((splitTokens s.toList).map tokenPair).reverse := by
  have hk : (((splitTokens s.toList).map tokenPair).map Prod.fst).Nodup := by
    rw [List.map_map]
    have e : (Prod.fst ∘ tokenPair) = (String.mk ∘ tokenKey) := rfl
    rw [e, ← List.map_map]
    exact hn.map (fun a b h => by injection h)
  have h := foldl_assign ((splitTokens s.toList).map tokenPair) [] hk (by simp)
  rw [List.append_nil, List.foldl_map] at h
  exact h

theorem lookup_iff_mem (l : List (String × String)) (hn : (l.map Prod.fst).Nodup)
    (k v : String) : l.lookup k = some v ↔ (k, v) ∈ l := by
  induction l with
  | nil => simp
  | cons p ps ih =>
    obtain ⟨a, b⟩ := p
    simp only [List.map_cons, List.nodup_cons] at hn
    by_cases hk : k = a
    · subst hk
      simp only [List.lookup_cons, beq_self_eq_true, Option.some.injEq, List.mem_cons,
        Prod.mk.injEq, true_and]
      constructor
      · intro h
        exact Or.inl h.symm
      · rintro (h | h)
        · exact h.symm
        · exact absurd (List.mem_map_of_mem Prod.fst h) hn.1
    · have hb : (k == a) = false := by simpa using hk
      simp only [List.lookup_cons, hb, List.mem_cons, Prod.mk.injEq, hk, false_and, false_or]
      exact ih hn.2

theorem find_perm (l1 l2 : StyleMap) (hp : l1.Perm l2) (hn : (l1.map Prod.fst).Nodup)
    (k : String) : l1.find k = l2.find k := by
  have hn2 : (l2.map Prod.fst).Nodup := (hp.map Prod.fst).nodup_iff.mp hn
  unfold StyleMap.find
  apply Option.ext
  intro v
  simp only [Option.mem_def]
  rw [lookup_iff_mem l1 hn, lookup_iff_mem l2 hn2, hp.mem_iff]

/-- Two style strings whose token lists are permutations of each other with pairwise
distinct keys give maps with the same lookups. -/
theorem styleMap_find_perm (s1 s2 : String)
    (hp : (splitTokens s1.toList).Perm (splitTokens s2.toList))
    (hn : ((splitTokens s1.toList).map tokenKey).Nodup) (k : String) :
    (styleMap s1).find k = (styleMap s2).find k := by
  have hn2 : ((splitTokens s2.toList).map tokenKey).Nodup :=
    (hp.map tokenKey).nodup_iff.mp hn
  rw [styleMap_eq s1 hn, styleMap_eq s2 hn2]
  apply find_perm
  · exact ((List.reverse_perm _).trans (hp.map tokenPair)).trans (List.reverse_perm _).symm
  · rw [List.map_reverse, List.nodup_reverse, List.map_map]
    have e : (Prod.fst ∘ tokenPair) = (String.mk ∘ tokenKey) := rfl
    rw [e, ← List.map_map]
    exact hn.map (fun a b h => by injection h)

theorem onKey_congr (m1 m2 : StyleMap) (h : ∀ k, m1.find k = m2.find k) (k : String)
    (f : String → MXCell → Except Fault MXCell) : onKey m1 k f = onKey m2 k f := by
  funext c
  unfold onKey
  rw [h]

theorem styleHandlers_congr (X : Externals) (m1 m2 : StyleMap)
    (h : ∀ k, m1.find k = m2.find k) : styleHandlers X m1 = styleHandlers X m2 := by
  unfold styleHandlers entryExitHandlers attributeHandlers
  simp only [onKey_congr m1 m2 h]

theorem applyAll_withStyleStr (hs : List (MXCell → Except Fault MXCell)) (s : String)
    (h : ∀ f ∈ hs, ∀ c, f (c.withStyleStr s) = (f c).map (fun c1 => c1.withStyleStr s))
    (c : MXCell) :
    applyAll hs (c.withStyleStr s) = (applyAll hs c).map (fun c1 => c1.withStyleStr s) := by
  induction hs generalizing c with
  | nil => rfl
  | cons f fs ih =>
    simp only [applyAll]
    rw [h f (List.mem_cons_self _ _) c]
    cases f c with
    | error e => rfl
    | ok c2 => exact ih (fun g hg => h g (List.mem_cons_of_mem _ hg)) c2

theorem onKey_withStyleStr (m : StyleMap) (k s : String)
    (f : String → MXCell → Except Fault MXCell)
    (h : ∀ v c, f v (c.withStyleStr s) = (f v c).map (fun c1 => c1.withStyleStr s))
    (c : MXCell) :
    onKey m k f (c.withStyleStr s) = (onKey m k f c).map (fun c1 => c1.withStyleStr s) := by
  unfold onKey
  cases m.find k with
  | none => rfl
  | some v => exact h v c

theorem bind_withStyleStr {α : Type} (x : Except Fault α) (s : String)
    (g : α → MXCell) (g1 : α → MXCell) (h : ∀ a, g1 a = (g a).withStyleStr s) :
    (x >>= fun a => pure (g1 a))
      = (x >>= fun a => pure (g a)).map (fun c1 => c1.withStyleStr s) := by
  cases x with
  | error e => rfl
  | ok a =>
    show Except.ok (g1 a) = Except.ok ((g a).withStyleStr s)
    rw [h]

theorem ite_map_congr {p : Prop} [Decidable p] {a1 b1 a b : Except Fault MXCell}
    {w : MXCell → MXCell} (ha : a1 = a.map w) (hb : b1 = b.map w) :
    (if p then a1 else b1) = (if p then a else b).map w := by
  split
  · exact ha
  · exact hb

theorem bind_map_congr {α : Type} {x : Except Fault α} {f1 f : α → Except Fault MXCell}
    {w : MXCell → MXCell} (h : ∀ a, f1 a = (f a).map w) :
    (x >>= f1) = (x >>= f).map w := by
  cases x with
  | error e => rfl
  | ok a => exact h a

theorem setSize_withStyleStr (v s : String) (c : MXCell) :
    setSize v (c.withStyleStr s) = (setSize v c).map (fun c1 => c1.withStyleStr s) := by
  have e : (c.withStyleStr s).style = c.style := rfl
  have eg : (c.withStyleStr s).geometry = c.geometry := rfl
  unfold setSize
  simp only [e, eg]
  repeat' first
    | apply ite_map_congr
    | (apply bind_map_congr; intro _)
    | rfl

theorem entryExitHandlers_withStyleStr (m : StyleMap) (s : String) :
    ∀ f ∈ entryExitHandlers m, ∀ c,
      f (c.withStyleStr s) = (f c).map (fun c1 => c1.withStyleStr s) := by
  simp only [entryExitHandlers, List.forall_mem_cons]
  refine ⟨?_, ?_, ?_, ?_, ?_, ?_, ?_, ?_, ?_⟩
  any_goals
    apply onKey_withStyleStr
    intro v c
    exact bind_withStyleStr _ _ _ _ (fun _ => rfl)
  intro x hx
  cases hx

theorem guarded_withStyleStr (p : Prop) [Decidable p] (x : Except Fault ℚ) (s : String)
    (c : MXCell) (g : MXCell → ℚ → MXCell)
    (h : ∀ d, g (c.withStyleStr s) d = (g c d).withStyleStr s) :
    (if p then x >>= fun d => pure (g (c.withStyleStr s) d) else pure (c.withStyleStr s))
      = (if p then x >>= fun d => pure (g c d) else pure c).map
          (fun c1 => c1.withStyleStr s) := by
  split
  · exact bind_withStyleStr _ _ _ _ h
  · rfl

theorem attributeHandlers_withStyleStr (X : Externals) (m : StyleMap) (s : String) :
    ∀ f ∈ attributeHandlers X m, ∀ c,
      f (c.withStyleStr s) = (f c).map (fun c1 => c1.withStyleStr s) := by
  simp only [attributeHandlers, List.forall_mem_cons]
  refine ⟨?_, ?_, ?_, ?_, ?_, ?_, ?_, ?_, ?_, ?_, ?_, ?_, ?_, ?_, ?_, ?_, ?_, ?_, ?_, ?_,
    ?_, ?_, ?_, ?_, ?_, ?_, ?_, ?_, ?_, ?_, ?_, ?_, ?_, ?_, ?_, ?_, ?_⟩
  any_goals
    apply onKey_withStyleStr
    intro v c
    first
      | rfl
      | exact setSize_withStyleStr v s c
      | exact bind_withStyleStr _ _ _ _ (fun _ => rfl)
      | exact guarded_withStyleStr _ _ _ _ _ (fun _ => rfl)
      | (unfold assignIf; split <;> rfl)
      | (split <;> rfl)
  intro x hx
  cases hx

/-- The blocks of `setStyle` do not read the member `style_str` and leave it as it is. -/
theorem styleHandlers_withStyleStr (X : Externals) (m : StyleMap) (s : String) :
    ∀ f ∈ styleHandlers X m, ∀ c,
      f (c.withStyleStr s) = (f c).map (fun c1 => c1.withStyleStr s) := by
  intro f hf
  unfold styleHandlers at hf
  rcases List.mem_append.mp hf with h | h
  · exact entryExitHandlers_withStyleStr m s f h
  · rcases List.mem_cons.mp h with h | h
    · subst h
      intro c
      rfl
    · exact attributeHandlers_withStyleStr X m s f h

/-- C38: `setStyle` depends only on the key-to-value map of the style string: for two
style strings whose token lists are permutations of each other with pairwise distinct
keys, the runs on cells that differ in the style string only end alike, and when they
return, the style and text-style records are equal. -/
theorem setStyle_token_order (X : Externals) (cell : MXCell) (s1 s2 : String)
    (hp : (splitTokens s1.toList).Perm (splitTokens s2.toList))
    (hn : ((splitTokens s1.toList).map tokenKey).Nodup) :
    (setStyle X (cell.withStyleStr s1)).map styleView
      = (setStyle X (cell.withStyleStr s2)).map styleView := by
  have key : ∀ s, (setStyle X (cell.withStyleStr s)).map styleView
      = (applyAll (styleHandlers X (styleMap s)) cell).map styleView := by
    intro s
    show (applyAll (styleHandlers X (styleMap s)) (cell.withStyleStr s)).map styleView = _
    rw [applyAll_withStyleStr _ s (styleHandlers_withStyleStr X _ s) cell]
    cases applyAll (styleHandlers X (styleMap s)) cell <;> rfl
  rw [key s1, key s2, styleHandlers_congr X _ _ (styleMap_find_perm s1 s2 hp hn)]

theorem setStyle_token_order_witness :
    (setStyle specExternals (({} : MXCell).withStyleStr "size=30;shape=hexagon")).map styleView
        = (setStyle specExternals
            (({} : MXCell).withStyleStr "shape=hexagon;size=30")).map styleView ∧
      (setStyle specExternals (({} : MXCell).withStyleStr "size=30;shape=hexagon")).map
          (fun c => c.style.hexagonSize) = .ok 30 ∧
      (setStyle specExternals (({} : MXCell).withStyleStr "shape=hexagon;size=30")).map
          (fun c => c.style.hexagonSize) = .ok 30 :=
  ⟨setStyle_token_order specExternals {} "size=30;shape=hexagon" "shape=hexagon;size=30"
      (List.Perm.swap _ _ []) (by decide),
    by decide!, by decide!⟩

/-! ## The path builder over the arithmetic of double -/

@[simp] theorem Ext.lit_eq {K : Type} [LinearOrderedField K] [FloorRing K] (q : ℚ) : (Double.lit q : Ext K) = .fin (q : K) := rfl

@[simp] theorem Ext.fin_add {K : Type} [LinearOrderedField K] [FloorRing K] (a b : K) : (Ext.fin a + Ext.fin b : Ext K) = .fin (a + b) := rfl

@[simp] theorem Ext.fin_sub {K : Type} [LinearOrderedField K] [FloorRing K] (a b : K) : (Ext.fin a - Ext.fin b : Ext K) = .fin (a - b) := by
  show Ext.fin (a + -b) = Ext.fin (a - b)
  rw [sub_eq_add_neg]

@[simp] theorem Ext.fin_mul {K : Type} [LinearOrderedField K] [FloorRing K] (a b : K) : (Ext.fin a * Ext.fin b : Ext K) = .fin (a * b) := rfl

@[simp] theorem Ext.fin_neg {K : Type} [LinearOrderedField K] [FloorRing K] (a : K) : (-(Ext.fin a) : Ext K) = .fin (-a) := rfl

@[simp] theorem Ext.fin_div {K : Type} [LinearOrderedField K] [FloorRing K] (a b : K) (h : b ≠ 0) : (Ext.fin a / Ext.fin b : Ext K) = .fin (a / b) := by
  show Ext.div (Ext.fin a) (Ext.fin b) = _
  simp [Ext.div, h]

@[simp] theorem Ext.fin_lt {K : Type} [LinearOrderedField K] [FloorRing K] (a b : K) : (Ext.fin a < Ext.fin b) ↔ a < b := by
  show Ext.lt (Ext.fin a) (Ext.fin b) = true ↔ _
  simp [Ext.lt]

@[simp] theorem Ext.fin_le {K : Type} [LinearOrderedField K] [FloorRing K] (a b : K) : (Ext.fin a ≤ Ext.fin b) ↔ a ≤ b := by
  show Ext.le (Ext.fin a) (Ext.fin b) = true ↔ _
  simp [Ext.le]

@[simp] theorem Ext.fin_beq {K : Type} [LinearOrderedField K] [FloorRing K] (a b : K) : ((Ext.fin a == Ext.fin b) = true) ↔ a = b := by
  show Ext.eq (Ext.fin a) (Ext.fin b) = true ↔ _
  simp [Ext.eq]

@[simp] theorem Ext.fin_bne {K : Type} [LinearOrderedField K] [FloorRing K] (a b : K) : ((Ext.fin a != Ext.fin b) = true) ↔ a ≠ b := by
  show (!(Ext.eq (Ext.fin a) (Ext.fin b))) = true ↔ _
  simp [Ext.eq]

@[simp] theorem Cmath.lift_pi {K : Type} [LinearOrderedField K] [FloorRing K] (L : Cmath K) : L.lift.pi = .fin L.pi := rfl

@[simp] theorem Cmath.lift_cos {K : Type} [LinearOrderedField K] [FloorRing K] (L : Cmath K) (a : K) : L.lift.cos (.fin a) = .fin (L.cos a) :=
  rfl

@[simp] theorem Cmath.lift_sin {K : Type} [LinearOrderedField K] [FloorRing K] (L : Cmath K) (a : K) : L.lift.sin (.fin a) = .fin (L.sin a) :=
  rfl

@[simp] theorem Cmath.lift_atan {K : Type} [LinearOrderedField K] [FloorRing K] (L : Cmath K) (a : K) :
    L.lift.atan (.fin a) = .fin (L.atan a) := rfl

theorem Cmath.lift_sqrt {K : Type} [LinearOrderedField K] [FloorRing K] (L : Cmath K) (a : K) (h : 0 ≤ a) :
    L.lift.sqrt (.fin a) = .fin (L.sqrt a) := by
  show (if a < 0 then Ext.nan else Ext.fin (L.sqrt a)) = _
  rw [if_neg (not_lt.mpr h)]

@[simp] theorem Cmath.lift_pow_two {K : Type} [LinearOrderedField K] [FloorRing K] (L : Cmath K) (a : K) :
    L.lift.pow (.fin a) (.fin 2) = .fin (L.pow a 2) := by
  show Ext.pow L.pow (.fin a) (.fin 2) = _
  simp [Ext.pow]

/-- The polar form that `MXPoint::rotate` and `MXCell::getPoint` compute is the polar form
of the difference, for an exact library. -/
theorem Cmath.exact_polar {K : Type} [LinearOrderedField K] (L : Cmath K) (hL : L.exact) (dx dy : K) :
    L.sqrt (L.pow dx 2 + L.pow dy 2) * L.cos
        (if dx ≠ 0 then L.atan (dy / dx) + (if 0 < dx then 0 else L.pi)
          else (if dy ≤ 0 then -1 else 1) * L.pi / 2) = dx ∧
    L.sqrt (L.pow dx 2 + L.pow dy 2) * L.sin
        (if dx ≠ 0 then L.atan (dy / dx) + (if 0 < dx then 0 else L.pi)
          else (if dy ≤ 0 then -1 else 1) * L.pi / 2) = dy := by
  obtain ⟨hsqrt, hpow, hcs, hss, hatan, hpi, hq, hpyth⟩ := hL
  have hnn : 0 ≤ dx * dx + dy * dy := add_nonneg (mul_self_nonneg _) (mul_self_nonneg _)
  rw [hpow, hpow]
  obtain ⟨hr0, hrr⟩ := hsqrt _ hnn
  generalize L.sqrt (dx * dx + dy * dy) = r at hr0 hrr
  have hcos0 : L.cos 0 = 1 := by
    have h := hcs 0 0
    rw [sub_zero] at h
    have h2 := hpyth 0
    linarith
  have hsin0 : L.sin 0 = 0 := by
    have h := hss 0 0
    rw [sub_zero] at h
    linarith
  by_cases hdx : dx = 0
  · subst hdx
    rw [if_neg (by simp)]
    have hr2 : r * r = dy * dy := by linarith
    by_cases hdy : dy ≤ 0
    · rw [if_pos hdy]
      have e : (-1 : K) * L.pi / 2 = 0 - L.pi / 2 := by ring
      rw [e, hcs, hss, hq.1, hq.2, hcos0, hsin0]
      have hr : r = -dy := by
        have h3 : (r - -dy) * (r + -dy) = 0 := by ring_nf; linarith
        rcases mul_eq_zero.mp h3 with h | h
        · linarith
        · have : r = dy := by linarith
          have : dy = 0 := by linarith
          linarith
      constructor
      · ring
      · rw [hr]; ring
    · rw [if_neg hdy]
      have e : (1 : K) * L.pi / 2 = L.pi / 2 := by ring
      rw [e, hq.1, hq.2]
      have hr : r = dy := by
        have h3 : (r - dy) * (r + dy) = 0 := by ring_nf; linarith
        rcases mul_eq_zero.mp h3 with h | h
        · linarith
        · have hdy1 : 0 < dy := not_le.mp hdy
          linarith
      constructor
      · ring
      · rw [hr]; ring
  · rw [if_pos hdx]
    obtain ⟨hc0, hs0⟩ := hatan (dy / dx)
    have hp := hpyth (L.atan (dy / dx))
    have hm : dy / dx * dx = dy := div_mul_cancel₀ dy hdx
    have key : ∀ c0 s0 m : K, 0 < c0 → s0 = m * c0 → c0 * c0 + s0 * s0 = 1 → m * dx = dy →
        (0 < dx → r * c0 = dx ∧ r * s0 = dy) ∧
        (¬ 0 < dx → r * -c0 = dx ∧ r * -s0 = dy) := by
      intro c0 s0 m hc0 hs0 hp hm
      subst hs0
      have hsq : (r * c0) * (r * c0) = dx * dx := by
        have e1 : (r * c0) * (r * c0) = (r * r) * (c0 * c0) := by ring
        rw [e1, hrr, ← hm]
        have e2 : (dx * dx + m * dx * (m * dx)) * (c0 * c0)
            = dx * dx * (c0 * c0 + m * c0 * (m * c0)) := by ring
        rw [e2, hp, mul_one]
      have hrc : 0 ≤ r * c0 := mul_nonneg hr0 hc0.le
      constructor
      · intro hpos
        have hr : r * c0 = dx := by
          have h3 : (r * c0 - dx) * (r * c0 + dx) = 0 := by ring_nf; linarith
          rcases mul_eq_zero.mp h3 with h | h
          · linarith
          · linarith
        refine ⟨hr, ?_⟩
        rw [← hm, ← hr]
        ring
      · intro hpos
        have hneg : dx < 0 := lt_of_le_of_ne (not_lt.mp hpos) hdx
        have hr : r * c0 = -dx := by
          have h3 : (r * c0 - -dx) * (r * c0 + -dx) = 0 := by ring_nf; linarith
          rcases mul_eq_zero.mp h3 with h | h
          · linarith
          · linarith
        constructor
        · linarith
        · rw [← hm]
          have e3 : r * -(m * c0) = m * -(r * c0) := by ring
          rw [e3, hr]
          ring
    by_cases hpos : 0 < dx
    · rw [if_pos hpos, add_zero]
      exact (key _ _ _ hc0 hs0 hp hm).1 hpos
    · rw [if_neg hpos, (hpi _).1, (hpi _).2]
      exact (key _ _ _ hc0 hs0 hp hm).2 hpos

/-- The pair that `MXPoint::rotate` returns is the rotation of the difference about the
centre, for an exact library. -/
theorem fp_rotate_exact {K : Type} [LinearOrderedField K] [FloorRing K] (L : Cmath K) (hL : L.exact) (px py cx cy a : K) :
    fp.MXPoint.rotate L.lift ⟨.fin px, .fin py⟩ ⟨.fin cx, .fin cy⟩ (.fin a) =
      ⟨.fin (cx + ((px - cx) * L.cos a + (py - cy) * L.sin a)),
       .fin (cy + ((py - cy) * L.cos a - (px - cx) * L.sin a))⟩ := by
  have hp := L.exact_polar hL (px - cx) (py - cy)
  obtain ⟨hsqrt, hpow, hcs, hss, hatan, hpi, hq, hpyth⟩ := hL
  have hnn : 0 ≤ L.pow (px - cx) 2 + L.pow (py - cy) 2 := by
    rw [hpow, hpow]; exact add_nonneg (mul_self_nonneg _) (mul_self_nonneg _)
  have hne : (px ≠ cx) ↔ (px - cx ≠ 0) := by rw [sub_ne_zero]
  have hgt : (cx < px) ↔ (0 < px - cx) := by rw [sub_pos]
  have hle : (py ≤ cy) ↔ (py - cy ≤ 0) := by rw [sub_nonpos]
  unfold fp.MXPoint.rotate
  simp only [Ext.lit_eq, Ext.fin_sub, Rat.cast_ofNat, Cmath.lift_pow_two, Ext.fin_add,
    L.lift_sqrt _ hnn, Ext.fin_bne, Ext.fin_lt, Ext.fin_le, Cmath.lift_pi, gt_iff_lt]
  have hold : (if px ≠ cx then
        L.lift.atan (Ext.fin (py - cy) / Ext.fin (px - cx))
          + (if cx < px then Ext.fin ((0 : ℚ) : K) else Ext.fin L.pi)
      else (if py ≤ cy then Ext.fin (((-1 : ℚ)) : K) else Ext.fin ((1 : ℚ) : K))
        * Ext.fin L.pi / Ext.fin 2) =
      Ext.fin (if px - cx ≠ 0 then
          L.atan ((py - cy) / (px - cx)) + (if 0 < px - cx then 0 else L.pi)
        else (if py - cy ≤ 0 then -1 else 1) * L.pi / 2) := by
    by_cases h1 : px = cx
    · rw [if_neg (not_not.mpr h1), if_neg (not_not.mpr (sub_eq_zero.mpr h1))]
      by_cases h2 : py ≤ cy
      · rw [if_pos h2, if_pos (hle.mp h2)]
        simp
      · rw [if_neg h2, if_neg (fun h => h2 (hle.mpr h))]
        simp
    · have h1' : px - cx ≠ 0 := sub_ne_zero.mpr h1
      rw [if_pos h1, if_pos h1', Ext.fin_div _ _ h1', Cmath.lift_atan]
      by_cases h2 : cx < px
      · rw [if_pos h2, if_pos (hgt.mp h2)]
        simp
      · rw [if_neg h2, if_neg (fun h => h2 (hgt.mpr h))]
        simp
  rw [hold]
  simp only [Ext.fin_sub, Cmath.lift_cos, Cmath.lift_sin, Ext.fin_mul, Ext.fin_add]
  generalize (if px - cx ≠ 0 then
          L.atan ((py - cy) / (px - cx)) + (if 0 < px - cx then 0 else L.pi)
        else (if py - cy ≤ 0 then -1 else 1) * L.pi / 2) = old at hp
  generalize L.sqrt (L.pow (px - cx) 2 + L.pow (py - cy) 2) = r at hp
  rw [hcs, hss]
  have e1 : r * (L.cos old * L.cos a + L.sin old * L.sin a)
      = (r * L.cos old) * L.cos a + (r * L.sin old) * L.sin a := by ring
  have e2 : r * (L.sin old * L.cos a - L.cos old * L.sin a)
      = (r * L.sin old) * L.cos a - (r * L.cos old) * L.sin a := by ring
  rw [e1, e2, hp.1, hp.2]
theorem Cmath.exact_zero {K : Type} [LinearOrderedField K] (L : Cmath K) (hL : L.exact) :
    L.cos 0 = 1 ∧ L.sin 0 = 0 := by
  obtain ⟨_, _, hcs, hss, _, _, _, hpyth⟩ := hL
  have h := hcs 0 0
  have h1 := hss 0 0
  rw [sub_zero] at h h1
  have h2 := hpyth 0
  constructor <;> linarith

theorem Cmath.exact_neg_quarter {K : Type} [LinearOrderedField K] (L : Cmath K)
    (hL : L.exact) : L.cos (0 - L.pi / 2) = 0 ∧ L.sin (0 - L.pi / 2) = -1 := by
  obtain ⟨h0, h1⟩ := L.exact_zero hL
  obtain ⟨_, _, hcs, hss, _, _, hq, _⟩ := hL
  rw [hcs, hss, hq.1, hq.2, h0, h1]
  constructor <;> ring

/-- The functions of the real numbers are an exact library. -/
theorem real_cmath_exact :
    (⟨Real.sqrt, fun x y => x ^ y, Real.arctan, Real.cos, Real.sin, Real.pi⟩ : Cmath ℝ).exact := by
  refine ⟨fun x hx => ⟨Real.sqrt_nonneg x, Real.mul_self_sqrt hx⟩, fun x => ?_,
    fun a b => Real.cos_sub a b, fun a b => Real.sin_sub a b,
    fun m => ⟨Real.cos_arctan_pos m, ?_⟩,
    fun a => ⟨Real.cos_add_pi a, Real.sin_add_pi a⟩,
    ⟨Real.cos_pi_div_two, Real.sin_pi_div_two⟩, fun a => ?_⟩
  · show x ^ (2 : ℝ) = x * x
    rw [Real.rpow_two, sq]
  · show Real.sin (Real.arctan m) = m * Real.cos (Real.arctan m)
    have h := Real.tan_arctan m
    rw [Real.tan_eq_sin_div_cos] at h
    exact (div_eq_iff (Real.cos_arctan_pos m).ne').mp h
  · show Real.cos a * Real.cos a + Real.sin a * Real.sin a = 1
    have h := Real.cos_sq_add_sin_sq a
    rw [sq, sq] at h
    exact h

theorem fp_fixedEndpoint_ok {F : Type} [Double F] (L : Cmath F) (id_map : IdMap) (id : String)
    (isFixed : Bool) (ox oy : Option ℚ) (dx dy : ℚ) (point : fp.MXPoint F)
    (h : id ≠ "" → isFixed = true → ox.isSome = true ∧ oy.isSome = true) :
    ∃ p, fp.fixedEndpoint L id_map id isFixed ox oy dx dy point = .ok p := by
  unfold fp.fixedEndpoint
  by_cases hc : id ≠ "" ∧ isFixed = true
  · rw [if_pos hc]
    obtain ⟨h1, h2⟩ := h hc.1 hc.2
    obtain ⟨x, rfl⟩ := Option.isSome_iff_exists.mp h1
    obtain ⟨y, rfl⟩ := Option.isSome_iff_exists.mp h2
    exact ⟨_, rfl⟩
  · rw [if_neg hc]
    exact ⟨_, rfl⟩

theorem fp_setEndPoints_ok {F : Type} [Double F] (L : StdMath F) (id_map : IdMap)
    (cell : MXCell) (e : fp.Edge F)
    (hs : cell.source_id ≠ "" → cell.style.startFixed = true →
      cell.style.exitX.isSome = true ∧ cell.style.exitY.isSome = true)
    (ht : cell.target_id ≠ "" → cell.style.endFixed = true →
      cell.style.entryX.isSome = true ∧ cell.style.entryY.isSome = true) :
    ∃ e2, fp.setEndPoints L id_map cell e = .ok e2 ∧
      (cell.edge = true → cell.style.edgeStyle = .ORTHOGONAL →
        e2.startDir.isSome = true ∧ e2.endDir.isSome = true) := by
  unfold fp.setEndPoints
  cases he : cell.edge with
  | false => exact ⟨e, rfl, fun h => by cases h⟩
  | true =>
    obtain ⟨sp, hsp⟩ := fp_fixedEndpoint_ok L.toCmath id_map cell.source_id
      cell.style.startFixed cell.style.exitX cell.style.exitY cell.style.exitDx
      cell.style.exitDy e.sourcePoint hs
    obtain ⟨tp, htp⟩ := fp_fixedEndpoint_ok L.toCmath id_map cell.target_id
      cell.style.endFixed cell.style.entryX cell.style.entryY cell.style.entryDx
      cell.style.entryDy e.targetPoint ht
    simp only [Bool.not_true, Bool.false_eq_true, if_false, hsp, htp, bind, Except.bind, pure,
      Except.pure]
    by_cases hst : cell.style.edgeStyle = .STRAIGHT
    · rw [if_pos hst]
      split <;> exact ⟨_, rfl, fun _ ho => by rw [hst] at ho; cases ho⟩
    · rw [if_neg hst]
      exact ⟨_, rfl, fun _ _ => ⟨rfl, rfl⟩⟩

theorem fp_routerLoop_ner {F : Type} [Double F] (env : fp.RouterEnv F) (fuel : Nat)
    (st : fp.RouterState F) : NoEmptyRead (fp.routerLoop env fuel st) := by
  induction fuel generalizing st with
  | zero =>
    unfold fp.routerLoop
    split
    · exact ner_error _ (by decide)
    · exact ner_ok _
  | succ n ih =>
    unfold fp.routerLoop
    split
    · exact ih _
    · exact ner_ok _

theorem fp_setWaypoints_ner {F : Type} [Double F] (fuel : Nat) (id_map : IdMap)
    (cell : MXCell) (e : fp.Edge F)
    (h : cell.edge = true → cell.style.edgeStyle = .ORTHOGONAL →
      e.startDir.isSome = true ∧ e.endDir.isSome = true) :
    NoEmptyRead (fp.setWaypoints fuel id_map cell e) := by
  unfold fp.setWaypoints
  cases he : cell.edge with
  | false => exact ner_ok _
  | true =>
    simp only [Bool.not_true, Bool.false_eq_true, if_false]
    by_cases ho : cell.style.edgeStyle = .ORTHOGONAL ∧ e.points.isEmpty = true
    · rw [if_pos ho]
      obtain ⟨h1, h2⟩ := h he ho.1
      obtain ⟨d1, hd1⟩ := Option.isSome_iff_exists.mp h1
      obtain ⟨d2, hd2⟩ := Option.isSome_iff_exists.mp h2
      simp only [hd1, hd2, getOpt, bind, Except.bind]
      split
      · exact ner_pure _
      · cases hr : fp.routerLoop ⟨(fp.routerBoxes id_map cell e).1,
            (fp.routerBoxes id_map cell e).2, e.targetPoint⟩ fuel
            ⟨fp.stub e.sourcePoint d1, d1, d2, true, true, e.points⟩ with
        | ok st => exact ner_pure _
        | error f =>
          have hn := fp_routerLoop_ner ⟨(fp.routerBoxes id_map cell e).1,
            (fp.routerBoxes id_map cell e).2, e.targetPoint⟩ fuel
            ⟨fp.stub e.sourcePoint d1, d1, d2, true, true, e.points⟩
          rw [hr] at hn
          intro hc
          apply hn
          injection hc with hc1
          rw [hc1]
    · rw [if_neg ho]
      exact ner_ok _

/-- C36: for every cell whose style record was produced by `setStyle`, whatever the
arithmetic and the library, the run of `setEndPoints` returns, and neither it nor the run
of `setWaypoints` after it reads an empty optional: `exitX` and `exitY` (`entryX` and
`entryY`) are present when the block of the fixed source (target) of a bound edge reads
them, and on an ORTHOGONAL edge `startDir` and `endDir` are set when `setWaypoints` reads
them. -/
theorem setStyle_route_reads_no_empty_optional {F : Type} [Double F] (L : StdMath F)
    (X : Externals) (c0 cell : MXCell) (id_map : IdMap) (h : setStyle X c0 = .ok cell) :
    (cell.source_id ≠ "" → cell.style.startFixed = true →
      cell.style.exitX.isSome = true ∧ cell.style.exitY.isSome = true) ∧
    (cell.target_id ≠ "" → cell.style.endFixed = true →
      cell.style.entryX.isSome = true ∧ cell.style.entryY.isSome = true) ∧
    ∀ e : fp.Edge F, ∃ e2, fp.setEndPoints L id_map cell e = .ok e2 ∧
      (cell.edge = true → cell.style.edgeStyle = .ORTHOGONAL →
        e2.startDir.isSome = true ∧ e2.endDir.isSome = true) ∧
      ∀ fuel, NoEmptyRead (fp.setWaypoints fuel id_map cell e2) := by
  obtain ⟨f1, f2⟩ := setStyle_fixed_of X c0 cell h
  have hs : cell.source_id ≠ "" → cell.style.startFixed = true →
      cell.style.exitX.isSome = true ∧ cell.style.exitY.isSome = true := by
    intro hid hf
    rcases f1.mp hf with h1 | h1
    · exact h1
    · exact absurd h1 hid
  have ht : cell.target_id ≠ "" → cell.style.endFixed = true →
      cell.style.entryX.isSome = true ∧ cell.style.entryY.isSome = true := by
    intro hid hf
    rcases f2.mp hf with h1 | h1
    · exact h1
    · exact absurd h1 hid
  refine ⟨hs, ht, fun e => ?_⟩
  obtain ⟨e2, h2, hd⟩ := fp_setEndPoints_ok L id_map cell e hs ht
  exact ⟨e2, h2, hd, fun fuel => fp_setWaypoints_ner fuel id_map cell e2 hd⟩

theorem setStyle_route_reads_no_empty_optional_witness :
    ∃ cell, setStyle specExternals s5Styled = .ok cell ∧
      (cell.source_id ≠ "" → cell.style.startFixed = true →
        cell.style.exitX.isSome = true ∧ cell.style.exitY.isSome = true) ∧
      (cell.target_id ≠ "" → cell.style.endFixed = true →
        cell.style.entryX.isSome = true ∧ cell.style.entryY.isSome = true) ∧
      ∀ e : fp.Edge (Ext ℝ), ∃ e2,
        fp.setEndPoints
          (StdMath.lift ⟨⟨Real.sqrt, fun x y => x ^ y, Real.arctan, Real.cos, Real.sin,
            Real.pi⟩, Real.tan, fun y x => Complex.arg ⟨x, y⟩⟩) s5Table cell e = .ok e2 ∧
        (cell.edge = true → cell.style.edgeStyle = .ORTHOGONAL →
          e2.startDir.isSome = true ∧ e2.endDir.isSome = true) ∧
        ∀ fuel, NoEmptyRead (fp.setWaypoints fuel s5Table cell e2) := by
  obtain ⟨cell, hc, _⟩ := map_eq_ok (setStyle specExternals s5Styled)
    (fun c => c.style.startFixed) true (by decide!)
  exact ⟨cell, hc, setStyle_route_reads_no_empty_optional _ specExternals s5Styled cell
    s5Table hc⟩

/-! ## An identifier that is absent from the cell table -/

theorem Ext.div_zero_not_fin {K : Type} [LinearOrderedField K] [FloorRing K] (o d : Ext K)
    (v : K) : o + d / Ext.fin 0 ≠ Ext.fin v := by
  show Ext.add o (Ext.div d (Ext.fin 0)) ≠ Ext.fin v
  cases d with
  | fin a =>
    by_cases ha : a = 0
    · cases o <;> simp [Ext.div, Ext.add, ha]
    · by_cases hn : a < 0
      · cases o <;> simp [Ext.div, Ext.add, Ext.infOf, ha, hn]
      · cases o <;> simp [Ext.div, Ext.add, Ext.infOf, ha, hn]
  | posInf => cases o <;> simp [Ext.div, Ext.add, Ext.infOf]
  | negInf => cases o <;> simp [Ext.div, Ext.add, Ext.infOf]
  | nan => cases o <;> simp [Ext.div, Ext.add]

theorem Ext.not_fin_mul_zero {K : Type} [LinearOrderedField K] [FloorRing K] (a : Ext K)
    (g : K) (h : ∀ v, a ≠ Ext.fin v) : Ext.fin g + a * Ext.fin 0 = Ext.nan := by
  show Ext.add (Ext.fin g) (Ext.mul a (Ext.fin 0)) = Ext.nan
  cases a with
  | fin x => exact absurd rfl (h x)
  | posInf => simp [Ext.mul, Ext.add]
  | negInf => simp [Ext.mul, Ext.add]
  | nan => simp [Ext.mul, Ext.add]

theorem Ext.not_fin_not_inside {K : Type} [LinearOrderedField K] [FloorRing K] (x : Ext K)
    (h : ∀ v, x ≠ Ext.fin v) : ¬ ((Double.lit 0 : Ext K) < x ∧ x < Double.lit 1) := by
  show ¬ (Ext.lt (Ext.fin ((0 : ℚ) : K)) x = true ∧ Ext.lt x (Ext.fin ((1 : ℚ) : K)) = true)
  cases x with
  | fin v => exact absurd rfl (h v)
  | posInf => simp [Ext.lt]
  | negInf => simp [Ext.lt]
  | nan => simp [Ext.lt]

@[simp] theorem Ext.nan_add {K : Type} [LinearOrderedField K] [FloorRing K] (x : Ext K) :
    Ext.nan + x = Ext.nan := by
  show Ext.add Ext.nan x = Ext.nan
  cases x <;> rfl

@[simp] theorem Ext.add_nan {K : Type} [LinearOrderedField K] [FloorRing K] (x : Ext K) :
    x + Ext.nan = Ext.nan := by
  show Ext.add x Ext.nan = Ext.nan
  cases x <;> rfl

@[simp] theorem Ext.nan_sub {K : Type} [LinearOrderedField K] [FloorRing K] (x : Ext K) :
    Ext.nan - x = Ext.nan := by
  show Ext.add Ext.nan (Ext.neg x) = Ext.nan
  cases x <;> rfl

@[simp] theorem Ext.nan_mul {K : Type} [LinearOrderedField K] [FloorRing K] (x : Ext K) :
    Ext.nan * x = Ext.nan := by
  show Ext.mul Ext.nan x = Ext.nan
  cases x <;> rfl

@[simp] theorem Ext.mul_nan {K : Type} [LinearOrderedField K] [FloorRing K] (x : Ext K) :
    x * Ext.nan = Ext.nan := by
  show Ext.mul x Ext.nan = Ext.nan
  cases x <;> rfl

@[simp] theorem Ext.nan_div {K : Type} [LinearOrderedField K] [FloorRing K] (x : Ext K) :
    Ext.nan / x = Ext.nan := by
  show Ext.div Ext.nan x = Ext.nan
  cases x <;> rfl

@[simp] theorem Ext.nan_bne {K : Type} [LinearOrderedField K] [FloorRing K] (x : Ext K) :
    (Ext.nan != x) = true := by
  show (!(Ext.eq Ext.nan x)) = true
  cases x <;> rfl

@[simp] theorem Cmath.lift_pow_nan {K : Type} [LinearOrderedField K] [FloorRing K]
    (L : Cmath K) : L.lift.pow Ext.nan (Ext.fin 2) = Ext.nan := by
  show Ext.pow L.pow Ext.nan (Ext.fin 2) = Ext.nan
  simp [Ext.pow]

@[simp] theorem Cmath.lift_sqrt_nan {K : Type} [LinearOrderedField K] [FloorRing K]
    (L : Cmath K) : L.lift.sqrt Ext.nan = Ext.nan := rfl

@[simp] theorem Cmath.lift_atan_nan {K : Type} [LinearOrderedField K] [FloorRing K]
    (L : Cmath K) : L.lift.atan Ext.nan = Ext.nan := rfl

@[simp] theorem Cmath.lift_cos_nan {K : Type} [LinearOrderedField K] [FloorRing K]
    (L : Cmath K) : L.lift.cos Ext.nan = Ext.nan := rfl

@[simp] theorem Cmath.lift_sin_nan {K : Type} [LinearOrderedField K] [FloorRing K]
    (L : Cmath K) : L.lift.sin Ext.nan = Ext.nan := rfl

theorem fp_getPoint_nan {K : Type} [LinearOrderedField K] [FloorRing K] (L : Cmath K)
    (cx cy a : Ext K) :
    fp.getPoint L.lift (Ext.nan : Ext K) Ext.nan cx cy a = ⟨.nan, .nan⟩ := by
  unfold fp.getPoint
  simp

/-- On a default-constructed cell, whose width and height are zero, `setEndpointInShape`
gives the point `(NaN, NaN)`, whatever the values it is called with. -/
theorem fp_setEndpointInShape_default {K : Type} [LinearOrderedField K] [FloorRing K]
    (L : Cmath K) (outX outY dx dy : Ext K) :
    fp.setEndpointInShape L.lift outX outY {} dx dy = ⟨.nan, .nan⟩ := by
  have h1 := Ext.div_zero_not_fin outX dx
  have h2 := Ext.div_zero_not_fin outY dy
  unfold fp.setEndpointInShape
  simp only [Ext.lit_eq, Rat.cast_zero, decide_True, true_or, if_true]
  generalize outX + dx / Ext.fin 0 = x at h1
  generalize outY + dy / Ext.fin 0 = y at h2
  have ha : fp.adjustEndpoint L.lift x y {} = (x, y) := by
    unfold fp.adjustEndpoint
    rw [if_neg (fun hc => Ext.not_fin_not_inside x h1 ⟨hc.1, hc.2.1⟩)]
    rfl
  have hout : (if (outX == Ext.fin 0 || outX == Double.lit 1 || outY == Ext.fin 0
      || outY == Double.lit 1) = true then fp.adjustEndpoint L.lift x y {} else (x, y))
      = (x, y) := by
    rw [ha]; simp
  simp only [Ext.lit_eq] at hout
  simp only [hout, Ext.not_fin_mul_zero x 0 h1, Ext.not_fin_mul_zero y 0 h2]
  exact fp_getPoint_nan L _ _ _
theorem fp_parentOffsets_source {F : Type} [Double F] (id_map : IdMap) (cell : MXCell)
    (e : fp.Edge F) (h : (id_map cell.source_id).parent_id = "") :
    (fp.parentOffsets id_map cell e).sourcePoint = e.sourcePoint := by
  simp [fp.parentOffsets, h]

@[simp] theorem Ext.abs_fin {K : Type} [LinearOrderedField K] [FloorRing K] (a : K) :
    (Double.abs (Ext.fin a) : Ext K) = .fin |a| := rfl

@[simp] theorem StdMath.lift_tan {K : Type} [LinearOrderedField K] [FloorRing K]
    (L : StdMath K) (a : K) : L.lift.tan (.fin a) = .fin (L.tan a) := rfl

@[simp] theorem StdMath.lift_atan2 {K : Type} [LinearOrderedField K] [FloorRing K]
    (L : StdMath K) (y x : K) : L.lift.atan2 (.fin y) (.fin x) = .fin (L.atan2 y x) := rfl

@[simp] theorem StdMath.lift_toCmath {K : Type} [LinearOrderedField K] [FloorRing K]
    (L : StdMath K) : L.lift.toCmath = L.toCmath.lift := rfl

theorem fp_getPoint_exact {K : Type} [LinearOrderedField K] [FloorRing K] (L : Cmath K)
    (hL : L.exact) (x y cx cy a : K) :
    fp.getPoint L.lift (.fin x) (.fin y) (.fin cx) (.fin cy) (.fin a) =
      ⟨.fin (cx + ((x - cx) * L.cos a + (y - cy) * L.sin a)),
       .fin (cy + ((y - cy) * L.cos a - (x - cx) * L.sin a))⟩ :=
  fp_rotate_exact L hL x y cx cy a

theorem fp_setChange_keeps {F : Type} (p : fp.MXPoint F) (d : Direction) (v : F) :
    (if vertical d = true then (fp.setChange p d v).x = p.x
      else (fp.setChange p d v).y = p.y) := by
  unfold fp.setChange
  cases vertical d <;> simp

theorem fp_keeps_ite {F : Type} (st : fp.RouterState F) (c : Prop) [Decidable c]
    (a b : fp.Pass F) (ha : a.keeps st) (hb : b.keeps st) : (if c then a else b).keeps st := by
  split <;> assumption

theorem fp_keeps_setChange {F : Type} (st : fp.RouterState F) (v : F) (d : Direction)
    (h : Bool) : (fp.Pass.move (fp.setChange st.p st.p_dir v) d h).keeps st :=
  fp_setChange_keeps _ _ _

theorem fp_keeps_self {F : Type} (st : fp.RouterState F) (d : Direction) (h : Bool) :
    (fp.Pass.move st.p d h).keeps st := by
  show (if vertical st.p_dir = true then st.p.x = st.p.x else st.p.y = st.p.y)
  split <;> rfl

/-- Every pass of the loop body that reaches `push_back` has written only the coordinate
of `p` along `p_dir`. -/
theorem fp_routerPass_keeps {F : Type} [Double F] (env : fp.RouterEnv F)
    (st : fp.RouterState F) : (fp.routerPass env st).keeps st := by
  unfold fp.routerPass
  simp only []
  repeat' first
    | exact fp_keeps_setChange _ _ _ _
    | exact fp_keeps_self _ _ _
    | exact True.intro
    | apply fp_keeps_ite

theorem fp_getLast?_cons_lastPoint {F : Type} (src : fp.MXPoint F) (ps : List (fp.MXPoint F)) :
    (src :: ps).getLast? = some (fp.lastPoint src ps) := by
  unfold fp.lastPoint
  induction ps generalizing src with
  | nil => rfl
  | cons a l ih =>
    rw [List.getLast?_cons_cons, ih a]
    rfl

theorem fp_lastPoint_concat {F : Type} (src p : fp.MXPoint F) (ps : List (fp.MXPoint F)) :
    fp.lastPoint src (ps ++ [p]) = p := by
  unfold fp.lastPoint
  simp

theorem fp_chain_concat {F : Type} (R : fp.MXPoint F → fp.MXPoint F → Prop)
    (src p : fp.MXPoint F) (ps : List (fp.MXPoint F))
    (h : List.Chain' R (src :: ps)) (hl : R (fp.lastPoint src ps) p) :
    List.Chain' R (src :: (ps ++ [p])) := by
  rw [← List.cons_append, List.chain'_append]
  refine ⟨h, List.chain'_singleton _, ?_⟩
  intro x hx y hy
  rw [fp_getLast?_cons_lastPoint] at hx
  simp only [Option.mem_def, Option.some.injEq, List.head?_cons] at hx hy
  rw [← hx, ← hy]
  exact hl

theorem fp_routerStep_inv {F : Type} [Double F] (env : fp.RouterEnv F) (src : fp.MXPoint F)
    (st : fp.RouterState F) (h : fp.routerInv src st) :
    fp.routerInv src (fp.routerStep env st) := by
  have hk := fp_routerPass_keeps env st
  unfold fp.routerStep
  cases hp : fp.routerPass env st with
  | turn => exact h
  | move p1 d hug =>
    rw [hp] at hk
    have hk1 : (if vertical st.p_dir = true then p1.x = st.p.x else p1.y = st.p.y) := hk
    obtain ⟨hm, ha⟩ := h
    refine ⟨fp_chain_concat _ src p1 st.points hm ?_, ?_⟩
    · cases hv : vertical st.p_dir with
      | true =>
        rw [hv] at hk1 ha
        simp only [if_true] at hk1 ha
        exact Or.inl (ha.trans hk1.symm)
      | false =>
        rw [hv] at hk1 ha
        simp only [Bool.false_eq_true, if_false] at hk1 ha
        exact Or.inr (ha.trans hk1.symm)
    · show (if vertical d = true then (fp.lastPoint src (st.points ++ [p1])).x = p1.x
        else (fp.lastPoint src (st.points ++ [p1])).y = p1.y)
      rw [fp_lastPoint_concat]
      split <;> rfl

theorem fp_routerLoop_inv {F : Type} [Double F] (env : fp.RouterEnv F) (src : fp.MXPoint F) :
    ∀ (n : Nat) (st r : fp.RouterState F), fp.routerLoop env n st = .ok r →
      fp.routerInv src st → fp.routerInv src r ∧ fp.routerRunning env.q r = false := by
  intro n
  induction n with
  | zero =>
    intro st r h hi
    unfold fp.routerLoop at h
    split at h
    · cases h
    · next hr =>
      injection h with h
      rw [← h]
      exact ⟨hi, by simpa using hr⟩
  | succ n ih =>
    intro st r h hi
    unfold fp.routerLoop at h
    split at h
    · exact ih _ _ h (fp_routerStep_inv env src st hi)
    · next hr =>
      injection h with h
      rw [← h]
      exact ⟨hi, by simpa using hr⟩

theorem fp_stub_inv {F : Type} [Double F] (src : fp.MXPoint F) (sd ed : Direction) :
    fp.routerInv src ⟨fp.stub src sd, sd, ed, true, true, []⟩ := by
  refine ⟨by simp [fp.linked], ?_⟩
  cases sd <;> simp [vertical, horizontal, Direction.toInt, fp.lastPoint, fp.stub]

/-- At the exit of the loop the last point of the polyline is in line with `q`. -/
theorem fp_routerInv_exit {F : Type} [Double F] (q src : fp.MXPoint F)
    (r : fp.RouterState F) (hi : fp.routerInv src r) (hr : fp.routerRunning q r = false) :
    ((fp.lastPoint src r.points).x == q.x) = true ∨
      ((fp.lastPoint src r.points).y == q.y) = true := by
  obtain ⟨_, ha⟩ := hi
  unfold fp.routerRunning at hr
  simp only [Bool.or_eq_false_iff, Bool.and_eq_false_iff, bne_eq_false_iff_eq,
    ] at hr
  obtain ⟨⟨_, hx⟩, hy⟩ := hr
  cases hv : vertical r.p_dir with
  | true =>
    rw [hv] at ha hx
    simp only [if_true] at ha
    rcases hx with hx | hx
    · left
      rw [ha]
      simpa [bne] using hx
    · cases hx
  | false =>
    have hh : horizontal r.p_dir = true := by
      unfold vertical at hv
      simpa using hv
    rw [hv] at ha
    simp only [Bool.false_eq_true, if_false] at ha
    rcases hy with hy | hy
    · right
      rw [ha]
      simpa [bne] using hy
    · rw [hh] at hy; cases hy

theorem fp_chain_ordered {F : Type} [Double F] (l : List (fp.MXPoint F))
    (h : fp.linked l) (hn : ∀ p ∈ l, p.ordered) :
    fp.manhattan l := by
  unfold fp.linked at h
  unfold fp.manhattan
  induction l with
  | nil => exact List.chain'_nil
  | cons a l ih =>
    cases l with
    | nil => exact List.chain'_singleton _
    | cons b l =>
      rw [List.chain'_cons] at h ⊢
      refine ⟨?_, ih h.2 (fun p hp => hn p (List.mem_cons_of_mem _ hp))⟩
      have ha := hn a (List.mem_cons_self _ _)
      rcases h.1 with e | e
      · left; rw [← e]; exact ha.1
      · right; rw [← e]; exact ha.2

/-- The polyline that `setWaypoints` leaves on an ORTHOGONAL edge without waypoints:
consecutive points share the value of a coordinate up to the last waypoint, and the last
waypoint and the target point compare equal in a coordinate. -/
theorem fp_setWaypoints_linked {F : Type} [Double F] (fuel : Nat) (id_map : IdMap)
    (cell : MXCell) (e e2 : fp.Edge F)
    (he : cell.edge = true) (hs : cell.style.edgeStyle = .ORTHOGONAL) (hp : e.points = [])
    (h : fp.setWaypoints fuel id_map cell e = .ok e2) :
    e2.sourcePoint = e.sourcePoint ∧ e2.targetPoint = e.targetPoint ∧
    fp.linked (e2.sourcePoint :: e2.points) ∧
    (((fp.lastPoint e2.sourcePoint e2.points).x == e2.targetPoint.x) = true ∨
      ((fp.lastPoint e2.sourcePoint e2.points).y == e2.targetPoint.y) = true) := by
  unfold fp.setWaypoints at h
  rw [he, if_neg (by simp), if_pos ⟨hs, by rw [hp]; rfl⟩] at h
  obtain ⟨sd, hsd, h⟩ := bind_eq_ok _ _ _ h
  obtain ⟨ed, hed, h⟩ := bind_eq_ok _ _ _ h
  split at h
  · next hpq =>
    injection h with h
    rw [← h]
    refine ⟨rfl, rfl, by simp [fp.linked, hp], ?_⟩
    rw [hp]
    simp only [Bool.and_eq_true] at hpq
    exact Or.inl hpq.1
  · obtain ⟨r, hr, h⟩ := bind_eq_ok _ _ _ h
    injection h with h
    rw [← h]
    have hinv : fp.routerInv e.sourcePoint ⟨fp.stub e.sourcePoint sd, sd, ed, true, true,
        e.points⟩ := by
      rw [hp]
      exact fp_stub_inv _ sd ed
    obtain ⟨hi, hx⟩ := fp_routerLoop_inv _ e.sourcePoint fuel _ r hr hinv
    exact ⟨rfl, rfl, hi.1, fp_routerInv_exit _ _ r hi hx⟩

/-- C2 (amended): whenever `setWaypoints` runs on an ORTHOGONAL edge with an empty
waypoint list and returns, and no coordinate of the polyline of source point, waypoints in
order and target point is a NaN, the polyline is Manhattan: every consecutive pair of
points has equal `x` or equal `y`. -/
theorem setWaypoints_manhattan {F : Type} [Double F] (fuel : Nat) (id_map : IdMap)
    (cell : MXCell) (e e2 : fp.Edge F)
    (he : cell.edge = true) (hs : cell.style.edgeStyle = .ORTHOGONAL) (hp : e.points = [])
    (h : fp.setWaypoints fuel id_map cell e = .ok e2)
    (hn : ∀ p ∈ fp.polyline e2, p.ordered) :
    fp.manhattan (fp.polyline e2) := by
  obtain ⟨_, _, hl, hq⟩ := fp_setWaypoints_linked fuel id_map cell e e2 he hs hp h
  have hm : fp.manhattan (e2.sourcePoint :: e2.points) := by
    apply fp_chain_ordered _ hl
    intro p hp
    apply hn p
    unfold fp.polyline
    rcases List.mem_cons.mp hp with hp | hp
    · rw [hp]; exact List.mem_cons_self _ _
    · exact List.mem_cons_of_mem _ (List.mem_append_left _ hp)
  unfold fp.polyline
  exact fp_chain_concat _ _ _ _ hm hq
theorem setWaypoints_manhattan_witness :
    fp.manhattan (fp.polyline
      (⟨⟨.fin 10000, .fin 2500⟩, ⟨.fin 25000, .fin 20000⟩, [⟨.fin 25000, .fin 2500⟩],
        some .EAST, some .NORTH⟩ : fp.Edge (Ext ℚ))) :=
  setWaypoints_manhattan 1 s5Table s5Edge
    ⟨⟨.fin 10000, .fin 2500⟩, ⟨.fin 25000, .fin 20000⟩, [], some .EAST, some .NORTH⟩
    ⟨⟨.fin 10000, .fin 2500⟩, ⟨.fin 25000, .fin 20000⟩, [⟨.fin 25000, .fin 2500⟩],
      some .EAST, some .NORTH⟩ rfl rfl rfl (by decide!)
    (by
      intro p hp
      simp only [fp.polyline, List.cons_append, List.nil_append, List.mem_cons,
        List.mem_singleton, List.not_mem_nil, or_false] at hp
      rcases hp with rfl | rfl | rfl <;> exact ⟨by decide!, by decide!⟩)

/-- C2, the claim as written fails: on the edge `danglingEdge`, whose source `A` is absent
from the table, `setEndPoints` leaves the source point `(NaN, NaN)`, whatever the library,
and `setWaypoints` then returns with the polyline `(NaN, NaN)`, `(20, NaN)`, `(20, 20)`,
`(350, 20)`, `(350, 200)`, whose first two points have neither equal `x` nor equal `y`. -/
theorem setWaypoints_nan_not_manhattan :
    (∀ L : StdMath ℚ,
      fp.setEndPoints L.lift gapTable danglingEdge (fp.Edge.ofCell danglingEdge) =
        .ok ⟨⟨.nan, .nan⟩, ⟨.fin 350, .fin 200⟩, [], some .EAST, some .NORTH⟩) ∧
    fp.setWaypoints 4 gapTable danglingEdge
        (⟨⟨.nan, .nan⟩, ⟨.fin 350, .fin 200⟩, [], some .EAST, some .NORTH⟩ :
          fp.Edge (Ext ℚ)) =
      .ok ⟨⟨.nan, .nan⟩, ⟨.fin 350, .fin 200⟩,
        [⟨.fin 20, .nan⟩, ⟨.fin 20, .fin 20⟩, ⟨.fin 350, .fin 20⟩], some .EAST, some .NORTH⟩ ∧
    ¬ fp.manhattan (fp.polyline
      (⟨⟨.nan, .nan⟩, ⟨.fin 350, .fin 200⟩,
        [⟨.fin 20, .nan⟩, ⟨.fin 20, .fin 20⟩, ⟨.fin 350, .fin 20⟩], some .EAST, some .NORTH⟩ :
          fp.Edge (Ext ℚ))) := by
  refine ⟨fun L => ?_, by decide!, ?_⟩
  · have hplan : fp.orthogonalPlan gapTable danglingEdge
        (fp.Edge.ofCell danglingEdge : fp.Edge (Ext ℚ)) = (.EAST, .NORTH, []) := by decide!
    have hA : gapTable danglingEdge.source_id = {} := rfl
    unfold fp.setEndPoints
    have h1 : danglingEdge.edge = true := rfl
    have h2 : ¬ (danglingEdge.style.edgeStyle = .STRAIGHT) := by decide
    simp only [h1, Bool.not_true, Bool.false_eq_true, if_false, fp.fixedEndpoint, bind,
      Except.bind, pure, Except.pure]
    rw [if_neg (by decide), if_neg (by decide)]
    simp only [h2, if_false]
    congr 1
    unfold fp.parentOffsets
    rw [if_neg (by decide), if_neg (by decide)]
    unfold fp.orthogonalEndPoints
    have hplan' : fp.orthogonalPlan gapTable danglingEdge
        { (fp.Edge.ofCell danglingEdge : fp.Edge (Ext ℚ)) with
          sourcePoint := (fp.Edge.ofCell danglingEdge : fp.Edge (Ext ℚ)).sourcePoint,
          targetPoint := (fp.Edge.ofCell danglingEdge : fp.Edge (Ext ℚ)).targetPoint }
        = (.EAST, .NORTH, []) := hplan
    simp only [hplan', hA, List.head?_nil, List.getLast?_nil]
    have hs : fp.orthogonalEnd L.lift {} danglingEdge.style.startFixed danglingEdge.source_id
        (fp.Edge.ofCell danglingEdge : fp.Edge (Ext ℚ)).sourcePoint .EAST none =
        (⟨.nan, .nan⟩, .EAST) := by
      unfold fp.orthogonalEnd
      rw [if_pos (by decide)]
      unfold fp.orthogonalFree
      simp only [StdMath.lift_toCmath, fp_setEndpointInShape_default]
    have ht : fp.orthogonalEnd L.lift (gapTable danglingEdge.target_id)
        danglingEdge.style.endFixed danglingEdge.target_id
        (fp.Edge.ofCell danglingEdge : fp.Edge (Ext ℚ)).targetPoint .NORTH none =
        (⟨.fin 350, .fin 200⟩, .NORTH) := by
      unfold fp.orthogonalEnd
      rw [if_neg (by decide), if_neg (by decide)]
      decide!
    rw [hs, ht]
  · intro h
    unfold fp.manhattan fp.polyline at h
    simp only [List.cons_append, List.nil_append] at h
    have h1 := (List.chain'_cons.mp h).1
    rcases h1 with h1 | h1
    · exact absurd h1 (by decide!)
    · exact absurd h1 (by decide!)

/-- The range error of `std::stod`: `1e400` rounds to an infinity and `1e-400` is below the
smallest subnormal, and `setStyle` does not complete on such a value. -/
theorem stod_out_of_range :
    stod "1e400" = .error .outOfRange ∧ stod "-1e400" = .error .outOfRange ∧
    stod "1e-400" = .error .outOfRange ∧ stod "1e308" = .ok (10 ^ 308) ∧
    stod "0e999" = .ok 0 ∧
    (setStyle specExternals { style_str := "entryX=1e400" }).toBool = false := by
  decide!

/-! ## The exit on the unit box -/

theorem fp_half_div_bound {K : Type} [LinearOrderedField K] (m : K) (h : 1 < |m|) :
    -(1 / 2) < 1 / 2 / m ∧ 1 / 2 / m < 1 / 2 := by
  have hm : 0 < |m| := lt_trans one_pos h
  have h1 : |1 / 2 / m| < 1 / 2 := by
    rw [abs_div, abs_of_pos (show (0 : K) < 1 / 2 by norm_num), div_lt_iff₀ hm]
    nlinarith
  exact abs_lt.mp h1

/-- The choice of `setEndPoints` is a point of the boundary of the unit box, whatever the
slope: a point of the side `y = 0` or `y = 1` for a slope above one in absolute value, and
of the side `x = 0` or `x = 1` otherwise. -/
theorem fp_boxExit_side {K : Type} [LinearOrderedField K] [FloorRing K] (m : K)
    (lowY lowX : Bool) :
    ∃ u v : K, fp.boxExit (Ext.fin m) lowY lowX = (Ext.fin u, Ext.fin v) ∧
      fp.onUnitBox u v ∧ (1 < |m| → v = 0 ∨ v = 1) ∧ (¬ 1 < |m| → u = 0 ∨ u = 1) := by
  unfold fp.boxExit
  by_cases h : 1 < |m|
  · have hm : m ≠ 0 := by
      intro h0
      rw [h0, abs_zero] at h
      exact absurd h (not_lt.mpr zero_le_one)
    obtain ⟨b1, b2⟩ := fp_half_div_bound m h
    cases lowY
    · refine ⟨1 / 2 + 1 / 2 / m, 1, ?_, ⟨⟨by linarith, by linarith, zero_le_one, le_refl _⟩,
        Or.inr (Or.inr (Or.inr rfl))⟩, fun _ => Or.inr rfl, fun k => absurd h k⟩
      simp [h, hm, -one_div]
    · refine ⟨1 / 2 + -1 / 2 / m, 0, ?_, ⟨⟨?_, ?_, le_refl _, zero_le_one⟩,
        Or.inr (Or.inr (Or.inl rfl))⟩, fun _ => Or.inl rfl, fun k => absurd h k⟩
      · simp [h, hm, -one_div]
      · have e : (-1 : K) / 2 / m = -(1 / 2 / m) := by ring
        rw [e]
        linarith
      · have e : (-1 : K) / 2 / m = -(1 / 2 / m) := by ring
        rw [e]
        linarith
  · have hle : |m| ≤ 1 := not_lt.mp h
    obtain ⟨b1, b2⟩ := abs_le.mp hle
    cases lowX
    · refine ⟨1, 1 / 2 + m * (1 / 2), ?_, ⟨⟨zero_le_one, le_refl _, by linarith, by linarith⟩,
        Or.inr (Or.inl rfl)⟩, fun k => absurd k h, fun _ => Or.inr rfl⟩
      simp [h, -one_div]
    · refine ⟨0, 1 / 2 + m * (-1 / 2), ?_, ⟨⟨le_refl _, zero_le_one, by linarith, by linarith⟩,
        Or.inl rfl⟩, fun k => absurd k h, fun _ => Or.inl rfl⟩
      simp [h, -one_div]

theorem fp_boxExit_onUnitBox {K : Type} [LinearOrderedField K] [FloorRing K] (m : K)
    (lowY lowX : Bool) :
    ∃ u v : K, fp.boxExit (Ext.fin m) lowY lowX = (Ext.fin u, Ext.fin v) ∧
      fp.onUnitBox u v := by
  obtain ⟨u, v, h1, h2, _⟩ := fp_boxExit_side m lowY lowX
  exact ⟨u, v, h1, h2⟩

/-! ## The place of a point of the unit box -/

theorem Cmath.exact_neg {K : Type} [LinearOrderedField K] (L : Cmath K) (hL : L.exact)
    (a : K) : L.cos (-a) = L.cos a ∧ L.sin (-a) = -L.sin a := by
  obtain ⟨h0, h1⟩ := L.exact_zero hL
  obtain ⟨_, _, hcs, hss, _, _, _, _⟩ := hL
  have e : -a = 0 - a := by ring
  rw [e, hcs, hss, h0, h1]
  constructor <;> ring

theorem fp_perimeter_flag {K : Type} [LinearOrderedField K] [FloorRing K] (u v : K)
    (h : u = 0 ∨ u = 1 ∨ v = 0 ∨ v = 1) :
    ((Ext.fin u == (Double.lit 0 : Ext K)) || (Ext.fin u == (Double.lit 1 : Ext K)) ||
      (Ext.fin v == (Double.lit 0 : Ext K)) || (Ext.fin v == (Double.lit 1 : Ext K))) = true := by
  simp only [Ext.lit_eq, Rat.cast_zero, Rat.cast_one, Bool.or_eq_true, Ext.fin_beq]
  tauto

theorem fp_zero_div_dim {K : Type} [LinearOrderedField K] [FloorRing K] (b : Bool) (w h : K)
    (hw : w ≠ 0) (hh : h ≠ 0) :
    (Ext.fin 0 : Ext K) / (if b = true then Ext.fin w else Ext.fin h) = Ext.fin 0 := by
  cases b
  · simp [hh]
  · simp [hw]

/-- On a shape of non-zero width and height `setEndpointInShape` without offsets takes a
point of the boundary of the unit box to the place of the point that `adjustEndpoint`
returns for it, for an exact library. -/
theorem fp_setEndpointInShape_place {K : Type} [LinearOrderedField K] [FloorRing K]
    (L : Cmath K) (hL : L.exact) (shape : MXCell)
    (hw : shape.geometry.width ≠ 0) (hh : shape.geometry.height ≠ 0) (u v u2 v2 : K)
    (hflag : u = 0 ∨ u = 1 ∨ v = 0 ∨ v = 1)
    (hadj : fp.adjustEndpoint L.lift (.fin u) (.fin v) shape = (.fin u2, .fin v2)) :
    fp.setEndpointInShape L.lift (.fin u) (.fin v) shape (Double.lit 0) (Double.lit 0) =
      ⟨.fin (fp.placeInShape L shape u2 v2).1, .fin (fp.placeInShape L shape u2 v2).2⟩ := by
  have hw' : (shape.geometry.width : K) ≠ 0 := by exact_mod_cast hw
  have hh' : (shape.geometry.height : K) ≠ 0 := by exact_mod_cast hh
  obtain ⟨hc, hs⟩ := L.exact_neg hL (shape.style.rotation * L.pi / 180)
  have ea : -(shape.style.rotation : K) * L.pi / 180 = -(shape.style.rotation * L.pi / 180) := by
    ring
  unfold fp.setEndpointInShape fp.placeInShape
  simp only [fp_perimeter_flag u v hflag, if_true]
  simp only [Ext.lit_eq, Rat.cast_zero, fp_zero_div_dim _ _ _ hw' hh',
    fp_zero_div_dim _ _ _ hh' hw', Ext.fin_add, add_zero, hadj]
  cases shape.style.direction <;>
    simp only [Ext.fin_mul, Ext.fin_add, Ext.fin_sub, Ext.fin_neg, Rat.cast_one,
      Cmath.lift_pi, Rat.cast_ofNat, Ext.fin_div, ne_eq, OfNat.ofNat_ne_zero,
      not_false_eq_true, fp_getPoint_exact L hL, ea, hc, hs] <;>
    congr 2 <;> ring

/-! ## The place of a point and the transform of `PathContext` -/

/-- The point that `PathContext` emits for the local point at the fractions `(u, v)` of the
width and the height of the context of a shape is the place of `(u, v)` in the shape, in
the unit of the drawing (a hundredth), for every direction and rotation and an exact
library: the outline that `draw` emits from corners in the unit box is the image of the
corners under `placeInShape`. -/
theorem fp_emit_placeInShape {K : Type} [LinearOrderedField K] [FloorRing K] (L : Cmath K)
    (hL : L.exact) (shape : MXCell) (u v W H : K)
    (hW : (fp.PathContext.new L.lift shape (fp.MXGeometry.ofCell shape)).width = .fin W)
    (hH : (fp.PathContext.new L.lift shape (fp.MXGeometry.ofCell shape)).height = .fin H) :
    (fp.PathContext.new L.lift shape (fp.MXGeometry.ofCell shape)).emit L.lift
        ⟨.fin (u * W), .fin (v * H)⟩
      = ⟨.fin ((fp.placeInShape L shape u v).1 / 100),
          .fin ((fp.placeInShape L shape u v).2 / 100)⟩ := by
  obtain ⟨hc, hs⟩ := L.exact_neg hL (shape.style.rotation * L.pi / 180)
  obtain ⟨h0, h1⟩ := L.exact_zero hL
  have hL2 := hL
  obtain ⟨_, _, hcs, hss, _, hpi, hq, _⟩ := hL2
  have hp0 := hpi 0
  rw [zero_add, h0, h1, neg_zero] at hp0
  have ea : -(shape.style.rotation : K) * L.pi / 180 = -(shape.style.rotation * L.pi / 180) := by
    ring
  have en : ∀ a : K, a + L.pi / 2 = a - (0 - L.pi / 2) := fun a => by ring
  unfold fp.PathContext.emit
  cases hd : shape.style.direction <;>
    simp only [fp.PathContext.new, fp.MXGeometry.ofCell, hd, vertical, horizontal,
      Direction.toInt, Ext.lit_eq, Ext.fin_div, Ext.fin_add, Ext.fin_sub, Ext.fin_mul,
      Ext.fin_neg, Rat.cast_ofNat, ne_eq, OfNat.ofNat_ne_zero, not_false_eq_true,
      Cmath.lift_pi, reduceCtorEq, if_false, if_true, Ext.fin.injEq, Bool.not_true,
      Bool.not_false, Bool.false_eq_true, Int.reduceMod, Int.reduceBEq, beq_self_eq_true,
      fp_rotate_exact L hL, fp.MXPoint.add, fp.placeInShape] at hW hH ⊢ <;>
    subst hW <;> subst hH <;>
    simp only [ea, en, hcs, hss, hc, hs, hq.1, hq.2, hp0.1, hp0.2, h0, h1] <;>
    congr 2 <;> ring

/-! ## The projection of `adjustEndpoint` onto the outline, over the doubles -/

set_option maxHeartbeats 4000000 in
/-- The point `(1/2 + e u / (2 D), 1/2 + e v / (2 D))` of the ray from the centre of the
unit box in the direction `(u, v)` lies on the segment from `(a1, a2)` to `(b1, b2)` when
the direction is between the directions to the two ends and `e / (2 D)` is the factor at
which the ray meets the line through them. -/
theorem fp_onSegment_of_ray (a1 a2 b1 b2 : ℝ) (out : ℝ × ℝ)
    (u v D e : ℝ) (hD : D ≠ 0)
    (h1 : out.1 = 1 / 2 + e * u / (2 * D)) (h2 : out.2 = 1 / 2 + e * v / (2 * D))
    (s1 : 0 ≤ (a1 - 1 / 2) * v - (a2 - 1 / 2) * u)
    (s2 : 0 ≤ u * (b2 - 1 / 2) - v * (b1 - 1 / 2))
    (hpos : 0 < ((a1 - 1 / 2) * v - (a2 - 1 / 2) * u) + (u * (b2 - 1 / 2) - v * (b1 - 1 / 2)))
    (hk : e * (((a1 - 1 / 2) * v - (a2 - 1 / 2) * u) + (u * (b2 - 1 / 2) - v * (b1 - 1 / 2)))
      = 2 * D * ((a1 - 1 / 2) * (b2 - 1 / 2) - (a2 - 1 / 2) * (b1 - 1 / 2))) :
    fp.onSegment (a1, a2) (b1, b2) out := by
  have fp_onSegment_of_param : ∀ (a b p : ℝ × ℝ) (t : ℝ)
      (h0 : 0 ≤ t) (h1 : t ≤ 1)
      (hx : p.1 = a.1 + t * (b.1 - a.1)) (hy : p.2 = a.2 + t * (b.2 - a.2)),
      fp.onSegment a b p := by
    intro a b p t h0 h1 hx hy
    unfold fp.onSegment
    rw [hx, hy]
    have key : ∀ r s : ℝ, min r s ≤ r + t * (s - r) ∧ r + t * (s - r) ≤ max r s := by
      intro r s
      rcases le_total r s with h | h
      · rw [min_eq_left h, max_eq_right h]
        constructor
        · nlinarith [mul_nonneg h0 (sub_nonneg.mpr h)]
        · nlinarith [mul_nonneg (sub_nonneg.mpr h1) (sub_nonneg.mpr h)]
      · rw [min_eq_right h, max_eq_left h]
        constructor
        · nlinarith [mul_nonneg (sub_nonneg.mpr h1) (sub_nonneg.mpr h)]
        · nlinarith [mul_nonneg h0 (sub_nonneg.mpr h)]
    exact ⟨by ring, (key a.1 b.1).1, (key a.1 b.1).2, (key a.2 b.2).1, (key a.2 b.2).2⟩
  -- A point `(1/2 + k u, 1/2 + k v)` of the ray from the centre of the unit box in the
  -- direction `(u, v)` lies on the segment from `a` to `b` when the direction is between the
  -- directions to `a` and to `b` and `k` is the factor at which the ray meets the line.
  have fp_onSegment_of_cone : ∀ (a b out : ℝ × ℝ) (u v k : ℝ)
      (h1 : out.1 = 1 / 2 + k * u) (h2 : out.2 = 1 / 2 + k * v)
      (s1 : 0 ≤ (a.1 - 1 / 2) * v - (a.2 - 1 / 2) * u)
      (s2 : 0 ≤ u * (b.2 - 1 / 2) - v * (b.1 - 1 / 2))
      (hpos : 0 < ((a.1 - 1 / 2) * v - (a.2 - 1 / 2) * u)
      + (u * (b.2 - 1 / 2) - v * (b.1 - 1 / 2)))
      (hk : k * (((a.1 - 1 / 2) * v - (a.2 - 1 / 2) * u)
      + (u * (b.2 - 1 / 2) - v * (b.1 - 1 / 2)))
      = (a.1 - 1 / 2) * (b.2 - 1 / 2) - (a.2 - 1 / 2) * (b.1 - 1 / 2)),
      fp.onSegment a b out := by
    intro a b out u v k h1 h2 s1 s2 hpos hk
    have hS := hpos.ne'
    have e1 : 1 / 2 + k * u - a.1 = ((a.1 - 1 / 2) * v - (a.2 - 1 / 2) * u) * (b.1 - a.1) /
        (((a.1 - 1 / 2) * v - (a.2 - 1 / 2) * u) + (u * (b.2 - 1 / 2) - v * (b.1 - 1 / 2))) := by
      rw [eq_div_iff hS]
      linear_combination u * hk
    have e2 : 1 / 2 + k * v - a.2 = ((a.1 - 1 / 2) * v - (a.2 - 1 / 2) * u) * (b.2 - a.2) /
        (((a.1 - 1 / 2) * v - (a.2 - 1 / 2) * u) + (u * (b.2 - 1 / 2) - v * (b.1 - 1 / 2))) := by
      rw [eq_div_iff hS]
      linear_combination v * hk
    refine fp_onSegment_of_param a b out (((a.1 - 1 / 2) * v - (a.2 - 1 / 2) * u) /
      (((a.1 - 1 / 2) * v - (a.2 - 1 / 2) * u) + (u * (b.2 - 1 / 2) - v * (b.1 - 1 / 2))))
      (div_nonneg s1 hpos.le) ((div_le_one hpos).mpr (by linarith)) ?_ ?_
    · rw [h1, div_mul_eq_mul_div, ← e1]
      ring
    · rw [h2, div_mul_eq_mul_div, ← e2]
      ring
  have h2D : 2 * D ≠ 0 := mul_ne_zero two_ne_zero hD
  refine fp_onSegment_of_cone (a1, a2) (b1, b2) out u v (e / (2 * D)) ?_ ?_ s1 s2 hpos ?_
  · rw [h1]
    ring
  · rw [h2]
    ring
  · rw [div_mul_eq_mul_div, hk]
    exact mul_div_cancel_left₀ _ h2D

theorem fp_not_inside {K : Type} [LinearOrderedField K] (x y : K) (hb : fp.onUnitBox x y) :
    ¬ ((0 : K) < x ∧ x < 1 ∧ (0 : K) < y ∧ y < 1) := by
  rintro ⟨a1, a2, a3, a4⟩
  rcases hb.2 with h | h | h | h <;> linarith

/-! ### The parallelogram -/

set_option maxHeartbeats 4000000 in
/-- The projection of `adjustParallelogram` for a ratio `c` with `0 < c <= 1/2`. -/
theorem fp_adjustParallelogram_projects
    (c x y : ℝ) (hc0 : 0 < c) (hc1 : c ≤ 1 / 2) (hb : fp.onUnitBox x y) :
    ∃ out : ℝ × ℝ, fp.adjustParallelogram (Ext.fin c) (Ext.fin x) (Ext.fin y)
        = (Ext.fin out.1, Ext.fin out.2) ∧
      fp.onPolygon [(0, 1), (c, 0), (1, 0), (1 - c, 1)] out := by
  have fp_parallelogram_left : ∀ (c u v : ℝ) (hc : c ≠ 0)
      (hu : u ≠ 0) (hD : u + c * v ≠ 0),
      2 * (v / u) * c + 2 ≠ 0 ∧
        (v / u * c + c) / (2 * (v / u) * c + 2) = 1 / 2 + (1 - c) * u / (2 * -(u + c * v)) ∧
        1 - (v / u * c + c) / (2 * (v / u) * c + 2) / c
          = 1 / 2 + (1 - c) * v / (2 * -(u + c * v)) := by
    intro c u v hc hu hD
    have e : 2 * (v / u) * c + 2 = 2 * (u + c * v) / u := by
      field_simp
      ring
    have h4 : 2 * (v / u) * c + 2 ≠ 0 := by
      rw [e]
      exact div_ne_zero (mul_ne_zero two_ne_zero hD) hu
    have e2 : 2 * -(u + c * v) = -(2 * (u + c * v)) := by ring
    refine ⟨h4, ?_, ?_⟩ <;> rw [e, e2] <;> field_simp <;> ring
  have fp_parallelogram_right : ∀ (c u v : ℝ) (hc : c ≠ 0)
      (hu : u ≠ 0) (hD : u + c * v ≠ 0),
      2 * (v / u) * c + 2 ≠ 0 ∧
        (v / u * c - c + 2) / (2 * (v / u) * c + 2) = 1 / 2 + (1 - c) * u / (2 * (u + c * v)) ∧
        (1 - (v / u * c - c + 2) / (2 * (v / u) * c + 2)) / c
          = 1 / 2 + (1 - c) * v / (2 * (u + c * v)) := by
    intro c u v hc hu hD
    have e : 2 * (v / u) * c + 2 = 2 * (u + c * v) / u := by
      field_simp
      ring
    have h4 : 2 * (v / u) * c + 2 ≠ 0 := by
      rw [e]
      exact div_ne_zero (mul_ne_zero two_ne_zero hD) hu
    refine ⟨h4, ?_, ?_⟩ <;> rw [e] <;> field_simp <;> ring
  -- The left branch of `adjustParallelogram` in closed form.
  have fp_adjustParallelogram_left : ∀ (c x y : ℝ) (hc : c ≠ 0) (hx : x < c ∧ y < 1)
      (hu : x ≠ 1 / 2) (hD : 0 < -((x - 1 / 2) + c * (y - 1 / 2))),
      fp.adjustParallelogram (Ext.fin c) (Ext.fin x) (Ext.fin y)
        = (Ext.fin (1 / 2 + (1 - c) * (x - 1 / 2) / (2 * -((x - 1 / 2) + c * (y - 1 / 2)))),
            Ext.fin (1 / 2 + (1 - c) * (y - 1 / 2) / (2 * -((x - 1 / 2) + c * (y - 1 / 2))))) := by
    intro c x y hc hx hu hD
    obtain ⟨k1, k2, k3⟩ := fp_parallelogram_left c (x - 1 / 2) (y - 1 / 2) hc
      (sub_ne_zero.mpr hu) (by intro h; rw [h] at hD; simp at hD)
    unfold fp.adjustParallelogram
    simp only [Ext.lit_eq, Rat.cast_div, Rat.cast_one, Rat.cast_ofNat, Rat.cast_zero,
      Ext.fin_bne, Ext.fin_lt, Ext.fin_sub, Ext.fin_div _ _ (sub_ne_zero.mpr hu), Ext.fin_mul,
      Ext.fin_add, Ext.fin_div _ _ k1, Ext.fin_div _ _ hc, ne_eq, hc, hu, hx,
      not_false_eq_true, and_self, if_true]
    rw [k3, k2]
  -- The right branch of `adjustParallelogram` in closed form.
  have fp_adjustParallelogram_right : ∀ (c x y : ℝ) (hc : c ≠ 0) (hx1 : ¬(x < c ∧ y < 1))
      (hx : 1 - c < x ∧ 0 < y) (hu : x ≠ 1 / 2) (hD : 0 < (x - 1 / 2) + c * (y - 1 / 2)),
      fp.adjustParallelogram (Ext.fin c) (Ext.fin x) (Ext.fin y)
        = (Ext.fin (1 / 2 + (1 - c) * (x - 1 / 2) / (2 * ((x - 1 / 2) + c * (y - 1 / 2)))),
            Ext.fin (1 / 2 + (1 - c) * (y - 1 / 2) / (2 * ((x - 1 / 2) + c * (y - 1 / 2))))) := by
    intro c x y hc hx1 hx hu hD
    obtain ⟨k1, k2, k3⟩ := fp_parallelogram_right c (x - 1 / 2) (y - 1 / 2) hc
      (sub_ne_zero.mpr hu) hD.ne'
    unfold fp.adjustParallelogram
    simp only [Ext.lit_eq, Rat.cast_div, Rat.cast_one, Rat.cast_ofNat, Rat.cast_zero,
      Ext.fin_bne, Ext.fin_lt, Ext.fin_sub, Ext.fin_div _ _ (sub_ne_zero.mpr hu), Ext.fin_mul,
      Ext.fin_add, Ext.fin_div _ _ k1, Ext.fin_div _ _ hc, ne_eq, hc, hu, hx, hx1, gt_iff_lt,
      not_false_eq_true, and_self, if_true, if_false]
    rw [k3, k2]
  -- Outside its two branches `adjustParallelogram` returns the input.
  have fp_adjustParallelogram_between : ∀ (c x y : ℝ) (k1 : ¬(x < c ∧ y < 1)) (k2 : ¬(1 - c < x ∧ 0 < y)),
      fp.adjustParallelogram (Ext.fin c) (Ext.fin x) (Ext.fin y) = (Ext.fin x, Ext.fin y) := by
    intro c x y k1 k2
    unfold fp.adjustParallelogram
    simp only [Ext.lit_eq, Rat.cast_one, Rat.cast_zero, Ext.fin_lt, Ext.fin_sub, gt_iff_lt,
      k1, k2, if_false, ite_self]
  have fp_mem_sides_parallelogram : ∀ (c : ℝ)
      (s : (ℝ × ℝ) × (ℝ × ℝ))
      (h : s = ((0, 1), (c, 0)) ∨ s = ((c, 0), (1, 0)) ∨ s = ((1, 0), (1 - c, 1))
      ∨ s = ((1 - c, 1), (0, 1))),
      s ∈ fp.polygonSides [(0, 1), (c, 0), (1, 0), (1 - c, 1)] := by
    intro c s h
    simpa [fp.polygonSides, fp.sidesFrom] using h
  have fp_parallelogram_left_on : ∀ (c x y : ℝ) (hc0 : 0 < c) (hc1 : c ≤ 1 / 2)
      (hb : fp.onUnitBox x y) (hx : x < c ∧ y < 1),
      ∃ out : ℝ × ℝ, fp.adjustParallelogram (Ext.fin c) (Ext.fin x) (Ext.fin y)
          = (Ext.fin out.1, Ext.fin out.2) ∧ fp.onSegment (0, 1) (c, 0) out := by
    intro c x y hc0 hc1 hb hx
    obtain ⟨⟨x0, x1, y0, y1⟩, hside⟩ := hb
    obtain ⟨hx1, hx2⟩ := hx
    have hs : x = 0 ∨ y = 0 := by
      rcases hside with h | h | h | h
      · exact Or.inl h
      · exfalso; linarith only [hx1, hc1, h]
      · exact Or.inr h
      · exfalso; linarith only [hx2, h]
    have hu : x ≠ 1 / 2 := by intro h; linarith only [hx1, hc1, h]
    have S1 : 0 ≤ ((0 : ℝ) - 1 / 2) * (y - 1 / 2) - (1 - 1 / 2) * (x - 1 / 2) := by
      rcases hs with h | h <;> subst h <;> linarith only [x1, y1, hx1, hx2, hc1]
    have S2 : 0 ≤ (x - 1 / 2) * (0 - 1 / 2) - (y - 1 / 2) * (c - 1 / 2) := by
      rcases hs with h | h
      · subst h
        linarith only [mul_nonneg y0 (show (0 : ℝ) ≤ 1 - 2 * c by linarith only [hc1]), hc0]
      · subst h
        linarith only [hx1]
    have hD : 0 < -((x - 1 / 2) + c * (y - 1 / 2)) := by
      rcases hs with h | h
      · subst h
        linarith only [mul_pos hc0 (show (0 : ℝ) < 1 - y by linarith only [hx2]), hc1]
      · subst h
        linarith only [hx1, hc0, hc1]
    exact ⟨(_, _), fp_adjustParallelogram_left c x y hc0.ne' ⟨hx1, hx2⟩ hu hD,
      fp_onSegment_of_ray _ _ _ _ _ (x - 1 / 2) (y - 1 / 2) _ (1 - c) hD.ne' rfl rfl S1 S2
        (by linarith only [hD]) (by ring)⟩
  have fp_parallelogram_right_on : ∀ (c x y : ℝ) (hc0 : 0 < c) (hc1 : c ≤ 1 / 2)
      (hb : fp.onUnitBox x y) (hx : 1 - c < x ∧ 0 < y),
      ∃ out : ℝ × ℝ, fp.adjustParallelogram (Ext.fin c) (Ext.fin x) (Ext.fin y)
          = (Ext.fin out.1, Ext.fin out.2) ∧ fp.onSegment (1, 0) (1 - c, 1) out := by
    intro c x y hc0 hc1 hb hx
    obtain ⟨⟨x0, x1, y0, y1⟩, hside⟩ := hb
    obtain ⟨hx1, hx2⟩ := hx
    have hs : x = 1 ∨ y = 1 := by
      rcases hside with h | h | h | h
      · exfalso; linarith only [hx1, hc1, h]
      · exact Or.inl h
      · exfalso; linarith only [hx2, h]
      · exact Or.inr h
    have hu : x ≠ 1 / 2 := by intro h; linarith only [hx1, hc1, h]
    have S1 : 0 ≤ ((1 : ℝ) - 1 / 2) * (y - 1 / 2) - (0 - 1 / 2) * (x - 1 / 2) := by
      rcases hs with h | h <;> subst h <;> linarith only [x0, y0, hx1, hx2, hc1]
    have S2 : 0 ≤ (x - 1 / 2) * (1 - 1 / 2) - (y - 1 / 2) * (1 - c - 1 / 2) := by
      rcases hs with h | h
      · subst h
        linarith only [mul_nonneg (show (0 : ℝ) ≤ 1 - y by linarith only [y1])
          (show (0 : ℝ) ≤ 1 - 2 * c by linarith only [hc1]), hc0]
      · subst h
        linarith only [hx1]
    have hD : 0 < (x - 1 / 2) + c * (y - 1 / 2) := by
      rcases hs with h | h
      · subst h
        linarith only [mul_pos hc0 hx2, hc1]
      · subst h
        linarith only [hx1, hc0, hc1]
    exact ⟨(_, _), fp_adjustParallelogram_right c x y hc0.ne'
        (by rintro ⟨h, _⟩; linarith only [hx1, hc1, h]) ⟨hx1, hx2⟩ hu hD,
      fp_onSegment_of_ray _ _ _ _ _ (x - 1 / 2) (y - 1 / 2) _ (1 - c) hD.ne' rfl rfl S1 S2
        (by linarith only [hD]) (by ring)⟩
  by_cases h1 : x < c ∧ y < 1
  · obtain ⟨out, e, s⟩ := fp_parallelogram_left_on c x y hc0 hc1 hb h1
    exact ⟨out, e, ⟨_, fp_mem_sides_parallelogram c _ (Or.inl rfl), s⟩⟩
  · by_cases h2 : 1 - c < x ∧ 0 < y
    · obtain ⟨out, e, s⟩ := fp_parallelogram_right_on c x y hc0 hc1 hb h2
      exact ⟨out, e, ⟨_, fp_mem_sides_parallelogram c _ (Or.inr (Or.inr (Or.inl rfl))), s⟩⟩
    · obtain ⟨⟨x0, x1, y0, y1⟩, hside⟩ := hb
      refine ⟨(x, y), fp_adjustParallelogram_between c x y h1 h2, ?_⟩
      have hy : y = 0 ∨ y = 1 := by
        rcases hside with h | h | h | h
        · subst h
          rcases eq_or_lt_of_le y1 with e | e
          · exact Or.inr e
          · exact absurd ⟨hc0, e⟩ h1
        · subst h
          rcases eq_or_lt_of_le y0 with e | e
          · exact Or.inl e.symm
          · exact absurd ⟨by linarith only [hc0], e⟩ h2
        · exact Or.inl h
        · exact Or.inr h
      rcases hy with hy | hy
      · subst hy
        have hxc : c ≤ x := by
          by_contra hlt
          exact h1 ⟨lt_of_not_le hlt, zero_lt_one⟩
        refine ⟨_, fp_mem_sides_parallelogram c _ (Or.inr (Or.inl rfl)), ?_⟩
        unfold fp.onSegment
        simp only [min_eq_left (show c ≤ 1 by linarith only [hc1]),
          max_eq_right (show c ≤ 1 by linarith only [hc1]), min_self, max_self]
        exact ⟨by ring, hxc, x1, le_refl _, le_refl _⟩
      · subst hy
        have hxc : x ≤ 1 - c := by
          by_contra hlt
          exact h2 ⟨lt_of_not_le hlt, zero_lt_one⟩
        refine ⟨_, fp_mem_sides_parallelogram c _ (Or.inr (Or.inr (Or.inr rfl))), ?_⟩
        unfold fp.onSegment
        simp only [min_eq_right (show (0 : ℝ) ≤ 1 - c by linarith only [hc1]),
          max_eq_left (show (0 : ℝ) ≤ 1 - c by linarith only [hc1]), min_self, max_self]
        exact ⟨by ring, x0, hxc, le_refl _, le_refl _⟩

/-! ### The hexagon -/

set_option maxHeartbeats 4000000 in
/-- The projection of `adjustHexagon` for a ratio `c` with `0 < c <= 1/2`. -/
theorem fp_adjustHexagon_projects (c x y : ℝ)
    (hc0 : 0 < c) (hc1 : c ≤ 1 / 2) (hb : fp.onUnitBox x y) :
    ∃ out : ℝ × ℝ, fp.adjustHexagon (Ext.fin c) (Ext.fin x) (Ext.fin y)
        = (Ext.fin out.1, Ext.fin out.2) ∧
      fp.onPolygon [(c, 0), (1 - c, 0), (1, 1 / 2), (1 - c, 1), (c, 1), (0, 1 / 2)] out := by
  have fp_hexagon_nw : ∀ (c u v : ℝ) (hc : c ≠ 0) (hu : u ≠ 0)
      (hD : u + 2 * c * v ≠ 0),
      2 * c * (v / u) + 1 ≠ 0 ∧
        c * (v / u) / (2 * c * (v / u) + 1) = 1 / 2 + 1 * u / (2 * -(u + 2 * c * v)) ∧
        -(c * (v / u) / (2 * c * (v / u) + 1)) / (2 * c) + 1 / 2
          = 1 / 2 + 1 * v / (2 * -(u + 2 * c * v)) := by
    intro c u v hc hu hD
    have e : 2 * c * (v / u) + 1 = (u + 2 * c * v) / u := by
      field_simp
      ring
    have h4 : 2 * c * (v / u) + 1 ≠ 0 := by
      rw [e]
      exact div_ne_zero hD hu
    have e2 : 2 * -(u + 2 * c * v) = -(2 * (u + 2 * c * v)) := by ring
    have k2 : c * (v / u) / (2 * c * (v / u) + 1) = 1 / 2 + 1 * u / (2 * -(u + 2 * c * v)) := by
      rw [div_eq_iff h4, e2]
      field_simp
      ring
    refine ⟨h4, k2, ?_⟩
    rw [k2, e2]
    field_simp
    ring
  have fp_hexagon_ne : ∀ (c u v : ℝ) (hc : c ≠ 0) (hu : u ≠ 0)
      (hD : u - 2 * c * v ≠ 0),
      2 * (v / u) * c - 1 ≠ 0 ∧
        (v / u * c - 1) / (2 * (v / u) * c - 1) = 1 / 2 + 1 * u / (2 * (u - 2 * c * v)) ∧
        ((v / u * c - 1) / (2 * (v / u) * c - 1) + c - 1) / (2 * c)
          = 1 / 2 + 1 * v / (2 * (u - 2 * c * v)) := by
    intro c u v hc hu hD
    have e : 2 * (v / u) * c - 1 = -(u - 2 * c * v) / u := by
      field_simp
      ring
    have h4 : 2 * (v / u) * c - 1 ≠ 0 := by
      rw [e]
      exact div_ne_zero (neg_ne_zero.mpr hD) hu
    have k2 : (v / u * c - 1) / (2 * (v / u) * c - 1)
        = 1 / 2 + 1 * u / (2 * (u - 2 * c * v)) := by
      rw [div_eq_iff h4]
      field_simp
      ring
    refine ⟨h4, k2, ?_⟩
    rw [k2]
    field_simp
    ring
  have fp_hexagon_sw : ∀ (c u v : ℝ) (hc : c ≠ 0) (hu : u ≠ 0)
      (hD : -u + 2 * c * v ≠ 0),
      2 * (v / u) * c - 1 ≠ 0 ∧
        v / u * c / (2 * (v / u) * c - 1) = 1 / 2 + 1 * u / (2 * (-u + 2 * c * v)) ∧
        v / u * c / (2 * (v / u) * c - 1) / (2 * c) + 1 / 2
          = 1 / 2 + 1 * v / (2 * (-u + 2 * c * v)) := by
    intro c u v hc hu hD
    have e : 2 * (v / u) * c - 1 = (-u + 2 * c * v) / u := by
      field_simp
      ring
    have h4 : 2 * (v / u) * c - 1 ≠ 0 := by
      rw [e]
      exact div_ne_zero hD hu
    have k2 : v / u * c / (2 * (v / u) * c - 1) = 1 / 2 + 1 * u / (2 * (-u + 2 * c * v)) := by
      rw [div_eq_iff h4]
      field_simp
      ring
    refine ⟨h4, k2, ?_⟩
    rw [k2]
    field_simp
    ring
  have fp_hexagon_se : ∀ (c u v : ℝ) (hc : c ≠ 0) (hu : u ≠ 0)
      (hD : u + 2 * c * v ≠ 0),
      2 * (v / u) * c + 1 ≠ 0 ∧
        (v / u * c + 1) / (2 * (v / u) * c + 1) = 1 / 2 + 1 * u / (2 * (u + 2 * c * v)) ∧
        (1 + c - (v / u * c + 1) / (2 * (v / u) * c + 1)) / (2 * c)
          = 1 / 2 + 1 * v / (2 * (u + 2 * c * v)) := by
    intro c u v hc hu hD
    have e : 2 * (v / u) * c + 1 = (u + 2 * c * v) / u := by
      field_simp
      ring
    have h4 : 2 * (v / u) * c + 1 ≠ 0 := by
      rw [e]
      exact div_ne_zero hD hu
    have k2 : (v / u * c + 1) / (2 * (v / u) * c + 1)
        = 1 / 2 + 1 * u / (2 * (u + 2 * c * v)) := by
      rw [div_eq_iff h4]
      field_simp
      ring
    refine ⟨h4, k2, ?_⟩
    rw [k2]
    field_simp
    ring
  -- The branch `x < c && y < 0.5` of `adjustHexagon` in closed form.
  have fp_adjustHexagon_nw : ∀ (c x y : ℝ)
      (hc : c ≠ 0) (hx : x < c ∧ y < 1 / 2)
      (hu : x ≠ 1 / 2) (hD : 0 < -((x - 1 / 2) + 2 * c * (y - 1 / 2))),
      fp.adjustHexagon (Ext.fin c) (Ext.fin x) (Ext.fin y)
        = (Ext.fin (1 / 2 + 1 * (x - 1 / 2) / (2 * -((x - 1 / 2) + 2 * c * (y - 1 / 2)))),
            Ext.fin (1 / 2 + 1 * (y - 1 / 2) / (2 * -((x - 1 / 2) + 2 * c * (y - 1 / 2))))) := by
    intro c x y hc hx hu hD
    obtain ⟨k1, k2, k3⟩ := fp_hexagon_nw c (x - 1 / 2) (y - 1 / 2) hc
      (sub_ne_zero.mpr hu) (by intro h; rw [h] at hD; simp at hD)
    unfold fp.adjustHexagon
    simp only [Ext.lit_eq, Rat.cast_div, Rat.cast_one, Rat.cast_ofNat, Rat.cast_zero,
      Ext.fin_bne, Ext.fin_lt, Ext.fin_sub, gt_iff_lt, ne_eq]
    rw [if_pos ⟨hc, hu⟩, if_pos hx]
    simp only [Ext.fin_div _ _ (sub_ne_zero.mpr hu), Ext.fin_mul, Ext.fin_add, Ext.fin_neg,
      Ext.fin_sub, Ext.fin_div _ _ k1, Ext.fin_div _ _ (mul_ne_zero two_ne_zero hc)]
    rw [k3, k2]
  -- The branch `x > 1 - c && y < 0.5` of `adjustHexagon` in closed form.
  have fp_adjustHexagon_ne : ∀ (c x y : ℝ)
      (hc : c ≠ 0) (hx1 : ¬(x < c ∧ y < 1 / 2)) (hx : 1 - c < x ∧ y < 1 / 2)
      (hu : x ≠ 1 / 2) (hD : 0 < (x - 1 / 2) - 2 * c * (y - 1 / 2)),
      fp.adjustHexagon (Ext.fin c) (Ext.fin x) (Ext.fin y)
        = (Ext.fin (1 / 2 + 1 * (x - 1 / 2) / (2 * ((x - 1 / 2) - 2 * c * (y - 1 / 2)))),
            Ext.fin (1 / 2 + 1 * (y - 1 / 2) / (2 * ((x - 1 / 2) - 2 * c * (y - 1 / 2))))) := by
    intro c x y hc hx1 hx hu hD
    obtain ⟨k1, k2, k3⟩ := fp_hexagon_ne c (x - 1 / 2) (y - 1 / 2) hc
      (sub_ne_zero.mpr hu) hD.ne'
    unfold fp.adjustHexagon
    simp only [Ext.lit_eq, Rat.cast_div, Rat.cast_one, Rat.cast_ofNat, Rat.cast_zero,
      Ext.fin_bne, Ext.fin_lt, Ext.fin_sub, gt_iff_lt, ne_eq]
    rw [if_pos ⟨hc, hu⟩, if_neg hx1, if_pos hx]
    simp only [Ext.fin_div _ _ (sub_ne_zero.mpr hu), Ext.fin_mul, Ext.fin_add, Ext.fin_neg,
      Ext.fin_sub, Ext.fin_div _ _ k1, Ext.fin_div _ _ (mul_ne_zero two_ne_zero hc)]
    rw [k3, k2]
  -- The branch `x < c && y > 0.5` of `adjustHexagon` in closed form.
  have fp_adjustHexagon_sw : ∀ (c x y : ℝ)
      (hc : c ≠ 0) (hx1 : ¬(x < c ∧ y < 1 / 2))
      (hx2 : ¬(1 - c < x ∧ y < 1 / 2)) (hx : x < c ∧ 1 / 2 < y)
      (hu : x ≠ 1 / 2) (hD : 0 < -(x - 1 / 2) + 2 * c * (y - 1 / 2)),
      fp.adjustHexagon (Ext.fin c) (Ext.fin x) (Ext.fin y)
        = (Ext.fin (1 / 2 + 1 * (x - 1 / 2) / (2 * (-(x - 1 / 2) + 2 * c * (y - 1 / 2)))),
            Ext.fin (1 / 2 + 1 * (y - 1 / 2) / (2 * (-(x - 1 / 2) + 2 * c * (y - 1 / 2))))) := by
    intro c x y hc hx1 hx2 hx hu hD
    obtain ⟨k1, k2, k3⟩ := fp_hexagon_sw c (x - 1 / 2) (y - 1 / 2) hc
      (sub_ne_zero.mpr hu) hD.ne'
    unfold fp.adjustHexagon
    simp only [Ext.lit_eq, Rat.cast_div, Rat.cast_one, Rat.cast_ofNat, Rat.cast_zero,
      Ext.fin_bne, Ext.fin_lt, Ext.fin_sub, gt_iff_lt, ne_eq]
    rw [if_pos ⟨hc, hu⟩, if_neg hx1, if_neg hx2, if_pos hx]
    simp only [Ext.fin_div _ _ (sub_ne_zero.mpr hu), Ext.fin_mul, Ext.fin_add, Ext.fin_neg,
      Ext.fin_sub, Ext.fin_div _ _ k1, Ext.fin_div _ _ (mul_ne_zero two_ne_zero hc)]
    rw [k3, k2]
  -- The branch `x > 1 - c && y > 0.5` of `adjustHexagon` in closed form.
  have fp_adjustHexagon_se : ∀ (c x y : ℝ)
      (hc : c ≠ 0) (hx1 : ¬(x < c ∧ y < 1 / 2))
      (hx2 : ¬(1 - c < x ∧ y < 1 / 2)) (hx3 : ¬(x < c ∧ 1 / 2 < y))
      (hx : 1 - c < x ∧ 1 / 2 < y)
      (hu : x ≠ 1 / 2) (hD : 0 < (x - 1 / 2) + 2 * c * (y - 1 / 2)),
      fp.adjustHexagon (Ext.fin c) (Ext.fin x) (Ext.fin y)
        = (Ext.fin (1 / 2 + 1 * (x - 1 / 2) / (2 * ((x - 1 / 2) + 2 * c * (y - 1 / 2)))),
            Ext.fin (1 / 2 + 1 * (y - 1 / 2) / (2 * ((x - 1 / 2) + 2 * c * (y - 1 / 2))))) := by
    intro c x y hc hx1 hx2 hx3 hx hu hD
    obtain ⟨k1, k2, k3⟩ := fp_hexagon_se c (x - 1 / 2) (y - 1 / 2) hc
      (sub_ne_zero.mpr hu) hD.ne'
    unfold fp.adjustHexagon
    simp only [Ext.lit_eq, Rat.cast_div, Rat.cast_one, Rat.cast_ofNat, Rat.cast_zero,
      Ext.fin_bne, Ext.fin_lt, Ext.fin_sub, gt_iff_lt, ne_eq]
    rw [if_pos ⟨hc, hu⟩, if_neg hx1, if_neg hx2, if_neg hx3, if_pos hx]
    simp only [Ext.fin_div _ _ (sub_ne_zero.mpr hu), Ext.fin_mul, Ext.fin_add, Ext.fin_neg,
      Ext.fin_sub, Ext.fin_div _ _ k1, Ext.fin_div _ _ (mul_ne_zero two_ne_zero hc)]
    rw [k3, k2]
  -- Between its branches `adjustHexagon` returns the input.
  have fp_adjustHexagon_between : ∀ (c x y : ℝ)
      (hm : (c ≤ x ∧ x ≤ 1 - c) ∨ y = 1 / 2),
      fp.adjustHexagon (Ext.fin c) (Ext.fin x) (Ext.fin y) = (Ext.fin x, Ext.fin y) := by
    intro c x y hm
    have n1 : ¬(x < c ∧ y < 1 / 2) := by
      rintro ⟨a, b⟩
      rcases hm with ⟨h1, _⟩ | h <;> linarith
    have n2 : ¬(1 - c < x ∧ y < 1 / 2) := by
      rintro ⟨a, b⟩
      rcases hm with ⟨_, h1⟩ | h <;> linarith
    have n3 : ¬(x < c ∧ 1 / 2 < y) := by
      rintro ⟨a, b⟩
      rcases hm with ⟨h1, _⟩ | h <;> linarith
    have n4 : ¬(1 - c < x ∧ 1 / 2 < y) := by
      rintro ⟨a, b⟩
      rcases hm with ⟨_, h1⟩ | h <;> linarith
    unfold fp.adjustHexagon
    simp only [Ext.lit_eq, Rat.cast_div, Rat.cast_one, Rat.cast_ofNat, Rat.cast_zero,
      Ext.fin_lt, Ext.fin_sub, gt_iff_lt, n1, n2, n3, n4, if_false, ite_self]
  have fp_mem_sides_hexagon : ∀ (c : ℝ) (s : (ℝ × ℝ) × (ℝ × ℝ))
      (h : s = ((c, 0), (1 - c, 0)) ∨ s = ((1 - c, 0), (1, 1 / 2))
      ∨ s = ((1, 1 / 2), (1 - c, 1)) ∨ s = ((1 - c, 1), (c, 1))
      ∨ s = ((c, 1), (0, 1 / 2)) ∨ s = ((0, 1 / 2), (c, 0))),
      s ∈ fp.polygonSides [(c, 0), (1 - c, 0), (1, 1 / 2), (1 - c, 1), (c, 1), (0, 1 / 2)] := by
    intro c s h
    simpa [fp.polygonSides, fp.sidesFrom] using h
  have fp_hexagon_nw_on : ∀ (c x y : ℝ)
      (hc0 : 0 < c) (hc1 : c ≤ 1 / 2) (hb : fp.onUnitBox x y) (hx : x < c ∧ y < 1 / 2),
      ∃ out : ℝ × ℝ, fp.adjustHexagon (Ext.fin c) (Ext.fin x) (Ext.fin y)
          = (Ext.fin out.1, Ext.fin out.2) ∧ fp.onSegment (0, 1 / 2) (c, 0) out := by
    intro c x y hc0 hc1 hb hx
    obtain ⟨⟨x0, x1, y0, y1⟩, hside⟩ := hb
    obtain ⟨hx1, hx2⟩ := hx
    have hs : x = 0 ∨ y = 0 := by
      rcases hside with h | h | h | h
      · exact Or.inl h
      · exfalso; linarith only [hx1, hc1, h]
      · exact Or.inr h
      · exfalso; linarith only [hx2, h]
    have hu : x ≠ 1 / 2 := by intro h; linarith only [hx1, hc1, h]
    have S1 : 0 ≤ ((0 : ℝ) - 1 / 2) * (y - 1 / 2) - (1 / 2 - 1 / 2) * (x - 1 / 2) := by
      linarith only [hx2]
    have S2 : 0 ≤ (x - 1 / 2) * (0 - 1 / 2) - (y - 1 / 2) * (c - 1 / 2) := by
      rcases hs with h | h
      · subst h
        linarith only [mul_nonneg y0 (show (0 : ℝ) ≤ 1 - 2 * c by linarith only [hc1]), hc0]
      · subst h
        linarith only [hx1]
    have hD : 0 < -((x - 1 / 2) + 2 * c * (y - 1 / 2)) := by
      rcases hs with h | h
      · subst h
        linarith only [mul_pos hc0 (show (0 : ℝ) < 1 / 2 - y by linarith only [hx2])]
      · subst h
        linarith only [hx1, hc0, hc1]
    exact ⟨(_, _), fp_adjustHexagon_nw c x y hc0.ne' ⟨hx1, hx2⟩ hu hD,
      fp_onSegment_of_ray _ _ _ _ _ (x - 1 / 2) (y - 1 / 2) _ 1 hD.ne' rfl rfl S1 S2
        (by linarith only [hD]) (by ring)⟩
  have fp_hexagon_ne_on : ∀ (c x y : ℝ)
      (hc0 : 0 < c) (hc1 : c ≤ 1 / 2) (hb : fp.onUnitBox x y) (hx : 1 - c < x ∧ y < 1 / 2),
      ∃ out : ℝ × ℝ, fp.adjustHexagon (Ext.fin c) (Ext.fin x) (Ext.fin y)
          = (Ext.fin out.1, Ext.fin out.2) ∧ fp.onSegment (1 - c, 0) (1, 1 / 2) out := by
    intro c x y hc0 hc1 hb hx
    obtain ⟨⟨x0, x1, y0, y1⟩, hside⟩ := hb
    obtain ⟨hx1, hx2⟩ := hx
    have hs : x = 1 ∨ y = 0 := by
      rcases hside with h | h | h | h
      · exfalso; linarith only [hx1, hc1, h]
      · exact Or.inl h
      · exact Or.inr h
      · exfalso; linarith only [hx2, h]
    have hu : x ≠ 1 / 2 := by intro h; linarith only [hx1, hc1, h]
    have S1 : 0 ≤ (1 - c - 1 / 2) * (y - 1 / 2) - ((0 : ℝ) - 1 / 2) * (x - 1 / 2) := by
      rcases hs with h | h
      · subst h
        linarith only [mul_nonneg y0 (show (0 : ℝ) ≤ 1 - 2 * c by linarith only [hc1]), hc0]
      · subst h
        linarith only [hx1]
    have S2 : 0 ≤ (x - 1 / 2) * (1 / 2 - 1 / 2) - (y - 1 / 2) * ((1 : ℝ) - 1 / 2) := by
      linarith only [hx2]
    have hD : 0 < (x - 1 / 2) - 2 * c * (y - 1 / 2) := by
      rcases hs with h | h
      · subst h
        linarith only [mul_pos hc0 (show (0 : ℝ) < 1 / 2 - y by linarith only [hx2])]
      · subst h
        linarith only [hx1, hc0, hc1]
    exact ⟨(_, _), fp_adjustHexagon_ne c x y hc0.ne' (by rintro ⟨h, _⟩; linarith only [hx1, hc1, h])
        ⟨hx1, hx2⟩ hu hD,
      fp_onSegment_of_ray _ _ _ _ _ (x - 1 / 2) (y - 1 / 2) _ 1 hD.ne' rfl rfl S1 S2
        (by linarith only [hD]) (by ring)⟩
  have fp_hexagon_sw_on : ∀ (c x y : ℝ)
      (hc0 : 0 < c) (hc1 : c ≤ 1 / 2) (hb : fp.onUnitBox x y) (hx : x < c ∧ 1 / 2 < y),
      ∃ out : ℝ × ℝ, fp.adjustHexagon (Ext.fin c) (Ext.fin x) (Ext.fin y)
          = (Ext.fin out.1, Ext.fin out.2) ∧ fp.onSegment (c, 1) (0, 1 / 2) out := by
    intro c x y hc0 hc1 hb hx
    obtain ⟨⟨x0, x1, y0, y1⟩, hside⟩ := hb
    obtain ⟨hx1, hx2⟩ := hx
    have hs : x = 0 ∨ y = 1 := by
      rcases hside with h | h | h | h
      · exact Or.inl h
      · exfalso; linarith only [hx1, hc1, h]
      · exfalso; linarith only [hx2, h]
      · exact Or.inr h
    have hu : x ≠ 1 / 2 := by intro h; linarith only [hx1, hc1, h]
    have S1 : 0 ≤ (c - 1 / 2) * (y - 1 / 2) - ((1 : ℝ) - 1 / 2) * (x - 1 / 2) := by
      rcases hs with h | h
      · subst h
        linarith only [mul_nonneg (show (0 : ℝ) ≤ 1 - y by linarith only [y1])
          (show (0 : ℝ) ≤ 1 - 2 * c by linarith only [hc1]), hc0]
      · subst h
        linarith only [hx1]
    have S2 : 0 ≤ (x - 1 / 2) * (1 / 2 - 1 / 2) - (y - 1 / 2) * ((0 : ℝ) - 1 / 2) := by
      linarith only [hx2]
    have hD : 0 < -(x - 1 / 2) + 2 * c * (y - 1 / 2) := by
      rcases hs with h | h
      · subst h
        linarith only [mul_pos hc0 (show (0 : ℝ) < y - 1 / 2 by linarith only [hx2])]
      · subst h
        linarith only [hx1, hc0, hc1]
    exact ⟨(_, _), fp_adjustHexagon_sw c x y hc0.ne' (by rintro ⟨_, h⟩; linarith only [hx2, h])
        (by rintro ⟨_, h⟩; linarith only [hx2, h]) ⟨hx1, hx2⟩ hu hD,
      fp_onSegment_of_ray _ _ _ _ _ (x - 1 / 2) (y - 1 / 2) _ 1 hD.ne' rfl rfl S1 S2
        (by linarith only [hD]) (by ring)⟩
  have fp_hexagon_se_on : ∀ (c x y : ℝ)
      (hc0 : 0 < c) (hc1 : c ≤ 1 / 2) (hb : fp.onUnitBox x y) (hx : 1 - c < x ∧ 1 / 2 < y),
      ∃ out : ℝ × ℝ, fp.adjustHexagon (Ext.fin c) (Ext.fin x) (Ext.fin y)
          = (Ext.fin out.1, Ext.fin out.2) ∧ fp.onSegment (1, 1 / 2) (1 - c, 1) out := by
    intro c x y hc0 hc1 hb hx
    obtain ⟨⟨x0, x1, y0, y1⟩, hside⟩ := hb
    obtain ⟨hx1, hx2⟩ := hx
    have hs : x = 1 ∨ y = 1 := by
      rcases hside with h | h | h | h
      · exfalso; linarith only [hx1, hc1, h]
      · exact Or.inl h
      · exfalso; linarith only [hx2, h]
      · exact Or.inr h
    have hu : x ≠ 1 / 2 := by intro h; linarith only [hx1, hc1, h]
    have S1 : 0 ≤ ((1 : ℝ) - 1 / 2) * (y - 1 / 2) - (1 / 2 - 1 / 2) * (x - 1 / 2) := by
      linarith only [hx2]
    have S2 : 0 ≤ (x - 1 / 2) * (1 - 1 / 2) - (y - 1 / 2) * (1 - c - 1 / 2) := by
      rcases hs with h | h
      · subst h
        linarith only [mul_nonneg (show (0 : ℝ) ≤ 1 - y by linarith only [y1])
          (show (0 : ℝ) ≤ 1 - 2 * c by linarith only [hc1]), hc0]
      · subst h
        linarith only [hx1]
    have hD : 0 < (x - 1 / 2) + 2 * c * (y - 1 / 2) := by
      rcases hs with h | h
      · subst h
        linarith only [mul_pos hc0 (show (0 : ℝ) < y - 1 / 2 by linarith only [hx2])]
      · subst h
        linarith only [hx1, hc0, hc1]
    exact ⟨(_, _), fp_adjustHexagon_se c x y hc0.ne' (by rintro ⟨_, h⟩; linarith only [hx2, h])
        (by rintro ⟨_, h⟩; linarith only [hx2, h]) (by rintro ⟨h, _⟩; linarith only [hx1, hc1, h])
        ⟨hx1, hx2⟩ hu hD,
      fp_onSegment_of_ray _ _ _ _ _ (x - 1 / 2) (y - 1 / 2) _ 1 hD.ne' rfl rfl S1 S2
        (by linarith only [hD]) (by ring)⟩
  by_cases hm : (c ≤ x ∧ x ≤ 1 - c) ∨ y = 1 / 2
  · obtain ⟨⟨x0, x1, y0, y1⟩, hside⟩ := hb
    refine ⟨(x, y), fp_adjustHexagon_between c x y hm, ?_⟩
    rcases hm with ⟨h1, h2⟩ | h
    · have hy : y = 0 ∨ y = 1 := by
        rcases hside with h | h | h | h
        · exfalso; linarith
        · exfalso; linarith
        · exact Or.inl h
        · exact Or.inr h
      rcases hy with hy | hy
      · subst hy
        refine ⟨_, fp_mem_sides_hexagon c _ (Or.inl rfl), ?_⟩
        unfold fp.onSegment
        simp only [min_eq_left (show c ≤ 1 - c by linarith),
          max_eq_right (show c ≤ 1 - c by linarith), min_self, max_self]
        exact ⟨by ring, h1, h2, le_refl _, le_refl _⟩
      · subst hy
        refine ⟨_, fp_mem_sides_hexagon c _ (Or.inr (Or.inr (Or.inr (Or.inl rfl)))), ?_⟩
        unfold fp.onSegment
        simp only [min_eq_right (show c ≤ 1 - c by linarith),
          max_eq_left (show c ≤ 1 - c by linarith), min_self, max_self]
        exact ⟨by ring, h1, h2, le_refl _, le_refl _⟩
    · subst h
      have hx : x = 0 ∨ x = 1 := by
        rcases hside with h | h | h | h
        · exact Or.inl h
        · exact Or.inr h
        · norm_num at h
        · norm_num at h
      rcases hx with hx | hx
      · subst hx
        refine ⟨_, fp_mem_sides_hexagon c _ (Or.inr (Or.inr (Or.inr (Or.inr (Or.inr rfl))))), ?_⟩
        unfold fp.onSegment
        simp only [min_eq_left hc0.le, max_eq_right hc0.le]
        norm_num
        exact hc0.le
      · subst hx
        refine ⟨_, fp_mem_sides_hexagon c _ (Or.inr (Or.inr (Or.inl rfl))), ?_⟩
        unfold fp.onSegment
        simp only [min_eq_right (show (1 - c : ℝ) ≤ 1 by linarith),
          max_eq_left (show (1 - c : ℝ) ≤ 1 by linarith)]
        norm_num
        linarith
  · have hy : y ≠ 1 / 2 := fun h => hm (Or.inr h)
    have hxs : x < c ∨ 1 - c < x := by
      by_contra hn
      exact hm (Or.inl ⟨le_of_not_lt (fun h => hn (Or.inl h)),
        le_of_not_lt (fun h => hn (Or.inr h))⟩)
    rcases hxs with hxs | hxs <;> rcases lt_or_gt_of_ne hy with hys | hys
    · obtain ⟨out, e, s⟩ := fp_hexagon_nw_on c x y hc0 hc1 hb ⟨hxs, hys⟩
      exact ⟨out, e,
        ⟨_, fp_mem_sides_hexagon c _ (Or.inr (Or.inr (Or.inr (Or.inr (Or.inr rfl))))), s⟩⟩
    · obtain ⟨out, e, s⟩ := fp_hexagon_sw_on c x y hc0 hc1 hb ⟨hxs, hys⟩
      exact ⟨out, e,
        ⟨_, fp_mem_sides_hexagon c _ (Or.inr (Or.inr (Or.inr (Or.inr (Or.inl rfl))))), s⟩⟩
    · obtain ⟨out, e, s⟩ := fp_hexagon_ne_on c x y hc0 hc1 hb ⟨hxs, hys⟩
      exact ⟨out, e, ⟨_, fp_mem_sides_hexagon c _ (Or.inr (Or.inl rfl)), s⟩⟩
    · obtain ⟨out, e, s⟩ := fp_hexagon_se_on c x y hc0 hc1 hb ⟨hxs, hys⟩
      exact ⟨out, e, ⟨_, fp_mem_sides_hexagon c _ (Or.inr (Or.inr (Or.inl rfl))), s⟩⟩

/-! ### The triangle -/

set_option maxHeartbeats 4000000 in
/-- The projection of `adjustTriangle`. -/
theorem fp_adjustTriangle_projects (x y : ℝ)
    (hb : fp.onUnitBox x y) :
    ∃ out : ℝ × ℝ, fp.adjustTriangle (Ext.fin x) (Ext.fin y) = (Ext.fin out.1, Ext.fin out.2) ∧
      fp.onPolygon [((0 : ℝ), (0 : ℝ)), (1, 1 / 2), (0, 1)] out := by
  have fp_triangle_upper : ∀ (u v : ℝ) (hv : v ≠ 0)
      (hD : u - 2 * v ≠ 0),
      2 - u / v ≠ 0 ∧
        2 * ((1 / 2 - u / v / 2) / (2 - u / v)) = 1 / 2 + 1 * u / (2 * (u - 2 * v)) ∧
        (1 / 2 - u / v / 2) / (2 - u / v) = 1 / 2 + 1 * v / (2 * (u - 2 * v)) := by
    intro u v hv hD
    have e : 2 - u / v = -(u - 2 * v) / v := by
      field_simp
    have h4 : 2 - u / v ≠ 0 := by
      rw [e]
      exact div_ne_zero (neg_ne_zero.mpr hD) hv
    refine ⟨h4, ?_, ?_⟩
    · rw [← mul_div_assoc, div_eq_iff h4]
      field_simp
      ring
    · rw [div_eq_iff h4]
      field_simp
      ring
  have fp_triangle_lower : ∀ (u v : ℝ) (hv : v ≠ 0)
      (hD : u + 2 * v ≠ 0),
      2 + u / v ≠ 0 ∧
        2 - 2 * ((3 / 2 + u / v / 2) / (2 + u / v)) = 1 / 2 + 1 * u / (2 * (u + 2 * v)) ∧
        (3 / 2 + u / v / 2) / (2 + u / v) = 1 / 2 + 1 * v / (2 * (u + 2 * v)) := by
    intro u v hv hD
    have e : 2 + u / v = (u + 2 * v) / v := by
      field_simp
      ring
    have h4 : 2 + u / v ≠ 0 := by
      rw [e]
      exact div_ne_zero hD hv
    have k3 : (3 / 2 + u / v / 2) / (2 + u / v) = 1 / 2 + 1 * v / (2 * (u + 2 * v)) := by
      rw [div_eq_iff h4]
      field_simp
      ring
    refine ⟨h4, ?_, k3⟩
    rw [k3]
    field_simp
    ring
  -- The upper branch of `adjustTriangle` in closed form.
  have fp_adjustTriangle_upper : ∀ (x y : ℝ)
      (hy : y < 1 / 2) (hx : 0 < x) (hD : 0 < (x - 1 / 2) - 2 * (y - 1 / 2)),
      fp.adjustTriangle (Ext.fin x) (Ext.fin y)
        = (Ext.fin (1 / 2 + 1 * (x - 1 / 2) / (2 * ((x - 1 / 2) - 2 * (y - 1 / 2)))),
            Ext.fin (1 / 2 + 1 * (y - 1 / 2) / (2 * ((x - 1 / 2) - 2 * (y - 1 / 2))))) := by
    intro x y hy hx hD
    have hv : y - 1 / 2 ≠ 0 := (sub_neg.mpr hy).ne
    obtain ⟨k1, k2, k3⟩ := fp_triangle_upper (x - 1 / 2) (y - 1 / 2) hv hD.ne'
    unfold fp.adjustTriangle
    simp only [Ext.lit_eq, Rat.cast_div, Rat.cast_one, Rat.cast_ofNat, Rat.cast_zero,
      Ext.fin_lt, Ext.fin_sub, gt_iff_lt]
    rw [if_pos ⟨hy, hx⟩]
    simp only [Ext.fin_div _ _ hv, Ext.fin_mul, Ext.fin_add, Ext.fin_sub, Ext.fin_div _ _ k1,
      Ext.fin_div, ne_eq, OfNat.ofNat_ne_zero, not_false_eq_true]
    rw [k2, k3]
  -- The lower branch of `adjustTriangle` in closed form.
  have fp_adjustTriangle_lower : ∀ (x y : ℝ)
      (hy : 1 / 2 < y) (hx : 0 < x) (hD : 0 < (x - 1 / 2) + 2 * (y - 1 / 2)),
      fp.adjustTriangle (Ext.fin x) (Ext.fin y)
        = (Ext.fin (1 / 2 + 1 * (x - 1 / 2) / (2 * ((x - 1 / 2) + 2 * (y - 1 / 2)))),
            Ext.fin (1 / 2 + 1 * (y - 1 / 2) / (2 * ((x - 1 / 2) + 2 * (y - 1 / 2))))) := by
    intro x y hy hx hD
    have hv : y - 1 / 2 ≠ 0 := (sub_pos.mpr hy).ne'
    obtain ⟨k1, k2, k3⟩ := fp_triangle_lower (x - 1 / 2) (y - 1 / 2) hv hD.ne'
    unfold fp.adjustTriangle
    simp only [Ext.lit_eq, Rat.cast_div, Rat.cast_one, Rat.cast_ofNat, Rat.cast_zero,
      Ext.fin_lt, Ext.fin_sub, gt_iff_lt]
    rw [if_neg (fun h => absurd (lt_trans hy h.1) (lt_irrefl _)), if_pos ⟨hy, hx⟩]
    simp only [Ext.fin_div _ _ hv, Ext.fin_mul, Ext.fin_add, Ext.fin_sub, Ext.fin_div _ _ k1,
      Ext.fin_div, ne_eq, OfNat.ofNat_ne_zero, not_false_eq_true]
    rw [k2, k3]
  have fp_adjustTriangle_left : ∀ (x y : ℝ)
      (h : x ≤ 0 ∨ y = 1 / 2),
      fp.adjustTriangle (Ext.fin x) (Ext.fin y) = (Ext.fin x, Ext.fin y) := by
    intro x y h
    have n1 : ¬(y < 1 / 2 ∧ 0 < x) := by
      rintro ⟨a, b⟩
      rcases h with k | k
      · exact absurd b (not_lt.mpr k)
      · exact absurd a (k ▸ lt_irrefl _)
    have n2 : ¬(1 / 2 < y ∧ 0 < x) := by
      rintro ⟨a, b⟩
      rcases h with k | k
      · exact absurd b (not_lt.mpr k)
      · exact absurd a (k ▸ lt_irrefl _)
    unfold fp.adjustTriangle
    simp only [Ext.lit_eq, Rat.cast_div, Rat.cast_one, Rat.cast_ofNat, Rat.cast_zero,
      Ext.fin_lt, gt_iff_lt, n1, n2, if_false]
  have fp_mem_sides_triangle : ∀ (s : (ℝ × ℝ) × (ℝ × ℝ))
      (h : s = ((0, 0), (1, 1 / 2)) ∨ s = ((1, 1 / 2), (0, 1)) ∨ s = ((0, 1), (0, 0))),
      s ∈ fp.polygonSides [((0 : ℝ), (0 : ℝ)), (1, 1 / 2), (0, 1)] := by
    intro s h
    simpa [fp.polygonSides, fp.sidesFrom] using h
  obtain ⟨⟨x0, x1, y0, y1⟩, hside⟩ := hb
  by_cases hx : x = 0
  · refine ⟨(x, y), fp_adjustTriangle_left x y (Or.inl hx.le),
      ⟨((0, 1), (0, 0)), fp_mem_sides_triangle _ (Or.inr (Or.inr rfl)), ?_⟩⟩
    unfold fp.onSegment
    subst hx
    simp only [min_self, max_self, sub_self, zero_mul, mul_zero, sub_zero,
      min_eq_right (zero_le_one : (0 : ℝ) ≤ 1), max_eq_left (zero_le_one : (0 : ℝ) ≤ 1)]
    exact ⟨trivial, le_refl _, le_refl _, y0, y1⟩
  · have hx0 : 0 < x := lt_of_le_of_ne x0 (Ne.symm hx)
    rcases lt_trichotomy y (1 / 2) with hy | hy | hy
    · have hs : x = 1 ∨ y = 0 := by
        rcases hside with h | h | h | h
        · exact absurd h hx
        · exact Or.inl h
        · exact Or.inr h
        · exfalso; linarith only [hy, h]
      have S1 : 0 ≤ ((0 : ℝ) - 1 / 2) * (y - 1 / 2) - (0 - 1 / 2) * (x - 1 / 2) := by
        rcases hs with h | h <;> subst h <;> linarith only [x0, y1]
      have S2 : 0 ≤ (x - 1 / 2) * (1 / 2 - 1 / 2) - (y - 1 / 2) * ((1 : ℝ) - 1 / 2) := by
        linarith only [hy]
      have hD : 0 < (x - 1 / 2) - 2 * (y - 1 / 2) := by
        rcases hs with h | h <;> subst h <;> linarith only [hx0, hy]
      exact ⟨(_, _), fp_adjustTriangle_upper x y hy hx0 hD,
        ⟨((0, 0), (1, 1 / 2)), fp_mem_sides_triangle _ (Or.inl rfl),
          fp_onSegment_of_ray _ _ _ _ _ (x - 1 / 2) (y - 1 / 2) _ 1 hD.ne' rfl rfl S1 S2
            (by linarith only [hD]) (by ring)⟩⟩
    · have hx1 : x = 1 := by
        rcases hside with h | h | h | h
        · exact absurd h hx
        · exact h
        · exfalso; linarith only [hy, h]
        · exfalso; linarith only [hy, h]
      refine ⟨(x, y), fp_adjustTriangle_left x y (Or.inr hy),
        ⟨((0, 0), (1, 1 / 2)), fp_mem_sides_triangle _ (Or.inl rfl), ?_⟩⟩
      unfold fp.onSegment
      subst hx1
      subst hy
      norm_num
    · have hs : x = 1 ∨ y = 1 := by
        rcases hside with h | h | h | h
        · exact absurd h hx
        · exact Or.inl h
        · exfalso; linarith only [hy, h]
        · exact Or.inr h
      have S1 : 0 ≤ ((1 : ℝ) - 1 / 2) * (y - 1 / 2) - (1 / 2 - 1 / 2) * (x - 1 / 2) := by
        linarith only [hy]
      have S2 : 0 ≤ (x - 1 / 2) * (1 - 1 / 2) - (y - 1 / 2) * ((0 : ℝ) - 1 / 2) := by
        rcases hs with h | h <;> subst h <;> linarith only [x0, y0]
      have hD : 0 < (x - 1 / 2) + 2 * (y - 1 / 2) := by
        rcases hs with h | h <;> subst h <;> linarith only [hx0, hy]
      exact ⟨(_, _), fp_adjustTriangle_lower x y hy hx0 hD,
        ⟨((1, 1 / 2), (0, 1)), fp_mem_sides_triangle _ (Or.inr (Or.inl rfl)),
          fp_onSegment_of_ray _ _ _ _ _ (x - 1 / 2) (y - 1 / 2) _ 1 hD.ne' rfl rfl S1 S2
            (by linarith only [hD]) (by ring)⟩⟩

/-! ### The rhombus -/

set_option maxHeartbeats 4000000 in
/-- The projection of `adjustRhombus`. -/
theorem fp_adjustRhombus_projects (x y : ℝ)
    (hb : fp.onUnitBox x y) :
    ∃ out : ℝ × ℝ, fp.adjustRhombus (Ext.fin x) (Ext.fin y) = (Ext.fin out.1, Ext.fin out.2) ∧
      fp.onPolygon [((1 / 2 : ℝ), (0 : ℝ)), (1, 1 / 2), (1 / 2, 1), (0, 1 / 2)] out := by
  have fp_rhombus_q1 : ∀ (u v : ℝ) (hu : u < 0) (hv : v < 0),
      2 + 2 * (v / u) ≠ 0 ∧
        (v / u) / (2 + 2 * (v / u)) = 1 / 2 + 1 * u / (2 * (-u + -v)) ∧
        -((v / u) / (2 + 2 * (v / u))) + 1 / 2 = 1 / 2 + 1 * v / (2 * (-u + -v)) := by
    intro u v hu hv
    have h1 : u ≠ 0 := hu.ne
    have h7 : u + v ≠ 0 := (add_neg hu hv).ne
    have h4 : 2 + 2 * (v / u) ≠ 0 := by
      have : 0 < v / u := div_pos_of_neg_of_neg hv hu
      exact (add_pos two_pos (mul_pos two_pos this)).ne'
    have e : 2 + 2 * (v / u) = 2 * (u + v) / u := by
      field_simp
      ring
    have e2 : 2 * (-u + -v) = -(2 * (u + v)) := by ring
    refine ⟨h4, ?_, ?_⟩ <;> rw [e, e2] <;> field_simp <;> ring
  have fp_rhombus_q2 : ∀ (u v : ℝ) (hu : u < 0) (hv : 0 < v),
      2 * (v / u) - 2 ≠ 0 ∧
        (v / u) / (2 * (v / u) - 2) = 1 / 2 + 1 * u / (2 * (-u + v)) ∧
        (v / u) / (2 * (v / u) - 2) + 1 / 2 = 1 / 2 + 1 * v / (2 * (-u + v)) := by
    intro u v hu hv
    have h1 : u ≠ 0 := hu.ne
    have h7 : v - u ≠ 0 := (sub_pos.mpr (lt_trans hu hv)).ne'
    have h4 : 2 * (v / u) - 2 ≠ 0 := by
      have : v / u < 0 := div_neg_of_pos_of_neg hv hu
      exact (sub_neg.mpr (lt_trans (mul_neg_of_pos_of_neg two_pos this) two_pos)).ne
    have e : 2 * (v / u) - 2 = 2 * (v - u) / u := by
      field_simp
      ring
    have e2 : 2 * (-u + v) = 2 * (v - u) := by ring
    refine ⟨h4, ?_, ?_⟩ <;> rw [e, e2] <;> field_simp <;> ring
  have fp_rhombus_q3 : ∀ (u v : ℝ) (hu : 0 < u) (hv : v < 0),
      2 * (v / u) - 2 ≠ 0 ∧
        (v / u - 2) / (2 * (v / u) - 2) = 1 / 2 + 1 * u / (2 * (u + -v)) ∧
        (v / u - 2) / (2 * (v / u) - 2) - 1 / 2 = 1 / 2 + 1 * v / (2 * (u + -v)) := by
    intro u v hu hv
    have h1 : u ≠ 0 := hu.ne'
    have h7 : v - u ≠ 0 := (sub_neg.mpr (lt_trans hv hu)).ne
    have h4 : 2 * (v / u) - 2 ≠ 0 := by
      have : v / u < 0 := div_neg_of_neg_of_pos hv hu
      exact (sub_neg.mpr (lt_trans (mul_neg_of_pos_of_neg two_pos this) two_pos)).ne
    have e : 2 * (v / u) - 2 = 2 * (v - u) / u := by
      field_simp
      ring
    have e2 : 2 * (u + -v) = -(2 * (v - u)) := by ring
    refine ⟨h4, ?_, ?_⟩ <;> rw [e, e2] <;> field_simp <;> ring
  have fp_rhombus_q4 : ∀ (u v : ℝ) (hu : 0 < u) (hv : 0 < v),
      2 * (v / u) + 2 ≠ 0 ∧
        (v / u + 2) / (2 * (v / u) + 2) = 1 / 2 + 1 * u / (2 * (u + v)) ∧
        -((v / u + 2) / (2 * (v / u) + 2)) + 3 / 2 = 1 / 2 + 1 * v / (2 * (u + v)) := by
    intro u v hu hv
    have h1 : u ≠ 0 := hu.ne'
    have h7 : u + v ≠ 0 := (add_pos hu hv).ne'
    have h4 : 2 * (v / u) + 2 ≠ 0 := by
      have : 0 < v / u := div_pos hv hu
      exact (add_pos (mul_pos two_pos this) two_pos).ne'
    have e : 2 * (v / u) + 2 = 2 * (u + v) / u := by
      field_simp
      ring
    refine ⟨h4, ?_, ?_⟩ <;> rw [e] <;> field_simp <;> ring
  have fp_mem_sides_rhombus : ∀ (s : (ℝ × ℝ) × (ℝ × ℝ))
      (h : s = ((1 / 2, 0), (1, 1 / 2)) ∨ s = ((1, 1 / 2), (1 / 2, 1))
      ∨ s = ((1 / 2, 1), (0, 1 / 2)) ∨ s = ((0, 1 / 2), (1 / 2, 0))),
      s ∈ fp.polygonSides [((1 / 2 : ℝ), (0 : ℝ)), (1, 1 / 2), (1 / 2, 1), (0, 1 / 2)] := by
    intro s h
    simpa [fp.polygonSides, fp.sidesFrom] using h
  have fp_adjustRhombus_axis : ∀ (x y : ℝ)
      (h : x = 1 / 2 ∨ y = 1 / 2),
      fp.adjustRhombus (Ext.fin x) (Ext.fin y) = (Ext.fin x, Ext.fin y) := by
    intro x y h
    have n1 : ¬(x < 1 / 2 ∧ y < 1 / 2) := by
      rintro ⟨a, b⟩
      rcases h with k | k
      · exact absurd a (k ▸ lt_irrefl _)
      · exact absurd b (k ▸ lt_irrefl _)
    have n2 : ¬(x < 1 / 2 ∧ 1 / 2 < y) := by
      rintro ⟨a, b⟩
      rcases h with k | k
      · exact absurd a (k ▸ lt_irrefl _)
      · exact absurd b (k ▸ lt_irrefl _)
    have n3 : ¬(1 / 2 < x ∧ y < 1 / 2) := by
      rintro ⟨a, b⟩
      rcases h with k | k
      · exact absurd a (k ▸ lt_irrefl _)
      · exact absurd b (k ▸ lt_irrefl _)
    have n4 : ¬(1 / 2 < x ∧ 1 / 2 < y) := by
      rintro ⟨a, b⟩
      rcases h with k | k
      · exact absurd a (k ▸ lt_irrefl _)
      · exact absurd b (k ▸ lt_irrefl _)
    unfold fp.adjustRhombus
    simp only [Ext.lit_eq, Rat.cast_div, Rat.cast_one, Rat.cast_ofNat, Ext.fin_lt, gt_iff_lt,
      n1, n2, n3, n4, if_false]
  -- In the four open quadrants around the centre `adjustRhombus` returns a point of the
  -- side of the rhombus in that quadrant.
  have fp_adjustRhombus_quadrant : ∀ (x y : ℝ)
      (hx : x ≠ 1 / 2) (hy : y ≠ 1 / 2),
      ∃ out : ℝ × ℝ, fp.adjustRhombus (Ext.fin x) (Ext.fin y) = (Ext.fin out.1, Ext.fin out.2) ∧
        fp.onPolygon [((1 / 2 : ℝ), (0 : ℝ)), (1, 1 / 2), (1 / 2, 1), (0, 1 / 2)] out := by
    intro x y hx hy
    have hu : x - 1 / 2 ≠ 0 := sub_ne_zero.mpr hx
    rcases lt_or_gt_of_ne hx with hx1 | hx1 <;> rcases lt_or_gt_of_ne hy with hy1 | hy1
    · have u0 : x - 1 / 2 < 0 := sub_neg.mpr hx1
      have v0 : y - 1 / 2 < 0 := sub_neg.mpr hy1
      obtain ⟨k1, k2, k3⟩ := fp_rhombus_q1 (x - 1 / 2) (y - 1 / 2) u0 v0
      refine ⟨(_, _), ?_, ⟨((0, 1 / 2), (1 / 2, 0)),
        fp_mem_sides_rhombus _ (Or.inr (Or.inr (Or.inr rfl))),
        fp_onSegment_of_ray _ _ _ _ _ (x - 1 / 2) (y - 1 / 2) (-(x - 1 / 2) + -(y - 1 / 2)) 1
          (by linarith only [u0, v0] : -(x - 1 / 2) + -(y - 1 / 2) ≠ 0) rfl rfl
          (by linarith only [v0]) (by linarith only [u0]) (by linarith only [u0, v0])
          (by ring)⟩⟩
      unfold fp.adjustRhombus
      simp only [Ext.lit_eq, Rat.cast_div, Rat.cast_one, Rat.cast_ofNat, Ext.fin_lt, Ext.fin_sub,
        gt_iff_lt]
      rw [if_pos ⟨hx1, hy1⟩]
      simp only [Ext.fin_div _ _ hu, Ext.fin_mul, Ext.fin_add, Ext.fin_neg, Ext.fin_div _ _ k1]
      rw [k3, k2]
    · have u0 : x - 1 / 2 < 0 := sub_neg.mpr hx1
      have v0 : 0 < y - 1 / 2 := sub_pos.mpr hy1
      obtain ⟨k1, k2, k3⟩ := fp_rhombus_q2 (x - 1 / 2) (y - 1 / 2) u0 v0
      refine ⟨(_, _), ?_, ⟨((1 / 2, 1), (0, 1 / 2)),
        fp_mem_sides_rhombus _ (Or.inr (Or.inr (Or.inl rfl))),
        fp_onSegment_of_ray _ _ _ _ _ (x - 1 / 2) (y - 1 / 2) (-(x - 1 / 2) + (y - 1 / 2)) 1
          (by linarith only [u0, v0] : -(x - 1 / 2) + (y - 1 / 2) ≠ 0) rfl rfl
          (by linarith only [u0]) (by linarith only [v0]) (by linarith only [u0, v0])
          (by ring)⟩⟩
      unfold fp.adjustRhombus
      simp only [Ext.lit_eq, Rat.cast_div, Rat.cast_one, Rat.cast_ofNat, Ext.fin_lt, Ext.fin_sub,
        gt_iff_lt]
      rw [if_neg (fun h => absurd (lt_trans hy1 h.2) (lt_irrefl _)), if_pos ⟨hx1, hy1⟩]
      simp only [Ext.fin_div _ _ hu, Ext.fin_mul, Ext.fin_add, Ext.fin_sub, Ext.fin_div _ _ k1]
      rw [k3, k2]
    · have u0 : 0 < x - 1 / 2 := sub_pos.mpr hx1
      have v0 : y - 1 / 2 < 0 := sub_neg.mpr hy1
      obtain ⟨k1, k2, k3⟩ := fp_rhombus_q3 (x - 1 / 2) (y - 1 / 2) u0 v0
      refine ⟨(_, _), ?_, ⟨((1 / 2, 0), (1, 1 / 2)),
        fp_mem_sides_rhombus _ (Or.inl rfl),
        fp_onSegment_of_ray _ _ _ _ _ (x - 1 / 2) (y - 1 / 2) ((x - 1 / 2) + -(y - 1 / 2)) 1
          (by linarith only [u0, v0] : (x - 1 / 2) + -(y - 1 / 2) ≠ 0) rfl rfl
          (by linarith only [u0]) (by linarith only [v0]) (by linarith only [u0, v0])
          (by ring)⟩⟩
      unfold fp.adjustRhombus
      simp only [Ext.lit_eq, Rat.cast_div, Rat.cast_one, Rat.cast_ofNat, Ext.fin_lt, Ext.fin_sub,
        gt_iff_lt]
      rw [if_neg (fun h => absurd (lt_trans hx1 h.1) (lt_irrefl _)),
        if_neg (fun h => absurd (lt_trans hx1 h.1) (lt_irrefl _)), if_pos ⟨hx1, hy1⟩]
      simp only [Ext.fin_div _ _ hu, Ext.fin_mul, Ext.fin_add, Ext.fin_sub, Ext.fin_div _ _ k1]
      rw [k3, k2]
    · have u0 : 0 < x - 1 / 2 := sub_pos.mpr hx1
      have v0 : 0 < y - 1 / 2 := sub_pos.mpr hy1
      obtain ⟨k1, k2, k3⟩ := fp_rhombus_q4 (x - 1 / 2) (y - 1 / 2) u0 v0
      refine ⟨(_, _), ?_, ⟨((1, 1 / 2), (1 / 2, 1)),
        fp_mem_sides_rhombus _ (Or.inr (Or.inl rfl)),
        fp_onSegment_of_ray _ _ _ _ _ (x - 1 / 2) (y - 1 / 2) ((x - 1 / 2) + (y - 1 / 2)) 1
          (by linarith only [u0, v0] : (x - 1 / 2) + (y - 1 / 2) ≠ 0) rfl rfl
          (by linarith only [v0]) (by linarith only [u0]) (by linarith only [u0, v0])
          (by ring)⟩⟩
      unfold fp.adjustRhombus
      simp only [Ext.lit_eq, Rat.cast_div, Rat.cast_one, Rat.cast_ofNat, Ext.fin_lt, Ext.fin_sub,
        gt_iff_lt]
      rw [if_neg (fun h => absurd (lt_trans hx1 h.1) (lt_irrefl _)),
        if_neg (fun h => absurd (lt_trans hx1 h.1) (lt_irrefl _)),
        if_neg (fun h => absurd (lt_trans hy1 h.2) (lt_irrefl _)), if_pos ⟨hx1, hy1⟩]
      simp only [Ext.fin_div _ _ hu, Ext.fin_mul, Ext.fin_add, Ext.fin_neg, Ext.fin_div _ _ k1]
      rw [k3, k2]
  obtain ⟨⟨x0, x1, y0, y1⟩, hside⟩ := hb
  by_cases hx : x = 1 / 2
  · refine ⟨(x, y), fp_adjustRhombus_axis x y (Or.inl hx), ?_⟩
    have hy : y = 0 ∨ y = 1 := by
      rcases hside with h | h | h | h
      · exfalso; linarith only [hx, h]
      · exfalso; linarith only [hx, h]
      · exact Or.inl h
      · exact Or.inr h
    rcases hy with hy | hy
    · refine ⟨((1 / 2, 0), (1, 1 / 2)), fp_mem_sides_rhombus _ (Or.inl rfl), ?_⟩
      unfold fp.onSegment
      subst hx
      subst hy
      norm_num
    · refine ⟨((1 / 2, 1), (0, 1 / 2)), fp_mem_sides_rhombus _ (Or.inr (Or.inr (Or.inl rfl))),
        ?_⟩
      unfold fp.onSegment
      subst hx
      subst hy
      norm_num
  · by_cases hy : y = 1 / 2
    · refine ⟨(x, y), fp_adjustRhombus_axis x y (Or.inr hy), ?_⟩
      have hx' : x = 0 ∨ x = 1 := by
        rcases hside with h | h | h | h
        · exact Or.inl h
        · exact Or.inr h
        · exfalso; linarith only [hy, h]
        · exfalso; linarith only [hy, h]
      rcases hx' with hx' | hx'
      · refine ⟨((0, 1 / 2), (1 / 2, 0)), fp_mem_sides_rhombus _ (Or.inr (Or.inr (Or.inr rfl))),
          ?_⟩
        unfold fp.onSegment
        subst hx'
        subst hy
        norm_num
      · refine ⟨((1, 1 / 2), (1 / 2, 1)), fp_mem_sides_rhombus _ (Or.inr (Or.inl rfl)), ?_⟩
        unfold fp.onSegment
        subst hx'
        subst hy
        norm_num
    · exact fp_adjustRhombus_quadrant x y hx hy

/-! ### The trapezoid -/

set_option maxHeartbeats 4000000 in
/-- The projection of `adjustTrapezoid` for a ratio `c` with `0 < c <= 1/2`. -/
theorem fp_adjustTrapezoid_projects
    (c x y : ℝ) (hc0 : 0 < c) (hc1 : c ≤ 1 / 2) (hb : fp.onUnitBox x y) :
    ∃ out : ℝ × ℝ, fp.adjustTrapezoid (Ext.fin c) (Ext.fin x) (Ext.fin y)
        = (Ext.fin out.1, Ext.fin out.2) ∧
      fp.onPolygon [(0, 1), (c, 0), (1 - c, 0), (1, 1)] out := by
  have fp_trapezoid_left : ∀ (c u v : ℝ) (hc : c ≠ 0)
      (hu : u ≠ 0) (hD : u + c * v ≠ 0),
      2 * (v / u) * c + 2 ≠ 0 ∧
        (c + v / u * c) / (2 * (v / u) * c + 2) = 1 / 2 + (1 - c) * u / (2 * -(u + c * v)) ∧
        1 - (c + v / u * c) / (2 * (v / u) * c + 2) / c
          = 1 / 2 + (1 - c) * v / (2 * -(u + c * v)) := by
    intro c u v hc hu hD
    have e : 2 * (v / u) * c + 2 = 2 * (u + c * v) / u := by
      field_simp
      ring
    have h4 : 2 * (v / u) * c + 2 ≠ 0 := by
      rw [e]
      exact div_ne_zero (mul_ne_zero two_ne_zero hD) hu
    have e2 : 2 * -(u + c * v) = -(2 * (u + c * v)) := by ring
    refine ⟨h4, ?_, ?_⟩ <;> rw [e, e2] <;> field_simp <;> ring
  have fp_trapezoid_right : ∀ (c u v : ℝ) (hc : c ≠ 0)
      (hu : u ≠ 0) (hD : u - c * v ≠ 0),
      2 * (v / u) * c - 2 ≠ 0 ∧
        (c + v / u * c - 2) / (2 * (v / u) * c - 2) = 1 / 2 + (1 - c) * u / (2 * (u - c * v)) ∧
        ((c + v / u * c - 2) / (2 * (v / u) * c - 2) + c - 1) / c
          = 1 / 2 + (1 - c) * v / (2 * (u - c * v)) := by
    intro c u v hc hu hD
    have e : 2 * (v / u) * c - 2 = -(2 * (u - c * v)) / u := by
      field_simp
      ring
    have h4 : 2 * (v / u) * c - 2 ≠ 0 := by
      rw [e]
      exact div_ne_zero (neg_ne_zero.mpr (mul_ne_zero two_ne_zero hD)) hu
    refine ⟨h4, ?_, ?_⟩ <;> rw [e] <;> field_simp <;> ring
  -- The left branch of `adjustTrapezoid` in closed form.
  have fp_adjustTrapezoid_left : ∀ (c x y : ℝ) (hc : c ≠ 0) (hx : x < c ∧ y < 1)
      (hu : x ≠ 1 / 2) (hD : 0 < -((x - 1 / 2) + c * (y - 1 / 2))),
      fp.adjustTrapezoid (Ext.fin c) (Ext.fin x) (Ext.fin y)
        = (Ext.fin (1 / 2 + (1 - c) * (x - 1 / 2) / (2 * -((x - 1 / 2) + c * (y - 1 / 2)))),
            Ext.fin (1 / 2 + (1 - c) * (y - 1 / 2) / (2 * -((x - 1 / 2) + c * (y - 1 / 2))))) := by
    intro c x y hc hx hu hD
    obtain ⟨k1, k2, k3⟩ := fp_trapezoid_left c (x - 1 / 2) (y - 1 / 2) hc
      (sub_ne_zero.mpr hu) (by intro h; rw [h] at hD; simp at hD)
    unfold fp.adjustTrapezoid
    simp only [Ext.lit_eq, Rat.cast_div, Rat.cast_one, Rat.cast_ofNat, Rat.cast_zero,
      Ext.fin_bne, Ext.fin_lt, Ext.fin_sub, gt_iff_lt, ne_eq]
    rw [if_pos ⟨hc, hu⟩, if_pos hx]
    simp only [Ext.fin_div _ _ (sub_ne_zero.mpr hu), Ext.fin_mul, Ext.fin_add, Ext.fin_sub,
      Ext.fin_div _ _ k1, Ext.fin_div _ _ hc]
    rw [k3, k2]
  -- The right branch of `adjustTrapezoid` in closed form.
  have fp_adjustTrapezoid_right : ∀ (c x y : ℝ) (hc : c ≠ 0) (hx1 : ¬(x < c ∧ y < 1))
      (hx : 1 - c < x ∧ y < 1) (hu : x ≠ 1 / 2) (hD : 0 < (x - 1 / 2) - c * (y - 1 / 2)),
      fp.adjustTrapezoid (Ext.fin c) (Ext.fin x) (Ext.fin y)
        = (Ext.fin (1 / 2 + (1 - c) * (x - 1 / 2) / (2 * ((x - 1 / 2) - c * (y - 1 / 2)))),
            Ext.fin (1 / 2 + (1 - c) * (y - 1 / 2) / (2 * ((x - 1 / 2) - c * (y - 1 / 2))))) := by
    intro c x y hc hx1 hx hu hD
    obtain ⟨k1, k2, k3⟩ := fp_trapezoid_right c (x - 1 / 2) (y - 1 / 2) hc
      (sub_ne_zero.mpr hu) hD.ne'
    unfold fp.adjustTrapezoid
    simp only [Ext.lit_eq, Rat.cast_div, Rat.cast_one, Rat.cast_ofNat, Rat.cast_zero,
      Ext.fin_bne, Ext.fin_lt, Ext.fin_sub, gt_iff_lt, ne_eq]
    rw [if_pos ⟨hc, hu⟩, if_neg hx1, if_pos hx]
    simp only [Ext.fin_div _ _ (sub_ne_zero.mpr hu), Ext.fin_mul, Ext.fin_add, Ext.fin_sub,
      Ext.fin_div _ _ k1, Ext.fin_div _ _ hc]
    rw [k3, k2]
  -- Outside its two branches `adjustTrapezoid` returns the input.
  have fp_adjustTrapezoid_between : ∀ (c x y : ℝ) (k1 : ¬(x < c ∧ y < 1)) (k2 : ¬(1 - c < x ∧ y < 1)),
      fp.adjustTrapezoid (Ext.fin c) (Ext.fin x) (Ext.fin y) = (Ext.fin x, Ext.fin y) := by
    intro c x y k1 k2
    unfold fp.adjustTrapezoid
    simp only [Ext.lit_eq, Rat.cast_one, Rat.cast_zero, Ext.fin_lt, Ext.fin_sub, gt_iff_lt,
      k1, k2, if_false, ite_self]
  have fp_mem_sides_trapezoid : ∀ (c : ℝ)
      (s : (ℝ × ℝ) × (ℝ × ℝ))
      (h : s = ((0, 1), (c, 0)) ∨ s = ((c, 0), (1 - c, 0)) ∨ s = ((1 - c, 0), (1, 1))
      ∨ s = ((1, 1), (0, 1))),
      s ∈ fp.polygonSides [(0, 1), (c, 0), (1 - c, 0), (1, 1)] := by
    intro c s h
    simpa [fp.polygonSides, fp.sidesFrom] using h
  have fp_trapezoid_left_on : ∀ (c x y : ℝ) (hc0 : 0 < c) (hc1 : c ≤ 1 / 2)
      (hb : fp.onUnitBox x y) (hx : x < c ∧ y < 1),
      ∃ out : ℝ × ℝ, fp.adjustTrapezoid (Ext.fin c) (Ext.fin x) (Ext.fin y)
          = (Ext.fin out.1, Ext.fin out.2) ∧ fp.onSegment (0, 1) (c, 0) out := by
    intro c x y hc0 hc1 hb hx
    obtain ⟨⟨x0, x1, y0, y1⟩, hside⟩ := hb
    obtain ⟨hx1, hx2⟩ := hx
    have hs : x = 0 ∨ y = 0 := by
      rcases hside with h | h | h | h
      · exact Or.inl h
      · exfalso; linarith only [hx1, hc1, h]
      · exact Or.inr h
      · exfalso; linarith only [hx2, h]
    have hu : x ≠ 1 / 2 := by intro h; linarith only [hx1, hc1, h]
    have S1 : 0 ≤ ((0 : ℝ) - 1 / 2) * (y - 1 / 2) - (1 - 1 / 2) * (x - 1 / 2) := by
      rcases hs with h | h <;> subst h <;> linarith only [x1, y1, hx1, hx2, hc1]
    have S2 : 0 ≤ (x - 1 / 2) * (0 - 1 / 2) - (y - 1 / 2) * (c - 1 / 2) := by
      rcases hs with h | h
      · subst h
        linarith only [mul_nonneg y0 (show (0 : ℝ) ≤ 1 - 2 * c by linarith only [hc1]), hc0]
      · subst h
        linarith only [hx1]
    have hD : 0 < -((x - 1 / 2) + c * (y - 1 / 2)) := by
      rcases hs with h | h
      · subst h
        linarith only [mul_pos hc0 (show (0 : ℝ) < 1 - y by linarith only [hx2]), hc1]
      · subst h
        linarith only [hx1, hc0, hc1]
    exact ⟨(_, _), fp_adjustTrapezoid_left c x y hc0.ne' ⟨hx1, hx2⟩ hu hD,
      fp_onSegment_of_ray _ _ _ _ _ (x - 1 / 2) (y - 1 / 2) _ (1 - c) hD.ne' rfl rfl S1 S2
        (by linarith only [hD]) (by ring)⟩
  have fp_trapezoid_right_on : ∀ (c x y : ℝ) (hc0 : 0 < c) (hc1 : c ≤ 1 / 2)
      (hb : fp.onUnitBox x y) (hx : 1 - c < x ∧ y < 1),
      ∃ out : ℝ × ℝ, fp.adjustTrapezoid (Ext.fin c) (Ext.fin x) (Ext.fin y)
          = (Ext.fin out.1, Ext.fin out.2) ∧ fp.onSegment (1 - c, 0) (1, 1) out := by
    intro c x y hc0 hc1 hb hx
    obtain ⟨⟨x0, x1, y0, y1⟩, hside⟩ := hb
    obtain ⟨hx1, hx2⟩ := hx
    have hs : x = 1 ∨ y = 0 := by
      rcases hside with h | h | h | h
      · exfalso; linarith only [hx1, hc1, h]
      · exact Or.inl h
      · exact Or.inr h
      · exfalso; linarith only [hx2, h]
    have hu : x ≠ 1 / 2 := by intro h; linarith only [hx1, hc1, h]
    have S1 : 0 ≤ (1 - c - 1 / 2) * (y - 1 / 2) - ((0 : ℝ) - 1 / 2) * (x - 1 / 2) := by
      rcases hs with h | h
      · subst h
        linarith only [mul_nonneg y0 (show (0 : ℝ) ≤ 1 - 2 * c by linarith only [hc1]), hc0]
      · subst h
        linarith only [hx1]
    have S2 : 0 ≤ (x - 1 / 2) * (1 - 1 / 2) - (y - 1 / 2) * ((1 : ℝ) - 1 / 2) := by
      rcases hs with h | h <;> subst h <;> linarith only [x0, y1, hx1, hx2, hc1]
    have hD : 0 < (x - 1 / 2) - c * (y - 1 / 2) := by
      rcases hs with h | h
      · subst h
        linarith only [mul_pos hc0 (show (0 : ℝ) < 1 - y by linarith only [hx2]), hc1]
      · subst h
        linarith only [hx1, hc0, hc1]
    exact ⟨(_, _), fp_adjustTrapezoid_right c x y hc0.ne'
        (by rintro ⟨h, _⟩; linarith only [hx1, hc1, h]) ⟨hx1, hx2⟩ hu hD,
      fp_onSegment_of_ray _ _ _ _ _ (x - 1 / 2) (y - 1 / 2) _ (1 - c) hD.ne' rfl rfl S1 S2
        (by linarith only [hD]) (by ring)⟩
  by_cases h1 : x < c ∧ y < 1
  · obtain ⟨out, e, s⟩ := fp_trapezoid_left_on c x y hc0 hc1 hb h1
    exact ⟨out, e, ⟨_, fp_mem_sides_trapezoid c _ (Or.inl rfl), s⟩⟩
  · by_cases h2 : 1 - c < x ∧ y < 1
    · obtain ⟨out, e, s⟩ := fp_trapezoid_right_on c x y hc0 hc1 hb h2
      exact ⟨out, e, ⟨_, fp_mem_sides_trapezoid c _ (Or.inr (Or.inr (Or.inl rfl))), s⟩⟩
    · obtain ⟨⟨x0, x1, y0, y1⟩, hside⟩ := hb
      refine ⟨(x, y), fp_adjustTrapezoid_between c x y h1 h2, ?_⟩
      rcases eq_or_lt_of_le y1 with hy | hy
      · subst hy
        refine ⟨_, fp_mem_sides_trapezoid c _ (Or.inr (Or.inr (Or.inr rfl))), ?_⟩
        unfold fp.onSegment
        simp only [min_eq_right (zero_le_one : (0 : ℝ) ≤ 1),
          max_eq_left (zero_le_one : (0 : ℝ) ≤ 1), min_self, max_self]
        exact ⟨by ring, x0, x1, le_refl _, le_refl _⟩
      · have hxc : c ≤ x := by
          by_contra hlt
          exact h1 ⟨lt_of_not_le hlt, hy⟩
        have hxd : x ≤ 1 - c := by
          by_contra hlt
          exact h2 ⟨lt_of_not_le hlt, hy⟩
        have hy0 : y = 0 := by
          rcases hside with h | h | h | h
          · exfalso; linarith only [hxc, hc0, h]
          · exfalso; linarith only [hxd, hc0, h]
          · exact h
          · exfalso; linarith only [hy, h]
        subst hy0
        refine ⟨_, fp_mem_sides_trapezoid c _ (Or.inr (Or.inl rfl)), ?_⟩
        unfold fp.onSegment
        simp only [min_eq_left (show c ≤ 1 - c by linarith only [hc1]),
          max_eq_right (show c ≤ 1 - c by linarith only [hc1]), min_self, max_self]
        exact ⟨by ring, hxc, hxd, le_refl _, le_refl _⟩

/-! ### The step -/

set_option maxHeartbeats 4000000 in
/-- The projection of `adjustStep` for a ratio `c` with `0 < c < 1/2`. -/
theorem fp_adjustStep_projects (c x y : ℝ)
    (hc0 : 0 ≤ c) (hc1 : c < 1 / 2) (hb : fp.onUnitBox x y) :
    ∃ out : ℝ × ℝ, fp.adjustStep (Ext.fin c) (Ext.fin x) (Ext.fin y)
        = (Ext.fin out.1, Ext.fin out.2) ∧
      fp.onPolygon [(0, 0), (1 - c, 0), (1, 1 / 2), (1 - c, 1), (0, 1), (c, 1 / 2)] out := by
  have fp_step_nw : ∀ (c u v : ℝ) (hv : v ≠ 0)
      (hD : -u + 2 * c * v ≠ 0),
      4 * c - 2 * (u / v) ≠ 0 ∧
        2 * c * ((1 - u / v) / (4 * c - 2 * (u / v)))
          = 1 / 2 + (1 - 2 * c) * u / (2 * (-u + 2 * c * v)) ∧
        (1 - u / v) / (4 * c - 2 * (u / v))
          = 1 / 2 + (1 - 2 * c) * v / (2 * (-u + 2 * c * v)) := by
    intro c u v hv hD
    have e : 4 * c - 2 * (u / v) = 2 * (-u + 2 * c * v) / v := by
      field_simp
      ring
    have h4 : 4 * c - 2 * (u / v) ≠ 0 := by
      rw [e]
      exact div_ne_zero (mul_ne_zero two_ne_zero hD) hv
    refine ⟨h4, ?_, ?_⟩ <;> rw [e] <;> field_simp <;> ring
  have fp_step_sw : ∀ (c u v : ℝ) (hv : v ≠ 0)
      (hD : u + 2 * c * v ≠ 0),
      4 * c + 2 * (u / v) ≠ 0 ∧
        2 * c - 2 * c * ((4 * c - 1 + u / v) / (4 * c + 2 * (u / v)))
          = 1 / 2 + (1 - 2 * c) * u / (2 * -(u + 2 * c * v)) ∧
        (4 * c - 1 + u / v) / (4 * c + 2 * (u / v))
          = 1 / 2 + (1 - 2 * c) * v / (2 * -(u + 2 * c * v)) := by
    intro c u v hv hD
    have e : 4 * c + 2 * (u / v) = 2 * (u + 2 * c * v) / v := by
      field_simp
      ring
    have h4 : 4 * c + 2 * (u / v) ≠ 0 := by
      rw [e]
      exact div_ne_zero (mul_ne_zero two_ne_zero hD) hv
    have e2 : 2 * -(u + 2 * c * v) = -(2 * (u + 2 * c * v)) := by ring
    refine ⟨h4, ?_, ?_⟩ <;> rw [e, e2] <;> field_simp <;> ring
  have fp_step_ne : ∀ (c u v : ℝ) (hv : v ≠ 0)
      (hD : u - 2 * c * v ≠ 0),
      2 * (u / v) - 4 * c ≠ 0 ∧
        2 * c * ((1 - 2 * c + u / v) / (2 * (u / v) - 4 * c)) + 1 - c
          = 1 / 2 + 1 * u / (2 * (u - 2 * c * v)) ∧
        (1 - 2 * c + u / v) / (2 * (u / v) - 4 * c)
          = 1 / 2 + 1 * v / (2 * (u - 2 * c * v)) := by
    intro c u v hv hD
    have e : 2 * (u / v) - 4 * c = 2 * (u - 2 * c * v) / v := by
      field_simp
      ring
    have h4 : 2 * (u / v) - 4 * c ≠ 0 := by
      rw [e]
      exact div_ne_zero (mul_ne_zero two_ne_zero hD) hv
    refine ⟨h4, ?_, ?_⟩ <;> rw [e] <;> field_simp <;> ring
  have fp_step_se : ∀ (c u v : ℝ) (hv : v ≠ 0)
      (hD : u + 2 * c * v ≠ 0),
      4 * c + 2 * (u / v) ≠ 0 ∧
        1 + c - 2 * c * ((1 + 2 * c + u / v) / (4 * c + 2 * (u / v)))
          = 1 / 2 + 1 * u / (2 * (u + 2 * c * v)) ∧
        (1 + 2 * c + u / v) / (4 * c + 2 * (u / v))
          = 1 / 2 + 1 * v / (2 * (u + 2 * c * v)) := by
    intro c u v hv hD
    have e : 4 * c + 2 * (u / v) = 2 * (u + 2 * c * v) / v := by
      field_simp
      ring
    have h4 : 4 * c + 2 * (u / v) ≠ 0 := by
      rw [e]
      exact div_ne_zero (mul_ne_zero two_ne_zero hD) hv
    refine ⟨h4, ?_, ?_⟩ <;> rw [e] <;> field_simp <;> ring
  -- The branch `x == 0 && y < 0.5` of `adjustStep` in closed form.
  have fp_adjustStep_nw : ∀ (c x y : ℝ)
      (hc : ¬ 1 / 2 < c) (hy : y ≠ 1 / 2) (hx : x = 0 ∧ y < 1 / 2) (hD : 0 < -(x - 1 / 2) + 2 * c * (y - 1 / 2)),
      fp.adjustStep (Ext.fin c) (Ext.fin x) (Ext.fin y)
        = (Ext.fin (1 / 2 + (1 - 2 * c) * (x - 1 / 2) / (2 * (-(x - 1 / 2) + 2 * c * (y - 1 / 2)))),
            Ext.fin (1 / 2 + (1 - 2 * c) * (y - 1 / 2) / (2 * (-(x - 1 / 2) + 2 * c * (y - 1 / 2))))) := by
    intro c x y hc hy hx hD
    have hv : y - 1 / 2 ≠ 0 := sub_ne_zero.mpr hy
    obtain ⟨k1, k2, k3⟩ := fp_step_nw c (x - 1 / 2) (y - 1 / 2) hv hD.ne'
    unfold fp.adjustStep
    simp only [Ext.lit_eq, Rat.cast_div, Rat.cast_one, Rat.cast_ofNat, Rat.cast_zero,
      Ext.fin_beq, Ext.fin_lt, Ext.fin_sub, gt_iff_lt]
    rw [if_neg (fun h => hc h.2.1), if_neg hy, if_pos hx]
    simp only [Ext.fin_div _ _ hv, Ext.fin_mul, Ext.fin_add, Ext.fin_sub, Ext.fin_div _ _ k1]
    rw [k2, k3]
  -- The branch `x == 0 && y > 0.5` of `adjustStep` in closed form.
  have fp_adjustStep_sw : ∀ (c x y : ℝ)
      (hc : ¬ 1 / 2 < c) (hy : y ≠ 1 / 2) (hx1 : ¬(x = 0 ∧ y < 1 / 2)) (hx : x = 0 ∧ 1 / 2 < y) (hD : 0 < -((x - 1 / 2) + 2 * c * (y - 1 / 2))),
      fp.adjustStep (Ext.fin c) (Ext.fin x) (Ext.fin y)
        = (Ext.fin (1 / 2 + (1 - 2 * c) * (x - 1 / 2) / (2 * (-((x - 1 / 2) + 2 * c * (y - 1 / 2))))),
            Ext.fin (1 / 2 + (1 - 2 * c) * (y - 1 / 2) / (2 * (-((x - 1 / 2) + 2 * c * (y - 1 / 2)))))) := by
    intro c x y hc hy hx1 hx hD
    have hv : y - 1 / 2 ≠ 0 := sub_ne_zero.mpr hy
    obtain ⟨k1, k2, k3⟩ := fp_step_sw c (x - 1 / 2) (y - 1 / 2) hv
      (by intro h; rw [h] at hD; simp at hD)
    unfold fp.adjustStep
    simp only [Ext.lit_eq, Rat.cast_div, Rat.cast_one, Rat.cast_ofNat, Rat.cast_zero,
      Ext.fin_beq, Ext.fin_lt, Ext.fin_sub, gt_iff_lt]
    rw [if_neg (fun h => hc h.2.1), if_neg hy, if_neg hx1, if_pos hx]
    simp only [Ext.fin_div _ _ hv, Ext.fin_mul, Ext.fin_add, Ext.fin_sub, Ext.fin_div _ _ k1]
    rw [k2, k3]
  -- The branch `x > 1 - c && y < 0.5` of `adjustStep` in closed form.
  have fp_adjustStep_ne : ∀ (c x y : ℝ)
      (hc : ¬ 1 / 2 < c) (hy : y ≠ 1 / 2) (hx0 : x ≠ 0) (hx : 1 - c < x ∧ y < 1 / 2) (hD : 0 < (x - 1 / 2) - 2 * c * (y - 1 / 2)),
      fp.adjustStep (Ext.fin c) (Ext.fin x) (Ext.fin y)
        = (Ext.fin (1 / 2 + 1 * (x - 1 / 2) / (2 * ((x - 1 / 2) - 2 * c * (y - 1 / 2)))),
            Ext.fin (1 / 2 + 1 * (y - 1 / 2) / (2 * ((x - 1 / 2) - 2 * c * (y - 1 / 2))))) := by
    intro c x y hc hy hx0 hx hD
    have hv : y - 1 / 2 ≠ 0 := sub_ne_zero.mpr hy
    obtain ⟨k1, k2, k3⟩ := fp_step_ne c (x - 1 / 2) (y - 1 / 2) hv hD.ne'
    unfold fp.adjustStep
    simp only [Ext.lit_eq, Rat.cast_div, Rat.cast_one, Rat.cast_ofNat, Rat.cast_zero,
      Ext.fin_beq, Ext.fin_lt, Ext.fin_sub, gt_iff_lt]
    rw [if_neg (fun h => hc h.2.1), if_neg hy, if_neg (fun h => hx0 h.1), if_neg (fun h => hx0 h.1), if_pos hx]
    simp only [Ext.fin_div _ _ hv, Ext.fin_mul, Ext.fin_add, Ext.fin_sub, Ext.fin_div _ _ k1]
    rw [k2, k3]
  -- The branch `x > 1 - c && y > 0.5` of `adjustStep` in closed form.
  have fp_adjustStep_se : ∀ (c x y : ℝ)
      (hc : ¬ 1 / 2 < c) (hy : y ≠ 1 / 2) (hx0 : x ≠ 0) (hx1 : ¬(1 - c < x ∧ y < 1 / 2))
      (hx : 1 - c < x ∧ 1 / 2 < y) (hD : 0 < (x - 1 / 2) + 2 * c * (y - 1 / 2)),
      fp.adjustStep (Ext.fin c) (Ext.fin x) (Ext.fin y)
        = (Ext.fin (1 / 2 + 1 * (x - 1 / 2) / (2 * ((x - 1 / 2) + 2 * c * (y - 1 / 2)))),
            Ext.fin (1 / 2 + 1 * (y - 1 / 2) / (2 * ((x - 1 / 2) + 2 * c * (y - 1 / 2))))) := by
    intro c x y hc hy hx0 hx1 hx hD
    have hv : y - 1 / 2 ≠ 0 := sub_ne_zero.mpr hy
    obtain ⟨k1, k2, k3⟩ := fp_step_se c (x - 1 / 2) (y - 1 / 2) hv hD.ne'
    unfold fp.adjustStep
    simp only [Ext.lit_eq, Rat.cast_div, Rat.cast_one, Rat.cast_ofNat, Rat.cast_zero,
      Ext.fin_beq, Ext.fin_lt, Ext.fin_sub, gt_iff_lt]
    rw [if_neg (fun h => hc h.2.1), if_neg hy, if_neg (fun h => hx0 h.1), if_neg (fun h => hx0 h.1), if_neg hx1,
      if_pos hx]
    simp only [Ext.fin_div _ _ hv, Ext.fin_mul, Ext.fin_add, Ext.fin_sub, Ext.fin_div _ _ k1]
    rw [k2, k3]
  -- On the line `y = 0.5` `adjustStep` returns the corner `(c, 0.5)` or `(1, 0.5)`.
  have fp_adjustStep_mid : ∀ (c x y : ℝ)
      (hc : ¬ 1 / 2 < c) (hy : y = 1 / 2),
      fp.adjustStep (Ext.fin c) (Ext.fin x) (Ext.fin y)
        = (if x = 0 then Ext.fin c else Ext.fin 1, Ext.fin y) := by
    intro c x y hc hy
    unfold fp.adjustStep
    simp only [Ext.lit_eq, Rat.cast_div, Rat.cast_one, Rat.cast_ofNat, Rat.cast_zero,
      Ext.fin_beq, Ext.fin_lt, Ext.fin_sub, gt_iff_lt]
    rw [if_neg (fun h => hc h.2.1), if_pos hy]
  -- Outside its branches `adjustStep` returns the input.
  have fp_adjustStep_between : ∀ (c x y : ℝ)
      (hc : ¬ 1 / 2 < c) (hy : y ≠ 1 / 2) (hx0 : x ≠ 0) (hx : x ≤ 1 - c),
      fp.adjustStep (Ext.fin c) (Ext.fin x) (Ext.fin y) = (Ext.fin x, Ext.fin y) := by
    intro c x y hc hy hx0 hx
    unfold fp.adjustStep
    simp only [Ext.lit_eq, Rat.cast_div, Rat.cast_one, Rat.cast_ofNat, Rat.cast_zero,
      Ext.fin_beq, Ext.fin_lt, Ext.fin_sub, gt_iff_lt]
    rw [if_neg (fun h => hc h.2.1), if_neg hy, if_neg (fun h => hx0 h.1),
      if_neg (fun h => hx0 h.1), if_neg (fun h => absurd h.1 (not_lt.mpr hx)),
      if_neg (fun h => absurd h.1 (not_lt.mpr hx))]
  have fp_mem_sides_step : ∀ (c : ℝ) (s : (ℝ × ℝ) × (ℝ × ℝ))
      (h : s = ((0, 0), (1 - c, 0)) ∨ s = ((1 - c, 0), (1, 1 / 2))
      ∨ s = ((1, 1 / 2), (1 - c, 1)) ∨ s = ((1 - c, 1), (0, 1))
      ∨ s = ((0, 1), (c, 1 / 2)) ∨ s = ((c, 1 / 2), (0, 0))),
      s ∈ fp.polygonSides [(0, 0), (1 - c, 0), (1, 1 / 2), (1 - c, 1), (0, 1), (c, 1 / 2)] := by
    intro c s h
    simpa [fp.polygonSides, fp.sidesFrom] using h
  have fp_step_nw_on : ∀ (c x y : ℝ)
      (hc0 : 0 ≤ c) (hc1 : c < 1 / 2) (hb : fp.onUnitBox x y) (hx : x = 0 ∧ y < 1 / 2),
      ∃ out : ℝ × ℝ, fp.adjustStep (Ext.fin c) (Ext.fin x) (Ext.fin y)
          = (Ext.fin out.1, Ext.fin out.2) ∧ fp.onSegment (c, 1 / 2) (0, 0) out := by
    intro c x y hc0 hc1 hb hx
    obtain ⟨⟨x0, x1, y0, y1⟩, hside⟩ := hb
    obtain ⟨hx1, hx2⟩ := hx
    have S1 : 0 ≤ (c - 1 / 2) * (y - 1 / 2) - (1 / 2 - 1 / 2) * (x - 1 / 2) := by
      linarith only [mul_nonneg (show (0 : ℝ) ≤ 1 / 2 - c by linarith only [hc1])
        (show (0 : ℝ) ≤ 1 / 2 - y by linarith only [hx2])]
    have S2 : 0 ≤ (x - 1 / 2) * (0 - 1 / 2) - (y - 1 / 2) * (0 - 1 / 2) := by
      linarith only [y0, hx1]
    have hD : 0 < -(x - 1 / 2) + 2 * c * (y - 1 / 2) := by
      linarith only [mul_nonneg hc0 y0, hc1, hx1]
    exact ⟨(_, _), fp_adjustStep_nw c x y (not_lt.mpr hc1.le) hx2.ne ⟨hx1, hx2⟩ hD,
      fp_onSegment_of_ray _ _ _ _ _ (x - 1 / 2) (y - 1 / 2) _ (1 - 2 * c) hD.ne' rfl rfl S1 S2
        (by linarith only [hD]) (by ring)⟩
  have fp_step_sw_on : ∀ (c x y : ℝ)
      (hc0 : 0 ≤ c) (hc1 : c < 1 / 2) (hb : fp.onUnitBox x y) (hx : x = 0 ∧ 1 / 2 < y),
      ∃ out : ℝ × ℝ, fp.adjustStep (Ext.fin c) (Ext.fin x) (Ext.fin y)
          = (Ext.fin out.1, Ext.fin out.2) ∧ fp.onSegment (0, 1) (c, 1 / 2) out := by
    intro c x y hc0 hc1 hb hx
    obtain ⟨⟨x0, x1, y0, y1⟩, hside⟩ := hb
    obtain ⟨hx1, hx2⟩ := hx
    have S1 : 0 ≤ ((0 : ℝ) - 1 / 2) * (y - 1 / 2) - (1 - 1 / 2) * (x - 1 / 2) := by
      linarith only [y1, hx1]
    have S2 : 0 ≤ (x - 1 / 2) * (1 / 2 - 1 / 2) - (y - 1 / 2) * (c - 1 / 2) := by
      linarith only [mul_nonneg (show (0 : ℝ) ≤ 1 / 2 - c by linarith only [hc1])
        (show (0 : ℝ) ≤ y - 1 / 2 by linarith only [hx2])]
    have hD : 0 < -((x - 1 / 2) + 2 * c * (y - 1 / 2)) := by
      linarith only [mul_nonneg hc0 (show (0 : ℝ) ≤ 1 - y by linarith only [y1]), hc1, hx1]
    exact ⟨(_, _), fp_adjustStep_sw c x y (not_lt.mpr hc1.le) hx2.ne'
        (fun h => absurd (lt_trans hx2 h.2) (lt_irrefl _)) ⟨hx1, hx2⟩ hD,
      fp_onSegment_of_ray _ _ _ _ _ (x - 1 / 2) (y - 1 / 2) _ (1 - 2 * c) hD.ne' rfl rfl S1 S2
        (by linarith only [hD]) (by ring)⟩
  have fp_step_ne_on : ∀ (c x y : ℝ)
      (hc0 : 0 < c) (hc1 : c < 1 / 2) (hb : fp.onUnitBox x y) (hx : 1 - c < x ∧ y < 1 / 2),
      ∃ out : ℝ × ℝ, fp.adjustStep (Ext.fin c) (Ext.fin x) (Ext.fin y)
          = (Ext.fin out.1, Ext.fin out.2) ∧ fp.onSegment (1 - c, 0) (1, 1 / 2) out := by
    intro c x y hc0 hc1 hb hx
    obtain ⟨⟨x0, x1, y0, y1⟩, hside⟩ := hb
    obtain ⟨hx1, hx2⟩ := hx
    have hs : x = 1 ∨ y = 0 := by
      rcases hside with h | h | h | h
      · exfalso; linarith only [hx1, hc1, h]
      · exact Or.inl h
      · exact Or.inr h
      · exfalso; linarith only [hx2, h]
    have hx0 : x ≠ 0 := by intro h; linarith only [hx1, hc1, h]
    have S1 : 0 ≤ (1 - c - 1 / 2) * (y - 1 / 2) - ((0 : ℝ) - 1 / 2) * (x - 1 / 2) := by
      rcases hs with h | h
      · subst h
        linarith only [mul_nonneg y0 (show (0 : ℝ) ≤ 1 - 2 * c by linarith only [hc1]), hc0]
      · subst h
        linarith only [hx1]
    have S2 : 0 ≤ (x - 1 / 2) * (1 / 2 - 1 / 2) - (y - 1 / 2) * ((1 : ℝ) - 1 / 2) := by
      linarith only [hx2]
    have hD : 0 < (x - 1 / 2) - 2 * c * (y - 1 / 2) := by
      rcases hs with h | h
      · subst h
        linarith only [mul_pos hc0 (show (0 : ℝ) < 1 / 2 - y by linarith only [hx2])]
      · subst h
        linarith only [hx1, hc0, hc1]
    exact ⟨(_, _), fp_adjustStep_ne c x y (not_lt.mpr hc1.le) hx2.ne hx0 ⟨hx1, hx2⟩ hD,
      fp_onSegment_of_ray _ _ _ _ _ (x - 1 / 2) (y - 1 / 2) _ 1 hD.ne' rfl rfl S1 S2
        (by linarith only [hD]) (by ring)⟩
  have fp_step_se_on : ∀ (c x y : ℝ)
      (hc0 : 0 < c) (hc1 : c < 1 / 2) (hb : fp.onUnitBox x y) (hx : 1 - c < x ∧ 1 / 2 < y),
      ∃ out : ℝ × ℝ, fp.adjustStep (Ext.fin c) (Ext.fin x) (Ext.fin y)
          = (Ext.fin out.1, Ext.fin out.2) ∧ fp.onSegment (1, 1 / 2) (1 - c, 1) out := by
    intro c x y hc0 hc1 hb hx
    obtain ⟨⟨x0, x1, y0, y1⟩, hside⟩ := hb
    obtain ⟨hx1, hx2⟩ := hx
    have hs : x = 1 ∨ y = 1 := by
      rcases hside with h | h | h | h
      · exfalso; linarith only [hx1, hc1, h]
      · exact Or.inl h
      · exfalso; linarith only [hx2, h]
      · exact Or.inr h
    have hx0 : x ≠ 0 := by intro h; linarith only [hx1, hc1, h]
    have S1 : 0 ≤ ((1 : ℝ) - 1 / 2) * (y - 1 / 2) - (1 / 2 - 1 / 2) * (x - 1 / 2) := by
      linarith only [hx2]
    have S2 : 0 ≤ (x - 1 / 2) * (1 - 1 / 2) - (y - 1 / 2) * (1 - c - 1 / 2) := by
      rcases hs with h | h
      · subst h
        linarith only [mul_nonneg (show (0 : ℝ) ≤ 1 - y by linarith only [y1])
          (show (0 : ℝ) ≤ 1 - 2 * c by linarith only [hc1]), hc0]
      · subst h
        linarith only [hx1]
    have hD : 0 < (x - 1 / 2) + 2 * c * (y - 1 / 2) := by
      rcases hs with h | h
      · subst h
        linarith only [mul_pos hc0 (show (0 : ℝ) < y - 1 / 2 by linarith only [hx2])]
      · subst h
        linarith only [hx1, hc0, hc1]
    exact ⟨(_, _), fp_adjustStep_se c x y (not_lt.mpr hc1.le) hx2.ne' hx0
        (fun h => absurd (lt_trans hx2 h.2) (lt_irrefl _)) ⟨hx1, hx2⟩ hD,
      fp_onSegment_of_ray _ _ _ _ _ (x - 1 / 2) (y - 1 / 2) _ 1 hD.ne' rfl rfl S1 S2
        (by linarith only [hD]) (by ring)⟩
  have hc : ¬ 1 / 2 < c := not_lt.mpr hc1.le
  by_cases hy : y = 1 / 2
  · by_cases hx : x = 0
    · refine ⟨(c, 1 / 2), ?_, ⟨_, fp_mem_sides_step c _ (Or.inr (Or.inr (Or.inr (Or.inr
        (Or.inr rfl))))), ?_⟩⟩
      · rw [fp_adjustStep_mid c x y hc hy, if_pos hx, hy]
      · unfold fp.onSegment
        simp only [min_eq_right hc0, max_eq_left hc0, sub_self, mul_zero, zero_mul]
        norm_num
        exact hc0
    · refine ⟨(1, 1 / 2), ?_, ⟨_, fp_mem_sides_step c _ (Or.inr (Or.inl rfl)), ?_⟩⟩
      · rw [fp_adjustStep_mid c x y hc hy, if_neg hx, hy]
      · unfold fp.onSegment
        simp only [min_eq_left (show (1 - c : ℝ) ≤ 1 by linarith only [hc0]),
          max_eq_right (show (1 - c : ℝ) ≤ 1 by linarith only [hc0])]
        norm_num
        exact ⟨mul_comm _ _, hc0⟩
  · by_cases hx : x = 0
    · rcases lt_or_gt_of_ne hy with hys | hys
      · obtain ⟨out, e, s⟩ := fp_step_nw_on c x y hc0 hc1 hb ⟨hx, hys⟩
        exact ⟨out, e, ⟨_, fp_mem_sides_step c _ (Or.inr (Or.inr (Or.inr (Or.inr
          (Or.inr rfl))))), s⟩⟩
      · obtain ⟨out, e, s⟩ := fp_step_sw_on c x y hc0 hc1 hb ⟨hx, hys⟩
        exact ⟨out, e, ⟨_, fp_mem_sides_step c _ (Or.inr (Or.inr (Or.inr (Or.inr
          (Or.inl rfl))))), s⟩⟩
    · by_cases hxc : 1 - c < x
      · have hc0 : 0 < c := by linarith only [hxc, hb.1.2.1]
        rcases lt_or_gt_of_ne hy with hys | hys
        · obtain ⟨out, e, s⟩ := fp_step_ne_on c x y hc0 hc1 hb ⟨hxc, hys⟩
          exact ⟨out, e, ⟨_, fp_mem_sides_step c _ (Or.inr (Or.inl rfl)), s⟩⟩
        · obtain ⟨out, e, s⟩ := fp_step_se_on c x y hc0 hc1 hb ⟨hxc, hys⟩
          exact ⟨out, e, ⟨_, fp_mem_sides_step c _ (Or.inr (Or.inr (Or.inl rfl))), s⟩⟩
      · have hxd : x ≤ 1 - c := not_lt.mp hxc
        obtain ⟨⟨x0, x1, y0, y1⟩, hside⟩ := hb
        refine ⟨(x, y), fp_adjustStep_between c x y hc hy hx hxd, ?_⟩
        have hyy : y = 0 ∨ y = 1 ∨ (x = 1 ∧ c = 0) := by
          rcases hside with h | h | h | h
          · exact absurd h hx
          · exact Or.inr (Or.inr ⟨h, by linarith only [hxd, hc0, h]⟩)
          · exact Or.inl h
          · exact Or.inr (Or.inl h)
        rcases hyy with h | h | ⟨h, hz⟩
        · subst h
          refine ⟨_, fp_mem_sides_step c _ (Or.inl rfl), ?_⟩
          unfold fp.onSegment
          simp only [min_eq_left (show (0 : ℝ) ≤ 1 - c by linarith only [hc1]),
            max_eq_right (show (0 : ℝ) ≤ 1 - c by linarith only [hc1]), min_self, max_self]
          exact ⟨by ring, x0, hxd, le_refl _, le_refl _⟩
        · subst h
          refine ⟨_, fp_mem_sides_step c _ (Or.inr (Or.inr (Or.inr (Or.inl rfl)))), ?_⟩
          unfold fp.onSegment
          simp only [min_eq_right (show (0 : ℝ) ≤ 1 - c by linarith only [hc1]),
            max_eq_left (show (0 : ℝ) ≤ 1 - c by linarith only [hc1]), min_self, max_self]
          exact ⟨by ring, x0, hxd, le_refl _, le_refl _⟩
        · subst h
          subst hz
          rcases le_total y (1 / 2) with hle | hle
          · refine ⟨_, fp_mem_sides_step 0 _ (Or.inr (Or.inl rfl)), ?_⟩
            unfold fp.onSegment
            simp only [sub_zero, min_self, max_self, sub_self, zero_mul, mul_zero,
              min_eq_left (show (0 : ℝ) ≤ 1 / 2 by norm_num),
              max_eq_right (show (0 : ℝ) ≤ 1 / 2 by norm_num)]
            exact ⟨trivial, le_refl _, le_refl _, y0, hle⟩
          · refine ⟨_, fp_mem_sides_step 0 _ (Or.inr (Or.inr (Or.inl rfl))), ?_⟩
            unfold fp.onSegment
            simp only [sub_zero, min_self, max_self, sub_self, zero_mul, mul_zero,
              min_eq_left (show (1 / 2 : ℝ) ≤ 1 by norm_num),
              max_eq_right (show (1 / 2 : ℝ) ≤ 1 by norm_num)]
            exact ⟨trivial, le_refl _, le_refl _, hle, y1⟩

/-! ## A size parameter of zero -/

/-! ### The ellipse, the box, and every perimeter kind -/

theorem fp_mem_sides_box {K : Type} [LinearOrderedField K] (s : (K × K) × (K × K))
    (h : s = ((0, 0), (1, 0)) ∨ s = ((1, 0), (1, 1)) ∨ s = ((1, 1), (0, 1))
      ∨ s = ((0, 1), (0, 0))) :
    s ∈ fp.polygonSides [((0 : K), (0 : K)), (1, 0), (1, 1), (0, 1)] := by
  simpa [fp.polygonSides, fp.sidesFrom] using h

/-- A point of the boundary of the unit box lies on the polygon of the unit box. -/
theorem fp_onUnitBox_onPolygon {K : Type} [LinearOrderedField K] (x y : K)
    (hb : fp.onUnitBox x y) :
    fp.onPolygon [((0 : K), (0 : K)), (1, 0), (1, 1), (0, 1)] (x, y) := by
  obtain ⟨⟨x0, x1, y0, y1⟩, hside⟩ := hb
  have h01 : (0 : K) ≤ 1 := zero_le_one
  rcases hside with h | h | h | h
  · refine ⟨_, fp_mem_sides_box _ (Or.inr (Or.inr (Or.inr rfl))), ?_⟩
    subst h
    unfold fp.onSegment
    simp only [min_self, max_self, min_eq_right h01, max_eq_left h01, sub_self, zero_mul,
      mul_zero]
    exact ⟨trivial, le_refl _, le_refl _, y0, y1⟩
  · refine ⟨_, fp_mem_sides_box _ (Or.inr (Or.inl rfl)), ?_⟩
    subst h
    unfold fp.onSegment
    simp only [min_self, max_self, min_eq_left h01, max_eq_right h01, sub_self, zero_mul,
      mul_zero]
    exact ⟨trivial, le_refl _, le_refl _, y0, y1⟩
  · refine ⟨_, fp_mem_sides_box _ (Or.inl rfl), ?_⟩
    subst h
    unfold fp.onSegment
    simp only [min_self, max_self, min_eq_left h01, max_eq_right h01, sub_self, zero_mul,
      mul_zero]
    exact ⟨trivial, x0, x1, le_refl _, le_refl _⟩
  · refine ⟨_, fp_mem_sides_box _ (Or.inr (Or.inr (Or.inl rfl))), ?_⟩
    subst h
    unfold fp.onSegment
    simp only [min_self, max_self, min_eq_right h01, max_eq_left h01, sub_self, zero_mul,
      mul_zero]
    exact ⟨trivial, x0, x1, le_refl _, le_refl _⟩

set_option maxHeartbeats 4000000 in
/-- For every perimeter kind `adjustEndpoint` takes a point of the boundary of the unit box
to a point of the outline of the kind, on a shape an edge attaches to and for an exact
library. -/
theorem fp_adjustEndpoint_onOutline
    (L : Cmath ℝ) (hL : L.exact) (shape : MXCell) (ha : attachable shape) (x y : ℝ)
    (hb : fp.onUnitBox x y) :
    ∃ out : ℝ × ℝ, fp.adjustEndpoint L.lift (Ext.fin x) (Ext.fin y) shape
        = (Ext.fin out.1, Ext.fin out.2) ∧
      fp.onOutline shape.style.perimeter ((sizeRatio shape : ℚ) : ℝ) out := by
  have fp_onSegment_upright : ∀ (a y1 y2 y : ℝ)
      (h1 : min y1 y2 ≤ y) (h2 : y ≤ max y1 y2),
      fp.onSegment (a, y1) (a, y2) (a, y) := by
    intro a y1 y2 y h1 h2
    unfold fp.onSegment
    simp only [sub_self, zero_mul, mul_zero, min_self, max_self]
    exact ⟨trivial, le_refl _, le_refl _, h1, h2⟩
  have fp_onSegment_level : ∀ (b x1 x2 x : ℝ)
      (h1 : min x1 x2 ≤ x) (h2 : x ≤ max x1 x2),
      fp.onSegment (x1, b) (x2, b) (x, b) := by
    intro b x1 x2 x h1 h2
    unfold fp.onSegment
    simp only [sub_self, zero_mul, mul_zero, min_self, max_self]
    exact ⟨trivial, h1, h2, le_refl _, le_refl _⟩
  -- With a size of zero `adjustParallelogram` returns the point, which lies on the outline:
  -- the outline is the box.
  have fp_adjustParallelogram_zero : ∀ (x y : ℝ) (hb : fp.onUnitBox x y),
      ∃ out : ℝ × ℝ, fp.adjustParallelogram (Ext.fin 0) (Ext.fin x) (Ext.fin y)
          = (Ext.fin out.1, Ext.fin out.2) ∧
        fp.onPolygon [(0, 1), (0, 0), (1, 0), (1 - 0, 1)] out := by
    intro x y hb
    have h01 : (0 : ℝ) ≤ 1 := zero_le_one
    refine ⟨(x, y), ?_, ?_⟩
    · unfold fp.adjustParallelogram
      rw [if_neg]
      simp only [Ext.lit_eq, Rat.cast_zero, Ext.fin_bne, ne_eq, not_true_eq_false, false_and,
        not_false_eq_true]
    · obtain ⟨⟨x0, x1, y0, y1⟩, hside⟩ := hb
      rw [sub_zero]
      rcases hside with h | h | h | h <;> subst h
      · refine ⟨((0, 1), (0, 0)), ?_, fp_onSegment_upright _ _ _ _
          (by rw [min_eq_right h01]; exact y0) (by rw [max_eq_left h01]; exact y1)⟩
        simp [fp.polygonSides, fp.sidesFrom]
      · refine ⟨((1, 0), (1, 1)), ?_, fp_onSegment_upright _ _ _ _
          (by rw [min_eq_left h01]; exact y0) (by rw [max_eq_right h01]; exact y1)⟩
        simp [fp.polygonSides, fp.sidesFrom]
      · refine ⟨((0, 0), (1, 0)), ?_, fp_onSegment_level _ _ _ _
          (by rw [min_eq_left h01]; exact x0) (by rw [max_eq_right h01]; exact x1)⟩
        simp [fp.polygonSides, fp.sidesFrom]
      · refine ⟨((1, 1), (0, 1)), ?_, fp_onSegment_level _ _ _ _
          (by rw [min_eq_right h01]; exact x0) (by rw [max_eq_left h01]; exact x1)⟩
        simp [fp.polygonSides, fp.sidesFrom]
  -- With a size of zero `adjustTrapezoid` returns the point, which lies on the outline: the
  -- outline is the box.
  have fp_adjustTrapezoid_zero : ∀ (x y : ℝ) (hb : fp.onUnitBox x y),
      ∃ out : ℝ × ℝ, fp.adjustTrapezoid (Ext.fin 0) (Ext.fin x) (Ext.fin y)
          = (Ext.fin out.1, Ext.fin out.2) ∧
        fp.onPolygon [(0, 1), (0, 0), (1 - 0, 0), (1, 1)] out := by
    intro x y hb
    have h01 : (0 : ℝ) ≤ 1 := zero_le_one
    refine ⟨(x, y), ?_, ?_⟩
    · unfold fp.adjustTrapezoid
      rw [if_neg]
      simp only [Ext.lit_eq, Rat.cast_zero, Ext.fin_bne, ne_eq, not_true_eq_false, false_and,
        not_false_eq_true]
    · obtain ⟨⟨x0, x1, y0, y1⟩, hside⟩ := hb
      rw [sub_zero]
      rcases hside with h | h | h | h <;> subst h
      · refine ⟨((0, 1), (0, 0)), ?_, fp_onSegment_upright _ _ _ _
          (by rw [min_eq_right h01]; exact y0) (by rw [max_eq_left h01]; exact y1)⟩
        simp [fp.polygonSides, fp.sidesFrom]
      · refine ⟨((1, 0), (1, 1)), ?_, fp_onSegment_upright _ _ _ _
          (by rw [min_eq_left h01]; exact y0) (by rw [max_eq_right h01]; exact y1)⟩
        simp [fp.polygonSides, fp.sidesFrom]
      · refine ⟨((0, 0), (1, 0)), ?_, fp_onSegment_level _ _ _ _
          (by rw [min_eq_left h01]; exact x0) (by rw [max_eq_right h01]; exact x1)⟩
        simp [fp.polygonSides, fp.sidesFrom]
      · refine ⟨((1, 1), (0, 1)), ?_, fp_onSegment_level _ _ _ _
          (by rw [min_eq_right h01]; exact x0) (by rw [max_eq_left h01]; exact x1)⟩
        simp [fp.polygonSides, fp.sidesFrom]
  -- With a size of zero `adjustHexagon` returns the point, which lies on the outline: the
  -- outline is the box.
  have fp_adjustHexagon_zero : ∀ (x y : ℝ) (hb : fp.onUnitBox x y),
      ∃ out : ℝ × ℝ, fp.adjustHexagon (Ext.fin 0) (Ext.fin x) (Ext.fin y)
          = (Ext.fin out.1, Ext.fin out.2) ∧
        fp.onPolygon [(0, 0), (1 - 0, 0), (1, 1 / 2), (1 - 0, 1), (0, 1), (0, 1 / 2)] out := by
    intro x y hb
    have h01 : (0 : ℝ) ≤ 1 := zero_le_one
    have h0h : (0 : ℝ) ≤ 1 / 2 := by norm_num
    have hh1 : (1 / 2 : ℝ) ≤ 1 := by norm_num
    refine ⟨(x, y), ?_, ?_⟩
    · unfold fp.adjustHexagon
      rw [if_neg]
      simp only [Ext.lit_eq, Rat.cast_zero, Ext.fin_bne, ne_eq, not_true_eq_false, false_and,
        not_false_eq_true]
    · obtain ⟨⟨x0, x1, y0, y1⟩, hside⟩ := hb
      rw [sub_zero]
      rcases hside with h | h | h | h <;> subst h
      · rcases le_total y (1 / 2) with hle | hle
        · refine ⟨((0, 1 / 2), (0, 0)), ?_, fp_onSegment_upright _ _ _ _
            (by rw [min_eq_right h0h]; exact y0) (by rw [max_eq_left h0h]; exact hle)⟩
          simp [fp.polygonSides, fp.sidesFrom]
        · refine ⟨((0, 1), (0, 1 / 2)), ?_, fp_onSegment_upright _ _ _ _
            (by rw [min_eq_right hh1]; exact hle) (by rw [max_eq_left hh1]; exact y1)⟩
          simp [fp.polygonSides, fp.sidesFrom]
      · rcases le_total y (1 / 2) with hle | hle
        · refine ⟨((1, 0), (1, 1 / 2)), ?_, fp_onSegment_upright _ _ _ _
            (by rw [min_eq_left h0h]; exact y0) (by rw [max_eq_right h0h]; exact hle)⟩
          simp [fp.polygonSides, fp.sidesFrom]
        · refine ⟨((1, 1 / 2), (1, 1)), ?_, fp_onSegment_upright _ _ _ _
            (by rw [min_eq_left hh1]; exact hle) (by rw [max_eq_right hh1]; exact y1)⟩
          simp [fp.polygonSides, fp.sidesFrom]
      · refine ⟨((0, 0), (1, 0)), ?_, fp_onSegment_level _ _ _ _
          (by rw [min_eq_left h01]; exact x0) (by rw [max_eq_right h01]; exact x1)⟩
        simp [fp.polygonSides, fp.sidesFrom]
      · refine ⟨((1, 1), (0, 1)), ?_, fp_onSegment_level _ _ _ _
          (by rw [min_eq_right h01]; exact x0) (by rw [max_eq_left h01]; exact x1)⟩
        simp [fp.polygonSides, fp.sidesFrom]
  -- The `ELLIPSE_P` branch of `adjustEndpoint` returns a point of the inscribed ellipse, for
  -- an exact library.
  have fp_adjustEllipse_projects : ∀ (L : Cmath ℝ) (hL : L.exact) (x y : ℝ) (hb : fp.onUnitBox x y),
      ∃ out : ℝ × ℝ, fp.adjustEllipse L.lift (Ext.fin x) (Ext.fin y)
          = (Ext.fin out.1, Ext.fin out.2) ∧
        (out.1 - 1 / 2) ^ 2 + (out.2 - 1 / 2) ^ 2 = 1 / 4 := by
    intro L hL x y hb
    obtain ⟨_, _, _, _, _, _, _, hpyth⟩ := hL
    obtain ⟨⟨x0, x1, y0, y1⟩, hside⟩ := hb
    by_cases hx : x = 1 / 2
    · refine ⟨(x, y), ?_, ?_⟩
      · unfold fp.adjustEllipse
        simp only [Ext.lit_eq, Rat.cast_div, Rat.cast_one, Rat.cast_ofNat, Ext.fin_bne, ne_eq,
          hx, not_true_eq_false, if_false]
      · have hy : y = 0 ∨ y = 1 := by
          rcases hside with h | h | h | h
          · exfalso; linarith only [hx, h]
          · exfalso; linarith only [hx, h]
          · exact Or.inl h
          · exact Or.inr h
        rcases hy with hy | hy <;> subst hx <;> subst hy <;> norm_num
    · have hu : x - 1 / 2 ≠ 0 := sub_ne_zero.mpr hx
      refine ⟨(1 / 2 + 1 / 2 * L.cos (L.atan ((y - 1 / 2) / (x - 1 / 2))
          + (if x < 1 / 2 then L.pi else 0)),
        1 / 2 + 1 / 2 * L.sin (L.atan ((y - 1 / 2) / (x - 1 / 2))
          + (if x < 1 / 2 then L.pi else 0))), ?_, ?_⟩
      · unfold fp.adjustEllipse
        simp only [Ext.lit_eq, Rat.cast_div, Rat.cast_one, Rat.cast_ofNat, Rat.cast_zero,
          Ext.fin_bne, ne_eq, hx, not_false_eq_true, if_true, Ext.fin_sub, Ext.fin_div _ _ hu,
          Cmath.lift_atan, Cmath.lift_pi, Ext.fin_lt]
        by_cases hlt : x < 1 / 2
        · simp only [hlt, if_true, Ext.fin_add, Cmath.lift_cos, Cmath.lift_sin, Ext.fin_mul]
        · simp only [hlt, if_false, Ext.fin_add, Cmath.lift_cos, Cmath.lift_sin, Ext.fin_mul]
      · have h := hpyth (L.atan ((y - 1 / 2) / (x - 1 / 2)) + (if x < 1 / 2 then L.pi else 0))
        simp only [add_sub_cancel_left]
        linear_combination (1 / 4) * h
  -- The quotient of a size parameter by the axis dimension, for a shape of non-zero width
  -- and height.
  have fp_ratio_eval : ∀ (shape : MXCell)
      (size : ℚ) (hw : shape.geometry.width ≠ 0) (hh : shape.geometry.height ≠ 0),
      (Double.lit size / fp.axisDimension shape : Ext ℝ)
        = Ext.fin ((size / axisDimension shape : ℚ) : ℝ) := by
    intro shape size hw hh
    have hw' : (shape.geometry.width : ℝ) ≠ 0 := by exact_mod_cast hw
    have hh' : (shape.geometry.height : ℝ) ≠ 0 := by exact_mod_cast hh
    unfold fp.axisDimension axisDimension
    split_ifs
    · rw [Ext.lit_eq, Ext.lit_eq, Ext.fin_div _ _ hh', Rat.cast_div]
    · rw [Ext.lit_eq, Ext.lit_eq, Ext.fin_div _ _ hw', Rat.cast_div]
  have fp_min_half : ∀ (c : ℝ) (h : c ≤ 1 / 2),
      Double.min (Ext.fin c) (Double.lit (1 / 2) : Ext ℝ) = Ext.fin c := by
    intro c h
    unfold Double.min
    rw [Ext.lit_eq, if_neg]
    rw [Ext.fin_lt]
    push_cast
    exact not_lt.mpr h
  have fp_cast_le_half : ∀ (r : ℚ) (h : r ≤ 1 / 2),
      (r : ℝ) ≤ 1 / 2 := by
    intro r h
    have h2 : (r : ℝ) ≤ ((1 / 2 : ℚ) : ℝ) := Rat.cast_le.mpr h
    exact h2.trans_eq (by norm_num)
  have fp_cast_lt_half : ∀ (r : ℚ) (h : r < 1 / 2),
      (r : ℝ) < 1 / 2 := by
    intro r h
    have h2 : (r : ℝ) < ((1 / 2 : ℚ) : ℝ) := Rat.cast_lt.mpr h
    exact h2.trans_eq (by norm_num)
  obtain ⟨hw, hh, hsz⟩ := ha
  have hin := fp_not_inside x y hb
  have hpre : ∀ f : Ext ℝ × Ext ℝ,
      (if (Double.lit 0 : Ext ℝ) < Ext.fin x ∧ Ext.fin x < Double.lit 1 ∧
        (Double.lit 0 : Ext ℝ) < Ext.fin y ∧ Ext.fin y < Double.lit 1
        then (Double.lit (1 / 2), Double.lit (1 / 2)) else f) = f := by
    intro f
    rw [if_neg]
    simp only [Ext.lit_eq, Rat.cast_zero, Rat.cast_one, Ext.fin_lt]
    exact hin
  unfold fp.adjustEndpoint fp.onOutline
  simp only [hpre]
  cases hp : shape.style.perimeter
  · simp only [reduceCtorEq, if_false]
    exact ⟨(x, y), rfl, fp_onUnitBox_onPolygon x y hb⟩
  · simp only [reduceCtorEq, if_false, if_true]
    exact fp_adjustEllipse_projects L hL x y hb
  · simp only [reduceCtorEq, if_false, if_true]
    exact fp_adjustTriangle_projects x y hb
  · simp only [reduceCtorEq, if_false]
    exact ⟨(x, y), rfl, fp_onUnitBox_onPolygon x y hb⟩
  · simp only [reduceCtorEq, if_false, if_true]
    exact fp_adjustRhombus_projects x y hb
  · obtain ⟨c0, c1, _⟩ := hsz (by rw [hp]; rfl)
    have e : sizeRatio shape = shape.style.parallelogramSize / axisDimension shape := by
      unfold sizeRatio sizeParameter
      rw [hp]
    rw [e] at c0 c1 ⊢
    have c1' : ((shape.style.parallelogramSize / axisDimension shape : ℚ) : ℝ) ≤ 1 / 2 :=
      fp_cast_le_half _ c1
    simp only [reduceCtorEq, if_false, if_true, fp_ratio_eval shape _ hw.ne' hh.ne',
      fp_min_half _ c1']
    rcases c0.eq_or_lt with hz | hpos
    · rw [← hz, Rat.cast_zero]
      exact fp_adjustParallelogram_zero x y hb
    · have c0' : (0 : ℝ) < ((shape.style.parallelogramSize / axisDimension shape : ℚ) : ℝ) := by
        exact_mod_cast hpos
      exact fp_adjustParallelogram_projects _ x y c0' c1' hb
  · obtain ⟨c0, c1, _⟩ := hsz (by rw [hp]; rfl)
    have e : sizeRatio shape = shape.style.hexagonSize / axisDimension shape := by
      unfold sizeRatio sizeParameter
      rw [hp]
    rw [e] at c0 c1 ⊢
    have c1' : ((shape.style.hexagonSize / axisDimension shape : ℚ) : ℝ) ≤ 1 / 2 :=
      fp_cast_le_half _ c1
    simp only [reduceCtorEq, if_false, if_true, fp_ratio_eval shape _ hw.ne' hh.ne',
      fp_min_half _ c1']
    rcases c0.eq_or_lt with hz | hpos
    · rw [← hz, Rat.cast_zero]
      exact fp_adjustHexagon_zero x y hb
    · have c0' : (0 : ℝ) < ((shape.style.hexagonSize / axisDimension shape : ℚ) : ℝ) := by
        exact_mod_cast hpos
      exact fp_adjustHexagon_projects _ x y c0' c1' hb
  · obtain ⟨c0, _, c2⟩ := hsz (by rw [hp]; rfl)
    have e : sizeRatio shape = shape.style.stepSize / axisDimension shape := by
      unfold sizeRatio sizeParameter
      rw [hp]
    have c2 := c2 hp
    rw [e] at c0 c2 ⊢
    have c0' : (0 : ℝ) ≤ ((shape.style.stepSize / axisDimension shape : ℚ) : ℝ) := by
      exact_mod_cast c0
    have c2' : ((shape.style.stepSize / axisDimension shape : ℚ) : ℝ) < 1 / 2 :=
      fp_cast_lt_half _ c2
    simp only [reduceCtorEq, if_false, if_true, fp_ratio_eval shape _ hw.ne' hh.ne']
    exact fp_adjustStep_projects _ x y c0' c2' hb
  · obtain ⟨c0, c1, _⟩ := hsz (by rw [hp]; rfl)
    have e : sizeRatio shape = shape.style.trapezoidSize / axisDimension shape := by
      unfold sizeRatio sizeParameter
      rw [hp]
    rw [e] at c0 c1 ⊢
    have c1' : ((shape.style.trapezoidSize / axisDimension shape : ℚ) : ℝ) ≤ 1 / 2 :=
      fp_cast_le_half _ c1
    simp only [reduceCtorEq, if_false, if_true, fp_ratio_eval shape _ hw.ne' hh.ne',
      fp_min_half _ c1']
    rcases c0.eq_or_lt with hz | hpos
    · rw [← hz, Rat.cast_zero]
      exact fp_adjustTrapezoid_zero x y hb
    · have c0' : (0 : ℝ) < ((shape.style.trapezoidSize / axisDimension shape : ℚ) : ℝ) := by
        exact_mod_cast hpos
      exact fp_adjustTrapezoid_projects _ x y c0' c1' hb

/-! ## The end points of `setEndPoints` on the outline -/

/-- On a shape an edge attaches to, `setEndpointInShape` without offsets takes a point of
the boundary of the unit box to a point of the outline of the shape, for an exact
library. -/
theorem fp_attach (L : Cmath ℝ)
    (hL : L.exact) (shape : MXCell) (ha : attachable shape) (u v : ℝ)
    (hb : fp.onUnitBox u v) :
    fp.onShapeOutline L shape
      (fp.setEndpointInShape L.lift (.fin u) (.fin v) shape (Double.lit 0) (Double.lit 0)) := by
  obtain ⟨out, he, ho⟩ := fp_adjustEndpoint_onOutline L hL shape ha u v hb
  exact ⟨out.1, out.2, ho,
    fp_setEndpointInShape_place L hL shape ha.1.ne' ha.2.1.ne' u v out.1 out.2 hb.2 he⟩

theorem fp_onShapeOutline_fin {K : Type} [LinearOrderedField K] (L : Cmath K)
    (shape : MXCell) (p : fp.MXPoint (Ext K)) (h : fp.onShapeOutline L shape p) :
    ∃ x y : K, p = ⟨.fin x, .fin y⟩ := by
  obtain ⟨u, v, _, hp⟩ := h
  exact ⟨_, _, hp⟩

/-! ## The free end of an `ORTHOGONAL` edge -/

/-- The place of a point of the unit box in an unrotated shape, for an exact library. -/
theorem fp_place_unrotated {K : Type} [LinearOrderedField K] (L : Cmath K) (hL : L.exact)
    (shape : MXCell) (hr : shape.style.rotation = 0) (u v : K) :
    fp.placeInShape L shape u v =
      (match shape.style.direction with
        | .EAST => ((shape.geometry.x : K) + u * shape.geometry.width,
            (shape.geometry.y : K) + v * shape.geometry.height)
        | .SOUTH => ((shape.geometry.x : K) + (1 - v) * shape.geometry.width,
            (shape.geometry.y : K) + u * shape.geometry.height)
        | .WEST => ((shape.geometry.x : K) + (1 - u) * shape.geometry.width,
            (shape.geometry.y : K) + (1 - v) * shape.geometry.height)
        | .NORTH => ((shape.geometry.x : K) + v * shape.geometry.width,
            (shape.geometry.y : K) + (1 - u) * shape.geometry.height)) := by
  obtain ⟨h0, h1⟩ := L.exact_zero hL
  unfold fp.placeInShape
  simp only [hr, Rat.cast_zero, zero_mul, zero_div, h0, h1, mul_one, mul_zero, sub_zero,
    add_zero]
  cases shape.style.direction <;> simp only [] <;> refine Prod.ext ?_ ?_ <;> simp only [] <;>
    ring

theorem fp_head_append {α : Type} (l m : List α) (p : α) (h : l.head? = some p) :
    (l ++ m).head? = some p := by
  cases l with
  | nil => cases h
  | cons a t => exact h

theorem fp_getLast_cons {α : Type} (l : List α) (a q : α) (h : l.getLast? = some q) :
    (a :: l).getLast? = some q := by
  cases l with
  | nil => cases h
  | cons b t => rw [List.getLast?_cons_cons]; exact h

/-- The start direction and the first waypoint that the block of the `ORTHOGONAL` branch
for an edge with waypoints settles on: the side of the start box the first waypoint is on,
or a new first waypoint level with the centre of the start box. -/
theorem fp_orthogonalJoin_start {F : Type} [Double F] (s e : fp.Box F)
    (startDir endDir : Direction) (points : List (fp.MXPoint F)) (p q : fp.MXPoint F)
    (hp : points.head? = some p) :
    ((fp.orthogonalJoin s e startDir endDir points p q).1 = fp.sideOf p s ∧
        fp.diagonalTo p s = false ∧
        (fp.orthogonalJoin s e startDir endDir points p q).2.2.head? = some p) ∨
      (((fp.orthogonalJoin s e startDir endDir points p q).1 = .WEST ∨
          (fp.orthogonalJoin s e startDir endDir points p q).1 = .EAST) ∧
        (fp.orthogonalJoin s e startDir endDir points p q).2.2.head?
          = some ⟨p.x, s.y + s.height / Double.lit 2⟩) ∨
      (((fp.orthogonalJoin s e startDir endDir points p q).1 = .NORTH ∨
          (fp.orthogonalJoin s e startDir endDir points p q).1 = .SOUTH) ∧
        (fp.orthogonalJoin s e startDir endDir points p q).2.2.head?
          = some ⟨s.x + s.width / Double.lit 2, p.y⟩) := by
  have h1 := fp_head_append points
  unfold fp.orthogonalJoin
  cases hs : fp.diagonalTo p s
  · left
    simp only [Bool.not_false, if_true, Bool.false_eq_true, if_false]
    split_ifs <;> simp only [true_and] <;> first | exact hp | exact h1 _ _ hp
  · right
    simp only [Bool.not_true, Bool.false_eq_true, if_false, if_true]
    split_ifs <;> simp only [List.cons_append, List.head?_cons, or_true, true_or, and_self,
      reduceCtorEq, false_and, or_false, false_or, and_true, true_and]

/-- The end direction and the last waypoint that the block of the `ORTHOGONAL` branch for
an edge with waypoints settles on: the side of the end box the last waypoint is on, or a
new last waypoint level with the centre of the end box. -/
theorem fp_orthogonalJoin_end {F : Type} [Double F] (s e : fp.Box F)
    (startDir endDir : Direction) (points : List (fp.MXPoint F)) (p q : fp.MXPoint F)
    (hq : points.getLast? = some q) :
    ((fp.orthogonalJoin s e startDir endDir points p q).2.1 = fp.sideOf q e ∧
        fp.diagonalTo q e = false ∧
        (fp.orthogonalJoin s e startDir endDir points p q).2.2.getLast? = some q) ∨
      (((fp.orthogonalJoin s e startDir endDir points p q).2.1 = .WEST ∨
          (fp.orthogonalJoin s e startDir endDir points p q).2.1 = .EAST) ∧
        (fp.orthogonalJoin s e startDir endDir points p q).2.2.getLast?
          = some ⟨q.x, e.y + e.height / Double.lit 2⟩) ∨
      (((fp.orthogonalJoin s e startDir endDir points p q).2.1 = .NORTH ∨
          (fp.orthogonalJoin s e startDir endDir points p q).2.1 = .SOUTH) ∧
        (fp.orthogonalJoin s e startDir endDir points p q).2.2.getLast?
          = some ⟨e.x + e.width / Double.lit 2, q.y⟩) := by
  have h1 := fun a => fp_getLast_cons points a q hq
  have h2 : ∀ a x : fp.MXPoint F, (a :: points ++ [x]).getLast? = some x := fun a x =>
    List.getLast?_concat _
  unfold fp.orthogonalJoin
  cases hs : fp.diagonalTo p s <;> cases he : fp.diagonalTo q e <;>
    simp only [Bool.not_false, Bool.not_true, if_true, Bool.false_eq_true, if_false, true_or,
      false_or, true_and, false_and] <;>
    split_ifs <;>
    simp only [List.getLast?_concat, h1, h2, hq, and_false, or_true, true_or, and_self, reduceCtorEq, false_and, or_false, false_or, and_true,
      true_and]

/-- Without parents the closing block of `setEndPoints` changes nothing. -/
theorem fp_parentOffsets_none {F : Type} [Double F] (id_map : IdMap) (cell : MXCell)
    (e : fp.Edge F) (hs : (id_map cell.source_id).parent_id = "")
    (ht : (id_map cell.target_id).parent_id = "") : fp.parentOffsets id_map cell e = e := by
  unfold fp.parentOffsets
  simp only [hs, ht, ne_eq, not_true_eq_false, and_false, if_false]

set_option maxHeartbeats 4000000 in
/-- The opening block of `setEndPoints` at one end: a fixed end on the boundary of the unit
box, without offsets, is placed on the outline of its shape, and a free end is left. -/
theorem fp_fixedEndpoint_placed (L : Cmath ℝ)
    (hL : L.exact) (id_map : IdMap) (id : String) (hid : id ≠ "") (isFixed : Bool)
    (ox oy : Option ℚ) (dx dy : ℚ) (point : fp.MXPoint (Ext ℝ))
    (ha : attachable (id_map id)) (hf : isFixed = true → onBoxEdge ox oy dx dy) :
    ∃ p, fp.fixedEndpoint L.lift id_map id isFixed ox oy dx dy point = .ok p ∧
      (isFixed = true → fp.onShapeOutline L (id_map id) p) := by
  have fp_onUnitBox_cast : ∀ (x y : ℚ) (h : onUnitBox x y),
      fp.onUnitBox (x : ℝ) (y : ℝ) := by
    intro x y h
    obtain ⟨⟨x0, x1, y0, y1⟩, hs⟩ := h
    refine ⟨⟨by exact_mod_cast x0, by exact_mod_cast x1, by exact_mod_cast y0,
      by exact_mod_cast y1⟩, ?_⟩
    rcases hs with h | h | h | h
    · exact Or.inl (by exact_mod_cast h)
    · exact Or.inr (Or.inl (by exact_mod_cast h))
    · exact Or.inr (Or.inr (Or.inl (by exact_mod_cast h)))
    · exact Or.inr (Or.inr (Or.inr (by exact_mod_cast h)))
  -- A fixed end point on the boundary of the unit box, without offsets, is placed on the
  -- outline of its shape.
  have fp_fixedEndpoint_on : ∀ (L : Cmath ℝ)
      (hL : L.exact) (id_map : IdMap) (id : String) (hid : id ≠ "") (ox oy : Option ℚ)
      (dx dy : ℚ) (point : fp.MXPoint (Ext ℝ)) (ha : attachable (id_map id))
      (hf : onBoxEdge ox oy dx dy),
      ∃ p, fp.fixedEndpoint L.lift id_map id true ox oy dx dy point = .ok p ∧
        fp.onShapeOutline L (id_map id) p := by
    intro L hL id_map id hid ox oy dx dy point ha hf
    obtain ⟨x, y, rfl, rfl, hb, rfl, rfl⟩ := hf
    refine ⟨_, ?_, fp_attach L hL (id_map id) ha (x : ℝ) (y : ℝ) (fp_onUnitBox_cast x y hb)⟩
    unfold fp.fixedEndpoint
    rw [if_pos ⟨hid, rfl⟩]
    rfl
  cases isFixed with
  | true =>
    obtain ⟨p, h1, h2⟩ := fp_fixedEndpoint_on L hL id_map id hid ox oy dx dy point ha (hf rfl)
    exact ⟨p, h1, fun _ => h2⟩
  | false =>
    refine ⟨point, ?_, fun h => by cases h⟩
    unfold fp.fixedEndpoint
    rw [if_neg (fun h => by cases h.2)]
    rfl

set_option maxHeartbeats 4000000 in
/-- The `STRAIGHT` branch leaves both end points on the outlines of their shapes. -/
theorem fp_straightEndPoints_on
    (L : StdMath ℝ) (hL : L.toCmath.exact) (id_map : IdMap) (cell : MXCell)
    (e : fp.Edge (Ext ℝ)) (hpts : e.points = cell.geometry.points.map fp.MXPoint.ofPoint)
    (has : attachable (id_map cell.source_id)) (hat : attachable (id_map cell.target_id))
    (hS : cell.style.startFixed = true →
      fp.onShapeOutline L.toCmath (id_map cell.source_id) e.sourcePoint)
    (hT : cell.style.endFixed = true →
      fp.onShapeOutline L.toCmath (id_map cell.target_id) e.targetPoint) :
    fp.onShapeOutline L.toCmath (id_map cell.source_id)
        (fp.straightEndPoints L.lift id_map cell e).sourcePoint ∧
      fp.onShapeOutline L.toCmath (id_map cell.target_id)
        (fp.straightEndPoints L.lift id_map cell e).targetPoint := by
  -- The point that `setEndPoints` chooses for a slope lies on the outline.
  have fp_exit_attach : ∀ (L : Cmath ℝ)
      (hL : L.exact) (shape : MXCell) (ha : attachable shape) (m : ℝ) (lowY lowX : Bool),
      fp.onShapeOutline L shape
        (fp.setEndpointInShape L.lift (fp.boxExit (Ext.fin m) lowY lowX).1
          (fp.boxExit (Ext.fin m) lowY lowX).2 shape (Double.lit 0) (Double.lit 0)) := by
    intro L hL shape ha m lowY lowX
    obtain ⟨u, v, he, hb⟩ := fp_boxExit_onUnitBox m lowY lowX
    rw [he]
    exact fp_attach L hL shape ha u v hb
  have fp_centreOf_fin : ∀ (c : MXCell),
      ∃ x y : ℝ, (fp.centreOf c : fp.MXPoint (Ext ℝ)) = ⟨.fin x, .fin y⟩ := by
    intro c
    refine ⟨(c.geometry.x : ℝ) + c.geometry.width / 2, (c.geometry.y : ℝ) + c.geometry.height / 2,
      ?_⟩
    unfold fp.centreOf
    simp only [Ext.lit_eq, Rat.cast_ofNat, Ext.fin_div, ne_eq, OfNat.ofNat_ne_zero,
      not_false_eq_true, Ext.fin_add]
  -- The free source end of a `STRAIGHT` edge lies on the outline of the source.
  have fp_straightSource_on : ∀ (L : StdMath ℝ)
      (hL : L.toCmath.exact) (source : MXCell) (ha : attachable source)
      (pts : List MXPoint) (sx sy ex ey : ℝ),
      fp.onShapeOutline L.toCmath source
        (fp.straightSource L.lift source (pts.map fp.MXPoint.ofPoint) ⟨.fin sx, .fin sy⟩
          ⟨.fin ex, .fin ey⟩) := by
    intro L hL source ha pts sx sy ex ey
    unfold fp.straightSource
    cases pts with
    | nil =>
      simp only [List.map_nil, List.head?_nil, Ext.fin_sub, StdMath.lift_atan2, fp.facingAngle,
        Ext.lit_eq, StdMath.lift_toCmath, Cmath.lift_pi, Ext.fin_mul, Rat.cast_ofNat, Ext.fin_div,
        ne_eq, OfNat.ofNat_ne_zero, not_false_eq_true, StdMath.lift_tan]
      exact fp_exit_attach L.toCmath hL source ha _ _ _
    | cons p rest =>
      simp only [List.map_cons, List.head?_cons, fp.MXPoint.ofPoint, Ext.fin_sub,
        StdMath.lift_atan2, fp.facingAngle,
        Ext.lit_eq, StdMath.lift_toCmath, Cmath.lift_pi, Ext.fin_mul, Rat.cast_ofNat, Ext.fin_div,
        ne_eq, OfNat.ofNat_ne_zero, not_false_eq_true, StdMath.lift_tan]
      exact fp_exit_attach L.toCmath hL source ha _ _ _
  -- The free target end of a `STRAIGHT` edge lies on the outline of the target.
  have fp_straightTarget_on : ∀ (L : StdMath ℝ)
      (hL : L.toCmath.exact) (target : MXCell) (ha : attachable target)
      (pts : List MXPoint) (sx sy ex ey : ℝ),
      fp.onShapeOutline L.toCmath target
        (fp.straightTarget L.lift target (pts.map fp.MXPoint.ofPoint) ⟨.fin sx, .fin sy⟩
          ⟨.fin ex, .fin ey⟩) := by
    intro L hL target ha pts sx sy ex ey
    unfold fp.straightTarget
    rcases List.eq_nil_or_concat pts with h | ⟨rest, p, h⟩
    · subst h
      simp only [List.map_nil, List.getLast?_nil, Ext.fin_sub, StdMath.lift_atan2,
        fp.facingAngle, Ext.fin_add,
        Ext.lit_eq, StdMath.lift_toCmath, Cmath.lift_pi, Ext.fin_mul, Rat.cast_ofNat, Ext.fin_div,
        ne_eq, OfNat.ofNat_ne_zero, not_false_eq_true, StdMath.lift_tan]
      exact fp_exit_attach L.toCmath hL target ha _ _ _
    · subst h
      simp only [List.concat_eq_append, List.map_append, List.map_cons, List.map_nil,
        List.getLast?_concat, fp.MXPoint.ofPoint, Ext.fin_sub, StdMath.lift_atan2, fp.facingAngle, Ext.fin_add,
        Ext.lit_eq, StdMath.lift_toCmath, Cmath.lift_pi, Ext.fin_mul, Rat.cast_ofNat, Ext.fin_div,
        ne_eq, OfNat.ofNat_ne_zero, not_false_eq_true, StdMath.lift_tan]
      exact fp_exit_attach L.toCmath hL target ha _ _ _
  have hs : ∃ sx sy : ℝ, (if cell.style.startFixed = true then e.sourcePoint
      else fp.centreOf (id_map cell.source_id)) = ⟨.fin sx, .fin sy⟩ := by
    cases h : cell.style.startFixed with
    | true => exact fp_onShapeOutline_fin L.toCmath _ _ (hS h)
    | false => exact fp_centreOf_fin _
  have ht : ∃ ex ey : ℝ, (if cell.style.endFixed = true then e.targetPoint
      else fp.centreOf (id_map cell.target_id)) = ⟨.fin ex, .fin ey⟩ := by
    cases h : cell.style.endFixed with
    | true => exact fp_onShapeOutline_fin L.toCmath _ _ (hT h)
    | false => exact fp_centreOf_fin _
  obtain ⟨sx, sy, hs⟩ := hs
  obtain ⟨ex, ey, ht⟩ := ht
  unfold fp.straightEndPoints
  simp only [hs, ht, hpts]
  constructor
  · cases h : cell.style.startFixed with
    | true => exact hS h
    | false => exact fp_straightSource_on L hL _ has _ sx sy ex ey
  · cases h : cell.style.endFixed with
    | true => exact hT h
    | false => exact fp_straightTarget_on L hL _ hat _ sx sy ex ey

set_option maxHeartbeats 4000000 in
/-- The `ORTHOGONAL` branch leaves both end points on the outlines of their shapes, when a
shape whose free end a waypoint moves has its box for perimeter. -/
theorem fp_orthogonalEndPoints_on
    (L : StdMath ℝ) (hL : L.exact) (hpole : ∀ a, L.cos a = 0 → 1 < |L.tan a|)
    (id_map : IdMap) (cell : MXCell)
    (e : fp.Edge (Ext ℝ)) (hpts : e.points = cell.geometry.points.map fp.MXPoint.ofPoint)
    (hs : cell.source_id ≠ "") (ht : cell.target_id ≠ "")
    (has : attachable (id_map cell.source_id)) (hat : attachable (id_map cell.target_id))
    (hS : cell.style.startFixed = true →
      fp.onShapeOutline L.toCmath (id_map cell.source_id) e.sourcePoint)
    (hT : cell.style.endFixed = true →
      fp.onShapeOutline L.toCmath (id_map cell.target_id) e.targetPoint)
    (hos : cell.style.startFixed = false → cell.geometry.points ≠ [] →
      (id_map cell.source_id).style.rotation = 0 →
      (id_map cell.source_id).style.perimeter.boxed = true)
    (hot : cell.style.endFixed = false → cell.geometry.points ≠ [] →
      (id_map cell.target_id).style.rotation = 0 →
      (id_map cell.target_id).style.perimeter.boxed = true) :
    fp.onShapeOutline L.toCmath (id_map cell.source_id)
        (fp.orthogonalEndPoints L.lift id_map cell e).sourcePoint ∧
      fp.onShapeOutline L.toCmath (id_map cell.target_id)
        (fp.orthogonalEndPoints L.lift id_map cell e).targetPoint := by
  -- The point that `setEndPoints` chooses for a slope lies on the outline.
  have fp_exit_attach : ∀ (L : Cmath ℝ)
      (hL : L.exact) (shape : MXCell) (ha : attachable shape) (m : ℝ) (lowY lowX : Bool),
      fp.onShapeOutline L shape
        (fp.setEndpointInShape L.lift (fp.boxExit (Ext.fin m) lowY lowX).1
          (fp.boxExit (Ext.fin m) lowY lowX).2 shape (Double.lit 0) (Double.lit 0)) := by
    intro L hL shape ha m lowY lowX
    obtain ⟨u, v, he, hb⟩ := fp_boxExit_onUnitBox m lowY lowX
    rw [he]
    exact fp_attach L hL shape ha u v hb
  -- The cosine and the sine of the facing angle `pi * ((int)dir - 1) / 2` of a direction,
  -- for an exact library.
  have fp_facing_values : ∀ (L : Cmath ℝ) (hL : L.exact)
      (d : Direction),
      L.cos (L.pi * (((d.toInt : ℚ) - 1 : ℚ) : ℝ) / 2)
          = (match d with | .NORTH => 0 | .EAST => 1 | .SOUTH => 0 | .WEST => -1) ∧
        L.sin (L.pi * (((d.toInt : ℚ) - 1 : ℚ) : ℝ) / 2)
          = (match d with | .NORTH => -1 | .EAST => 0 | .SOUTH => 1 | .WEST => 0) := by
    intro L hL d
    obtain ⟨h0, h1⟩ := L.exact_zero hL
    obtain ⟨hn0, hn1⟩ := L.exact_neg_quarter hL
    obtain ⟨_, _, _, _, _, hpi, hq, _⟩ := hL
    cases d
    · have e : L.pi * (((Direction.NORTH.toInt : ℚ) - 1 : ℚ) : ℝ) / 2 = 0 - L.pi / 2 := by
        simp only [Direction.toInt]
        push_cast
        ring
      rw [e]
      exact ⟨hn0, hn1⟩
    · have e : L.pi * (((Direction.EAST.toInt : ℚ) - 1 : ℚ) : ℝ) / 2 = 0 := by
        simp only [Direction.toInt]
        push_cast
        ring
      rw [e]
      exact ⟨h0, h1⟩
    · have e : L.pi * (((Direction.SOUTH.toInt : ℚ) - 1 : ℚ) : ℝ) / 2 = L.pi / 2 := by
        simp only [Direction.toInt]
        push_cast
        ring
      rw [e]
      exact hq
    · have e : L.pi * (((Direction.WEST.toInt : ℚ) - 1 : ℚ) : ℝ) / 2 = 0 + L.pi := by
        simp only [Direction.toInt]
        push_cast
        ring
      rw [e, (hpi 0).1, (hpi 0).2, h0, h1]
      exact ⟨rfl, neg_zero⟩
  -- The slope that `setEndPoints` computes for an `ORTHOGONAL` edge that leaves an
  -- unrotated shape in the direction `d`: zero when `d` is along the axis of the shape, and
  -- larger than one in absolute value when it is across, where the tangent has a pole.
  have fp_quarter_slope : ∀ (L : StdMath ℝ) (hL : L.exact)
      (hpole : ∀ a, L.cos a = 0 → 1 < |L.tan a|) (d s : Direction),
      (((d = .NORTH ∨ d = .SOUTH) ↔ (s = .NORTH ∨ s = .SOUTH)) →
        L.tan (L.pi * (((d.toInt : ℚ) - 1 : ℚ) : ℝ) / 2
          - L.pi * (((s.toInt : ℚ) - 1 : ℚ) : ℝ) / 2) = 0) ∧
      (¬((d = .NORTH ∨ d = .SOUTH) ↔ (s = .NORTH ∨ s = .SOUTH)) →
        1 < |L.tan (L.pi * (((d.toInt : ℚ) - 1 : ℚ) : ℝ) / 2
          - L.pi * (((s.toInt : ℚ) - 1 : ℚ) : ℝ) / 2)|) := by
    intro L hL hpole d s
    obtain ⟨hd1, hd2⟩ := fp_facing_values L.toCmath hL.1 d
    obtain ⟨hs1, hs2⟩ := fp_facing_values L.toCmath hL.1 s
    obtain ⟨hc, ht, _⟩ := hL
    obtain ⟨_, _, hcs, hss, _, _, _, _⟩ := hc
    have ec := hcs (L.pi * (((d.toInt : ℚ) - 1 : ℚ) : ℝ) / 2)
      (L.pi * (((s.toInt : ℚ) - 1 : ℚ) : ℝ) / 2)
    have es := hss (L.pi * (((d.toInt : ℚ) - 1 : ℚ) : ℝ) / 2)
      (L.pi * (((s.toInt : ℚ) - 1 : ℚ) : ℝ) / 2)
    rw [hd1, hd2, hs1, hs2] at ec es
    constructor
    · intro hal
      have hcos : L.cos (L.pi * (((d.toInt : ℚ) - 1 : ℚ) : ℝ) / 2
          - L.pi * (((s.toInt : ℚ) - 1 : ℚ) : ℝ) / 2) ≠ 0 ∧
          L.sin (L.pi * (((d.toInt : ℚ) - 1 : ℚ) : ℝ) / 2
          - L.pi * (((s.toInt : ℚ) - 1 : ℚ) : ℝ) / 2) = 0 := by
        rw [ec, es]
        cases d <;> cases s <;> simp at hal <;> norm_num
      have h := ht _ hcos.1
      rw [hcos.2] at h
      exact (mul_eq_zero.mp h).resolve_right hcos.1
    · intro hal
      apply hpole
      rw [ec]
      cases d <;> cases s <;> simp at hal <;> norm_num
  -- On an unrotated shape whose perimeter is its box, a point of the boundary of the box
  -- of the shape lies on the outline.
  have fp_onShapeOutline_box : ∀ (L : Cmath ℝ) (hL : L.exact)
      (shape : MXCell) (hr : shape.style.rotation = 0)
      (hp : shape.style.perimeter.boxed = true)
      (hw : 0 < shape.geometry.width) (hh : 0 < shape.geometry.height) (X Y : ℝ)
      (hin : (shape.geometry.x : ℝ) ≤ X ∧ X ≤ shape.geometry.x + shape.geometry.width ∧
      (shape.geometry.y : ℝ) ≤ Y ∧ Y ≤ shape.geometry.y + shape.geometry.height)
      (hon : X = shape.geometry.x ∨ X = shape.geometry.x + shape.geometry.width ∨
      Y = shape.geometry.y ∨ Y = shape.geometry.y + shape.geometry.height),
      fp.onShapeOutline L shape ⟨.fin X, .fin Y⟩ := by
    intro L hL shape hr hp hw hh X Y hin hon
    have hw' : (0 : ℝ) < shape.geometry.width := by exact_mod_cast hw
    have hh' : (0 : ℝ) < shape.geometry.height := by exact_mod_cast hh
    obtain ⟨i1, i2, i3, i4⟩ := hin
    have hbox : fp.onUnitBox ((X - shape.geometry.x) / shape.geometry.width)
        ((Y - shape.geometry.y) / shape.geometry.height) := by
      refine ⟨⟨div_nonneg (sub_nonneg.mpr i1) hw'.le,
        (div_le_one hw').mpr (by linarith only [i2]),
        div_nonneg (sub_nonneg.mpr i3) hh'.le, (div_le_one hh').mpr (by linarith only [i4])⟩, ?_⟩
      rcases hon with h | h | h | h
      · exact Or.inl (by rw [h, sub_self, zero_div])
      · exact Or.inr (Or.inl (by rw [h, add_sub_cancel_left, div_self hw'.ne']))
      · exact Or.inr (Or.inr (Or.inl (by rw [h, sub_self, zero_div])))
      · exact Or.inr (Or.inr (Or.inr (by rw [h, add_sub_cancel_left, div_self hh'.ne'])))
    have e1 : (X - shape.geometry.x) / shape.geometry.width * shape.geometry.width
        = X - shape.geometry.x := div_mul_cancel₀ _ hw'.ne'
    have e2 : (Y - shape.geometry.y) / shape.geometry.height * shape.geometry.height
        = Y - shape.geometry.y := div_mul_cancel₀ _ hh'.ne'
    have hflip : ∀ a b : ℝ, fp.onUnitBox a b →
        fp.onUnitBox (1 - a) (1 - b) ∧ fp.onUnitBox (1 - b) a ∧ fp.onUnitBox b (1 - a) := by
      rintro a b ⟨⟨a0, a1, b0, b1⟩, hs⟩
      refine ⟨⟨⟨sub_nonneg.mpr a1, by linarith only [a0], sub_nonneg.mpr b1,
          by linarith only [b0]⟩, ?_⟩,
        ⟨⟨sub_nonneg.mpr b1, by linarith only [b0], a0, a1⟩, ?_⟩,
        ⟨⟨b0, b1, sub_nonneg.mpr a1, by linarith only [a0]⟩, ?_⟩⟩
      · rcases hs with h | h | h | h
        · exact Or.inr (Or.inl (by rw [h, sub_zero]))
        · exact Or.inl (by rw [h, sub_self])
        · exact Or.inr (Or.inr (Or.inr (by rw [h, sub_zero])))
        · exact Or.inr (Or.inr (Or.inl (by rw [h, sub_self])))
      · rcases hs with h | h | h | h
        · exact Or.inr (Or.inr (Or.inl h))
        · exact Or.inr (Or.inr (Or.inr h))
        · exact Or.inr (Or.inl (by rw [h, sub_zero]))
        · exact Or.inl (by rw [h, sub_self])
      · rcases hs with h | h | h | h
        · exact Or.inr (Or.inr (Or.inr (by rw [h, sub_zero])))
        · exact Or.inr (Or.inr (Or.inl (by rw [h, sub_self])))
        · exact Or.inl h
        · exact Or.inr (Or.inl h)
    obtain ⟨f1, f2, f3⟩ := hflip _ _ hbox
    have hout : ∀ a b : ℝ, fp.onUnitBox a b →
        fp.onOutline shape.style.perimeter ((sizeRatio shape : ℚ) : ℝ) (a, b) := by
      intro a b hab
      unfold fp.onOutline
      cases hk : shape.style.perimeter <;> rw [hk] at hp <;>
        first
          | exact absurd hp (by decide)
          | (simp only [reduceCtorEq, if_false]; exact fp_onUnitBox_onPolygon a b hab)
    cases hd : shape.style.direction
    · refine ⟨_, _, hout _ _ f2, ?_⟩
      rw [fp_place_unrotated L hL shape hr, hd]
      simp only []
      congr 2 <;> [rw [e1]; (rw [sub_sub_cancel, e2])] <;> ring
    · refine ⟨_, _, hout _ _ hbox, ?_⟩
      rw [fp_place_unrotated L hL shape hr, hd]
      simp only []
      congr 2 <;> [rw [e1]; rw [e2]] <;> ring
    · refine ⟨_, _, hout _ _ f3, ?_⟩
      rw [fp_place_unrotated L hL shape hr, hd]
      simp only []
      congr 2 <;> [(rw [sub_sub_cancel, e1]); rw [e2]] <;> ring
    · refine ⟨_, _, hout _ _ f1, ?_⟩
      rw [fp_place_unrotated L hL shape hr, hd]
      simp only []
      congr 2 <;> [(rw [sub_sub_cancel, e1]); (rw [sub_sub_cancel, e2])] <;> ring
  -- Without the waypoint next to it, or on a rotated shape, the free end of an `ORTHOGONAL`
  -- edge lies on the outline of its shape.
  have fp_orthogonalFree_plain : ∀ (L : StdMath ℝ) (hL : L.toCmath.exact) (shape : MXCell) (ha : attachable shape)
      (dir : Direction) (near : Option (fp.MXPoint (Ext ℝ)))
      (h : near = none ∨ shape.style.rotation ≠ 0),
      fp.onShapeOutline L.toCmath shape (fp.orthogonalFree L.lift shape dir near) := by
    intro L hL shape ha dir near h
    unfold fp.orthogonalFree
    simp only [fp.facingAngle, Ext.lit_eq, StdMath.lift_toCmath, Cmath.lift_pi, Ext.fin_mul,
      Rat.cast_ofNat, Ext.fin_div, ne_eq, OfNat.ofNat_ne_zero, not_false_eq_true, Ext.fin_sub,
      StdMath.lift_tan]
    cases near with
    | none => exact fp_exit_attach L.toCmath hL shape ha _ _ _
    | some p =>
      have hr : shape.style.rotation ≠ 0 := by
        rcases h with h | h
        · cases h
        · exact h
      have hb : ((Ext.fin (shape.style.rotation : ℝ) == Ext.fin ((0 : ℚ) : ℝ)) = true) ↔ False := by
        rw [Ext.fin_beq, Rat.cast_zero, Rat.cast_eq_zero]
        exact iff_false_intro hr
      simp only [hb, if_false]
      exact fp_exit_attach L.toCmath hL shape ha _ _ _
  -- On a shape whose perimeter is its box `adjustEndpoint` keeps a point of the boundary of
  -- the unit box.
  have fp_adjustEndpoint_boxed : ∀ (L : Cmath ℝ) (shape : MXCell) (hp : shape.style.perimeter.boxed = true) (u v : ℝ)
      (hb : fp.onUnitBox u v),
      fp.adjustEndpoint L.lift (Ext.fin u) (Ext.fin v) shape = (Ext.fin u, Ext.fin v) := by
    intro L shape hp u v hb
    have hin := fp_not_inside u v hb
    unfold fp.adjustEndpoint
    rw [if_neg]
    · cases hk : shape.style.perimeter <;> rw [hk] at hp <;>
        first
          | exact absurd hp (by decide)
          | simp only [reduceCtorEq, if_false]
    · simp only [Ext.lit_eq, Rat.cast_zero, Rat.cast_one, Ext.fin_lt]
      exact hin
  -- On an unrotated shape whose perimeter is its box, the free end of an `ORTHOGONAL` edge,
  -- moved onto the line of the waypoint next to it, lies on the outline when the waypoint is
  -- within the extent of the side.
  have fp_orthogonalFree_boxed : ∀ (L : StdMath ℝ) (hL : L.exact) (hpole : ∀ a, L.cos a = 0 → 1 < |L.tan a|)
      (shape : MXCell) (ha : attachable shape) (hr : shape.style.rotation = 0)
      (hp : shape.style.perimeter.boxed = true) (dir : Direction) (px py : ℝ)
      (hx : dir = .NORTH ∨ dir = .SOUTH →
      (shape.geometry.x : ℝ) ≤ px ∧ px ≤ shape.geometry.x + shape.geometry.width)
      (hy : dir = .EAST ∨ dir = .WEST →
      (shape.geometry.y : ℝ) ≤ py ∧ py ≤ shape.geometry.y + shape.geometry.height),
      fp.onShapeOutline L.toCmath shape
        (fp.orthogonalFree L.lift shape dir (some ⟨.fin px, .fin py⟩)) := by
    intro L hL hpole shape ha hr hp dir px py hx hy
    obtain ⟨hw, hh, _⟩ := ha
    have hw' : (0 : ℝ) < shape.geometry.width := by exact_mod_cast hw
    have hh' : (0 : ℝ) < shape.geometry.height := by exact_mod_cast hh
    obtain ⟨hal, hna⟩ := fp_quarter_slope L hL hpole dir shape.style.direction
    obtain ⟨u, v, he, hb, hv, hu⟩ := fp_boxExit_side
      (L.tan (L.pi * (((dir.toInt : ℚ) - 1 : ℚ) : ℝ) / 2
        - L.pi * (((shape.style.direction.toInt : ℚ) - 1 : ℚ) : ℝ) / 2))
      (decide (dir = .NORTH)) (decide (dir = .WEST))
    have hpt := fp_setEndpointInShape_place L.toCmath hL.1 shape hw.ne' hh.ne' u v u v hb.2
      (fp_adjustEndpoint_boxed L.toCmath shape hp u v hb)
    rw [fp_place_unrotated L.toCmath hL.1 shape hr] at hpt
    simp only [Ext.lit_eq, Rat.cast_zero] at hpt
    unfold fp.orthogonalFree
    simp only [fp.facingAngle, Ext.lit_eq, StdMath.lift_toCmath, Cmath.lift_pi, Ext.fin_mul,
      Rat.cast_ofNat, Ext.fin_div, ne_eq, OfNat.ofNat_ne_zero, not_false_eq_true, Ext.fin_sub,
      StdMath.lift_tan, hr, Rat.cast_zero, zero_mul, zero_div, sub_zero, he, hpt, Ext.fin_beq,
      if_true]
    obtain ⟨⟨u0, u1, v0, v1⟩, _⟩ := hb
    have hside : ((dir = .NORTH ∨ dir = .SOUTH) ↔
        (shape.style.direction = .NORTH ∨ shape.style.direction = .SOUTH)) →
        u = 0 ∨ u = 1 := by
      intro k
      apply hu
      rw [hal k, abs_zero]
      exact not_lt.mpr zero_le_one
    have hside2 : ¬((dir = .NORTH ∨ dir = .SOUTH) ↔
        (shape.style.direction = .NORTH ∨ shape.style.direction = .SOUTH)) →
        v = 0 ∨ v = 1 := fun k => hv (hna k)
    clear hal hna hv hu he hpt
    have n0 : ∀ t : ℝ, 0 ≤ t → t ≤ 1 →
        (shape.geometry.y : ℝ) ≤ shape.geometry.y + t * shape.geometry.height
        ∧ (shape.geometry.y : ℝ) + t * shape.geometry.height
          ≤ shape.geometry.y + shape.geometry.height := by
      intro t t0 t1
      constructor
      · linarith only [mul_nonneg t0 hh'.le]
      · linarith only [mul_nonneg (sub_nonneg.mpr t1) hh'.le]
    have m0 : ∀ t : ℝ, 0 ≤ t → t ≤ 1 →
        (shape.geometry.x : ℝ) ≤ shape.geometry.x + t * shape.geometry.width
        ∧ (shape.geometry.x : ℝ) + t * shape.geometry.width
          ≤ shape.geometry.x + shape.geometry.width := by
      intro t t0 t1
      constructor
      · linarith only [mul_nonneg t0 hw'.le]
      · linarith only [mul_nonneg (sub_nonneg.mpr t1) hw'.le]
    have eX : ∀ t : ℝ, t = 0 ∨ t = 1 →
        ((shape.geometry.x : ℝ) + t * shape.geometry.width = shape.geometry.x ∨
          (shape.geometry.x : ℝ) + t * shape.geometry.width
            = shape.geometry.x + shape.geometry.width) ∧
        ((shape.geometry.x : ℝ) + (1 - t) * shape.geometry.width = shape.geometry.x ∨
          (shape.geometry.x : ℝ) + (1 - t) * shape.geometry.width
            = shape.geometry.x + shape.geometry.width) := by
      rintro t (h | h) <;> subst h <;> simp
    have eY : ∀ t : ℝ, t = 0 ∨ t = 1 →
        ((shape.geometry.y : ℝ) + t * shape.geometry.height = shape.geometry.y ∨
          (shape.geometry.y : ℝ) + t * shape.geometry.height
            = shape.geometry.y + shape.geometry.height) ∧
        ((shape.geometry.y : ℝ) + (1 - t) * shape.geometry.height = shape.geometry.y ∨
          (shape.geometry.y : ℝ) + (1 - t) * shape.geometry.height
            = shape.geometry.y + shape.geometry.height) := by
      rintro t (h | h) <;> subst h <;> simp
    have f0 : ∀ t : ℝ, 0 ≤ t → t ≤ 1 → 0 ≤ 1 - t ∧ 1 - t ≤ 1 := fun t t0 t1 =>
      ⟨sub_nonneg.mpr t1, by linarith only [t0]⟩
    have box := fp_onShapeOutline_box L.toCmath hL.1 shape hr hp hw hh
    have wide : ∀ {A B C : Prop}, A ∨ B → A ∨ B ∨ C := fun k =>
      k.elim Or.inl (fun b => Or.inr (Or.inl b))
    cases hd : shape.style.direction <;> simp only [hd] at hside hside2 ⊢ <;> cases dir <;>
      simp only [reduceCtorEq, or_false, false_or, or_true, true_or, or_self, if_true, if_false,
        iff_true, iff_false, true_iff, false_iff, not_true_eq_false, not_false_eq_true,
        forall_true_left, IsEmpty.forall_iff, true_implies] at hside hside2 hx hy ⊢ <;>
      first
        | exact box _ _ ⟨hx.1, hx.2, (n0 u u0 u1).1, (n0 u u0 u1).2⟩
            (Or.inr (Or.inr (eY u hside).1))
        | exact box _ _ ⟨hx.1, hx.2, (n0 _ (f0 u u0 u1).1 (f0 u u0 u1).2).1,
            (n0 _ (f0 u u0 u1).1 (f0 u u0 u1).2).2⟩ (Or.inr (Or.inr (eY u hside).2))
        | exact box _ _ ⟨hx.1, hx.2, (n0 v v0 v1).1, (n0 v v0 v1).2⟩
            (Or.inr (Or.inr (eY v hside2).1))
        | exact box _ _ ⟨hx.1, hx.2, (n0 _ (f0 v v0 v1).1 (f0 v v0 v1).2).1,
            (n0 _ (f0 v v0 v1).1 (f0 v v0 v1).2).2⟩ (Or.inr (Or.inr (eY v hside2).2))
        | exact box _ _ ⟨(m0 u u0 u1).1, (m0 u u0 u1).2, hy.1, hy.2⟩ (wide (eX u hside).1)
        | exact box _ _ ⟨(m0 _ (f0 u u0 u1).1 (f0 u u0 u1).2).1,
            (m0 _ (f0 u u0 u1).1 (f0 u u0 u1).2).2, hy.1, hy.2⟩ (wide (eX u hside).2)
        | exact box _ _ ⟨(m0 v v0 v1).1, (m0 v v0 v1).2, hy.1, hy.2⟩ (wide (eX v hside2).1)
        | exact box _ _ ⟨(m0 _ (f0 v v0 v1).1 (f0 v v0 v1).2).1,
            (m0 _ (f0 v v0 v1).1 (f0 v v0 v1).2).2, hy.1, hy.2⟩ (wide (eX v hside2).2)
  -- The waypoint next to a free end of an `ORTHOGONAL` edge, as the block for an edge with
  -- waypoints leaves it, is within the extent of the side of the box the edge leaves by.
  have fp_reach : ∀ (bx bY bw bh : ℝ)
      (hw : 0 ≤ bw) (hh : 0 ≤ bh) (a b : ℝ) (dir : Direction)
      (near : Option (fp.MXPoint (Ext ℝ)))
      (h : (dir = fp.sideOf (⟨.fin a, .fin b⟩ : fp.MXPoint (Ext ℝ))
      ⟨.fin bx, .fin bY, .fin bw, .fin bh⟩ ∧
      fp.diagonalTo (⟨.fin a, .fin b⟩ : fp.MXPoint (Ext ℝ))
      ⟨.fin bx, .fin bY, .fin bw, .fin bh⟩ = false ∧
      near = some ⟨.fin a, .fin b⟩) ∨
      ((dir = .WEST ∨ dir = .EAST) ∧
      near = some ⟨.fin a, Ext.fin bY + Ext.fin bh / Double.lit 2⟩) ∨
      ((dir = .NORTH ∨ dir = .SOUTH) ∧
      near = some ⟨Ext.fin bx + Ext.fin bw / Double.lit 2, .fin b⟩)),
      ∃ px py : ℝ, near = some ⟨.fin px, .fin py⟩ ∧
        (dir = .NORTH ∨ dir = .SOUTH → bx ≤ px ∧ px ≤ bx + bw) ∧
        (dir = .EAST ∨ dir = .WEST → bY ≤ py ∧ py ≤ bY + bh) := by
    intro bx bY bw bh hw hh a b dir near h
    rcases h with ⟨hd, hg, hn⟩ | ⟨hd, hn⟩ | ⟨hd, hn⟩
    · refine ⟨a, b, hn, ?_⟩
      unfold fp.diagonalTo at hg
      simp only [GT.gt, Ext.fin_add, Ext.fin_lt, Bool.and_eq_false_imp, Bool.or_eq_true,
        decide_eq_true_eq, Bool.or_eq_false_iff, decide_eq_false_iff_not, not_lt] at hg
      unfold fp.sideOf at hd
      simp only [GT.gt, Ext.fin_add, Ext.fin_lt] at hd
      split_ifs at hd with c1 c2 c3 <;> subst hd <;>
        simp only [reduceCtorEq, or_false, false_or, or_true, true_or, or_self, false_implies,
          true_implies, IsEmpty.forall_iff, forall_true_left, true_and, and_true]
      · exact hg (Or.inl c1)
      · by_contra hc
        rw [not_and_or, not_le, not_le] at hc
        exact absurd (hg hc).1 (not_le.mpr c2)
      · exact hg (Or.inr c3)
      · exact ⟨not_lt.mp c1, not_lt.mp c3⟩
    · refine ⟨a, bY + bh / 2, ?_, ?_, ?_⟩
      · rw [hn]
        simp only [Ext.lit_eq, Rat.cast_ofNat, Ext.fin_div, ne_eq, OfNat.ofNat_ne_zero,
          not_false_eq_true, Ext.fin_add]
      · intro k
        rcases hd with h1 | h1 <;> rcases k with h2 | h2 <;> rw [h1] at h2 <;> cases h2
      · intro _
        exact ⟨by linarith only [hh], by linarith only [hh]⟩
    · refine ⟨bx + bw / 2, b, ?_, ?_, ?_⟩
      · rw [hn]
        simp only [Ext.lit_eq, Rat.cast_ofNat, Ext.fin_div, ne_eq, OfNat.ofNat_ne_zero,
          not_false_eq_true, Ext.fin_add]
      · intro _
        exact ⟨by linarith only [hw], by linarith only [hw]⟩
      · intro k
        rcases hd with h1 | h1 <;> rcases k with h2 | h2 <;> rw [h1] at h2 <;> cases h2
  -- The waypoint next to the free source end of an `ORTHOGONAL` edge, as the plan of the
  -- branch leaves it: none, or one within the extent of the side of the source the edge
  -- leaves by.
  have fp_orthogonalPlan_start : ∀ (id_map : IdMap) (cell : MXCell) (e : fp.Edge (Ext ℝ))
      (hpts : e.points = cell.geometry.points.map fp.MXPoint.ofPoint)
      (hs : cell.source_id ≠ "") (hf : cell.style.startFixed = false)
      (hw : 0 ≤ (id_map cell.source_id).geometry.width)
      (hh : 0 ≤ (id_map cell.source_id).geometry.height),
      (fp.orthogonalPlan id_map cell e).2.2.head? = none ∨
        ∃ px py : ℝ, (fp.orthogonalPlan id_map cell e).2.2.head? = some ⟨.fin px, .fin py⟩ ∧
          ((fp.orthogonalPlan id_map cell e).1 = .NORTH ∨
              (fp.orthogonalPlan id_map cell e).1 = .SOUTH →
            ((id_map cell.source_id).geometry.x : ℝ) ≤ px ∧
              px ≤ (id_map cell.source_id).geometry.x + (id_map cell.source_id).geometry.width) ∧
          ((fp.orthogonalPlan id_map cell e).1 = .EAST ∨
              (fp.orthogonalPlan id_map cell e).1 = .WEST →
            ((id_map cell.source_id).geometry.y : ℝ) ≤ py ∧
              py ≤ (id_map cell.source_id).geometry.y
                + (id_map cell.source_id).geometry.height) := by
    intro id_map cell e hpts hs hf hw hh
    have hw' : (0 : ℝ) ≤ (id_map cell.source_id).geometry.width := by exact_mod_cast hw
    have hh' : (0 : ℝ) ≤ (id_map cell.source_id).geometry.height := by exact_mod_cast hh
    cases hc : cell.geometry.points with
    | nil =>
      left
      unfold fp.orthogonalPlan
      rw [hpts, hc]
      rfl
    | cons p0 rest =>
      right
      obtain ⟨q0, hq0⟩ : ∃ q0, (p0 :: rest).getLast? = some q0 :=
        ⟨_, List.getLast?_eq_getLast _ (List.cons_ne_nil _ _)⟩
      have h1 : e.points.head? = some (fp.MXPoint.ofPoint p0) := by rw [hpts, hc]; rfl
      have h2 : e.points.getLast? = some (fp.MXPoint.ofPoint q0) := by
        rw [hpts, hc, List.getLast?_map, hq0]
        rfl
      unfold fp.orthogonalPlan
      simp only [h1, h2, hf, hs, ne_eq, not_false_eq_true, if_true, Bool.false_eq_true, if_false]
      exact fp_reach _ _ _ _ hw' hh' _ _ _ _ (fp_orthogonalJoin_start _ _ _ _ _ _ _ h1)
  -- The waypoint next to the free target end of an `ORTHOGONAL` edge, as the plan of the
  -- branch leaves it: none, or one within the extent of the side of the target the edge
  -- arrives by.
  have fp_orthogonalPlan_end : ∀ (id_map : IdMap) (cell : MXCell) (e : fp.Edge (Ext ℝ))
      (hpts : e.points = cell.geometry.points.map fp.MXPoint.ofPoint)
      (hs : cell.target_id ≠ "") (hf : cell.style.endFixed = false)
      (hw : 0 ≤ (id_map cell.target_id).geometry.width)
      (hh : 0 ≤ (id_map cell.target_id).geometry.height),
      (fp.orthogonalPlan id_map cell e).2.2.getLast? = none ∨
        ∃ px py : ℝ, (fp.orthogonalPlan id_map cell e).2.2.getLast? = some ⟨.fin px, .fin py⟩ ∧
          ((fp.orthogonalPlan id_map cell e).2.1 = .NORTH ∨
              (fp.orthogonalPlan id_map cell e).2.1 = .SOUTH →
            ((id_map cell.target_id).geometry.x : ℝ) ≤ px ∧
              px ≤ (id_map cell.target_id).geometry.x + (id_map cell.target_id).geometry.width) ∧
          ((fp.orthogonalPlan id_map cell e).2.1 = .EAST ∨
              (fp.orthogonalPlan id_map cell e).2.1 = .WEST →
            ((id_map cell.target_id).geometry.y : ℝ) ≤ py ∧
              py ≤ (id_map cell.target_id).geometry.y
                + (id_map cell.target_id).geometry.height) := by
    intro id_map cell e hpts hs hf hw hh
    have hw' : (0 : ℝ) ≤ (id_map cell.target_id).geometry.width := by exact_mod_cast hw
    have hh' : (0 : ℝ) ≤ (id_map cell.target_id).geometry.height := by exact_mod_cast hh
    cases hc : cell.geometry.points with
    | nil =>
      left
      unfold fp.orthogonalPlan
      rw [hpts, hc]
      rfl
    | cons p0 rest =>
      right
      obtain ⟨q0, hq0⟩ : ∃ q0, (p0 :: rest).getLast? = some q0 :=
        ⟨_, List.getLast?_eq_getLast _ (List.cons_ne_nil _ _)⟩
      have h1 : e.points.head? = some (fp.MXPoint.ofPoint p0) := by rw [hpts, hc]; rfl
      have h2 : e.points.getLast? = some (fp.MXPoint.ofPoint q0) := by
        rw [hpts, hc, List.getLast?_map, hq0]
        rfl
      unfold fp.orthogonalPlan
      simp only [h1, h2, hf, hs, ne_eq, not_false_eq_true, if_true, Bool.false_eq_true, if_false]
      exact fp_reach _ _ _ _ hw' hh' _ _ _ _ (fp_orthogonalJoin_end _ _ _ _ _ _ _ h2)
  -- The free end of an `ORTHOGONAL` edge lies on the outline of its shape, when the
  -- waypoint next to it is none or within the extent of the side, and the shape, if the
  -- waypoint moves the end, has its box for perimeter.
  have fp_orthogonalFree_on : ∀ (L : StdMath ℝ) (hL : L.exact) (hpole : ∀ a, L.cos a = 0 → 1 < |L.tan a|)
      (shape : MXCell) (ha : attachable shape) (dir : Direction)
      (near : Option (fp.MXPoint (Ext ℝ)))
      (hp : near ≠ none → shape.style.rotation = 0 → shape.style.perimeter.boxed = true)
      (hn : near = none ∨ ∃ px py : ℝ, near = some ⟨.fin px, .fin py⟩ ∧
      (dir = .NORTH ∨ dir = .SOUTH →
      (shape.geometry.x : ℝ) ≤ px ∧ px ≤ shape.geometry.x + shape.geometry.width) ∧
      (dir = .EAST ∨ dir = .WEST →
      (shape.geometry.y : ℝ) ≤ py ∧ py ≤ shape.geometry.y + shape.geometry.height)),
      fp.onShapeOutline L.toCmath shape (fp.orthogonalFree L.lift shape dir near) := by
    intro L hL hpole shape ha dir near hp hn
    rcases hn with h | ⟨px, py, h, hx, hy⟩
    · exact fp_orthogonalFree_plain L hL.1 shape ha dir near (Or.inl h)
    · by_cases hr : shape.style.rotation = 0
      · rw [h]
        exact fp_orthogonalFree_boxed L hL hpole shape ha hr
          (hp (by rw [h]; exact Option.some_ne_none _) hr) dir px py hx hy
      · exact fp_orthogonalFree_plain L hL.1 shape ha dir near (Or.inr hr)
  have hnil : cell.geometry.points = [] → (fp.orthogonalPlan id_map cell e).2.2 = [] := by
    intro h
    unfold fp.orthogonalPlan
    rw [hpts, h]
    rfl
  unfold fp.orthogonalEndPoints fp.orthogonalEnd
  constructor
  · cases h : cell.style.startFixed with
    | true =>
      simp only [Bool.not_true, Bool.false_eq_true, if_false, hs, ne_eq, not_false_eq_true,
        if_true]
      exact hS h
    | false =>
      simp only [Bool.not_false, if_true]
      refine fp_orthogonalFree_on L hL hpole _ has _ _ ?_
        (fp_orthogonalPlan_start id_map cell e hpts hs h has.1.le has.2.1.le)
      intro hn hr
      refine hos h ?_ hr
      intro hc
      rw [hnil hc] at hn
      exact hn rfl
  · cases h : cell.style.endFixed with
    | true =>
      simp only [Bool.not_true, Bool.false_eq_true, if_false, ht, ne_eq, not_false_eq_true,
        if_true]
      exact hT h
    | false =>
      simp only [Bool.not_false, if_true]
      refine fp_orthogonalFree_on L hL hpole _ hat _ _ ?_
        (fp_orthogonalPlan_end id_map cell e hpts ht h hat.1.le hat.2.1.le)
      intro hn hr
      refine hot h ?_ hr
      intro hc
      rw [hnil hc] at hn
      exact hn rfl

/-- C3 (amended): after `setEndPoints` on an edge bound to a source and a target shape
that have no parents, computed with exact arithmetic and an exact library whose tangent is
above 1 in absolute value at the poles, `sourcePoint` lies on the perimeter outline of the
source and `targetPoint` on that of the target, for every perimeter kind, direction and
rotation and for fixed and free end points, when the shapes have positive width and height
and a size parameter from 0 to half the axis dimension (below half for `STEP_P`), a
fixed exit or entry is a point of the boundary of the unit box without offsets, and a shape
whose free end an `ORTHOGONAL` edge with waypoints moves onto the line of a waypoint (the
shape is not rotated) has its box for perimeter. -/
theorem setEndPoints_onShapeOutline (L : StdMath ℝ) (hL : L.exact)
    (hpole : ∀ a, L.cos a = 0 → 1 < |L.tan a|) (id_map : IdMap) (cell : MXCell)
    (he : cell.edge = true) (hs : cell.source_id ≠ "") (ht : cell.target_id ≠ "")
    (hps : (id_map cell.source_id).parent_id = "")
    (hpt : (id_map cell.target_id).parent_id = "")
    (has : attachable (id_map cell.source_id)) (hat : attachable (id_map cell.target_id))
    (hfs : cell.style.startFixed = true →
      onBoxEdge cell.style.exitX cell.style.exitY cell.style.exitDx cell.style.exitDy)
    (hft : cell.style.endFixed = true →
      onBoxEdge cell.style.entryX cell.style.entryY cell.style.entryDx cell.style.entryDy)
    (hos : cell.style.edgeStyle = .ORTHOGONAL → cell.style.startFixed = false →
      cell.geometry.points ≠ [] → (id_map cell.source_id).style.rotation = 0 →
      (id_map cell.source_id).style.perimeter.boxed = true)
    (hot : cell.style.edgeStyle = .ORTHOGONAL → cell.style.endFixed = false →
      cell.geometry.points ≠ [] → (id_map cell.target_id).style.rotation = 0 →
      (id_map cell.target_id).style.perimeter.boxed = true) :
    ∃ e2, fp.setEndPoints L.lift id_map cell (fp.Edge.ofCell cell) = .ok e2 ∧
      fp.onShapeOutline L.toCmath (id_map cell.source_id) e2.sourcePoint ∧
      fp.onShapeOutline L.toCmath (id_map cell.target_id) e2.targetPoint := by
  obtain ⟨sp, hsp, hS⟩ := fp_fixedEndpoint_placed L.toCmath hL.1 id_map cell.source_id hs
    cell.style.startFixed cell.style.exitX cell.style.exitY cell.style.exitDx
    cell.style.exitDy (fp.Edge.ofCell cell).sourcePoint has hfs
  obtain ⟨tp, htp, hT⟩ := fp_fixedEndpoint_placed L.toCmath hL.1 id_map cell.target_id ht
    cell.style.endFixed cell.style.entryX cell.style.entryY cell.style.entryDx
    cell.style.entryDy (fp.Edge.ofCell cell).targetPoint hat hft
  unfold fp.setEndPoints
  simp only [he, Bool.not_true, Bool.false_eq_true, if_false, StdMath.lift_toCmath, hsp, htp,
    bind, Except.bind, pure, Except.pure, fp_parentOffsets_none id_map cell _ hps hpt]
  cases hk : cell.style.edgeStyle with
  | STRAIGHT =>
    simp only [if_true]
    by_cases hb : (cell.style.startFixed && cell.style.endFixed) = true
    · rw [if_pos hb]
      rw [Bool.and_eq_true] at hb
      exact ⟨_, rfl, hS hb.1, hT hb.2⟩
    · rw [if_neg hb]
      exact ⟨_, rfl, fp_straightEndPoints_on L hL.1 id_map cell _ rfl has hat hS hT⟩
  | ORTHOGONAL =>
    simp only [reduceCtorEq, if_false]
    exact ⟨_, rfl, fp_orthogonalEndPoints_on L hL hpole id_map cell _ rfl hs ht has hat hS hT
      (hos hk) (hot hk)⟩

/-- The functions of the real numbers, with a tangent that is `2` at its poles, are an
exact library whose tangent is above 1 in absolute value at the poles. -/
theorem real_poled_exact :
    (⟨⟨Real.sqrt, fun x y => x ^ y, Real.arctan, Real.cos, Real.sin, Real.pi⟩,
      fun a => if Real.cos a = 0 then 2 else Real.tan a,
      fun y x => Complex.arg ⟨x, y⟩⟩ : StdMath ℝ).exact ∧
    ∀ a, Real.cos a = 0 → (1 : ℝ) < |if Real.cos a = 0 then 2 else Real.tan a| := by
  refine ⟨⟨real_cmath_exact, fun a h => ?_, fun x hx => ?_⟩, fun a h => ?_⟩
  · show (if Real.cos a = 0 then 2 else Real.tan a) * Real.cos a = Real.sin a
    rw [if_neg h]
    exact Real.tan_mul_cos h
  · show Complex.arg ⟨x, 0⟩ = 0
    exact Complex.arg_ofReal_of_nonneg hx.le
  · rw [if_pos h, abs_of_pos two_pos]
    exact one_lt_two

/-- A fixed source end is the point that `setEndpointInShape` gives for the exit. -/
theorem fp_setEndPoints_fixed_source {F : Type} [Double F] (L : StdMath F) (id_map : IdMap)
    (cell : MXCell) (e : fp.Edge F) (he : cell.edge = true) (hs : cell.source_id ≠ "")
    (hf : cell.style.startFixed = true) (x y : ℚ) (hx : cell.style.exitX = some x)
    (hy : cell.style.exitY = some y) (hp : (id_map cell.source_id).parent_id = "")
    (ht : cell.target_id ≠ "" → cell.style.endFixed = true →
      cell.style.entryX.isSome = true ∧ cell.style.entryY.isSome = true) :
    ∃ e2, fp.setEndPoints L id_map cell e = .ok e2 ∧
      e2.sourcePoint = fp.setEndpointInShape L.toCmath (Double.lit x) (Double.lit y)
        (id_map cell.source_id) (Double.lit cell.style.exitDx)
        (Double.lit cell.style.exitDy) := by
  obtain ⟨tp, htp⟩ := fp_fixedEndpoint_ok L.toCmath id_map cell.target_id
    cell.style.endFixed cell.style.entryX cell.style.entryY cell.style.entryDx
    cell.style.entryDy e.targetPoint ht
  have hsp : fp.fixedEndpoint L.toCmath id_map cell.source_id cell.style.startFixed
      cell.style.exitX cell.style.exitY cell.style.exitDx cell.style.exitDy e.sourcePoint
      = .ok (fp.setEndpointInShape L.toCmath (Double.lit x) (Double.lit y)
        (id_map cell.source_id) (Double.lit cell.style.exitDx)
        (Double.lit cell.style.exitDy)) := by
    unfold fp.fixedEndpoint
    rw [if_pos ⟨hs, hf⟩, hx, hy]
    rfl
  unfold fp.setEndPoints
  simp only [he, Bool.not_true, Bool.false_eq_true, if_false, hsp, htp, bind, Except.bind,
    pure, Except.pure]
  cases hk : cell.style.edgeStyle with
  | STRAIGHT =>
    simp only [if_true]
    by_cases hb : (cell.style.startFixed && cell.style.endFixed) = true
    · rw [if_pos hb]
      exact ⟨_, rfl, rfl⟩
    · rw [if_neg hb]
      refine ⟨_, rfl, ?_⟩
      rw [fp_parentOffsets_source id_map cell _ hp]
      unfold fp.straightEndPoints
      simp only [hf, if_true]
  | ORTHOGONAL =>
    simp only [reduceCtorEq, if_false]
    refine ⟨_, rfl, ?_⟩
    rw [fp_parentOffsets_source id_map cell _ hp]
    unfold fp.orthogonalEndPoints fp.orthogonalEnd
    simp only [hf, Bool.not_true, Bool.false_eq_true, if_false, hs, ne_eq, not_false_eq_true,
      if_true]

/-- On an unrotated shape that faces EAST a point of the outline is the place of the point
of the unit box at the same fractions of the width and the height. -/
theorem fp_onShapeOutline_east {K : Type} [LinearOrderedField K] (L : Cmath K) (hL : L.exact)
    (shape : MXCell) (hr : shape.style.rotation = 0) (hd : shape.style.direction = .EAST)
    (hw : shape.geometry.width ≠ 0) (hh : shape.geometry.height ≠ 0) (X Y : K)
    (h : fp.onShapeOutline L shape ⟨.fin X, .fin Y⟩) :
    fp.onOutline shape.style.perimeter ((sizeRatio shape : ℚ) : K)
      ((X - shape.geometry.x) / shape.geometry.width,
        (Y - shape.geometry.y) / shape.geometry.height) := by
  have hw' : (shape.geometry.width : K) ≠ 0 := by exact_mod_cast hw
  have hh' : (shape.geometry.height : K) ≠ 0 := by exact_mod_cast hh
  obtain ⟨u, v, ho, hp⟩ := h
  rw [fp_place_unrotated L hL shape hr, hd] at hp
  simp only [fp.MXPoint.mk.injEq, Ext.fin.injEq] at hp
  have eu : (X - shape.geometry.x) / shape.geometry.width = u := by
    rw [hp.1, add_sub_cancel_left, mul_div_assoc, div_self hw', mul_one]
  have ev : (Y - shape.geometry.y) / shape.geometry.height = v := by
    rw [hp.2, add_sub_cancel_left, mul_div_assoc, div_self hh', mul_one]
  rw [eu, ev]
  exact ho

/-- On an unrotated shape that faces EAST `setEndpointInShape` places the point that
`adjustEndpoint` returns, or the point moved by the offsets when the point it is called
with is not on the boundary of the unit box, at its fractions of the width and the
height. -/
theorem fp_setEndpointInShape_east {K : Type} [LinearOrderedField K] [FloorRing K]
    (L : Cmath K) (hL : L.exact) (shape : MXCell) (hr : shape.style.rotation = 0)
    (hd : shape.style.direction = .EAST)
    (hw : shape.geometry.width ≠ 0) (hh : shape.geometry.height ≠ 0) (u v dx dy u2 v2 : K)
    (hout : (if u = 0 ∨ u = 1 ∨ v = 0 ∨ v = 1 then
        fp.adjustEndpoint L.lift (.fin (u + dx / shape.geometry.width))
          (.fin (v + dy / shape.geometry.height)) shape
      else (.fin (u + dx / shape.geometry.width), .fin (v + dy / shape.geometry.height)))
      = (Ext.fin u2, Ext.fin v2)) :
    fp.setEndpointInShape L.lift (.fin u) (.fin v) shape (.fin dx) (.fin dy) =
      ⟨.fin (shape.geometry.x + u2 * shape.geometry.width),
        .fin (shape.geometry.y + v2 * shape.geometry.height)⟩ := by
  have hw' : (shape.geometry.width : K) ≠ 0 := by exact_mod_cast hw
  have hh' : (shape.geometry.height : K) ≠ 0 := by exact_mod_cast hh
  obtain ⟨h0, h1⟩ := L.exact_zero hL
  unfold fp.setEndpointInShape
  simp only [hd, hr, Ext.lit_eq, Rat.cast_zero, Rat.cast_one, Bool.or_eq_true, Ext.fin_beq,
    true_or, decide_True, if_true, Ext.fin_div _ _ hw', Ext.fin_div _ _ hh', Ext.fin_div,
    Ext.fin_add,
    or_assoc, hout, Ext.fin_mul, Ext.fin_neg, neg_zero, zero_mul, Cmath.lift_pi, Rat.cast_ofNat,
    ne_eq, OfNat.ofNat_ne_zero, not_false_eq_true, zero_div, fp_getPoint_exact L hL, h0, h1,
    mul_one, mul_zero, add_zero]
  congr 2 <;> ring

theorem setEndPoints_onShapeOutline_witness :
    (∃ e2, fp.setEndPoints
          (StdMath.lift ⟨⟨Real.sqrt, fun x y => x ^ y, Real.arctan, Real.cos, Real.sin,
            Real.pi⟩, fun a => if Real.cos a = 0 then 2 else Real.tan a,
            fun y x => Complex.arg ⟨x, y⟩⟩)
          outlineTable (freeEdge "E" "H") (fp.Edge.ofCell (freeEdge "E" "H")) = .ok e2 ∧
        fp.onShapeOutline ⟨Real.sqrt, fun x y => x ^ y, Real.arctan, Real.cos, Real.sin,
          Real.pi⟩ (outlineTable "E") e2.sourcePoint ∧
        fp.onShapeOutline ⟨Real.sqrt, fun x y => x ^ y, Real.arctan, Real.cos, Real.sin,
          Real.pi⟩ (outlineTable "H") e2.targetPoint) ∧
    (∃ e2, fp.setEndPoints
          (StdMath.lift ⟨⟨Real.sqrt, fun x y => x ^ y, Real.arctan, Real.cos, Real.sin,
            Real.pi⟩, fun a => if Real.cos a = 0 then 2 else Real.tan a,
            fun y x => Complex.arg ⟨x, y⟩⟩)
          outlineTable (elbowEdge "A") (fp.Edge.ofCell (elbowEdge "A")) = .ok e2 ∧
        fp.onShapeOutline ⟨Real.sqrt, fun x y => x ^ y, Real.arctan, Real.cos, Real.sin,
          Real.pi⟩ (outlineTable "A") e2.sourcePoint ∧
        fp.onShapeOutline ⟨Real.sqrt, fun x y => x ^ y, Real.arctan, Real.cos, Real.sin,
          Real.pi⟩ (outlineTable "B") e2.targetPoint) :=
  ⟨setEndPoints_onShapeOutline _ real_poled_exact.1 real_poled_exact.2 outlineTable
      (freeEdge "E" "H") rfl (by decide) (by decide) rfl rfl
      ⟨by decide!, by decide!, fun h => absurd h (by decide)⟩
      ⟨by decide!, by decide!, fun _ => by decide!⟩
      (fun h => absurd h (by decide)) (fun h => absurd h (by decide))
      (fun h => absurd h (by decide)) (fun h => absurd h (by decide)),
    setEndPoints_onShapeOutline _ real_poled_exact.1 real_poled_exact.2 outlineTable
      (elbowEdge "A") rfl (by decide) (by decide) rfl rfl
      ⟨by decide!, by decide!, fun h => absurd h (by decide)⟩
      ⟨by decide!, by decide!, fun h => absurd h (by decide)⟩
      (fun h => absurd h (by decide)) (fun h => absurd h (by decide))
      (fun _ _ _ _ => rfl) (fun _ _ _ _ => rfl)⟩

/-- The source end of an edge of `exitEdge` on the table `outlineTable` is the point that
`setEndpointInShape` gives for the exit. -/
theorem fp_exitEdge_source {K : Type} [LinearOrderedField K] [FloorRing K] (L : StdMath K)
    (src : String) (x y dx : ℚ) (hs : src ≠ "") (hp : (outlineTable src).parent_id = "") :
    (fp.setEndPoints L.lift outlineTable (exitEdge src x y dx)
        (fp.Edge.ofCell (exitEdge src x y dx))).map (fun e => e.sourcePoint)
      = .ok (fp.setEndpointInShape L.toCmath.lift (.fin (x : K)) (.fin (y : K))
          (outlineTable src) (.fin (dx : K)) (.fin 0)) := by
  obtain ⟨e2, h1, h2⟩ := fp_setEndPoints_fixed_source L.lift outlineTable
    (exitEdge src x y dx) (fp.Edge.ofCell (exitEdge src x y dx)) rfl hs rfl x y rfl rfl hp
    (fun _ h => Bool.noConfusion h)
  rw [h1]
  show Except.ok e2.sourcePoint = _
  rw [h2]
  simp only [StdMath.lift_toCmath, Ext.lit_eq, exitEdge, Rat.cast_zero]

/-- On a shape of width and height zero that faces EAST `setEndpointInShape` gives the
point `(NaN, NaN)`: the offset over the dimension is `0 / 0`. -/
theorem fp_setEndpointInShape_flat {K : Type} [LinearOrderedField K] [FloorRing K]
    (L : Cmath K) (shape : MXCell) (hw : shape.geometry.width = 0)
    (hh : shape.geometry.height = 0) (hd : shape.style.direction = .EAST)
    (hp : shape.style.perimeter = .RECTANGLE_P) (outX outY dx dy : Ext K) :
    fp.setEndpointInShape L.lift outX outY shape dx dy = ⟨.nan, .nan⟩ := by
  have h1 := Ext.div_zero_not_fin outX dx
  have h2 := Ext.div_zero_not_fin outY dy
  unfold fp.setEndpointInShape
  simp only [hw, hh, hd, Ext.lit_eq, Rat.cast_zero, decide_True, true_or, if_true]
  generalize outX + dx / Ext.fin 0 = x at h1
  generalize outY + dy / Ext.fin 0 = y at h2
  have ha : fp.adjustEndpoint L.lift x y shape = (x, y) := by
    unfold fp.adjustEndpoint
    rw [if_neg (fun hc => Ext.not_fin_not_inside x h1 ⟨hc.1, hc.2.1⟩)]
    simp only [hp, reduceCtorEq, if_false]
  have hout : (if (outX == Ext.fin 0 || outX == Double.lit 1 || outY == Ext.fin 0
      || outY == Double.lit 1) = true then fp.adjustEndpoint L.lift x y shape else (x, y))
      = (x, y) := by
    rw [ha]; simp
  simp only [Ext.lit_eq] at hout
  simp only [hout, Ext.not_fin_mul_zero x _ h1, Ext.not_fin_mul_zero y _ h2]
  exact fp_getPoint_nan L _ _ _

/-- The free source end of an `ORTHOGONAL` edge with a free target end, between shapes
without parents, is the point of `orthogonalFree` for the plan of the branch. -/
theorem fp_setEndPoints_free_source {F : Type} [Double F] (L : StdMath F) (id_map : IdMap)
    (cell : MXCell) (he : cell.edge = true) (hs : cell.style.startFixed = false)
    (ht : cell.style.endFixed = false) (hk : cell.style.edgeStyle = .ORTHOGONAL)
    (hp : (id_map cell.source_id).parent_id = "") :
    (fp.setEndPoints L id_map cell (fp.Edge.ofCell cell)).map (fun e => e.sourcePoint)
      = .ok (fp.orthogonalFree L (id_map cell.source_id)
          (fp.orthogonalPlan id_map cell (fp.Edge.ofCell cell : fp.Edge F)).1
          (fp.orthogonalPlan id_map cell (fp.Edge.ofCell cell : fp.Edge F)).2.2.head?) := by
  unfold fp.setEndPoints fp.fixedEndpoint
  simp only [he, hs, ht, hk, Bool.not_true, Bool.false_eq_true, if_false, and_false, bind,
    Except.bind, pure, Except.pure, reduceCtorEq, Except.map,
    fp_parentOffsets_source id_map cell _ hp]
  unfold fp.orthogonalEndPoints fp.orthogonalEnd
  simp only [hs, Bool.not_false, if_true]

set_option maxHeartbeats 4000000 in
/-- C3 (counterexample): on the table `outlineTable`, whose shapes have no parents and are
not rotated, and with the exact library of the real functions, `setEndPoints` leaves the
source point off the outline of the source on each of these edges to the rectangle `B`:
the fixed exit `(1/2, 1/2)` on the rectangle `A` gives the centre `(50, 30)`; the fixed
exit `(1, 1/2)` with `exitDx = 10` on `A` gives `(110, 30)`, 10 to the right of the box;
the `ORTHOGONAL` edge with free ends and the waypoint `(150, 20)` from the rhombus `R`
gives `(100, 20)`, the right corner `(100, 50)` moved onto the line of the waypoint; the
fixed exit `(1, 1/2)` on the rectangle `Z` of width and height zero gives `(NaN, NaN)`; the
fixed exit `(0, 0)` on the hexagon `N`, whose size 20 is above half its width 30, gives
`(7.5, 10)`, a point of the hexagon of size 15 that `adjustEndpoint` clamps to, and `draw`
does not clamp; the fixed exit `(0, 0)` on the step `S`, whose size 20 is half its width
40, gives `(NaN, NaN)`; and the fixed exit `(0, 1/2)` on the parallelogram `P` of size
`-20` gives `(0, 30)`, which `adjustEndpoint` leaves on the box. -/
theorem setEndPoints_source_off_outline :
    ((fp.setEndPoints
          (StdMath.lift ⟨⟨Real.sqrt, fun x y => x ^ y, Real.arctan, Real.cos, Real.sin,
            Real.pi⟩, fun a => if Real.cos a = 0 then 2 else Real.tan a,
            fun y x => Complex.arg ⟨x, y⟩⟩)
          outlineTable (exitEdge "A" (1 / 2) (1 / 2) 0)
          (fp.Edge.ofCell (exitEdge "A" (1 / 2) (1 / 2) 0))).map (fun e => e.sourcePoint) = .ok ⟨.fin 50, .fin 30⟩ ∧
      ¬ fp.onShapeOutline ⟨Real.sqrt, fun x y => x ^ y, Real.arctan, Real.cos, Real.sin,
        Real.pi⟩ (outlineTable "A") ⟨.fin 50, .fin 30⟩) ∧
    ((fp.setEndPoints
          (StdMath.lift ⟨⟨Real.sqrt, fun x y => x ^ y, Real.arctan, Real.cos, Real.sin,
            Real.pi⟩, fun a => if Real.cos a = 0 then 2 else Real.tan a,
            fun y x => Complex.arg ⟨x, y⟩⟩)
          outlineTable (exitEdge "A" 1 (1 / 2) 10)
          (fp.Edge.ofCell (exitEdge "A" 1 (1 / 2) 10))).map (fun e => e.sourcePoint) = .ok ⟨.fin 110, .fin 30⟩ ∧
      ¬ fp.onShapeOutline ⟨Real.sqrt, fun x y => x ^ y, Real.arctan, Real.cos, Real.sin,
        Real.pi⟩ (outlineTable "A") ⟨.fin 110, .fin 30⟩) ∧
    ((fp.setEndPoints
          (StdMath.lift ⟨⟨Real.sqrt, fun x y => x ^ y, Real.arctan, Real.cos, Real.sin,
            Real.pi⟩, fun a => if Real.cos a = 0 then 2 else Real.tan a,
            fun y x => Complex.arg ⟨x, y⟩⟩)
          outlineTable (elbowEdge "R")
          (fp.Edge.ofCell (elbowEdge "R"))).map (fun e => e.sourcePoint) = .ok ⟨.fin 100, .fin 20⟩ ∧
      ¬ fp.onShapeOutline ⟨Real.sqrt, fun x y => x ^ y, Real.arctan, Real.cos, Real.sin,
        Real.pi⟩ (outlineTable "R") ⟨.fin 100, .fin 20⟩) ∧
    ((fp.setEndPoints
          (StdMath.lift ⟨⟨Real.sqrt, fun x y => x ^ y, Real.arctan, Real.cos, Real.sin,
            Real.pi⟩, fun a => if Real.cos a = 0 then 2 else Real.tan a,
            fun y x => Complex.arg ⟨x, y⟩⟩)
          outlineTable (exitEdge "Z" 1 (1 / 2) 0)
          (fp.Edge.ofCell (exitEdge "Z" 1 (1 / 2) 0))).map (fun e => e.sourcePoint) = .ok ⟨.nan, .nan⟩ ∧
      ¬ fp.onShapeOutline ⟨Real.sqrt, fun x y => x ^ y, Real.arctan, Real.cos, Real.sin,
        Real.pi⟩ (outlineTable "Z") ⟨.nan, .nan⟩) ∧
    ((fp.setEndPoints
          (StdMath.lift ⟨⟨Real.sqrt, fun x y => x ^ y, Real.arctan, Real.cos, Real.sin,
            Real.pi⟩, fun a => if Real.cos a = 0 then 2 else Real.tan a,
            fun y x => Complex.arg ⟨x, y⟩⟩)
          outlineTable (exitEdge "N" 0 0 0)
          (fp.Edge.ofCell (exitEdge "N" 0 0 0))).map (fun e => e.sourcePoint) = .ok ⟨.fin (15 / 2), .fin 10⟩ ∧
      ¬ fp.onShapeOutline ⟨Real.sqrt, fun x y => x ^ y, Real.arctan, Real.cos, Real.sin,
        Real.pi⟩ (outlineTable "N") ⟨.fin (15 / 2), .fin 10⟩) ∧
    ((fp.setEndPoints
          (StdMath.lift ⟨⟨Real.sqrt, fun x y => x ^ y, Real.arctan, Real.cos, Real.sin,
            Real.pi⟩, fun a => if Real.cos a = 0 then 2 else Real.tan a,
            fun y x => Complex.arg ⟨x, y⟩⟩)
          outlineTable (exitEdge "S" 0 0 0)
          (fp.Edge.ofCell (exitEdge "S" 0 0 0))).map (fun e => e.sourcePoint) = .ok ⟨.nan, .nan⟩ ∧
      ¬ fp.onShapeOutline ⟨Real.sqrt, fun x y => x ^ y, Real.arctan, Real.cos, Real.sin,
        Real.pi⟩ (outlineTable "S") ⟨.nan, .nan⟩) ∧
    ((fp.setEndPoints
          (StdMath.lift ⟨⟨Real.sqrt, fun x y => x ^ y, Real.arctan, Real.cos, Real.sin,
            Real.pi⟩, fun a => if Real.cos a = 0 then 2 else Real.tan a,
            fun y x => Complex.arg ⟨x, y⟩⟩)
          outlineTable (exitEdge "P" 0 (1 / 2) 0)
          (fp.Edge.ofCell (exitEdge "P" 0 (1 / 2) 0))).map (fun e => e.sourcePoint) = .ok ⟨.fin 0, .fin 30⟩ ∧
      ¬ fp.onShapeOutline ⟨Real.sqrt, fun x y => x ^ y, Real.arctan, Real.cos, Real.sin,
        Real.pi⟩ (outlineTable "P") ⟨.fin 0, .fin 30⟩) := by
  have fp_off_centre : ∀ (L : StdMath ℝ) (hL : L.exact),
      (fp.setEndPoints L.lift outlineTable (exitEdge "A" (1 / 2) (1 / 2) 0)
            (fp.Edge.ofCell (exitEdge "A" (1 / 2) (1 / 2) 0))).map (fun e => e.sourcePoint)
          = .ok ⟨.fin 50, .fin 30⟩ ∧
        ¬ fp.onShapeOutline L.toCmath (outlineTable "A") ⟨.fin 50, .fin 30⟩ := by
    intro L hL
    have ha : outlineTable "A"
        = { id := "A", vertex := true, geometry := { width := 100, height := 60 } } := rfl
    constructor
    · rw [fp_exitEdge_source _ "A" (1 / 2) (1 / 2) 0 (by decide) rfl, ha,
        fp_setEndpointInShape_east _ hL.1 _ rfl rfl (by decide!) (by decide!)
          _ _ _ _ (1 / 2) (1 / 2)]
      · norm_num
      · norm_num
    · intro h
      rw [ha] at h
      have h2 := fp_onShapeOutline_east _ hL.1 _ rfl rfl (by decide!) (by decide!)
        _ _ h
      norm_num [fp.onOutline, fp.onPolygon, fp.polygonSides, fp.sidesFrom, fp.outlineCorners,
        fp.onSegment] at h2
  have fp_off_offset : ∀ (L : StdMath ℝ) (hL : L.exact),
      (fp.setEndPoints L.lift outlineTable (exitEdge "A" 1 (1 / 2) 10)
            (fp.Edge.ofCell (exitEdge "A" 1 (1 / 2) 10))).map (fun e => e.sourcePoint)
          = .ok ⟨.fin 110, .fin 30⟩ ∧
        ¬ fp.onShapeOutline L.toCmath (outlineTable "A") ⟨.fin 110, .fin 30⟩ := by
    intro L hL
    have ha : outlineTable "A"
        = { id := "A", vertex := true, geometry := { width := 100, height := 60 } } := rfl
    constructor
    · rw [fp_exitEdge_source _ "A" 1 (1 / 2) 10 (by decide) rfl, ha,
        fp_setEndpointInShape_east _ hL.1 _ rfl rfl (by decide!) (by decide!)
          _ _ _ _ (11 / 10) (1 / 2)]
      · norm_num
      · simp only [fp.adjustEndpoint, reduceCtorEq, if_false, if_true]
        norm_num
    · intro h
      rw [ha] at h
      have h2 := fp_onShapeOutline_east _ hL.1 _ rfl rfl (by decide!) (by decide!)
        _ _ h
      norm_num [fp.onOutline, fp.onPolygon, fp.polygonSides, fp.sidesFrom, fp.outlineCorners,
        fp.onSegment] at h2
  have fp_off_narrow : ∀ (L : StdMath ℝ) (hL : L.exact),
      (fp.setEndPoints L.lift outlineTable (exitEdge "N" 0 0 0)
            (fp.Edge.ofCell (exitEdge "N" 0 0 0))).map (fun e => e.sourcePoint)
          = .ok ⟨.fin (15 / 2), .fin 10⟩ ∧
        ¬ fp.onShapeOutline L.toCmath (outlineTable "N") ⟨.fin (15 / 2), .fin 10⟩ := by
    intro L hL
    have ha : outlineTable "N"
        = { id := "N", vertex := true, style := { shape := .HEXAGON, perimeter := .HEXAGON_P },
            geometry := { width := 30, height := 40 } } := rfl
    constructor
    · rw [fp_exitEdge_source _ "N" 0 0 0 (by decide) rfl, ha,
        fp_setEndpointInShape_east _ hL.1 _ rfl rfl (by decide!) (by decide!)
          _ _ _ _ (1 / 4) (1 / 4)]
      · norm_num
      · simp only [fp.adjustEndpoint, reduceCtorEq, if_false, if_true, fp.adjustHexagon,
          fp.axisDimension, Double.min]
        norm_num
    · intro h
      rw [ha] at h
      have h2 := fp_onShapeOutline_east _ hL.1 _ rfl rfl (by decide!) (by decide!)
        _ _ h
      simp only [fp.onOutline, fp.onPolygon, fp.polygonSides, fp.sidesFrom, fp.outlineCorners,
        sizeRatio, sizeParameter, axisDimension, reduceCtorEq, if_false, or_self] at h2
      norm_num [fp.onSegment] at h2
  have fp_off_negative : ∀ (L : StdMath ℝ) (hL : L.exact),
      (fp.setEndPoints L.lift outlineTable (exitEdge "P" 0 (1 / 2) 0)
            (fp.Edge.ofCell (exitEdge "P" 0 (1 / 2) 0))).map (fun e => e.sourcePoint)
          = .ok ⟨.fin 0, .fin 30⟩ ∧
        ¬ fp.onShapeOutline L.toCmath (outlineTable "P") ⟨.fin 0, .fin 30⟩ := by
    intro L hL
    have ha : outlineTable "P"
        = { id := "P", vertex := true,
            style :=
              { shape := .PARALLELOGRAM, perimeter := .PARALLELOGRAM_P, parallelogramSize := -20 },
            geometry := { width := 100, height := 60 } } := rfl
    constructor
    · rw [fp_exitEdge_source _ "P" 0 (1 / 2) 0 (by decide) rfl, ha,
        fp_setEndpointInShape_east _ hL.1 _ rfl rfl (by decide!) (by decide!)
          _ _ _ _ 0 (1 / 2)]
      · norm_num
      · simp only [fp.adjustEndpoint, reduceCtorEq, if_false, if_true, fp.adjustParallelogram,
          fp.axisDimension, Double.min]
        norm_num
    · intro h
      rw [ha] at h
      have h2 := fp_onShapeOutline_east _ hL.1 _ rfl rfl (by decide!) (by decide!)
        _ _ h
      simp only [fp.onOutline, fp.onPolygon, fp.polygonSides, fp.sidesFrom, fp.outlineCorners,
        sizeRatio, sizeParameter, axisDimension, reduceCtorEq, if_false, or_self] at h2
      norm_num [fp.onSegment] at h2
  have fp_off_flat : ∀ (L : StdMath ℝ),
      (fp.setEndPoints L.lift outlineTable (exitEdge "Z" 1 (1 / 2) 0)
            (fp.Edge.ofCell (exitEdge "Z" 1 (1 / 2) 0))).map (fun e => e.sourcePoint)
          = .ok ⟨.nan, .nan⟩ ∧
        ¬ fp.onShapeOutline L.toCmath (outlineTable "Z") ⟨.nan, .nan⟩ := by
    intro L
    constructor
    · rw [fp_exitEdge_source _ "Z" 1 (1 / 2) 0 (by decide) rfl,
        fp_setEndpointInShape_flat _ _ rfl rfl rfl rfl]
    · intro h
      obtain ⟨x, y, h⟩ := fp_onShapeOutline_fin _ _ _ h
      cases h
  have fp_off_step : ∀ (L : StdMath ℝ),
      (fp.setEndPoints L.lift outlineTable (exitEdge "S" 0 0 0)
            (fp.Edge.ofCell (exitEdge "S" 0 0 0))).map (fun e => e.sourcePoint)
          = .ok ⟨.nan, .nan⟩ ∧
        ¬ fp.onShapeOutline L.toCmath (outlineTable "S") ⟨.nan, .nan⟩ := by
    intro L
    have ha : outlineTable "S"
        = { id := "S", vertex := true, style := { shape := .STEP, perimeter := .STEP_P },
            geometry := { width := 40, height := 40 } } := rfl
    have hz : (Ext.fin (0 : ℝ) / Ext.fin 0 : Ext ℝ) = Ext.nan := by
      show Ext.div _ _ = _
      simp [Ext.div]
    constructor
    · rw [fp_exitEdge_source _ "S" 0 0 0 (by decide) rfl, ha]
      unfold fp.setEndpointInShape
      simp only [fp.adjustEndpoint, fp.adjustStep, fp.axisDimension, reduceCtorEq, if_false,
        if_true, or_self, or_false, decide_True, decide_False, true_or, Ext.lit_eq,
        Rat.cast_zero, Rat.cast_ofNat]
      norm_num [hz]
      exact fp_getPoint_nan _ _ _ _
    · intro h
      obtain ⟨x, y, h⟩ := fp_onShapeOutline_fin _ _ _ h
      cases h
  have fp_off_elbow : ∀ (L : StdMath ℝ) (hL : L.exact),
      (fp.setEndPoints L.lift outlineTable (elbowEdge "R")
            (fp.Edge.ofCell (elbowEdge "R"))).map (fun e => e.sourcePoint)
          = .ok ⟨.fin 100, .fin 20⟩ ∧
        ¬ fp.onShapeOutline L.toCmath (outlineTable "R") ⟨.fin 100, .fin 20⟩ := by
    intro L hL
    have ha : outlineTable "R"
        = { id := "R", vertex := true, style := { shape := .RHOMBUS, perimeter := .RHOMBUS_P },
            geometry := { width := 100, height := 100 } } := rfl
    have hb : outlineTable "B"
        = { id := "B", vertex := true, geometry := { x := 300, width := 100, height := 60 } } :=
      rfl
    constructor
    · rw [fp_setEndPoints_free_source _ _ _ rfl rfl rfl rfl rfl]
      have hplan : fp.orthogonalPlan outlineTable (elbowEdge "R")
          (fp.Edge.ofCell (elbowEdge "R") : fp.Edge (Ext ℝ))
          = (.EAST, .WEST, [⟨.fin 150, .fin 20⟩, ⟨.fin 150, .fin 30⟩]) := by
        unfold fp.orthogonalPlan
        have e1 : (elbowEdge "R").source_id = "R" := rfl
        have e2 : (elbowEdge "R").target_id = "B" := rfl
        rw [e1, e2, ha, hb]
        simp only [fp.Edge.ofCell, elbowEdge, fp.MXPoint.ofPoint, List.map_cons, List.map_nil,
          List.head?_cons, List.getLast?_singleton, fp.orthogonalJoin, fp.diagonalTo, fp.sideOf,
          fp.startCascade, fp.endCascade, fp.boxOfCell, fp.boxOfPoint, Ext.lit_eq, ne_eq,
          (by decide : ¬ ("R" = "")), (by decide : ¬ ("B" = "")), not_false_eq_true, if_true,
          if_false, Bool.false_eq_true]
        norm_num
      have e1 : (elbowEdge "R").source_id = "R" := rfl
      rw [hplan, e1, ha]
      unfold fp.orthogonalFree
      simp only [fp.facingAngle, Direction.toInt, Ext.lit_eq, StdMath.lift_toCmath, Cmath.lift_pi,
        Ext.fin_mul, Rat.cast_ofNat, Ext.fin_div, ne_eq, OfNat.ofNat_ne_zero, not_false_eq_true,
        Ext.fin_sub, StdMath.lift_tan, List.head?_cons, fp.boxExit, reduceCtorEq, decide_False,
        Bool.false_eq_true, if_false, or_self]
      have ht0 : L.tan 0 = 0 := by
        obtain ⟨h0, h1⟩ := L.toCmath.exact_zero hL.1
        have h := hL.2.1 0 (by rw [h0]; exact one_ne_zero)
        rw [h0, h1, mul_one] at h
        exact h
      norm_num [ht0]
      rw [fp_setEndpointInShape_east _ hL.1 _ rfl rfl (by decide!) (by decide!)
        _ _ _ _ 1 (1 / 2)]
      · norm_num
      · simp only [fp.adjustEndpoint, reduceCtorEq, if_false, if_true, fp.adjustRhombus]
        norm_num
    · intro h
      rw [ha] at h
      have h2 := fp_onShapeOutline_east _ hL.1 _ rfl rfl (by decide!) (by decide!)
        _ _ h
      simp only [fp.onOutline, fp.onPolygon, fp.polygonSides, fp.sidesFrom, fp.outlineCorners,
        sizeRatio, sizeParameter, axisDimension, reduceCtorEq, if_false, or_self] at h2
      norm_num [fp.onSegment] at h2
  exact
    ⟨fp_off_centre _ real_poled_exact.1,
      fp_off_offset _ real_poled_exact.1,
      fp_off_elbow _ real_poled_exact.1,
      fp_off_flat _,
      fp_off_narrow _ real_poled_exact.1,
      fp_off_step _,
      fp_off_negative _ real_poled_exact.1⟩

end libdrawio
